import Mathlib

/-!
# SD card protocol driver over the HSPI transaction engine

A shallow embedding of `src/hspi/hspi.c`, `src/hspi/hspi.h` and
`src/sdcard/sdcard.c`.

* Machine integers are `Nat` with explicit reduction modulo `2^w` where the C
  code can wrap.
* The memory-mapped HSPI registers are records of the named fields the driver
  touches (the bit positions live in the platform header `esp/spi_regs.h`,
  which is not part of the repository).
* The card and the system timer are the environment: `World.rx` is the stream
  of bytes captured from MISO, `World.clk` the stream of readings of the
  microsecond counter.  Both are arbitrary.
* Every deadline loop takes a `fuel` bound on its number of iterations and
  returns `none` when the bound is hit.
* `World.trace` is a ghost log of the bus actions, in program order.
-/

namespace Esp

/-! ## Registers -/

/-- HSPI.USER0, the transaction control register: one flag per `SPI_USER0_*`
mask used by the driver, `rest` for the bits it never names. -/
structure User0 where
  COMMAND : Bool
  ADDR : Bool
  DUMMY : Bool
  MISO : Bool
  MOSI : Bool
  WR_BYTE_ORDER : Bool
  RD_BYTE_ORDER : Bool
  FLASH_MODE : Bool
  CLOCK_OUT_EDGE : Bool
  CLOCK_IN_EDGE : Bool
  CS_SETUP : Bool
  CS_HOLD : Bool
  SIO : Bool
  DUPLEX : Bool
  rest : Nat
  deriving DecidableEq

/-- HSPI.USER1: the four length fields (each holds length minus one). -/
structure User1 where
  ADDR_BITLEN : Nat
  MOSI_BITLEN : Nat
  MISO_BITLEN : Nat
  DUMMY_CYCLELEN : Nat
  deriving DecidableEq

/-- HSPI.USER2: command length (minus one) and command value. -/
structure User2 where
  COMMAND_BITLEN : Nat
  COMMAND_VALUE : Nat
  deriving DecidableEq

/-- HSPI.CLOCK, as the fields `hspi_new_clock` assembles. -/
structure ClockReg where
  EQU_SYS_CLOCK : Bool
  DIV_PRE : Nat
  COUNT_NUM : Nat
  COUNT_HIGH : Nat
  COUNT_LOW : Nat
  deriving DecidableEq

/-- HSPI.CTRL0: the two bit-order flags, `rest` for everything else. -/
structure Ctrl0 where
  WR_BIT_ORDER : Bool
  RD_BIT_ORDER : Bool
  rest : Nat
  deriving DecidableEq

/-- HSPI.PIN: the clock idle-edge flag, `rest` for everything else. -/
structure PinReg where
  IDLE_EDGE : Bool
  rest : Nat
  deriving DecidableEq

/-- The HSPI register block.  `W` is the 64-byte data buffer `HSPI.W[0..15]`
seen as bytes (the CPU is little endian: word `i` is bytes `4i .. 4i+3`).
`CMD_USR` is the `SPI_CMD_USR` bit of `HSPI.CMD`. -/
structure HspiRegs where
  CLOCK : ClockReg
  USER0 : User0
  USER1 : User1
  USER2 : User2
  ADDR : Nat
  CTRL0 : Ctrl0
  PIN : PinReg
  CMD_USR : Bool
  W : List Nat
  deriving DecidableEq

/-- Function selected for the GPIO15 pad in `IOMUX_GPIO15`. -/
inductive PinFunc where
  | gpio
  | hspi
  | other (n : Nat)
  deriving DecidableEq

/-- Device descriptor: the values the trait functions of `hspi_config.h`
(`hspi_dev_*`, `sdcard_is_sdhc`, `sdcard_set_sdhc_flag`) expose.  The headers
under `src/` hold only placeholder bodies; the application supplies these. -/
structure hspi_dev_t where
  demux_cs : Nat
  clock : ClockReg
  transfer_mode : Nat
  is_msb : Bool
  software_cs : Bool
  shared_io : Bool
  is_sdhc : Bool
  deriving DecidableEq

/-- An SD card is an HSPI device (`typedef hspi_dev_t sdcard_t`). -/
abbrev sdcard_t := hspi_dev_t

/-- Bus actions recorded in the ghost log. -/
inductive Event where
  | select (dev : hspi_dev_t)
  | release
  | cs_high
  | cs_low
  | exec (regs : HspiRegs) (gpio_out : Nat)
  deriving DecidableEq

/-- Machine state plus environment. -/
structure World where
  hspi : HspiRegs
  iomux_spi1_equ_sys_clock : Bool
  iomux_gpio15 : PinFunc
  gpio_out : Nat
  gpio_enable_out : Nat
  mutex_created : Bool
  mutex_held : Bool
  demux_gpio_pins : Option Nat
  rx : Nat → Nat
  rxpos : Nat
  clk : Nat → Nat
  clkpos : Nat
  trace : List Event

/-! ## Small helpers -/

/-- The macro `BIT(n)`. -/
def BIT (n : Nat) : Nat := 2 ^ n

/-- Clear in `x` the bits set in `m` (`x & ~m` on 32-bit words). -/
def clearBits (x m : Nat) : Nat := x &&& (0xFFFFFFFF ^^^ (m &&& 0xFFFFFFFF))

/-- The byte swap `__bswap16`. -/
def bswap16 (x : Nat) : Nat := ((x &&& 0xff) <<< 8) ||| ((x >>> 8) &&& 0xff)

/-- The byte swap `__bswap32`. -/
def bswap32 (x : Nat) : Nat :=
  ((x &&& 0xff) <<< 24) ||| (((x >>> 8) &&& 0xff) <<< 16) |||
  (((x >>> 16) &&& 0xff) <<< 8) ||| ((x >>> 24) &&& 0xff)

/-- Little-endian bytes of a 32-bit word. -/
def wordBytes (x : Nat) : List Nat :=
  [x % 256, x / 256 % 256, x / 65536 % 256, x / 16777216 % 256]

/-- Word `i` of a byte buffer, little endian. -/
def wordAt (w : List Nat) (i : Nat) : Nat :=
  w.getD (4 * i) 0 + w.getD (4 * i + 1) 0 * 256 + w.getD (4 * i + 2) 0 * 65536 +
    w.getD (4 * i + 3) 0 * 16777216

/-- Overwrite `dst` from offset `off` with `src` (a `memcpy` into `dst`). -/
def blit (dst : List Nat) (off : Nat) (src : List Nat) : List Nat :=
  dst.take off ++ src.take (dst.length - off) ++ dst.drop (off + src.length)

/-! ## The transaction engine (`hspi.h`, `hspi.c`) -/

/-- The mask `HSPI_CS_DEMUX_GPIO_PINS_M`. -/
def HSPI_CS_DEMUX_GPIO_PINS_M : Nat :=
  BIT 0 ||| BIT 1 ||| BIT 2 ||| BIT 3 ||| BIT 4 ||| BIT 5 ||| BIT 12 ||| BIT 16

/-- The mask `HSPI_CS_DEMUX_GPIO_PIN_MASK` of `hspi.c`. -/
def HSPI_CS_DEMUX_GPIO_PIN_MASK : Nat := clearBits HSPI_CS_DEMUX_GPIO_PINS_M (BIT 16)

/-- The pin number `CS0_GPIO` (and `HSPI_CS` of `sdcard.c`). -/
def CS0_GPIO : Nat := 15

/-- The register value `SPI_CLOCK_EQU_SYS_CLOCK`. -/
def SPI_CLOCK_EQU_SYS_CLOCK : ClockReg :=
  { EQU_SYS_CLOCK := true, DIV_PRE := 0, COUNT_NUM := 0, COUNT_HIGH := 0, COUNT_LOW := 0 }

/-- `hspi_get_clock`: the content of HSPI.CLOCK. -/
def hspi_get_clock (s : World) : ClockReg := s.hspi.CLOCK

/-- `hspi_new_clock`: the pre-divider is a 13-bit field (0..8191), the two
counts are 6-bit fields (0..63). -/
def hspi_new_clock (div cnt : Nat) : ClockReg :=
  if div = 0 ∧ cnt = 0 then SPI_CLOCK_EQU_SYS_CLOCK
  else { EQU_SYS_CLOCK := false, DIV_PRE := div % 8192, COUNT_NUM := cnt % 64,
         COUNT_HIGH := ((cnt + 1) / 2) % 64, COUNT_LOW := 0 }

/-- The macro `HSPI_CLOCK(div,cnt)`. -/
def HSPI_CLOCK (div cnt : Nat) : ClockReg := hspi_new_clock (div - 1) (cnt - 1)

/-- `hspi_set_clock`. -/
def hspi_set_clock (clock : ClockReg) (s : World) : World :=
  if clock.EQU_SYS_CLOCK then
    { s with iomux_spi1_equ_sys_clock := true,
             hspi := { s.hspi with CLOCK := SPI_CLOCK_EQU_SYS_CLOCK } }
  else
    { s with iomux_spi1_equ_sys_clock := false,
             hspi := { s.hspi with CLOCK := clock } }

/-- `gpio_enable(CS0_GPIO, GPIO_OUTPUT)` of the platform SDK: routes the pad
to the GPIO function and enables its output driver. -/
def gpio_enable_cs0_output (s : World) : World :=
  { s with iomux_gpio15 := PinFunc.gpio, gpio_enable_out := s.gpio_enable_out ||| BIT CS0_GPIO }

/-- `hspi_select`.  Taking the mutex is recorded as `mutex_held`; the wait for
another owner lies outside this sequential model.  The block guarded by
`HSPI_CS_DEMUX_SEL_PINS` is never compiled (the macro is defined nowhere). -/
def hspi_select (device : hspi_dev_t) (s : World) : World :=
  let s := { s with mutex_held := s.mutex_created || s.mutex_held,
                    trace := s.trace ++ [Event.select device] }
  let s := match s.demux_gpio_pins with
    | none => s
    | some pins =>
      let demux_pins := device.demux_cs
      let s := { s with gpio_out := clearBits s.gpio_out (pins &&& HSPI_CS_DEMUX_GPIO_PIN_MASK) }
      { s with gpio_out := s.gpio_out ||| (demux_pins &&& HSPI_CS_DEMUX_GPIO_PIN_MASK) }
  let s := hspi_set_clock device.clock s
  let spi_mode := device.transfer_mode
  let s := { s with hspi := { s.hspi with PIN := { s.hspi.PIN with IDLE_EDGE := spi_mode &&& 1 != 0 } } }
  let edges : Bool := spi_mode == 1 || spi_mode == 2
  let s := if device.software_cs then
      (if s.iomux_gpio15 != PinFunc.gpio then gpio_enable_cs0_output s else s)
    else
      (if s.iomux_gpio15 != PinFunc.hspi then { s with iomux_gpio15 := PinFunc.hspi } else s)
  let cs_timing : Bool := !device.software_cs
  let s := { s with hspi := { s.hspi with USER0 :=
    { COMMAND := false, ADDR := false, DUMMY := false, MISO := false, MOSI := false,
      WR_BYTE_ORDER := false, RD_BYTE_ORDER := false, FLASH_MODE := false,
      CLOCK_OUT_EDGE := edges, CLOCK_IN_EDGE := edges,
      CS_SETUP := cs_timing, CS_HOLD := cs_timing,
      SIO := device.shared_io, DUPLEX := !device.shared_io, rest := 0 } } }
  if device.is_msb then
    { s with hspi := { s.hspi with CTRL0 :=
        { s.hspi.CTRL0 with WR_BIT_ORDER := false, RD_BIT_ORDER := false } } }
  else
    { s with hspi := { s.hspi with CTRL0 :=
        { s.hspi.CTRL0 with WR_BIT_ORDER := true, RD_BIT_ORDER := true } } }

/-- `hspi_release`. -/
def hspi_release (s : World) : World :=
  { s with mutex_held := if s.mutex_created then false else s.mutex_held,
           trace := s.trace ++ [Event.release] }

/-- `hspi_wait`: returns once the hardware has cleared `SPI_CMD_USR`. -/
def hspi_wait (s : World) : World :=
  { s with hspi := { s.hspi with CMD_USR := false } }

/-- `hspi_reset`. -/
def hspi_reset (s : World) : World :=
  let s := hspi_wait s
  { s with hspi := { s.hspi with USER0 :=
    { s.hspi.USER0 with COMMAND := false, ADDR := false, DUMMY := false, MISO := false,
                        MOSI := false, WR_BYTE_ORDER := false, RD_BYTE_ORDER := false,
                        FLASH_MODE := false } } }

/-- `hspi_clear_command`. -/
def hspi_clear_command (s : World) : World :=
  { s with hspi := { s.hspi with USER0 := { s.hspi.USER0 with COMMAND := false } } }

/-- `hspi_clear_address`. -/
def hspi_clear_address (s : World) : World :=
  { s with hspi := { s.hspi with USER0 := { s.hspi.USER0 with ADDR := false } } }

/-- `hspi_clear_data`. -/
def hspi_clear_data (s : World) : World :=
  { s with hspi := { s.hspi with USER0 := { s.hspi.USER0 with MOSI := false } } }

/-- `hspi_set_command`; the parameter `cmd` is a `uint16_t`. -/
def hspi_set_command (cmd_len cmd : Nat) (s : World) : World :=
  let cmd := cmd % 65536
  if cmd_len = 0 then hspi_clear_command s
  else if cmd_len ≤ 16 then
    let s := { s with hspi := { s.hspi with USER0 := { s.hspi.USER0 with COMMAND := true } } }
    let cmd := if s.hspi.CTRL0.WR_BIT_ORDER then cmd
               else bswap16 ((cmd <<< (16 - cmd_len)) % 65536)
    { s with hspi := { s.hspi with USER2 :=
        { COMMAND_BITLEN := cmd_len - 1, COMMAND_VALUE := cmd } } }
  else s

/-- `hspi_set_address`; the parameter `addr` is a `uint32_t`. -/
def hspi_set_address (addr_len addr : Nat) (s : World) : World :=
  let addr := addr % 4294967296
  if addr_len = 0 then hspi_clear_address s
  else if addr_len ≤ 32 then
    let s := { s with hspi := { s.hspi with USER0 := { s.hspi.USER0 with ADDR := true } } }
    let addr := if s.hspi.CTRL0.WR_BIT_ORDER then bswap32 addr
                else (addr <<< (32 - addr_len)) % 4294967296
    { s with hspi := { s.hspi with ADDR := addr,
                                   USER1 := { s.hspi.USER1 with ADDR_BITLEN := addr_len - 1 } } }
  else s

/-- `hspi_set_data`.  `data` is the memory from the pointer on; `aligned`
tells whether the pointer is word aligned (word copy) or not (`memcpy`). -/
def hspi_set_data (num_bits : Nat) (data : List Nat) (aligned : Bool) (s : World) : World :=
  if num_bits = 0 then hspi_clear_data s
  else if num_bits ≤ 512 then
    let s := { s with hspi := { s.hspi with USER0 := { s.hspi.USER0 with MOSI := true } } }
    let n := if aligned then 4 * ((num_bits + 31) / 32) else (num_bits + 7) / 8
    let bytes := (List.range n).map (fun i => data.getD i 0 % 256)
    { s with hspi := { s.hspi with W := blit s.hspi.W 0 bytes,
                                   USER1 := { s.hspi.USER1 with MOSI_BITLEN := num_bits - 1 } } }
  else s

/-- `hspi_set_pattern`; the parameter `pattern` is a `uint32_t`. -/
def hspi_set_pattern (num_bits pattern : Nat) (s : World) : World :=
  let pattern := pattern % 4294967296
  if num_bits = 0 then hspi_clear_data s
  else if num_bits ≤ 512 then
    let s := { s with hspi := { s.hspi with USER0 := { s.hspi.USER0 with MOSI := true } } }
    let bytes := (List.replicate ((num_bits + 31) / 32) (wordBytes pattern)).flatten
    { s with hspi := { s.hspi with W := blit s.hspi.W 0 bytes,
                                   USER1 := { s.hspi.USER1 with MOSI_BITLEN := num_bits - 1 } } }
  else s

/-- Transaction parameters `hspi_tx_t`. -/
structure hspi_tx_t where
  big_endian_output : Bool := false
  dummy_cycles : Nat := 0
  recv_bits : Nat := 0
  big_endian_input : Bool := false

/-- `hspi_config_exec`. -/
def hspi_config_exec (tx : hspi_tx_t) (s : World) : World :=
  let user0_flags : User0 :=
    { s.hspi.USER0 with WR_BYTE_ORDER := false, DUMMY := false, MISO := false,
                        RD_BYTE_ORDER := false }
  let user0_flags := if tx.big_endian_output then { user0_flags with WR_BYTE_ORDER := true }
                     else user0_flags
  let (user0_flags, s) :=
    if 0 < tx.dummy_cycles ∧ tx.dummy_cycles ≤ 256 then
      ({ user0_flags with DUMMY := true },
       { s with hspi := { s.hspi with USER1 :=
           { s.hspi.USER1 with DUMMY_CYCLELEN := tx.dummy_cycles - 1 } } })
    else (user0_flags, s)
  let (user0_flags, s) :=
    if 0 < tx.recv_bits ∧ tx.recv_bits ≤ 512 then
      ({ user0_flags with MISO := true },
       { s with hspi := { s.hspi with USER1 :=
           { s.hspi.USER1 with MISO_BITLEN := tx.recv_bits - 1 } } })
    else (user0_flags, s)
  let user0_flags := if tx.big_endian_input then { user0_flags with RD_BYTE_ORDER := true }
                     else user0_flags
  { s with hspi := { s.hspi with USER0 := user0_flags } }

/-- Hardware: number of bytes a transaction captures into `W`.  In full
duplex the input is sampled while the output phase runs; otherwise only a
programmed input phase captures. -/
def rxCount (r : HspiRegs) : Nat :=
  if r.USER0.DUPLEX && r.USER0.MOSI then (r.USER1.MOSI_BITLEN + 1 + 7) / 8
  else if r.USER0.MISO then (r.USER1.MISO_BITLEN + 1 + 7) / 8
  else 0

/-- Hardware: position in the received stream of the byte that lands at byte
`j` of `W` (little endian: in order; big endian input: reversed inside each
32-bit word). -/
def rxSlot (big_endian : Bool) (j : Nat) : Nat :=
  if big_endian then 4 * (j / 4) + (3 - j % 4) else j

/-- `hspi_exec`: sets `SPI_CMD_USR`; the hardware runs the programmed
transaction, capturing the next `rxCount` bytes of the MISO stream into `W`.
The transaction is logged with the registers as they stand when it starts. -/
def hspi_exec (s : World) : World :=
  let n := rxCount s.hspi
  let w := (List.range 64).map (fun j =>
    let k := rxSlot s.hspi.USER0.RD_BYTE_ORDER j
    if k < n then s.rx (s.rxpos + k) % 256 else s.hspi.W.getD j 0)
  { s with hspi := { s.hspi with W := w, CMD_USR := true },
           rxpos := s.rxpos + n,
           trace := s.trace ++ [Event.exec s.hspi s.gpio_out] }

/-- `hspi_get_data`: the bytes copied into the caller's buffer. -/
def hspi_get_data (buf_len : Nat) (s : World) : List Nat × World :=
  if 0 < buf_len then
    let s := hspi_wait s
    let buf_len := if buf_len > 64 then 64 else buf_len
    (s.hspi.W.take buf_len, s)
  else ([], s)

/-- `hspi_read`. -/
def hspi_read (i : Nat) (s : World) : Nat × World :=
  let s := hspi_wait s
  (wordAt s.hspi.W (i &&& 0xf), s)

/-! ## The SD card driver (`sdcard.h`, `sdcard.c`) -/

/-- SD card operation completion results. -/
inductive sdcard_result_t where
  | SDCARD_SUCCESS
  | SDCARD_ERROR_TIMEOUT
  | SDCARD_ERROR_IO
  | SDCARD_ERROR_CRC
  deriving DecidableEq, Repr

open sdcard_result_t

/-- The deadline `INIT_TIMEOUT`, in microseconds. -/
def INIT_TIMEOUT : Nat := 500000

/-- The deadline `IO_TIMEOUT`, in microseconds. -/
def IO_TIMEOUT : Nat := 100000

/-- `sdk_system_relative_time` of the platform SDK: the current reading of the
32-bit microsecond counter minus `start`, in 32-bit arithmetic.  Each call
takes the next reading of the environment's timer stream. -/
def sdk_system_relative_time (start : Nat) (s : World) : Nat × World :=
  ((s.clk s.clkpos % 4294967296 + 4294967296 - start % 4294967296) % 4294967296,
   { s with clkpos := s.clkpos + 1 })

/-- `expired`. -/
def expired (duration start : Nat) (s : World) : Bool × World :=
  let (t, s) := sdk_system_relative_time start s
  (decide (t > duration), s)

/-- `timestamp`. -/
def timestamp (s : World) : Nat × World := sdk_system_relative_time 0 s

/-- `set_cs_high`: `GPIO.OUT_SET = BIT(HSPI_CS)`. -/
def set_cs_high (s : World) : World :=
  { s with gpio_out := s.gpio_out ||| BIT CS0_GPIO, trace := s.trace ++ [Event.cs_high] }

/-- `set_cs_low`: `GPIO.OUT_CLEAR = BIT(HSPI_CS)`. -/
def set_cs_low (s : World) : World :=
  { s with gpio_out := clearBits s.gpio_out (BIT CS0_GPIO), trace := s.trace ++ [Event.cs_low] }

/-- The `do ... while` loop of `wait_until_card_returns`. -/
def wait_until_card_returns_loop (value t0 : Nat) : Nat → World → Option (Nat × World)
  | 0, _ => none
  | fuel + 1, s =>
    let s := hspi_exec s
    let (w0, s) := hspi_read 0 s
    let resp := w0 % 256
    if resp ≠ value then
      let (e, s) := expired IO_TIMEOUT t0 s
      if !e then wait_until_card_returns_loop value t0 fuel s else some (resp, s)
    else some (resp, s)

/-- `wait_until_card_returns`. -/
def wait_until_card_returns (fuel value : Nat) (s : World) : Option (Nat × World) :=
  let s := hspi_reset s
  let s := hspi_set_pattern 8 0xffffffff s
  let s := hspi_config_exec { big_endian_output := true } s
  let (t0, s) := timestamp s
  wait_until_card_returns_loop value t0 fuel s

/-- `wait_until_card_not_busy`. -/
def wait_until_card_not_busy (fuel : Nat) (s : World) : Option (Nat × World) :=
  wait_until_card_returns fuel 0xff s

/-- The `do ... while` loop of `wait_r1`, by the value of `count` on entry to
an iteration (`count` starts at 7 and never is 0 there). -/
def wait_r1_loop : Nat → World → Nat × World
  | 0, s => (0x80, s)
  | count + 1, s =>
    let s := hspi_exec s
    let (resp, s) := hspi_read 0 s
    if resp &&& 0x80 ≠ 0 ∧ count ≠ 0 then wait_r1_loop count s else (resp, s)

/-- `wait_r1`; the result is returned as a `uint8_t`. -/
def wait_r1 (s : World) : Nat × World :=
  let s := hspi_reset s
  let s := hspi_set_pattern 8 0xffffffff s
  let s := hspi_config_exec { big_endian_output := true } s
  let (resp, s) := wait_r1_loop 7 s
  (resp % 256, s)

/-- The command word `0x4000 | cmd << 8 | arg >> 24` that `r1cmd` passes to
`hspi_set_command`. -/
def r1cmd_command (cmd arg : Nat) : Nat := 0x4000 ||| (cmd <<< 8) ||| (arg >>> 24)

/-- The address word `arg << 8 | crc` that `r1cmd` passes to
`hspi_set_address`, in 32-bit arithmetic. -/
def r1cmd_address (arg crc : Nat) : Nat := ((arg <<< 8) % 4294967296) ||| crc

/-- `r1cmd` after the not-busy check: program and run the command
transaction, then pick the R1 status out of the bytes that follow. -/
def r1cmd_send (cmd arg crc : Nat) (s : World) : Nat × World :=
  let s := hspi_set_command 16 (r1cmd_command cmd arg) s
  let s := hspi_set_address 32 (r1cmd_address arg crc) s
  let s := hspi_set_pattern 16 0xffff s
  let s := hspi_config_exec {} s
  let s := hspi_exec s
  let (resp, s) := hspi_read 0 s
  if resp &&& 0x80 ≠ 0 then
    let resp := resp >>> 8
    if resp &&& 0x80 ≠ 0 then wait_r1 s
    else (resp % 256, s)
  else (resp % 256, s)

/-- `r1cmd`; the result is returned as a `uint8_t`. -/
def r1cmd (fuel cmd arg crc : Nat) (s : World) : Option (Nat × World) :=
  match wait_until_card_not_busy fuel s with
  | none => none
  | some (busy, s) =>
    if busy = 0 then some (0x80, s)
    else some (r1cmd_send cmd arg crc s)

/-- `r3cmd`; `resp_data` is the content of `*resp_data` on entry, the second
component of the result its content on return. -/
def r3cmd (fuel cmd arg crc resp_data : Nat) (s : World) : Option (Nat × Nat × World) :=
  match r1cmd fuel cmd arg crc s with
  | none => none
  | some (resp, s) =>
    if resp &&& 0xfe = 0 then
      let s := hspi_reset s
      let s := hspi_set_pattern 32 0xffffffff s
      let s := hspi_config_exec { big_endian_output := true, big_endian_input := true } s
      let s := hspi_exec s
      let (d, s) := hspi_read 0 s
      some (resp, d, s)
    else some (resp, resp_data, s)

/-- `acmd`. -/
def acmd (fuel cmd arg crc : Nat) (s : World) : Option (Nat × World) :=
  match r1cmd fuel 55 0 0x65 s with
  | none => none
  | some (resp, s) =>
    if resp &&& 0xfe = 0 then r1cmd fuel cmd arg crc s
    else some (resp, s)

/-- The card types `sdcard_type_t`. -/
inductive sdcard_type_t where
  | UNRECOGNIZED
  | MMC
  | SD1
  | SD2
  | SDHC
  deriving DecidableEq

/-- `init_mmc`. -/
def init_mmc (fuel : Nat) (s : World) : Option (Nat × World) := r1cmd fuel 1 0 0xf9 s

/-- `init_sd1`. -/
def init_sd1 (fuel : Nat) (s : World) : Option (Nat × World) := acmd fuel 41 0 0xe5 s

/-- `init_sd2`. -/
def init_sd2 (fuel : Nat) (s : World) : Option (Nat × World) := acmd fuel 41 (BIT 30) 0x77 s

/-- The three values a `sdcard_init_proc_t` variable takes in `sdcard_init`. -/
inductive sdcard_init_proc_t where
  | init_mmc
  | init_sd1
  | init_sd2
  deriving DecidableEq

/-- Call through a `sdcard_init_proc_t` pointer. -/
def sdcard_init_proc_t.call (p : sdcard_init_proc_t) (fuel : Nat) (s : World) :
    Option (Nat × World) :=
  match p with
  | .init_mmc => Esp.init_mmc fuel s
  | .init_sd1 => Esp.init_sd1 fuel s
  | .init_sd2 => Esp.init_sd2 fuel s

/-- `sdcard_set_sdhc_flag`. -/
def sdcard_set_sdhc_flag (card : sdcard_t) (is_sdhc : Bool) : sdcard_t :=
  { card with is_sdhc := is_sdhc }

/-- `sdcard_is_sdhc`. -/
def sdcard_is_sdhc (card : sdcard_t) : Bool := card.is_sdhc

/-- The label `done:` of `sdcard_init`. -/
def sdcard_init_done (orig_clock : ClockReg) (err : sdcard_result_t) (card : sdcard_t)
    (s : World) : sdcard_result_t × sdcard_t × World :=
  let s := hspi_set_clock orig_clock s
  let s := set_cs_high s
  let s := hspi_release s
  (err, card, s)

/-- The loop `while (resp == 0x01)` of `sdcard_init`.  The result is
`none` when the loop leaves through `raise_error(SDCARD_ERROR_TIMEOUT)`, and
the last status when it ends because the status differs from `0x01`. -/
def sdcard_init_loop (card_init : sdcard_init_proc_t) (fuel t0 : Nat) :
    Nat → Nat → World → Option (Option Nat × World)
  | 0, resp, s => if resp = 0x01 then none else some (some resp, s)
  | n + 1, resp, s =>
    if resp = 0x01 then
      let (e, s) := expired INIT_TIMEOUT t0 s
      if e then some (none, s)
      else
        match card_init.call fuel s with
        | none => none
        | some (resp, s) => sdcard_init_loop card_init fuel t0 n resp s
    else some (some resp, s)

/-- `sdcard_init`, from the high-capacity check to the end. -/
def sdcard_init_finish (fuel : Nat) (orig_clock : ClockReg) (resp_data : Nat) (card : sdcard_t)
    (s : World) : Option (sdcard_result_t × sdcard_t × World) :=
  match r3cmd fuel 58 0 0xfd resp_data s with
  | none => none
  | some (r, resp_data, s) =>
    let card := sdcard_set_sdhc_flag card
      (r = 0 ∧ resp_data &&& BIT 31 ≠ 0 ∧ resp_data &&& BIT 30 ≠ 0)
    if !sdcard_is_sdhc card then
      match r1cmd fuel 16 512 0x15 s with
      | none => none
      | some (r, s) =>
        if r ≠ 0 then some (sdcard_init_done orig_clock SDCARD_ERROR_IO card s)
        else some (sdcard_init_done orig_clock SDCARD_SUCCESS card s)
    else some (sdcard_init_done orig_clock SDCARD_SUCCESS card s)

/-- `sdcard_init`, the block under `// Card initialization`: the procedure
`card_init` the loop will call and the status the loop starts from. -/
def sdcard_init_choose (fuel : Nat) (type : sdcard_type_t) (resp : Nat) (s : World) :
    Option (sdcard_init_proc_t × Nat × World) :=
  if type = sdcard_type_t.SD2 then some (sdcard_init_proc_t.init_sd2, resp, s)
  else
    match sdcard_init_proc_t.init_sd1.call fuel s with
    | none => none
    | some (resp, s) =>
      if resp > 1 then some (sdcard_init_proc_t.init_mmc, 0x01, s)
      else some (sdcard_init_proc_t.init_sd1, resp, s)

/-- `sdcard_init`, from the choice of the initialization procedure to the
end. -/
def sdcard_init_bringup (fuel : Nat) (orig_clock : ClockReg) (type : sdcard_type_t)
    (resp resp_data : Nat) (card : sdcard_t) (s : World) :
    Option (sdcard_result_t × sdcard_t × World) :=
  match sdcard_init_choose fuel type resp s with
  | none => none
  | some (card_init, resp, s) =>
    let (t0, s) := timestamp s
    match sdcard_init_loop card_init fuel t0 fuel resp s with
    | none => none
    | some (none, s) => some (sdcard_init_done orig_clock SDCARD_ERROR_TIMEOUT card s)
    | some (some resp, s) =>
      if resp ≠ 0x00 then some (sdcard_init_done orig_clock SDCARD_ERROR_IO card s)
      else sdcard_init_finish fuel orig_clock resp_data card s

/-- `sdcard_init`, from the voltage check (CMD8) to the end. -/
def sdcard_init_probe (fuel : Nat) (orig_clock : ClockReg) (card : sdcard_t) (s : World) :
    Option (sdcard_result_t × sdcard_t × World) :=
  match r3cmd fuel 8 0x1aa 0x87 0 s with
  | none => none
  | some (resp, resp_data, s) =>
    if resp = 0x05 then
      sdcard_init_bringup fuel orig_clock sdcard_type_t.SD1 resp resp_data card s
    else if resp = 0x01 ∧ resp_data = 0x1aa then
      sdcard_init_bringup fuel orig_clock sdcard_type_t.SD2 resp resp_data card s
    else if resp &&& 0x80 ≠ 0 then
      some (sdcard_init_done orig_clock SDCARD_ERROR_TIMEOUT card s)
    else
      some (sdcard_init_done orig_clock SDCARD_ERROR_IO card s)

/-- `sdcard_init`, up to and including `set_cs_low()`. -/
def sdcard_init_enter (card : sdcard_t) (s : World) : World :=
  let s := hspi_select card s
  let s := hspi_set_clock (HSPI_CLOCK 5 40) s
  let s := set_cs_high s
  let s := hspi_reset s
  let s := hspi_set_pattern 80 0xffffffff s
  let s := hspi_exec s
  let s := hspi_wait s
  set_cs_low s

/-- `sdcard_init`.  The result carries the descriptor `*card` as the call
leaves it. -/
def sdcard_init (fuel : Nat) (card : sdcard_t) (s : World) :
    Option (sdcard_result_t × sdcard_t × World) :=
  let orig_clock := hspi_get_clock (hspi_select card s)
  let s := sdcard_init_enter card s
  match r1cmd fuel 0 0 0x95 s with
  | none => none
  | some (resp, s) =>
    if resp &&& 0x80 ≠ 0 then
      some (sdcard_init_done orig_clock SDCARD_ERROR_TIMEOUT card s)
    else if resp ≠ 0x01 then
      some (sdcard_init_done orig_clock SDCARD_ERROR_IO card s)
    else sdcard_init_probe fuel orig_clock card s

/-- The loop `while (size)` of `read_data`; the first argument bounds the
number of iterations (each one consumes at least one byte of `size`).  `buf`
is the destination memory, `pos` the offset of `data` in it. -/
def read_data_loop : Nat → Nat → List Nat → Nat → World → List Nat × World
  | 0, _, buf, _, s => (buf, s)
  | n + 1, size, buf, pos, s =>
    if size ≠ 0 then
      let num_bytes := if size < 64 then size else 64
      let s := hspi_set_pattern (num_bytes * 8) 0xffffffff s
      let s := hspi_exec s
      let (bytes, s) := hspi_get_data num_bytes s
      read_data_loop n (size - num_bytes) (blit buf pos bytes) (pos + num_bytes) s
    else (buf, s)

/-- `read_data`. -/
def read_data (fuel size : Nat) (buf : List Nat) (pos : Nat) (s : World) :
    Option (sdcard_result_t × List Nat × World) :=
  match wait_until_card_returns fuel 0xfe s with
  | none => none
  | some (tok, s) =>
    if tok ≠ 0xfe then some (SDCARD_ERROR_TIMEOUT, buf, s)
    else
      let s := hspi_reset s
      let (buf, s) := read_data_loop size size buf pos s
      let s := hspi_set_pattern 16 0xffff s
      let s := hspi_config_exec { big_endian_input := true } s
      let s := hspi_exec s
      some (SDCARD_SUCCESS, buf, s)

/-- The label `done:` of `sdcard_read`, `sdcard_read_register`,
`sdcard_write` and `sdcard_erase`. -/
def sdcard_done (s : World) : World :=
  let s := set_cs_high s
  hspi_release s

/-- The block address as the commands carry it: `addr <<= 9` (32 bits) unless
the card is high capacity. -/
def sdcard_addr (card : sdcard_t) (addr : Nat) : Nat :=
  if !sdcard_is_sdhc card then (addr <<< 9) % 4294967296 else addr

/-- The loop `while (!err && num_blocks)` of `sdcard_read`. -/
def sdcard_read_loop (fuel : Nat) :
    Nat → sdcard_result_t → List Nat → Nat → World → Option (sdcard_result_t × List Nat × World)
  | 0, err, buf, _, s => some (err, buf, s)
  | num_blocks + 1, err, buf, pos, s =>
    if err = SDCARD_SUCCESS then
      match read_data fuel 512 buf pos s with
      | none => none
      | some (err, buf, s) => sdcard_read_loop fuel num_blocks err buf (pos + 512) s
    else some (err, buf, s)

/-- `sdcard_read`; `buf` is the destination memory from `data` on. -/
def sdcard_read (fuel : Nat) (card : sdcard_t) (addr num_blocks : Nat) (buf : List Nat)
    (s : World) : Option (sdcard_result_t × List Nat × World) :=
  let s := hspi_select card s
  let addr := sdcard_addr card addr
  let cmd := if num_blocks = 1 then 17 else 18
  let s := set_cs_low s
  match r1cmd fuel cmd addr 0xff s with
  | none => none
  | some (resp, s) =>
    if resp &&& 0x80 ≠ 0 then some (SDCARD_ERROR_TIMEOUT, buf, sdcard_done s)
    else if resp ≠ 0 then some ( SDCARD_ERROR_IO, buf, sdcard_done s)
    else
      match sdcard_read_loop fuel num_blocks SDCARD_SUCCESS buf 0 s with
      | none => none
      | some (err, buf, s) =>
        if cmd = 18 then
          match r1cmd fuel 12 0 0x61 s with
          | none => none
          | some (_, s) => some (err, buf, sdcard_done s)
        else some (err, buf, sdcard_done s)

/-- `sdcard_read_register`; `buf` is the destination memory from `data` on. -/
def sdcard_read_register (fuel : Nat) (card : sdcard_t) (buf : List Nat) (cmd crc : Nat)
    (s : World) : Option (sdcard_result_t × List Nat × World) :=
  let s := hspi_select card s
  let s := set_cs_low s
  match r1cmd fuel cmd 0 crc s with
  | none => none
  | some (resp, s) =>
    if resp &&& 0x80 ≠ 0 then some (SDCARD_ERROR_TIMEOUT, buf, sdcard_done s)
    else if resp ≠ 0 then some ( SDCARD_ERROR_IO, buf, sdcard_done s)
    else
      match read_data fuel 16 buf 0 s with
      | none => none
      | some (err, buf, s) => some (err, buf, sdcard_done s)

/-- `sdcard_read_cid`; `cid` is the destination structure as 16 bytes. -/
def sdcard_read_cid (fuel : Nat) (card : sdcard_t) (cid : List Nat) (s : World) :
    Option (sdcard_result_t × List Nat × World) :=
  sdcard_read_register fuel card cid 10 0x1b s

/-- `sdcard_read_csd`; `csd` is the destination structure as 16 bytes.  The
local array `data` starts with unspecified content, here zeros. -/
def sdcard_read_csd (fuel : Nat) (card : sdcard_t) (csd : List Nat) (s : World) :
    Option (sdcard_result_t × List Nat × World) :=
  match sdcard_read_register fuel card (List.replicate 16 0) 9 0xaf s with
  | none => none
  | some (err, data, s) =>
    if err = SDCARD_SUCCESS then some (err, blit csd 0 data.reverse, s)
    else some (err, csd, s)

/-- The size computation of `sdcard_get_size` on the 16 received bytes.  All
values are `uint32_t`; a shift count of 32 or more (possible only when
READ_BL_LEN is below 9) has no defined result in C and is taken modulo
`2^32` of the mathematical shift here. -/
def sdcard_size_of_csd (data : List Nat) : Nat :=
  let d := fun i => data.getD i 0
  if d 0 >>> 6 = 0 then
    let c_size := ((d 6 &&& 0x3) <<< 10) ||| (d 7 <<< 2) ||| (d 8 >>> 6)
    let c_size_mult := ((d 9 &&& 0x3) <<< 1) ||| (d 10 >>> 7)
    let read_bl_len := d 5 &&& 0xf
    let size := ((c_size + 1) <<< (c_size_mult + 2)) % 4294967296
    (size <<< ((read_bl_len + 4294967296 - 9) % 4294967296)) % 4294967296
  else
    let c_size := ((d 7 &&& 0x3f) <<< 16) ||| (d 8 <<< 8) ||| d 9
    ((c_size + 1) <<< 10) % 4294967296

/-- `sdcard_get_size`. -/
def sdcard_get_size (fuel : Nat) (card : sdcard_t) (s : World) : Option (Nat × World) :=
  match sdcard_read_register fuel card (List.replicate 16 0) 9 0xaf s with
  | none => none
  | some (err, data, s) =>
    if err = SDCARD_SUCCESS then some (sdcard_size_of_csd data, s)
    else some (0, s)

/-- The mask `DATA_RESPONSE`. -/
def DATA_RESPONSE : Nat := 0x1f

/-- The token `DATA_ACCEPTED`. -/
def DATA_ACCEPTED : Nat := 0x05

/-- The loop `while (data < end)` of `write_block`; the first argument bounds
the number of iterations, `pos` is the offset of `data` from the start of the
block and `end_` that of `end`. -/
def write_block_loop (mem : List Nat) (aligned : Bool) (end_ : Nat) : Nat → Nat → World → World
  | 0, _, s => s
  | n + 1, pos, s =>
    if pos < end_ then
      let s := hspi_set_data (64 * 8) (mem.drop pos) aligned s
      let s := hspi_exec s
      let s := hspi_wait s
      write_block_loop mem aligned end_ n (pos + 64) s
    else s

/-- `write_block`; `mem` is the memory from `data` on, `aligned` tells whether
`data` is word aligned. -/
def write_block (start_token : Nat) (mem : List Nat) (aligned : Bool) (s : World) :
    sdcard_result_t × World :=
  let s := hspi_reset s
  let s := hspi_set_command 8 start_token s
  let s := hspi_set_data (64 * 8) mem aligned s
  let s := hspi_exec s
  let s := hspi_reset s
  let s := write_block_loop mem aligned 512 8 64 s
  let s := hspi_set_command 16 0xffff s
  let s := hspi_set_pattern 8 0xff s
  let s := hspi_exec s
  let (w0, s) := hspi_read 0 s
  let resp := w0 % 256
  (if resp &&& DATA_RESPONSE = DATA_ACCEPTED then SDCARD_SUCCESS else SDCARD_ERROR_IO, s)

/-- `end_transmission`. -/
def end_transmission (fuel : Nat) (s : World) : Option (sdcard_result_t × World) :=
  match wait_until_card_not_busy fuel s with
  | none => none
  | some (busy, s) =>
    if busy = 0 then some (SDCARD_ERROR_TIMEOUT, s)
    else
      let s := hspi_reset s
      let s := hspi_set_pattern 16 0xfffd s
      let s := hspi_exec s
      let s := hspi_wait s
      some (SDCARD_SUCCESS, s)

/-- The loop `while (!err && --num_blocks)` of `sdcard_write`, by the value
`--num_blocks` yields at the next test.  The Boolean of the result tells
whether the loop left through `raise_error` (straight to `done:`). -/
def sdcard_write_loop (fuel : Nat) (mem : List Nat) (aligned : Bool) :
    Nat → sdcard_result_t → Nat → World → Option (sdcard_result_t × Bool × World)
  | 0, err, _, s => some (err, false, s)
  | left + 1, err, pos, s =>
    if err = SDCARD_SUCCESS then
      let pos := pos + 512
      match wait_until_card_not_busy fuel s with
      | none => none
      | some (busy, s) =>
        if busy = 0 then some (SDCARD_ERROR_TIMEOUT, true, s)
        else
          let (err, s) := write_block 0xfc (mem.drop pos) aligned s
          sdcard_write_loop fuel mem aligned left err pos s
    else some (err, false, s)

/-- `sdcard_write`, single block branch: from `r1cmd(24, ...)` to the jump to
`done:`. -/
def sdcard_write_single (fuel addr : Nat) (mem : List Nat) (aligned : Bool) (s : World) :
    Option (sdcard_result_t × World) :=
  match r1cmd fuel 24 addr 0xff s with
  | none => none
  | some (r, s) =>
    if r ≠ 0 then some ( SDCARD_ERROR_IO, s)
    else
      let (e, s) := write_block 0xfe mem aligned s
      if e ≠ SDCARD_SUCCESS then some ( SDCARD_ERROR_IO, s)
      else some (SDCARD_SUCCESS, s)

/-- `sdcard_write`, multiple block branch after the loop: straight to
`done:` when the loop left through `raise_error`, else CMD12 on an error and
`end_transmission` on success. -/
def sdcard_write_stop (fuel : Nat) :
    Option (sdcard_result_t × Bool × World) → Option (sdcard_result_t × World)
  | none => none
  | some (err, true, s) => some (err, s)
  | some (err, false, s) =>
    if err ≠ SDCARD_SUCCESS then
      match r1cmd fuel 12 0 0x61 s with
      | none => none
      | some (_, s) => some (err, s)
    else end_transmission fuel s

/-- `sdcard_write`, multiple block branch once CMD25 was accepted: from the
first `write_block(0xfc, ...)` to the label `done:`. -/
def sdcard_write_blocks (fuel num_blocks : Nat) (mem : List Nat) (aligned : Bool) (s : World) :
    Option (sdcard_result_t × World) :=
  sdcard_write_stop fuel
    (sdcard_write_loop fuel mem aligned ((num_blocks + 4294967296 - 1) % 4294967296)
      (write_block 0xfc mem aligned s).1 0 (write_block 0xfc mem aligned s).2)

/-- `sdcard_write`, multiple block branch: from `acmd(23, ...)` to the label
`done:`. -/
def sdcard_write_multi (fuel addr num_blocks : Nat) (mem : List Nat) (aligned : Bool)
    (s : World) : Option (sdcard_result_t × World) :=
  match acmd fuel 23 num_blocks 0xff s with
  | none => none
  | some (r, s) =>
    if r ≠ 0 then some ( SDCARD_ERROR_IO, s)
    else
      match r1cmd fuel 25 addr 0xff s with
      | none => none
      | some (r, s) =>
        if r ≠ 0 then some ( SDCARD_ERROR_IO, s)
        else sdcard_write_blocks fuel num_blocks mem aligned s

/-- `sdcard_write`; `mem` is the memory from `data` on, `aligned` tells
whether `data` is word aligned.  Every path ends at the label `done:`. -/
def sdcard_write (fuel : Nat) (card : sdcard_t) (addr num_blocks : Nat) (mem : List Nat)
    (aligned : Bool) (s : World) : Option (sdcard_result_t × World) :=
  let s := hspi_select card s
  let addr := sdcard_addr card addr
  let s := set_cs_low s
  match (if num_blocks = 1 then sdcard_write_single fuel addr mem aligned s
         else sdcard_write_multi fuel addr num_blocks mem aligned s) with
  | none => none
  | some (err, s) => some (err, sdcard_done s)

/-- `sdcard_erase`. -/
def sdcard_erase (fuel : Nat) (card : sdcard_t) (addr num_blocks : Nat) (s : World) :
    Option (sdcard_result_t × World) :=
  let s := hspi_select card s
  let last := (addr + num_blocks + 4294967296 - 1) % 4294967296
  let last := sdcard_addr card last
  let addr := sdcard_addr card addr
  let s := set_cs_low s
  match r1cmd fuel 32 addr 0xff s with
  | none => none
  | some (r, s) =>
    if r ≠ 0 then some ( SDCARD_ERROR_IO, sdcard_done s)
    else
      match r1cmd fuel 33 last 0xff s with
      | none => none
      | some (r, s) =>
        if r ≠ 0 then some ( SDCARD_ERROR_IO, sdcard_done s)
        else
          match r1cmd fuel 38 0 0xa5 s with
          | none => none
          | some (r, s) =>
            if r ≠ 0 then some ( SDCARD_ERROR_IO, sdcard_done s)
            else some (SDCARD_SUCCESS, sdcard_done s)

/-! ## Observations on the log -/

/-- Hardware, MSB-first device: the bytes the command phase puts on MOSI.  The
command value leaves low byte first. -/
def cmdWire (r : HspiRegs) : List Nat :=
  if r.USER0.COMMAND then
    (List.range ((r.USER2.COMMAND_BITLEN + 1) / 8)).map
      (fun i => r.USER2.COMMAND_VALUE / 256 ^ i % 256)
  else []

/-- Hardware, MSB-first device: the bytes the address phase puts on MOSI.  The
address register leaves from bit 31 downwards. -/
def addrWire (r : HspiRegs) : List Nat :=
  if r.USER0.ADDR then
    (List.range ((r.USER1.ADDR_BITLEN + 1) / 8)).map (fun i => r.ADDR / 256 ^ (3 - i) % 256)
  else []

/-- An SD command frame: command index, 32-bit argument, CRC byte. -/
structure Frame where
  index : Nat
  arg : Nat
  crc : Nat
  deriving DecidableEq, Repr

/-- Reading six bytes as an SD command frame: byte 0 is `01` followed by the
index, bytes 1..4 the argument (big endian), byte 5 the CRC byte. -/
def frameOfBytes : List Nat → Option Frame
  | [b0, b1, b2, b3, b4, b5] =>
    if b0 / 64 = 1 then
      some { index := b0 % 64, arg := b1 * 16777216 + b2 * 65536 + b3 * 256 + b4, crc := b5 }
    else none
  | _ => none

/-- The command frame a logged action carries: a transaction of an MSB-first
device whose command and address phases make up six bytes. -/
def Event.frame : Event → Option Frame
  | .exec r _ => if r.CTRL0.WR_BIT_ORDER then none else frameOfBytes (cmdWire r ++ addrWire r)
  | _ => none

/-- Whether a logged action is a transaction. -/
def Event.isExec : Event → Bool
  | .exec _ _ => true
  | _ => false

/-- The command frames sent so far. -/
def sent (s : World) : List Frame := s.trace.filterMap Event.frame

/-- From `s` to `t` the log grew by transactions only, their command frames
being `fr`, and the bit-order and clock registers kept their values. -/
structure Ext (s t : World) (fr : List Frame) : Prop where
  ctrl0 : t.hspi.CTRL0 = s.hspi.CTRL0
  clock : t.hspi.CLOCK = s.hspi.CLOCK
  evs : ∃ evs, t.trace = s.trace ++ evs ∧ (∀ e ∈ evs, e.isExec = true) ∧
    evs.filterMap Event.frame = fr

/-- The CSD register as a 128-bit number: the first byte received is the most
significant one. -/
def csd_reg (data : List Nat) : Nat := data.foldl (fun acc b => acc * 256 + b) 0

/-- The field of the CSD register in bits `lo .. hi`. -/
def csd_bits (data : List Nat) (lo hi : Nat) : Nat := csd_reg data / 2 ^ lo % 2 ^ (hi + 1 - lo)

/-- From `s` to `t` nothing was logged and the registers that shape a command
frame kept their values. -/
structure Idle (s t : World) : Prop where
  ext : Ext s t []
  cmd : t.hspi.USER0.COMMAND = s.hspi.USER0.COMMAND
  adr : t.hspi.USER0.ADDR = s.hspi.USER0.ADDR
  user2 : t.hspi.USER2 = s.hspi.USER2
  addr : t.hspi.ADDR = s.hspi.ADDR
  abl : t.hspi.USER1.ADDR_BITLEN = s.hspi.USER1.ADDR_BITLEN

/-- From `s` to `t` only transactions without command and address phase were
run, and `t` has both phases disabled. -/
structure Quiet (s t : World) : Prop where
  ext : Ext s t []
  cmd : t.hspi.USER0.COMMAND = false
  adr : t.hspi.USER0.ADDR = false
  user2 : t.hspi.USER2 = s.hspi.USER2
  addr : t.hspi.ADDR = s.hspi.ADDR
  abl : t.hspi.USER1.ADDR_BITLEN = s.hspi.USER1.ADDR_BITLEN

/-- The world right after the command transaction of `r1cmd_send` was
started. -/
def r1cmd_xfer (cmd arg crc : Nat) (s : World) : World :=
  hspi_exec (hspi_config_exec {} (hspi_set_pattern 16 0xffff
    (hspi_set_address 32 (r1cmd_address arg crc) (hspi_set_command 16 (r1cmd_command cmd arg) s))))

/-- The frame of CMD55. -/
def CMD55 : Frame := { index := 55, arg := 0, crc := 0x65 }

/-- The log of one driver operation on `card` that took the world from `s`
to `t`: `hspi_select`, then actions `mid` among which neither a select nor a
release, then chip select high and `hspi_release`.  `fr` are the command
frames of `mid`. -/
def Session (card : sdcard_t) (s t : World) (fr : List Frame) : Prop :=
  ∃ mid, t.trace = s.trace ++ (Event.select card :: mid ++ [Event.cs_high, Event.release]) ∧
    (∀ e ∈ mid, e ≠ Event.release ∧ ∀ d, e ≠ Event.select d) ∧
    mid.filterMap Event.frame = fr

/-- The value `hspi_set_clock` leaves in the clock register. -/
def clock_written (c : ClockReg) : ClockReg :=
  if c.EQU_SYS_CLOCK then SPI_CLOCK_EQU_SYS_CLOCK else c

/-- From `s` an initialization ran transactions only, with frames `fr`, and
left through the label `done:` into `t`. -/
def InitExit (orig : ClockReg) (s t : World) (fr : List Frame) : Prop :=
  ∃ u, Ext s u fr ∧ t = hspi_release (set_cs_high (hspi_set_clock orig u))

/-- A register block after reset. -/
def regs0 : HspiRegs :=
  { CLOCK := SPI_CLOCK_EQU_SYS_CLOCK,
    USER0 := { COMMAND := false, ADDR := false, DUMMY := false, MISO := false, MOSI := false,
               WR_BYTE_ORDER := false, RD_BYTE_ORDER := false, FLASH_MODE := false,
               CLOCK_OUT_EDGE := false, CLOCK_IN_EDGE := false, CS_SETUP := false,
               CS_HOLD := false, SIO := false, DUPLEX := false, rest := 0 },
    USER1 := { ADDR_BITLEN := 0, MOSI_BITLEN := 0, MISO_BITLEN := 0, DUMMY_CYCLELEN := 0 },
    USER2 := { COMMAND_BITLEN := 0, COMMAND_VALUE := 0 },
    ADDR := 0,
    CTRL0 := { WR_BIT_ORDER := false, RD_BIT_ORDER := false, rest := 0 },
    PIN := { IDLE_EDGE := false, rest := 0 },
    CMD_USR := false,
    W := List.replicate 64 0 }

/-- A world whose card delivers the bytes `rx` and then keeps the line high,
and whose timer advances by `dt` microseconds from one reading to the next. -/
def world0 (rx : List Nat) (dt : Nat) : World :=
  { hspi := regs0, iomux_spi1_equ_sys_clock := false, iomux_gpio15 := PinFunc.hspi,
    gpio_out := 0, gpio_enable_out := 0, mutex_created := true, mutex_held := false,
    demux_gpio_pins := none, rx := fun i => rx.getD i 0xff, rxpos := 0,
    clk := fun i => dt * i, clkpos := 0, trace := [] }

/-- An SD card descriptor: MSB first, software chip select, 10 MHz clock. -/
def card0 : sdcard_t :=
  { demux_cs := 0, clock := hspi_new_clock 0 7, transfer_mode := 0, is_msb := true,
    software_cs := true, shared_io := false, is_sdhc := false }

/-- A version 1 CSD with C_SIZE = 0x3FF, C_SIZE_MULT = 7, READ_BL_LEN = 0xA. -/
def csd_v1 : List Nat :=
  [0x00, 0x26, 0x00, 0x32, 0x5f, 0x5a, 0x80, 0xff, 0xc0, 0x03, 0x80, 0x00, 0x00, 0x00, 0x00, 0x01]

/-- A version 2 CSD with C_SIZE = 0x3998. -/
def csd_v2 : List Nat :=
  [0x40, 0x0e, 0x00, 0x32, 0x5b, 0x59, 0x00, 0x00, 0x39, 0x98, 0x7f, 0x80, 0x0a, 0x40, 0x00, 0x01]

/-- A version 2 CSD with C_SIZE = 0x3FFFFF, the largest value of the field. -/
def csd_v2_max : List Nat :=
  [0x40, 0x0e, 0x00, 0x32, 0x5b, 0x59, 0x00, 0x3f, 0xff, 0xff, 0x7f, 0x80, 0x0a, 0x40, 0x00, 0x01]

/-- The bytes a card delivers during a register read that answers status 0
and then sends `reg`: not busy, one filler and the status, the start token,
the register, two CRC bytes. -/
def rx_register (reg : List Nat) : List Nat := [0xff, 0xff, 0x00, 0xfe] ++ reg ++ [0x12, 0x34]

/-- The six bytes of the command and address words `r1cmd` hands to the
engine, command word first and each word most significant byte first. -/
def r1cmd_frame_bytes (cmd arg crc : Nat) : List Nat :=
  [r1cmd_command cmd arg % 65536 / 256, r1cmd_command cmd arg % 65536 % 256,
   r1cmd_address arg crc % 4294967296 / 16777216,
   r1cmd_address arg crc % 4294967296 / 65536 % 256,
   r1cmd_address arg crc % 4294967296 / 256 % 256,
   r1cmd_address arg crc % 4294967296 % 256]

/-- Frames in which every CMD24 or CMD25 carries the argument `a`. -/
def WriteAddr (a : Nat) (fr : List Frame) : Prop :=
  ∀ f ∈ fr, (f.index = 24 ∨ f.index = 25) → f.arg = a

/-- The bytes a card delivers during a single-block read that it accepts:
not busy, one filler and status 0, the start token; the payload and the CRC
read as 0xff. -/
def rx_read_ok : List Nat := [0xff, 0xff, 0x00, 0xfe]

/-- Hardware, MSB-first device: bit `i` (in time order) of the command phase.
The command value leaves low byte first, each byte from bit 7 downwards. -/
def cmdWireBit (v i : Nat) : Bool := v.testBit (8 * (i / 8) + (7 - i % 8))

/-- The frame of CMD0 as `sdcard_init` sends it. -/
def CMD0 : Frame := { index := 0, arg := 0, crc := 0x95 }

/-- The frame of CMD8 as `sdcard_init` sends it. -/
def CMD8 : Frame := { index := 8, arg := 0x1aa, crc := 0x87 }

/-- The bytes of a card that, after the ten bytes clocked with chip select
high, is not busy and answers a command with one filler byte and `st`. -/
def rx_r1 (st : Nat) : List Nat := [0xff, 0xff, st]

/-- The bytes of a version 1 card during `sdcard_init`: CMD8 is answered
with illegal command (0x05), the first ACMD41 is ready at once, the OCR has
no capacity status bit, CMD16 is accepted. -/
def rx_init_sd1 : List Nat :=
  List.replicate 10 0xff ++ rx_r1 0x01 ++ rx_r1 0x05 ++
    rx_r1 0x01 ++ rx_r1 0x00 ++ rx_r1 0x00 ++ [0x80, 0xff, 0x80, 0x00] ++ rx_r1 0x00

/-- A bit-field member of `sdcard_csd_t`: its name, its width, and the CSD bit
range `[lo:hi]` its comment gives (`none` for reserved members). -/
structure BitField where
  name : String
  width : Nat
  doc : Option (Nat × Nat)
  deriving DecidableEq

/-- The members of `sdcard_csd_t` before the union. -/
def sdcard_csd_head : List BitField :=
  [⟨"stop_bit", 1, none⟩, ⟨"crc", 7, none⟩, ⟨"reserved_bits_8_9", 2, none⟩,
   ⟨"file_format", 2, some (10, 11)⟩, ⟨"temp_write_protect", 1, some (12, 12)⟩,
   ⟨"perm_write_protect", 1, some (13, 13)⟩, ⟨"copy", 1, some (14, 14)⟩,
   ⟨"file_format_group", 1, some (15, 15)⟩, ⟨"reserved_bits_16_20", 5, none⟩,
   ⟨"write_block_partial", 1, some (21, 21)⟩, ⟨"write_block_length", 4, some (22, 25)⟩,
   ⟨"write_speed_factor", 3, some (26, 28)⟩, ⟨"reserved_bits_29_30", 2, none⟩,
   ⟨"write_protect_enabled", 1, some (31, 31)⟩]

/-- The members of the struct `v1` of the union. -/
def sdcard_csd_v1 : List BitField :=
  [⟨"write_protect_size", 7, some (32, 38)⟩, ⟨"erase_sector_size", 7, some (39, 45)⟩,
   ⟨"erase_block_enabled", 1, some (46, 46)⟩, ⟨"device_size_multiplier", 3, some (47, 49)⟩,
   ⟨"max_write_current", 3, some (50, 52)⟩, ⟨"min_write_current", 3, some (53, 55)⟩,
   ⟨"max_read_current", 3, some (56, 58)⟩, ⟨"min_read_current", 3, some (59, 61)⟩,
   ⟨"device_size_low", 2, some (62, 63)⟩, ⟨"device_size_high", 10, some (64, 73)⟩,
   ⟨"reserved_bits_74_75", 2, none⟩, ⟨"dsr_implemented", 1, some (76, 76)⟩,
   ⟨"read_block_misalign", 1, some (77, 77)⟩, ⟨"write_block_misalign", 1, some (78, 78)⟩,
   ⟨"read_block_partial", 1, some (79, 79)⟩, ⟨"max_read_block_len", 4, some (80, 83)⟩,
   ⟨"card_command_classes", 12, some (84, 95)⟩]

/-- The members of the struct `v2` of the union. -/
def sdcard_csd_v2 : List BitField :=
  [⟨"write_protect_size", 7, some (32, 38)⟩, ⟨"erase_sector_size", 7, some (39, 45)⟩,
   ⟨"erase_block_enabled", 1, some (46, 46)⟩, ⟨"reserved_bit_47", 1, none⟩,
   ⟨"device_size_low", 16, some (48, 63)⟩, ⟨"device_size_high", 6, some (64, 69)⟩,
   ⟨"reserved_bits_70_75", 2, none⟩, ⟨"dsr_implemented", 1, some (76, 76)⟩,
   ⟨"read_block_misalign", 1, some (77, 77)⟩, ⟨"write_block_misalign", 1, some (78, 78)⟩,
   ⟨"read_block_partial", 1, some (79, 79)⟩, ⟨"max_read_block_len", 4, some (80, 83)⟩,
   ⟨"card_command_classes", 12, some (84, 95)⟩]

/-- The members of `sdcard_csd_t` after the union. -/
def sdcard_csd_tail : List BitField :=
  [⟨"transfer_rate_exponent", 3, none⟩, ⟨"transfer_rate_mantissa", 4, none⟩,
   ⟨"reserved_bit_103", 1, none⟩, ⟨"nsac", 8, some (104, 111)⟩,
   ⟨"taac_time_exponent", 3, none⟩, ⟨"taac_time_value", 4, none⟩,
   ⟨"reserved_taac_bit_119", 1, none⟩, ⟨"reserved_bits_120_125", 6, none⟩,
   ⟨"version", 2, some (126, 127)⟩]

/-- Bit-field allocation of the compiler (little-endian target): members of
type `uint32_t` are packed from the least significant bit of a 32-bit unit in
declaration order; a member that does not fit into the rest of the unit
starts the next one.  The result lists each member with the bit range
`(lo, hi)` it occupies, counted from bit 0 of the first byte of the struct. -/
def allocate : Nat → List BitField → List (String × Nat × Nat)
  | _, [] => []
  | pos, f :: fs =>
    let pos := if pos % 32 + f.width > 32 then (pos / 32 + 1) * 32 else pos
    (f.name, pos, pos + f.width - 1) :: allocate (pos + f.width) fs

/-- The ranges the comments give, for the members that have one. -/
def documented (fs : List BitField) : List (String × Nat × Nat) :=
  fs.filterMap (fun f => f.doc.map (fun r => (f.name, r.1, r.2)))

/-- The allocated ranges of the members that have a documented one. -/
def allocated_documented (start : Nat) (fs : List BitField) : List (String × Nat × Nat) :=
  ((allocate start fs).zip fs).filterMap (fun p => p.2.doc.map (fun _ => p.1))

/-- The value of the bits `lo .. hi` of a struct stored as `stored` (byte 0
first; little endian, so bit `k` of the struct is bit `k % 8` of byte
`k / 8`). -/
def struct_bits (stored : List Nat) (lo hi : Nat) : Nat :=
  stored.foldr (fun b acc => b + 256 * acc) 0 / 2 ^ lo % 2 ^ (hi + 1 - lo)

/-- Results of the disk functions (`DRESULT` of the FatFs header `diskio.h`,
which is not part of the repository). -/
inductive DRESULT where
  | RES_OK
  | RES_ERROR
  | RES_WRPRT
  | RES_NOTRDY
  | RES_PARERR
  deriving DecidableEq

/-- Control codes of `disk_ioctl` (FatFs header `diskio.h`). -/
inductive ioctl_cmd_t where
  | CTRL_SYNC
  | GET_SECTOR_COUNT
  | GET_SECTOR_SIZE
  | GET_BLOCK_SIZE
  | CTRL_TRIM
  | other (code : Nat)
  deriving DecidableEq

/-- The store `*(WORD*)p = v`: two bytes, little endian. -/
def store_word (mem : List Nat) (v : Nat) : List Nat := blit mem 0 [v % 256, v / 256 % 256]

/-- The store `*(DWORD*)p = v`: four bytes, little endian. -/
def store_dword (mem : List Nat) (v : Nat) : List Nat := blit mem 0 (wordBytes (v % 4294967296))

/-- The load `*(WORD*)p`. -/
def load_word (mem : List Nat) : Nat := mem.getD 0 0 + mem.getD 1 0 * 256

/-- The load `*(DWORD*)p`. -/
def load_dword (mem : List Nat) : Nat := wordAt mem 0

/-- `disk_ioctl` of `diskio.c`.  `card` is the array `card[FF_VOLUMES]`, so
`pdrv >= FF_VOLUMES` is `pdrv` lying outside of it; `buff` is the memory
from the pointer `buff` on. -/
def disk_ioctl (fuel : Nat) (card : List sdcard_t) (pdrv : Nat) (cmd : ioctl_cmd_t)
    (buff : List Nat) (s : World) : Option (DRESULT × List Nat × World) :=
  match card.get? pdrv with
  | none => some (DRESULT.RES_PARERR, buff, s)
  | some c =>
    match cmd with
    | .CTRL_SYNC => some (DRESULT.RES_OK, buff, s)
    | .GET_SECTOR_COUNT =>
      match sdcard_get_size fuel c s with
      | none => none
      | some (n, s) =>
        let buff := store_dword buff n
        if load_dword buff = 0 then some (DRESULT.RES_ERROR, buff, s)
        else some (DRESULT.RES_OK, buff, s)
    | .GET_SECTOR_SIZE => some (DRESULT.RES_OK, store_word buff 512, s)
    | .GET_BLOCK_SIZE => some (DRESULT.RES_OK, store_word buff 1, s)
    | .CTRL_TRIM => some (DRESULT.RES_OK, buff, s)
    | .other _ => some (DRESULT.RES_PARERR, buff, s)

/-- The engine is set up for full-duplex single-byte polls: the output phase
is eight bits long and the input is stored in arrival order. -/
structure Poll (s : World) : Prop where
  duplex : s.hspi.USER0.DUPLEX = true
  mosi : s.hspi.USER0.MOSI = true
  len : s.hspi.USER1.MOSI_BITLEN = 7
  rd : s.hspi.USER0.RD_BYTE_ORDER = false

/-- Byte `i` the card delivers from the state `s` on. -/
def rxByte (s : World) (i : Nat) : Nat := s.rx (s.rxpos + i) % 256

/-- Microseconds from `t0` to the `i`-th next reading of the timer, in the
32-bit arithmetic of `sdk_system_relative_time`. -/
def since (t0 : Nat) (s : World) (i : Nat) : Nat :=
  (s.clk (s.clkpos + i) % 4294967296 + 4294967296 - t0 % 4294967296) % 4294967296

/-- Microseconds from the next reading of the timer (the `timestamp()` a
deadline loop starts with) to the reading `i + 1` places later. -/
def elapsed (s : World) (i : Nat) : Nat := since (s.clk s.clkpos % 4294967296) s (i + 1)

/-- The bytes of a card that answers CMD0 with idle and CMD8 with idle and
the extended reply 0x1AB, a wrong echo. -/
def rx_init_bad_echo : List Nat :=
  List.replicate 10 0xff ++ rx_r1 0x01 ++ rx_r1 0x01 ++ [0x00, 0x00, 0x01, 0xab]

/-- The frame of ACMD41 as `init_sd2` sends it: bit 30 of the argument set. -/
def CMD41_HCS : Frame := { index := 41, arg := 0x40000000, crc := 0x77 }

/-- The frame of ACMD41 as `init_sd1` sends it. -/
def CMD41_SD1 : Frame := { index := 41, arg := 0, crc := 0xe5 }

/-- The frame of CMD1 as `init_mmc` sends it. -/
def CMD1 : Frame := { index := 1, arg := 0, crc := 0xf9 }

/-- The frames one call of an initialization procedure can send. -/
def init_proc_frames : sdcard_init_proc_t → List (List Frame)
  | .init_mmc => [[], [CMD1]]
  | .init_sd1 => [[], [CMD55], [CMD55, CMD41_SD1]]
  | .init_sd2 => [[], [CMD55], [CMD55, CMD41_HCS]]

/-- The frame of CMD12 as the driver sends it. -/
def CMD12 : Frame := { index := 12, arg := 0, crc := 0x61 }

/-- The bytes of a card that accepts three commands in a row. -/
def rx_erase_ok : List Nat := rx_r1 0x00 ++ rx_r1 0x00 ++ rx_r1 0x00

/-- Hardware: the bytes the output phase puts on MOSI: the first
`MOSI_BITLEN + 1` bits of `W`, byte 0 first (with big endian output, reversed
inside each 32-bit word). -/
def mosiWire (r : HspiRegs) : List Nat :=
  if r.USER0.MOSI then
    (List.range ((r.USER1.MOSI_BITLEN + 1) / 8)).map
      (fun j => r.W.getD (rxSlot r.USER0.WR_BYTE_ORDER j) 0)
  else []

/-- The bytes a logged action puts on MOSI (MSB-first device): command,
address and output phase of a transaction. -/
def Event.tx : Event → List Nat
  | .exec r _ => cmdWire r ++ addrWire r ++ mosiWire r
  | _ => []

/-- All bytes sent so far. -/
def txBytes (s : World) : List Nat := (s.trace.map Event.tx).flatten

/-- The engine as the data phase of a write needs it: full duplex, MSB first,
little-endian output and input, a 64-byte buffer. -/
structure Bus (s : World) : Prop where
  duplex : s.hspi.USER0.DUPLEX = true
  msb : s.hspi.CTRL0.WR_BIT_ORDER = false
  wbo : s.hspi.USER0.WR_BYTE_ORDER = false
  rbo : s.hspi.USER0.RD_BYTE_ORDER = false
  wlen : s.hspi.W.length = 64

/-- The bytes `pos .. pos + n - 1` of the memory `mem`, as the engine sends
them. -/
def memBytes (mem : List Nat) (pos n : Nat) : List Nat :=
  (List.range n).map (fun i => mem.getD (pos + i) 0 % 256)

/-- The world `write_block` reaches before its last transaction. -/
def write_block_body (start_token : Nat) (mem : List Nat) (aligned : Bool) (s : World) : World :=
  write_block_loop mem aligned 512 8 64
    (hspi_reset (hspi_exec (hspi_set_data (64 * 8) mem aligned
      (hspi_set_command 8 start_token (hspi_reset s)))))

/-- The last transaction of `write_block`, programmed and started. -/
def write_block_tail (u : World) : World :=
  hspi_exec (hspi_set_pattern 8 0xff (hspi_set_command 16 0xffff u))

/-- A world whose card delivers the byte `rx i` at position `i` and whose
timer advances by `dt` microseconds from one reading to the next. -/
def world1 (rx : Nat → Nat) (dt : Nat) : World := { world0 [] dt with rx := rx }

/-- From `s` to `t` transactions were run that sent the byte groups `cs`, one
group per transaction, while `n` bytes were received. -/
structure Tx (s t : World) (cs : List (List Nat)) (n : Nat) : Prop where
  tx : t.trace.map Event.tx = s.trace.map Event.tx ++ cs
  rx : t.rx = s.rx
  rxpos : t.rxpos = s.rxpos + n
  ext : Ext s t []

/-- The byte groups of the transactions that carry one data packet: the
start token with the first 64 bytes of the block at `pos`, seven more groups
of 64 bytes, and three bytes 0xFF (two in place of the CRC, one to clock the
data response). -/
def packetChunks (tok : Nat) (mem : List Nat) (pos : Nat) : List (List Nat) :=
  [[tok % 256] ++ memBytes mem pos 64] ++
    (List.range 7).map (fun j => memBytes mem (pos + 64 + 64 * j) 64) ++ [[0xff, 0xff, 0xff]]

/-- The bytes of one data packet: start token, the 512 bytes of the block at
`pos`, three bytes 0xFF. -/
def packetBytes (tok : Nat) (mem : List Nat) (pos : Nat) : List Nat :=
  [tok % 256] ++ memBytes mem pos 512 ++ [0xff, 0xff, 0xff]

/-- The engine during a poll loop: single-byte full-duplex polls without
command and address phase, sending byte 3 of the buffer, which holds 0xFF. -/
structure PollTx (s : World) : Prop where
  poll : Poll s
  wbo : s.hspi.USER0.WR_BYTE_ORDER = true
  w3 : s.hspi.W.getD 3 0 = 0xff
  cmd : s.hspi.USER0.COMMAND = false
  adr : s.hspi.USER0.ADDR = false

/-- The state a block transfer needs: full duplex, MSB first, a 64-byte
buffer. -/
structure Wr (s : World) : Prop where
  duplex : s.hspi.USER0.DUPLEX = true
  msb : s.hspi.CTRL0.WR_BIT_ORDER = false
  wlen : s.hspi.W.length = 64

/-- Microseconds between the timer readings at positions `co` and `co + j`,
in 32-bit arithmetic. -/
def gap (clk : Nat → Nat) (co j : Nat) : Nat :=
  (clk (co + j) % 4294967296 + 4294967296 - clk co % 4294967296 % 4294967296) % 4294967296

/-- A card that lets `ns.length` further blocks of a multiple block write
through, seen from the received position `ro` and the timer position `co`:
before each block it answers the not-busy poll number `n` with 0xFF (no
earlier poll being 0xFF or past the deadline), and it answers the packet with
an accepting data response. -/
def Accepts (rx clk : Nat → Nat) : List Nat → Nat → Nat → Prop
  | [], _, _ => True
  | n :: ns, ro, co =>
    (∀ i, i < n → rx (ro + i) % 256 ≠ 0xff ∧ gap clk co (i + 1) ≤ IO_TIMEOUT) ∧
    rx (ro + n) % 256 = 0xff ∧ rx (ro + (n + 1) + 512) % 256 % 32 = 5 ∧
    Accepts rx clk ns (ro + (n + 1) + 513) (co + (n + 1))

/-- The bytes the loop of a multiple block write sends for the blocks after
the one at `pos`: per block the filler bytes of the not-busy poll and the
data packet. -/
def loopBytes (mem : List Nat) : List Nat → Nat → List Nat
  | [], _ => []
  | n :: ns, pos =>
    List.replicate (n + 1) 0xff ++ packetBytes 0xfc mem (pos + 512) ++ loopBytes mem ns (pos + 512)

/-- The number of bytes received during the blocks listed by `ns`: per block
the polls and the 513 bytes clocked with the packet. -/
def rxSpan : List Nat → Nat
  | [] => 0
  | n :: ns => (n + 1) + 513 + rxSpan ns

/-- The number of timer readings taken during the blocks listed by `ns`. -/
def clkSpan : List Nat → Nat
  | [] => 0
  | n :: ns => (n + 1) + clkSpan ns

/-- The bytes of a card during the data phase of a two block write that it
accepts: the data response 0x05 after each packet, 0xFF otherwise. -/
def rx_write_two (i : Nat) : Nat := if i = 512 ∨ i = 1026 then 0x05 else 0xff

/-- The card answers a not-busy poll at its poll number `n`: from offset `ro`
of the received bytes on, `n` bytes other than 0xFF, each within the deadline
counted from the timer reading `co`, then 0xFF. -/
def Ready (rx clk : Nat → Nat) (n ro co : Nat) : Prop :=
  (∀ i, i < n → rx (ro + i) % 256 ≠ 0xff ∧ gap clk co (i + 1) ≤ IO_TIMEOUT) ∧
  rx (ro + n) % 256 = 0xff

/-- The bytes of a card that accepts the first data packet, answers the poll
before the second packet with 0xFF, rejects the second packet with a write
error and answers everything after with 0xFF and the status 0x00. -/
def rx_write_reject (i : Nat) : Nat :=
  if i = 512 then 0x05 else if i = 1026 then 0x0d else if i = 1030 then 0x00 else 0xff

/-- The bytes of a card that accepts CMD55, ACMD23 and CMD25 and then behaves
as `rx_write_reject`. -/
def rx_write_reject_full (i : Nat) : Nat :=
  if i = 2 ∨ i = 5 ∨ i = 8 then 0x00 else if i < 9 then 0xff else rx_write_reject (i - 9)

/-- The bytes of a card that accepts CMD55, ACMD23 and CMD25, accepts the
first data packet and then holds the line at 0x00. -/
def rx_write_stuck (i : Nat) : Nat :=
  if i = 2 ∨ i = 5 ∨ i = 8 then 0x00 else if i < 521 then 0xff else if i = 521 then 0x05 else 0x00

/-- The bytes of `rx_write_stuck` from the acceptance of CMD25 on. -/
def rx_blocks_stuck (i : Nat) : Nat := if i < 512 then 0xff else if i = 512 then 0x05 else 0x00

/-- The state of the SPI engine during the data phase of a read: full duplex,
little endian in both directions, no command or address phase. -/
structure Rd (s : World) : Prop where
  duplex : s.hspi.USER0.DUPLEX = true
  rbo : s.hspi.USER0.RD_BYTE_ORDER = false
  wbo : s.hspi.USER0.WR_BYTE_ORDER = false
  cmd : s.hspi.USER0.COMMAND = false
  adr : s.hspi.USER0.ADDR = false
  wlen : s.hspi.W.length = 64

/-- The byte counts of the transfers of the loop `while (size)` of
`read_data`. -/
def readChunks : Nat → Nat → List Nat
  | 0, _ => []
  | n + 1, size =>
    if size ≠ 0 then (if size < 64 then size else 64) ::
      readChunks n (size - (if size < 64 then size else 64))
    else []

/-- The card sends the start token of each block listed by `ns` at the poll
of that number: from offset `ro` of the received bytes on, per block, `n`
bytes other than 0xFE within the deadline counted from the timer reading
`co`, the token 0xFE, 512 data bytes and two CRC bytes. -/
def Tokens (rx clk : Nat → Nat) : List Nat → Nat → Nat → Prop
  | [], _, _ => True
  | n :: ns, ro, co =>
    (∀ i, i < n → rx (ro + i) % 256 ≠ 0xfe ∧ gap clk co (i + 1) ≤ IO_TIMEOUT) ∧
    rx (ro + n) % 256 = 0xfe ∧ Tokens rx clk ns (ro + (n + 1) + 514) (co + (n + 1))

/-- The destination `b` holds, from offset `pos` on, the 512 data bytes of
each block listed by `ns` in the order received. -/
def Stored (rx : Nat → Nat) : List Nat → Nat → Nat → List Nat → Prop
  | [], _, _, _ => True
  | n :: ns, ro, pos, b =>
    (∀ i, i < 512 → b.getD (pos + i) 0 = rx (ro + (n + 1) + i) % 256) ∧
    Stored rx ns (ro + (n + 1) + 514) (pos + 512) b

/-- The number of bytes received during the blocks listed by `ns` of a read:
per block the polls, 512 data bytes and two CRC bytes. -/
def rdSpan : List Nat → Nat
  | [] => 0
  | n :: ns => (n + 1) + 514 + rdSpan ns

/-- The start token does not arrive: from offset `ro` on, `n` bytes other
than 0xFE within the deadline, then another byte that is not 0xFE with the
deadline passed. -/
def Late (rx clk : Nat → Nat) (n ro co : Nat) : Prop :=
  (∀ i, i < n → rx (ro + i) % 256 ≠ 0xfe ∧ gap clk co (i + 1) ≤ IO_TIMEOUT) ∧
  rx (ro + n) % 256 ≠ 0xfe ∧ IO_TIMEOUT < gap clk co (n + 1)

/-- The bytes of a card that sends two blocks, each start token at the first
poll; the data and CRC bytes are the offset modulo 251. -/
def rx_read_two (i : Nat) : Nat := if i = 0 ∨ i = 515 then 0xfe else i % 251

/-- The bytes of a card that accepts CMD18, sends the blocks of `rx_read_two`
and accepts CMD12. -/
def rx_read_two_full (i : Nat) : Nat :=
  if i = 2 then 0x00 else if i < 3 then 0xff else if i < 1033 then rx_read_two (i - 3)
  else if i = 1035 then 0x00 else 0xff

/-- The bytes of a card that accepts a register read command and sends the
start token at the first poll, then the bytes 10, 11, ... -/
def rx_register_count (i : Nat) : Nat :=
  if i = 2 then 0x00 else if i < 3 then 0xff else if i = 3 then 0xfe else i + 6

/-- The bytes of a card that accepts a command and then holds the line at
0x00. -/
def rx_accept_then_busy (i : Nat) : Nat := if i < 2 then 0xff else 0x00

/-- The bytes of a card that accepts CMD18, sends no start token (0x00 until
the deadline), then answers the not-busy poll with 0xFF and accepts CMD12. -/
def rx_read_late (i : Nat) : Nat :=
  if i < 2 then 0xff else if i < 5 then 0x00 else if i = 7 then 0x00 else 0xff

/-- A not-busy poll ends at its poll number `m`: from offset `ro` of the
received bytes on, `m` bytes other than 0xFF, each within the deadline counted
from the timer reading `co`, then 0xFF or a byte with the deadline passed. -/
def PollEnd (rx clk : Nat → Nat) (m ro co : Nat) : Prop :=
  (∀ i, i < m → rx (ro + i) % 256 ≠ 0xff ∧ gap clk co (i + 1) ≤ IO_TIMEOUT) ∧
  (rx (ro + m) % 256 = 0xff ∨ IO_TIMEOUT < gap clk co (m + 1))

/-- The bytes of a card that accepts CMD55, ACMD23, CMD25 and the first data
packet, rejects the second packet with a write error and then holds the line
at 0x00. -/
def rx_write_reject_busy (i : Nat) : Nat :=
  if i = 2 ∨ i = 5 ∨ i = 8 then 0x00 else if i < 9 then 0xff
  else if i = 521 then 0x05 else if i = 1035 then 0x0d else if i < 1035 then 0xff else 0x00

/-! ## Arithmetic of the bit manipulations -/

theorem or_mul_pow (a b i : Nat) (h : b < 2 ^ i) : (a * 2 ^ i) ||| b = a * 2 ^ i + b := by
  rw [Nat.mul_comm]; exact (Nat.mul_add_lt_is_or h a).symm

theorem and_mask (x n : Nat) : x &&& (2 ^ n - 1) = x % 2 ^ n :=
  Nat.and_pow_two_sub_one_eq_mod x n

theorem list_len16 (l : List Nat) (h : l.length = 16) :
    ∃ a0 a1 a2 a3 a4 a5 a6 a7 a8 a9 a10 a11 a12 a13 a14 a15,
      l = [a0, a1, a2, a3, a4, a5, a6, a7, a8, a9, a10, a11, a12, a13, a14, a15] := by
  match l, h with
  | [a0, a1, a2, a3, a4, a5, a6, a7, a8, a9, a10, a11, a12, a13, a14, a15], _ =>
    exact ⟨a0, a1, a2, a3, a4, a5, a6, a7, a8, a9, a10, a11, a12, a13, a14, a15, rfl⟩

theorem v1_c_size (d6 d7 d8 : Nat) (h7 : d7 < 256) (h8 : d8 < 256) :
    ((d6 &&& 0x3) <<< 10) ||| (d7 <<< 2) ||| (d8 >>> 6) = (d6 % 4) * 1024 + d7 * 4 + d8 / 64 := by
  have e1 : d6 &&& 0x3 = d6 % 4 := and_mask d6 2
  rw [e1, Nat.shiftLeft_eq, Nat.shiftLeft_eq, Nat.shiftRight_eq_div_pow]
  have h1 : d7 * 2 ^ 2 < 2 ^ 10 := by omega
  rw [or_mul_pow _ _ 10 h1]
  have e2 : d6 % 4 * 2 ^ 10 + d7 * 2 ^ 2 = (d6 % 4 * 256 + d7) * 2 ^ 2 := by omega
  have h2 : d8 / 2 ^ 6 < 2 ^ 2 := by omega
  rw [e2, or_mul_pow _ _ 2 h2]; omega

theorem v1_c_size_mult (d9 d10 : Nat) (h10 : d10 < 256) :
    ((d9 &&& 0x3) <<< 1) ||| (d10 >>> 7) = (d9 % 4) * 2 + d10 / 128 := by
  have e1 : d9 &&& 0x3 = d9 % 4 := and_mask d9 2
  rw [e1, Nat.shiftLeft_eq, Nat.shiftRight_eq_div_pow]
  have h2 : d10 / 2 ^ 7 < 2 ^ 1 := by omega
  rw [or_mul_pow _ _ 1 h2]; omega

theorem v2_c_size (d7 d8 d9 : Nat) (h8 : d8 < 256) (h9 : d9 < 256) :
    ((d7 &&& 0x3f) <<< 16) ||| (d8 <<< 8) ||| d9 = (d7 % 64) * 65536 + d8 * 256 + d9 := by
  have e1 : d7 &&& 0x3f = d7 % 64 := and_mask d7 6
  rw [e1, Nat.shiftLeft_eq, Nat.shiftLeft_eq]
  have h1 : d8 * 2 ^ 8 < 2 ^ 16 := by omega
  rw [or_mul_pow _ _ 16 h1]
  have e2 : d7 % 64 * 2 ^ 16 + d8 * 2 ^ 8 = (d7 % 64 * 256 + d8) * 2 ^ 8 := by omega
  rw [e2, or_mul_pow _ _ 8 (by omega)]; omega

/-- The fields of the CSD register in terms of the bytes as received. -/
theorem csd_fields (data : List Nat) (hlen : data.length = 16) (hb : ∀ b ∈ data, b < 256) :
    csd_bits data 126 127 = data.getD 0 0 >>> 6 ∧
    csd_bits data 62 73 = (data.getD 6 0 % 4) * 1024 + data.getD 7 0 * 4 + data.getD 8 0 / 64 ∧
    csd_bits data 47 49 = (data.getD 9 0 % 4) * 2 + data.getD 10 0 / 128 ∧
    csd_bits data 80 83 = data.getD 5 0 % 16 ∧
    csd_bits data 48 69 = (data.getD 7 0 % 64) * 65536 + data.getD 8 0 * 256 + data.getD 9 0 := by
  obtain ⟨a0, a1, a2, a3, a4, a5, a6, a7, a8, a9, a10, a11, a12, a13, a14, a15, rfl⟩ :=
    list_len16 data hlen
  simp only [List.mem_cons, List.mem_singleton, forall_eq_or_imp, forall_eq, List.not_mem_nil,
    false_implies, implies_true, and_true] at hb
  obtain ⟨h0, h1, h2, h3, h4, h5, h6, h7, h8, h9, h10, h11, h12, h13, h14, h15⟩ := hb
  simp only [csd_bits, csd_reg, List.foldl, List.getD_cons_zero, List.getD_cons_succ,
    Nat.shiftRight_eq_div_pow]
  norm_num
  refine ⟨?_, ?_, ?_, ?_, ?_⟩ <;> omega

/-- The bytes of a 16-byte list are below 256 at every index. -/
theorem getD_lt (data : List Nat) (hb : ∀ b ∈ data, b < 256) (i : Nat) : data.getD i 0 < 256 := by
  rw [List.getD_eq_getElem?_getD]
  cases h : data[i]? with
  | none => simp
  | some b => simpa using hb b (List.getElem?_mem h)

/-- The V1 branch of the size computation: the exact product, which fits in
32 bits. -/
theorem sdcard_size_v1 (data : List Nat) (hlen : data.length = 16) (hb : ∀ b ∈ data, b < 256)
    (hver : csd_bits data 126 127 = 0) (hrbl : 9 ≤ csd_bits data 80 83) :
    sdcard_size_of_csd data =
      (csd_bits data 62 73 + 1) * 2 ^ (csd_bits data 47 49 + 2) * 2 ^ (csd_bits data 80 83 - 9) ∧
    (csd_bits data 62 73 + 1) * 2 ^ (csd_bits data 47 49 + 2) * 2 ^ (csd_bits data 80 83 - 9)
      < 2 ^ 32 := by
  obtain ⟨f0, f1, f2, f3, _⟩ := csd_fields data hlen hb
  have h7 := getD_lt data hb 7
  have h8 := getD_lt data hb 8
  have h10 := getD_lt data hb 10
  rw [f0] at hver
  rw [f3] at hrbl
  have hm : csd_bits data 47 49 < 8 := by rw [f2]; omega
  have hr : csd_bits data 80 83 < 16 := by rw [f3]; omega
  have hc : csd_bits data 62 73 < 4096 := by rw [f1]; omega
  have e5 : data.getD 5 0 &&& 0xf = data.getD 5 0 % 16 := and_mask _ 4
  simp only [sdcard_size_of_csd, hver, if_true]
  rw [v1_c_size _ _ _ h7 h8, v1_c_size_mult _ _ h10, e5, ← f1, ← f2, ← f3]
  simp only [Nat.shiftLeft_eq]
  rw [← f3] at hrbl
  generalize csd_bits data 62 73 = c at *
  generalize csd_bits data 47 49 = m at *
  generalize csd_bits data 80 83 = r at *
  have hr2 : (r + 4294967296 - 9) % 4294967296 = r - 9 := by omega
  rw [hr2]
  interval_cases m <;> interval_cases r <;> constructor <;> omega

/-- The V2 branch of the size computation (taken for every non-zero version
field): the product reduced modulo `2^32`. -/
theorem sdcard_size_v2 (data : List Nat) (hlen : data.length = 16) (hb : ∀ b ∈ data, b < 256)
    (hver : csd_bits data 126 127 ≠ 0) :
    sdcard_size_of_csd data = ((csd_bits data 48 69 + 1) * 1024) % 2 ^ 32 := by
  obtain ⟨f0, _, _, _, f4⟩ := csd_fields data hlen hb
  have h8 := getD_lt data hb 8
  have h9 := getD_lt data hb 9
  rw [f0] at hver
  simp only [sdcard_size_of_csd, hver, if_false]
  rw [v2_c_size _ _ _ h8 h9, ← f4, Nat.shiftLeft_eq]
  norm_num

theorem Ext.refl (s : World) : Ext s s [] :=
  ⟨rfl, rfl, [], by simp, by simp, rfl⟩

theorem Ext.trans {s t u : World} {f g : List Frame} (h1 : Ext s t f) (h2 : Ext t u g) :
    Ext s u (f ++ g) := by
  obtain ⟨c1, k1, e1, t1, x1, r1⟩ := h1
  obtain ⟨c2, k2, e2, t2, x2, r2⟩ := h2
  refine ⟨c2.trans c1, k2.trans k1, e1 ++ e2, ?_, ?_, ?_⟩
  · rw [t2, t1, List.append_assoc]
  · intro e he
    rcases List.mem_append.1 he with h | h
    · exact x1 e h
    · exact x2 e h
  · rw [List.filterMap_append, r1, r2]

theorem Ext.nil_left {s t u : World} {g : List Frame} (h1 : Ext s t []) (h2 : Ext t u g) :
    Ext s u g := by
  simpa using Ext.trans h1 h2

theorem Ext.nil_right {s t u : World} {f : List Frame} (h1 : Ext s t f) (h2 : Ext t u []) :
    Ext s u f := by
  simpa using Ext.trans h1 h2

theorem Ext.of_silent {s t : World} (h1 : t.trace = s.trace) (h2 : t.hspi.CTRL0 = s.hspi.CTRL0)
    (h3 : t.hspi.CLOCK = s.hspi.CLOCK) : Ext s t [] :=
  ⟨h2, h3, [], by simp [h1], by simp, rfl⟩

theorem sent_of_ext {s t : World} {f : List Frame} (h : Ext s t f) : sent t = sent s ++ f := by
  obtain ⟨_, _, e, ht, _, hf⟩ := h
  simp [sent, ht, List.filterMap_append, hf]

theorem Idle.same (s : World) : Idle s s := ⟨Ext.refl s, rfl, rfl, rfl, rfl, rfl⟩

theorem Idle.chain {s t u : World} (h1 : Idle s t) (h2 : Idle t u) : Idle s u :=
  ⟨Ext.nil_left h1.ext h2.ext, h2.cmd.trans h1.cmd, h2.adr.trans h1.adr,
    h2.user2.trans h1.user2, h2.addr.trans h1.addr, h2.abl.trans h1.abl⟩

theorem Quiet.idle {s t u : World} (h1 : Quiet s t) (h2 : Idle t u) : Quiet s u :=
  ⟨Ext.nil_left h1.ext h2.ext, h2.cmd.trans h1.cmd, h2.adr.trans h1.adr,
    h2.user2.trans h1.user2, h2.addr.trans h1.addr, h2.abl.trans h1.abl⟩

theorem Quiet.after {s t u : World} (h1 : Idle s t) (h2 : Quiet t u) : Quiet s u :=
  ⟨Ext.nil_left h1.ext h2.ext, h2.cmd, h2.adr,
    h2.user2.trans h1.user2, h2.addr.trans h1.addr, h2.abl.trans h1.abl⟩

theorem Quiet.append {s t u : World} (h1 : Quiet s t) (h2 : Quiet t u) : Quiet s u :=
  ⟨Ext.nil_left h1.ext h2.ext, h2.cmd, h2.adr,
    h2.user2.trans h1.user2, h2.addr.trans h1.addr, h2.abl.trans h1.abl⟩

theorem idle_wait (s : World) : Idle s (hspi_wait s) :=
  ⟨Ext.of_silent rfl rfl rfl, rfl, rfl, rfl, rfl, rfl⟩

theorem quiet_reset (s : World) : Quiet s (hspi_reset s) :=
  ⟨Ext.of_silent rfl rfl rfl, rfl, rfl, rfl, rfl, rfl⟩

theorem idle_set_pattern (n p : Nat) (s : World) : Idle s (hspi_set_pattern n p s) := by
  unfold hspi_set_pattern hspi_clear_data
  simp only
  split
  · exact ⟨Ext.of_silent rfl rfl rfl, rfl, rfl, rfl, rfl, rfl⟩
  · split
    · exact ⟨Ext.of_silent rfl rfl rfl, rfl, rfl, rfl, rfl, rfl⟩
    · exact Idle.same s

theorem idle_set_data (n : Nat) (d : List Nat) (a : Bool) (s : World) :
    Idle s (hspi_set_data n d a s) := by
  unfold hspi_set_data hspi_clear_data
  simp only
  split
  · exact ⟨Ext.of_silent rfl rfl rfl, rfl, rfl, rfl, rfl, rfl⟩
  · split
    · exact ⟨Ext.of_silent rfl rfl rfl, rfl, rfl, rfl, rfl, rfl⟩
    · exact Idle.same s

theorem idle_config_exec (tx : hspi_tx_t) (s : World) : Idle s (hspi_config_exec tx s) := by
  unfold hspi_config_exec
  simp only
  by_cases h1 : tx.big_endian_output = true <;>
  by_cases h2 : 0 < tx.dummy_cycles ∧ tx.dummy_cycles ≤ 256 <;>
  by_cases h3 : 0 < tx.recv_bits ∧ tx.recv_bits ≤ 512 <;>
  by_cases h4 : tx.big_endian_input = true <;>
  simp only [h1, h2, h3, h4, if_true, if_false] <;>
  exact ⟨Ext.of_silent rfl rfl rfl, rfl, rfl, rfl, rfl, rfl⟩

theorem idle_read (i : Nat) (s : World) : Idle s (hspi_read i s).2 := idle_wait s

theorem idle_get_data (n : Nat) (s : World) : Idle s (hspi_get_data n s).2 := by
  unfold hspi_get_data
  split
  · exact idle_wait s
  · exact Idle.same s

theorem idle_time (start : Nat) (s : World) : Idle s (sdk_system_relative_time start s).2 :=
  ⟨Ext.of_silent rfl rfl rfl, rfl, rfl, rfl, rfl, rfl⟩

theorem idle_expired (d t0 : Nat) (s : World) : Idle s (expired d t0 s).2 := idle_time t0 s

theorem idle_timestamp (s : World) : Idle s (timestamp s).2 := idle_time 0 s

theorem frameOfBytes_short (l : List Nat) (h : l.length < 6) : frameOfBytes l = none := by
  match l, h with
  | [], _ => rfl
  | [_], _ => rfl
  | [_, _], _ => rfl
  | [_, _, _], _ => rfl
  | [_, _, _, _], _ => rfl
  | [_, _, _, _, _], _ => rfl

theorem frame_none_of_no_addr (r : HspiRegs) (g : Nat) (ha : r.USER0.ADDR = false)
    (hl : r.USER0.COMMAND = false ∨ r.USER2.COMMAND_BITLEN < 47) :
    (Event.exec r g).frame = none := by
  show (if r.CTRL0.WR_BIT_ORDER then none else frameOfBytes (cmdWire r ++ addrWire r)) = none
  split
  · rfl
  · apply frameOfBytes_short
    simp only [cmdWire, addrWire, ha]
    rcases hl with hl | hl
    · simp [hl]
    · split <;> first | (simp; done) | (simp; omega)

theorem exec_ext (s : World) :
    Ext s (hspi_exec s) ((Event.exec s.hspi s.gpio_out).frame).toList :=
  ⟨rfl, rfl, [Event.exec s.hspi s.gpio_out], rfl, by simp [Event.isExec], by
    cases h : (Event.exec s.hspi s.gpio_out).frame <;> simp [List.filterMap, h]⟩

theorem exec_ext_no_addr (s : World) (ha : s.hspi.USER0.ADDR = false)
    (hl : s.hspi.USER0.COMMAND = false ∨ s.hspi.USER2.COMMAND_BITLEN < 47) :
    Ext s (hspi_exec s) [] := by
  have h := exec_ext s
  rwa [frame_none_of_no_addr _ _ ha hl] at h

theorem quiet_exec {s t : World} (h : Quiet s t) : Quiet s (hspi_exec t) :=
  ⟨Ext.nil_left h.ext (exec_ext_no_addr t h.adr (Or.inl h.cmd)), h.cmd, h.adr, h.user2, h.addr,
    h.abl⟩

theorem wait_loop_succ (value t0 fuel : Nat) (s : World) :
    wait_until_card_returns_loop value t0 (fuel + 1) s =
      if (hspi_read 0 (hspi_exec s)).1 % 256 ≠ value then
        if !(expired IO_TIMEOUT t0 (hspi_read 0 (hspi_exec s)).2).1 then
          wait_until_card_returns_loop value t0 fuel
            (expired IO_TIMEOUT t0 (hspi_read 0 (hspi_exec s)).2).2
        else some ((hspi_read 0 (hspi_exec s)).1 % 256,
          (expired IO_TIMEOUT t0 (hspi_read 0 (hspi_exec s)).2).2)
      else some ((hspi_read 0 (hspi_exec s)).1 % 256, (hspi_read 0 (hspi_exec s)).2) := rfl

theorem wait_loop_quiet (value t0 : Nat) : ∀ (fuel : Nat) (s0 s : World) (r : Nat) (t : World),
    Quiet s0 s → wait_until_card_returns_loop value t0 fuel s = some (r, t) → Quiet s0 t := by
  intro fuel
  induction fuel with
  | zero => intro s0 s r t _ h; simp [wait_until_card_returns_loop] at h
  | succ n ih =>
    intro s0 s r t hq h
    rw [wait_loop_succ] at h
    have h1 : Quiet s0 (hspi_read 0 (hspi_exec s)).2 := (quiet_exec hq).idle (idle_read _ _)
    have h2 := h1.idle (idle_expired IO_TIMEOUT t0 _)
    split at h
    · split at h
      · exact ih _ _ _ _ h2 h
      · simp only [Option.some.injEq, Prod.mk.injEq] at h
        rw [← h.2]; exact h2
    · simp only [Option.some.injEq, Prod.mk.injEq] at h
      rw [← h.2]; exact h1

/-- The state in which `wait_until_card_returns` and `wait_r1` enter their
loop. -/
theorem quiet_poll_setup (s : World) :
    Quiet s (hspi_config_exec { big_endian_output := true }
      (hspi_set_pattern 8 0xffffffff (hspi_reset s))) :=
  ((quiet_reset s).idle (idle_set_pattern _ _ _)).idle (idle_config_exec _ _)

theorem wait_until_card_returns_quiet (fuel value : Nat) (s : World) (r : Nat) (t : World)
    (h : wait_until_card_returns fuel value s = some (r, t)) : Quiet s t :=
  wait_loop_quiet value _ fuel s _ r t ((quiet_poll_setup s).idle (idle_timestamp _)) h

theorem wait_r1_loop_succ (count : Nat) (s : World) :
    wait_r1_loop (count + 1) s =
      if (hspi_read 0 (hspi_exec s)).1 &&& 0x80 ≠ 0 ∧ count ≠ 0 then
        wait_r1_loop count (hspi_read 0 (hspi_exec s)).2
      else ((hspi_read 0 (hspi_exec s)).1, (hspi_read 0 (hspi_exec s)).2) := rfl

theorem wait_r1_loop_quiet : ∀ (count : Nat) (s0 s : World),
    Quiet s0 s → Quiet s0 (wait_r1_loop count s).2 := by
  intro count
  induction count with
  | zero => intro s0 s hq; exact hq
  | succ n ih =>
    intro s0 s hq
    rw [wait_r1_loop_succ]
    have h1 : Quiet s0 (hspi_read 0 (hspi_exec s)).2 := (quiet_exec hq).idle (idle_read _ _)
    split
    · exact ih _ _ h1
    · exact h1

theorem wait_r1_quiet (s : World) : Quiet s (wait_r1 s).2 :=
  wait_r1_loop_quiet 7 s _ (quiet_poll_setup s)

/-! ### The command frame -/

theorem r1cmd_command_eq (c a : Nat) (hc : c < 64) (ha : a < 2 ^ 32) :
    r1cmd_command c a = 16384 + c * 256 + a / 16777216 := by
  unfold r1cmd_command
  rw [Nat.shiftLeft_eq, Nat.shiftRight_eq_div_pow]
  have e1 : (0x4000 : Nat) = 1 * 2 ^ 14 := by norm_num
  rw [e1, or_mul_pow 1 (c * 2 ^ 8) 14 (by omega)]
  have e2 : 1 * 2 ^ 14 + c * 2 ^ 8 = (64 + c) * 2 ^ 8 := by omega
  rw [e2, or_mul_pow _ _ 8 (by omega)]
  omega

theorem r1cmd_address_eq (a k : Nat) (hk : k < 256) :
    r1cmd_address a k = (a % 16777216) * 256 + k := by
  unfold r1cmd_address
  rw [Nat.shiftLeft_eq]
  have e1 : a * 2 ^ 8 % 4294967296 = (a % 16777216) * 2 ^ 8 := by omega
  rw [e1, or_mul_pow _ _ 8 (by omega)]
  norm_num

theorem bswap16_eq (x : Nat) (hx : x < 65536) : bswap16 x = (x % 256) * 256 + x / 256 := by
  unfold bswap16
  have e1 : x &&& 0xff = x % 256 := and_mask x 8
  have e2 : (x >>> 8) &&& 0xff = (x >>> 8) % 256 := and_mask _ 8
  rw [e1, e2, Nat.shiftLeft_eq, Nat.shiftRight_eq_div_pow]
  rw [or_mul_pow _ _ 8 (by omega)]
  omega

theorem or_0x40 (c : Nat) (hc : c < 64) : 0x40 ||| c = 64 + c := by
  have e1 : (0x40 : Nat) = 1 * 2 ^ 6 := by norm_num
  rw [e1, or_mul_pow 1 c 6 (by omega)]

/-- The registers as `hspi_set_command(16, v)` followed by
`hspi_set_address(32, w)` leave them. -/
theorem command_regs (v w : Nat) (s : World) :
    Ext s (hspi_set_address 32 w (hspi_set_command 16 v s)) [] ∧
    (hspi_set_address 32 w (hspi_set_command 16 v s)).hspi.USER0.COMMAND = true ∧
    (hspi_set_address 32 w (hspi_set_command 16 v s)).hspi.USER0.ADDR = true ∧
    (hspi_set_address 32 w (hspi_set_command 16 v s)).hspi.USER2 =
      { COMMAND_BITLEN := 15,
        COMMAND_VALUE := if s.hspi.CTRL0.WR_BIT_ORDER then v % 65536
                         else bswap16 (v % 65536) } ∧
    (hspi_set_address 32 w (hspi_set_command 16 v s)).hspi.ADDR =
      (if s.hspi.CTRL0.WR_BIT_ORDER then bswap32 (w % 4294967296) else w % 4294967296) ∧
    (hspi_set_address 32 w (hspi_set_command 16 v s)).hspi.USER1.ADDR_BITLEN = 31 := by
  refine ⟨Ext.of_silent ?_ ?_ ?_, ?_, ?_, ?_, ?_, ?_⟩ <;>
    simp [hspi_set_command, hspi_set_address, Nat.mod_mod]
theorem range_two : List.range 2 = [0, 1] := rfl

theorem range_four : List.range 4 = [0, 1, 2, 3] := rfl

/-- The transaction `r1cmd` programs for an MSB-first device reads on the
wire as the frame of its command. -/
theorem frame_of_command (r : HspiRegs) (g c a k : Nat) (hc : c < 64) (ha : a < 2 ^ 32)
    (hk : k < 256) (hm : r.CTRL0.WR_BIT_ORDER = false) (h0 : r.USER0.COMMAND = true)
    (h1 : r.USER0.ADDR = true)
    (h2 : r.USER2 = { COMMAND_BITLEN := 15,
                      COMMAND_VALUE := bswap16 (r1cmd_command c a % 65536) })
    (h3 : r.ADDR = r1cmd_address a k % 4294967296) (h4 : r.USER1.ADDR_BITLEN = 31) :
    (Event.exec r g).frame = some { index := c, arg := a, crc := k } := by
  have e1 := r1cmd_command_eq c a hc ha
  have e2 := r1cmd_address_eq a k hk
  have e3 : r1cmd_command c a % 65536 = r1cmd_command c a := Nat.mod_eq_of_lt (by omega)
  have e4 := bswap16_eq (r1cmd_command c a) (by omega)
  have e5 : r1cmd_address a k % 4294967296 = r1cmd_address a k := Nat.mod_eq_of_lt (by omega)
  simp only [Event.frame, hm, cmdWire, addrWire, h0, h1, h2, h3, h4, e3, e5, if_true,
    Bool.false_eq_true, if_false, range_two, range_four, List.map, List.cons_append,
    List.nil_append, frameOfBytes, e4]
  rw [e1, e2]
  clear e1 e2 e3 e4 e5 h2 h3
  simp only [Nat.reduceSub, Nat.reducePow, Nat.pow_zero, Nat.pow_one, Nat.div_one]
  have hx : a / 16777216 < 256 := by omega
  have m1 : (16384 + c * 256 + a / 16777216) % 256 = a / 16777216 := by omega
  have m2 : (16384 + c * 256 + a / 16777216) / 256 = 64 + c := by omega
  rw [m1, m2]
  have b0 : (a / 16777216 * 256 + (64 + c)) % 256 = 64 + c := by omega
  have b1 : (a / 16777216 * 256 + (64 + c)) / 256 % 256 = a / 16777216 := by omega
  rw [b0, b1]
  have q : (64 + c) / 64 = 1 := by omega
  simp only [q, if_true, Option.some.injEq, Frame.mk.injEq]
  refine ⟨by omega, by omega, by omega⟩

theorem r1cmd_send_eq (c a k : Nat) (s : World) :
    r1cmd_send c a k s =
      if (hspi_read 0 (r1cmd_xfer c a k s)).1 &&& 0x80 ≠ 0 then
        if ((hspi_read 0 (r1cmd_xfer c a k s)).1 >>> 8) &&& 0x80 ≠ 0 then
          wait_r1 (hspi_read 0 (r1cmd_xfer c a k s)).2
        else ((hspi_read 0 (r1cmd_xfer c a k s)).1 >>> 8 % 256, (hspi_read 0 (r1cmd_xfer c a k s)).2)
      else ((hspi_read 0 (r1cmd_xfer c a k s)).1 % 256, (hspi_read 0 (r1cmd_xfer c a k s)).2) := rfl

/-- The registers at the moment the command transaction of `r1cmd_send`
starts, and the log up to it. -/
theorem r1cmd_program (c a k : Nat) (s : World) :
    Ext s (hspi_config_exec {} (hspi_set_pattern 16 0xffff
      (hspi_set_address 32 (r1cmd_address a k) (hspi_set_command 16 (r1cmd_command c a) s)))) [] ∧
    (hspi_config_exec {} (hspi_set_pattern 16 0xffff
      (hspi_set_address 32 (r1cmd_address a k)
        (hspi_set_command 16 (r1cmd_command c a) s)))).hspi.USER0.COMMAND = true ∧
    (hspi_config_exec {} (hspi_set_pattern 16 0xffff
      (hspi_set_address 32 (r1cmd_address a k)
        (hspi_set_command 16 (r1cmd_command c a) s)))).hspi.USER0.ADDR = true ∧
    (hspi_config_exec {} (hspi_set_pattern 16 0xffff
      (hspi_set_address 32 (r1cmd_address a k)
        (hspi_set_command 16 (r1cmd_command c a) s)))).hspi.USER2 =
      { COMMAND_BITLEN := 15,
        COMMAND_VALUE := if s.hspi.CTRL0.WR_BIT_ORDER then r1cmd_command c a % 65536
                         else bswap16 (r1cmd_command c a % 65536) } ∧
    (hspi_config_exec {} (hspi_set_pattern 16 0xffff
      (hspi_set_address 32 (r1cmd_address a k)
        (hspi_set_command 16 (r1cmd_command c a) s)))).hspi.ADDR =
      (if s.hspi.CTRL0.WR_BIT_ORDER then bswap32 (r1cmd_address a k % 4294967296)
       else r1cmd_address a k % 4294967296) ∧
    (hspi_config_exec {} (hspi_set_pattern 16 0xffff
      (hspi_set_address 32 (r1cmd_address a k)
        (hspi_set_command 16 (r1cmd_command c a) s)))).hspi.USER1.ADDR_BITLEN = 31 := by
  obtain ⟨x0, x1, x2, x3, x4, x5⟩ := command_regs (r1cmd_command c a) (r1cmd_address a k) s
  have i1 := (idle_set_pattern 16 0xffff (hspi_set_address 32 (r1cmd_address a k)
      (hspi_set_command 16 (r1cmd_command c a) s))).chain (idle_config_exec {} _)
  exact ⟨Ext.nil_left x0 i1.ext, i1.cmd.trans x1, i1.adr.trans x2, i1.user2.trans x3,
    i1.addr.trans x4, i1.abl.trans x5⟩

/-- The command transaction of `r1cmd_send`: for an MSB-first device exactly
one command frame goes out. -/
theorem r1cmd_xfer_ext (c a k : Nat) (s : World) (hc : c < 64) (ha : a < 2 ^ 32) (hk : k < 256)
    (hm : s.hspi.CTRL0.WR_BIT_ORDER = false) :
    Ext s (hspi_read 0 (r1cmd_xfer c a k s)).2 [{ index := c, arg := a, crc := k }] := by
  obtain ⟨x0, x1, x2, x3, x4, x5⟩ := r1cmd_program c a k s
  have hx := exec_ext (hspi_config_exec {} (hspi_set_pattern 16 0xffff
      (hspi_set_address 32 (r1cmd_address a k) (hspi_set_command 16 (r1cmd_command c a) s))))
  rw [frame_of_command _ _ c a k hc ha hk (by rw [x0.ctrl0, hm]) x1 x2 (by rw [x3, hm]; rfl)
    (by rw [x4, hm]; rfl) x5] at hx
  exact Ext.nil_right (Ext.nil_left x0 hx) (idle_read 0 _).ext

/-- The polls of `r1cmd_send` after its command transaction send nothing and
keep the command and address registers. -/
theorem r1cmd_send_tail (c a k : Nat) (s : World) :
    Ext (hspi_read 0 (r1cmd_xfer c a k s)).2 (r1cmd_send c a k s).2 [] ∧
    (r1cmd_send c a k s).2.hspi.USER2 = (hspi_read 0 (r1cmd_xfer c a k s)).2.hspi.USER2 ∧
    (r1cmd_send c a k s).2.hspi.ADDR = (hspi_read 0 (r1cmd_xfer c a k s)).2.hspi.ADDR ∧
    (r1cmd_send c a k s).2.hspi.USER1.ADDR_BITLEN =
      (hspi_read 0 (r1cmd_xfer c a k s)).2.hspi.USER1.ADDR_BITLEN := by
  rw [r1cmd_send_eq]
  split
  · split
    · have q := wait_r1_quiet (hspi_read 0 (r1cmd_xfer c a k s)).2
      exact ⟨q.ext, q.user2, q.addr, q.abl⟩
    · exact ⟨Ext.refl _, rfl, rfl, rfl⟩
  · exact ⟨Ext.refl _, rfl, rfl, rfl⟩

theorem r1cmd_send_ext (c a k : Nat) (s : World) (hc : c < 64) (ha : a < 2 ^ 32) (hk : k < 256)
    (hm : s.hspi.CTRL0.WR_BIT_ORDER = false) :
    Ext s (r1cmd_send c a k s).2 [{ index := c, arg := a, crc := k }] :=
  Ext.nil_right (r1cmd_xfer_ext c a k s hc ha hk hm) (r1cmd_send_tail c a k s).1

/-- The command and address registers as `r1cmd_send` leaves them, for either
bit order. -/
theorem r1cmd_send_regs (c a k : Nat) (s : World) :
    (r1cmd_send c a k s).2.hspi.USER2 =
      { COMMAND_BITLEN := 15,
        COMMAND_VALUE := if s.hspi.CTRL0.WR_BIT_ORDER then r1cmd_command c a % 65536
                         else bswap16 (r1cmd_command c a % 65536) } ∧
    (r1cmd_send c a k s).2.hspi.ADDR =
      (if s.hspi.CTRL0.WR_BIT_ORDER then bswap32 (r1cmd_address a k % 4294967296)
       else r1cmd_address a k % 4294967296) ∧
    (r1cmd_send c a k s).2.hspi.USER1.ADDR_BITLEN = 31 := by
  obtain ⟨_, _, _, x3, x4, x5⟩ := r1cmd_program c a k s
  obtain ⟨_, y2, y3, y4⟩ := r1cmd_send_tail c a k s
  exact ⟨y2.trans x3, y3.trans x4, y4.trans x5⟩

theorem r1cmd_ext (fuel c a k : Nat) (s : World) (r : Nat) (t : World) (hc : c < 64)
    (ha : a < 2 ^ 32) (hk : k < 256) (hm : s.hspi.CTRL0.WR_BIT_ORDER = false)
    (h : r1cmd fuel c a k s = some (r, t)) :
    (Ext s t [] ∧ r = 0x80) ∨ Ext s t [{ index := c, arg := a, crc := k }] := by
  unfold r1cmd at h
  cases hw : wait_until_card_not_busy fuel s with
  | none => simp [hw] at h
  | some p =>
    obtain ⟨busy, s1⟩ := p
    have q := wait_until_card_returns_quiet fuel 0xff s busy s1 hw
    simp only [hw] at h
    split at h
    · simp only [Option.some.injEq, Prod.mk.injEq] at h
      left; rw [← h.2, ← h.1]; exact ⟨q.ext, rfl⟩
    · simp only [Option.some.injEq] at h
      right
      have := r1cmd_send_ext c a k s1 hc ha hk (by rw [q.ext.ctrl0, hm])
      rw [h] at this
      exact Ext.nil_left q.ext this

/-- The frames `r1cmd` can have sent: none or its own. -/
theorem r1cmd_frames (fuel c a k : Nat) (s : World) (r : Nat) (t : World) (hc : c < 64)
    (ha : a < 2 ^ 32) (hk : k < 256) (hm : s.hspi.CTRL0.WR_BIT_ORDER = false)
    (h : r1cmd fuel c a k s = some (r, t)) :
    ∃ fr, Ext s t fr ∧ (fr = [] ∨ fr = [{ index := c, arg := a, crc := k }]) := by
  rcases r1cmd_ext fuel c a k s r t hc ha hk hm h with h1 | h1
  · exact ⟨[], h1.1, Or.inl rfl⟩
  · exact ⟨_, h1, Or.inr rfl⟩

theorem r3cmd_eq (fuel c a k d : Nat) (s : World) :
    r3cmd fuel c a k d s =
      match r1cmd fuel c a k s with
      | none => none
      | some (resp, s) =>
        if resp &&& 0xfe = 0 then
          some (resp,
            (hspi_read 0 (hspi_exec (hspi_config_exec
              { big_endian_output := true, big_endian_input := true }
              (hspi_set_pattern 32 0xffffffff (hspi_reset s))))).1,
            (hspi_read 0 (hspi_exec (hspi_config_exec
              { big_endian_output := true, big_endian_input := true }
              (hspi_set_pattern 32 0xffffffff (hspi_reset s))))).2)
        else some (resp, d, s) := rfl

theorem r3cmd_tail_quiet (s : World) :
    Quiet s (hspi_read 0 (hspi_exec (hspi_config_exec
      { big_endian_output := true, big_endian_input := true }
      (hspi_set_pattern 32 0xffffffff (hspi_reset s))))).2 :=
  (quiet_exec (((quiet_reset s).idle (idle_set_pattern _ _ _)).idle
    (idle_config_exec _ _))).idle (idle_read _ _)

theorem r3cmd_ext (fuel c a k d : Nat) (s : World) (r d1 : Nat) (t : World) (hc : c < 64)
    (ha : a < 2 ^ 32) (hk : k < 256) (hm : s.hspi.CTRL0.WR_BIT_ORDER = false)
    (h : r3cmd fuel c a k d s = some (r, d1, t)) :
    (Ext s t [] ∧ r = 0x80) ∨ Ext s t [{ index := c, arg := a, crc := k }] := by
  rw [r3cmd_eq] at h
  cases h1 : r1cmd fuel c a k s with
  | none => simp [h1] at h
  | some p =>
    obtain ⟨resp, s1⟩ := p
    simp only [h1] at h
    have e := r1cmd_ext fuel c a k s resp s1 hc ha hk hm h1
    split at h
    · simp only [Option.some.injEq, Prod.mk.injEq] at h
      obtain ⟨rfl, -, rfl⟩ := h
      rcases e with e | e
      · exact Or.inl ⟨Ext.nil_left e.1 (r3cmd_tail_quiet s1).ext, e.2⟩
      · exact Or.inr (Ext.nil_right e (r3cmd_tail_quiet s1).ext)
    · simp only [Option.some.injEq, Prod.mk.injEq] at h
      obtain ⟨rfl, -, rfl⟩ := h
      exact e

theorem acmd_ext (fuel c a k : Nat) (s : World) (r : Nat) (t : World) (hc : c < 64)
    (ha : a < 2 ^ 32) (hk : k < 256) (hm : s.hspi.CTRL0.WR_BIT_ORDER = false)
    (h : acmd fuel c a k s = some (r, t)) :
    ∃ fr, Ext s t fr ∧
      (fr = [] ∨ fr = [CMD55] ∨ fr = [CMD55, { index := c, arg := a, crc := k }]) := by
  unfold acmd at h
  cases h1 : r1cmd fuel 55 0 0x65 s with
  | none => simp [h1] at h
  | some p =>
    obtain ⟨resp, s1⟩ := p
    simp only [h1] at h
    have e := r1cmd_ext fuel 55 0 0x65 s resp s1 (by omega) (by norm_num) (by omega) hm h1
    split at h
    · rcases e with e | e
      · obtain ⟨_, rfl⟩ := e
        rename_i hh
        exact absurd hh (by decide)
      · have hm1 : s1.hspi.CTRL0.WR_BIT_ORDER = false := by rw [e.ctrl0, hm]
        rcases r1cmd_ext fuel c a k s1 r t hc ha hk hm1 h with e2 | e2
        · exact ⟨_, Ext.nil_right e e2.1, Or.inr (Or.inl rfl)⟩
        · exact ⟨_, Ext.trans e e2, Or.inr (Or.inr rfl)⟩
    · simp only [Option.some.injEq, Prod.mk.injEq] at h
      obtain ⟨rfl, rfl⟩ := h
      rcases e with e | e
      · exact ⟨_, e.1, Or.inl rfl⟩
      · exact ⟨_, e, Or.inr (Or.inl rfl)⟩

theorem read_data_loop_succ (n size : Nat) (buf : List Nat) (pos : Nat) (s : World) :
    read_data_loop (n + 1) size buf pos s =
      if size ≠ 0 then
        read_data_loop n (size - (if size < 64 then size else 64))
          (blit buf pos (hspi_get_data (if size < 64 then size else 64)
            (hspi_exec (hspi_set_pattern ((if size < 64 then size else 64) * 8) 0xffffffff s))).1)
          (pos + (if size < 64 then size else 64))
          (hspi_get_data (if size < 64 then size else 64)
            (hspi_exec (hspi_set_pattern ((if size < 64 then size else 64) * 8) 0xffffffff s))).2
      else (buf, s) := rfl

theorem read_data_loop_quiet : ∀ (n size : Nat) (buf : List Nat) (pos : Nat) (s0 s : World),
    Quiet s0 s → Quiet s0 (read_data_loop n size buf pos s).2 := by
  intro n
  induction n with
  | zero => intro size buf pos s0 s hq; exact hq
  | succ n ih =>
    intro size buf pos s0 s hq
    rw [read_data_loop_succ]
    split
    · exact ih _ _ _ _ _ ((quiet_exec (hq.idle (idle_set_pattern _ _ _))).idle (idle_get_data _ _))
    · exact hq

theorem read_data_eq (fuel size : Nat) (buf : List Nat) (pos : Nat) (s : World) :
    read_data fuel size buf pos s =
      match wait_until_card_returns fuel 0xfe s with
      | none => none
      | some (tok, s) =>
        if tok ≠ 0xfe then some (SDCARD_ERROR_TIMEOUT, buf, s)
        else some (SDCARD_SUCCESS, (read_data_loop size size buf pos (hspi_reset s)).1,
          hspi_exec (hspi_config_exec { big_endian_input := true }
            (hspi_set_pattern 16 0xffff (read_data_loop size size buf pos (hspi_reset s)).2))) :=
  rfl

theorem read_data_quiet (fuel size : Nat) (buf : List Nat) (pos : Nat) (s : World)
    (r : sdcard_result_t) (b : List Nat) (t : World)
    (h : read_data fuel size buf pos s = some (r, b, t)) : Quiet s t := by
  rw [read_data_eq] at h
  cases hw : wait_until_card_returns fuel 0xfe s with
  | none => simp [hw] at h
  | some p =>
    obtain ⟨tok, s1⟩ := p
    have q := wait_until_card_returns_quiet fuel 0xfe s tok s1 hw
    simp only [hw] at h
    split at h
    · simp only [Option.some.injEq, Prod.mk.injEq] at h
      rw [← h.2.2]; exact q
    · simp only [Option.some.injEq, Prod.mk.injEq] at h
      rw [← h.2.2]
      have q2 := read_data_loop_quiet size size buf pos s (hspi_reset s1) (q.append (quiet_reset s1))
      exact quiet_exec ((q2.idle (idle_set_pattern _ _ _)).idle (idle_config_exec _ _))

theorem sdcard_read_loop_quiet (fuel : Nat) : ∀ (n : Nat) (err : sdcard_result_t)
    (buf : List Nat) (pos : Nat) (s0 s : World) (r : sdcard_result_t) (b : List Nat) (t : World),
    Ext s0 s [] → sdcard_read_loop fuel n err buf pos s = some (r, b, t) → Ext s0 t [] := by
  intro n
  induction n with
  | zero =>
    intro err buf pos s0 s r b t hq h
    simp only [sdcard_read_loop, Option.some.injEq, Prod.mk.injEq] at h
    rw [← h.2.2]; exact hq
  | succ n ih =>
    intro err buf pos s0 s r b t hq h
    simp only [sdcard_read_loop] at h
    split at h
    · cases hr : read_data fuel 512 buf pos s with
      | none => simp [hr] at h
      | some p =>
        obtain ⟨e1, b1, s1⟩ := p
        simp only [hr] at h
        exact ih _ _ _ _ _ _ _ _ (Ext.nil_left hq (read_data_quiet _ _ _ _ _ _ _ _ hr).ext) h
    · simp only [Option.some.injEq, Prod.mk.injEq] at h
      rw [← h.2.2]; exact hq

theorem write_block_loop_quiet (mem : List Nat) (al : Bool) (e : Nat) : ∀ (n pos : Nat)
    (s0 s : World), Quiet s0 s → Quiet s0 (write_block_loop mem al e n pos s) := by
  intro n
  induction n with
  | zero => intro pos s0 s hq; exact hq
  | succ n ih =>
    intro pos s0 s hq
    simp only [write_block_loop]
    split
    · exact ih _ _ _ ((quiet_exec (hq.idle (idle_set_data _ _ _ _))).idle (idle_wait _))
    · exact hq

/-- `hspi_set_command` with a length of 8 or 16 bits keeps the address phase
as it is and leaves a command of at most 16 bits. -/
theorem set_command_short (n v : Nat) (s : World) (hn : n ≤ 16) :
    Ext s (hspi_set_command n v s) [] ∧
    (hspi_set_command n v s).hspi.USER0.ADDR = s.hspi.USER0.ADDR ∧
    ((hspi_set_command n v s).hspi.USER0.COMMAND = false ∨
      (hspi_set_command n v s).hspi.USER2.COMMAND_BITLEN < 47) := by
  unfold hspi_set_command hspi_clear_command
  by_cases h0 : n = 0
  · rw [if_pos h0]
    exact ⟨Ext.of_silent rfl rfl rfl, rfl, Or.inl rfl⟩
  · rw [if_neg h0, if_pos hn]
    refine ⟨Ext.of_silent rfl rfl rfl, rfl, Or.inr ?_⟩
    show n - 1 < 47
    omega

theorem write_block_ext (tok : Nat) (mem : List Nat) (al : Bool) (s : World) :
    Ext s (write_block tok mem al s).2 [] := by
  have q0 := quiet_reset s
  obtain ⟨c1, c2, c3⟩ := set_command_short 8 tok (hspi_reset s) (by omega)
  have d1 := idle_set_data (64 * 8) mem al (hspi_set_command 8 tok (hspi_reset s))
  have hx1 := exec_ext_no_addr (hspi_set_data (64 * 8) mem al (hspi_set_command 8 tok (hspi_reset s)))
    (by rw [d1.adr, c2, q0.adr]) (by
      rcases c3 with c3 | c3
      · left; rw [d1.cmd, c3]
      · right; rw [d1.user2]; exact c3)
  have e1 : Ext s (hspi_exec (hspi_set_data (64 * 8) mem al
      (hspi_set_command 8 tok (hspi_reset s)))) [] :=
    Ext.nil_left (Ext.nil_left (Ext.nil_left q0.ext c1) d1.ext) hx1
  have q1 := quiet_reset (hspi_exec (hspi_set_data (64 * 8) mem al
      (hspi_set_command 8 tok (hspi_reset s))))
  have q2 := write_block_loop_quiet mem al 512 8 64 _ _ q1
  obtain ⟨f1, f2, f3⟩ := set_command_short 16 0xffff (write_block_loop mem al 512 8 64 (hspi_reset (hspi_exec
    (hspi_set_data (64 * 8) mem al (hspi_set_command 8 tok (hspi_reset s)))))) (by omega)
  have p1 := idle_set_pattern 8 0xff (hspi_set_command 16 0xffff
    (write_block_loop mem al 512 8 64 (hspi_reset (hspi_exec (hspi_set_data (64 * 8)
      mem al (hspi_set_command 8 tok (hspi_reset s)))))))
  have hx2 := exec_ext_no_addr _ (by rw [p1.adr, f2, q2.adr]) (by
      rcases f3 with f3 | f3
      · left; rw [p1.cmd, f3]
      · right; rw [p1.user2]; exact f3)
  exact Ext.nil_left e1 (Ext.nil_left q2.ext (Ext.nil_left f1 (Ext.nil_left p1.ext
    (Ext.nil_left hx2 (idle_read 0 _).ext))))

theorem end_transmission_ext (fuel : Nat) (s : World) (r : sdcard_result_t) (t : World)
    (h : end_transmission fuel s = some (r, t)) : Ext s t [] := by
  unfold end_transmission at h
  cases hw : wait_until_card_not_busy fuel s with
  | none => simp [hw] at h
  | some p =>
    obtain ⟨busy, s1⟩ := p
    have q := wait_until_card_returns_quiet fuel 0xff s busy s1 hw
    simp only [hw] at h
    split at h
    · simp only [Option.some.injEq, Prod.mk.injEq] at h
      rw [← h.2]; exact q.ext
    · simp only [Option.some.injEq, Prod.mk.injEq] at h
      rw [← h.2]
      exact ((quiet_exec ((q.append (quiet_reset s1)).idle (idle_set_pattern _ _ _))).idle
        (idle_wait _)).ext

theorem sdcard_write_loop_ext (fuel : Nat) (mem : List Nat) (al : Bool) : ∀ (n : Nat)
    (err : sdcard_result_t) (pos : Nat) (s0 s : World) (r : sdcard_result_t) (j : Bool)
    (t : World), Ext s0 s [] → sdcard_write_loop fuel mem al n err pos s = some (r, j, t) →
    Ext s0 t [] := by
  intro n
  induction n with
  | zero =>
    intro err pos s0 s r j t hq h
    simp only [sdcard_write_loop, Option.some.injEq, Prod.mk.injEq] at h
    rw [← h.2.2]; exact hq
  | succ n ih =>
    intro err pos s0 s r j t hq h
    simp only [sdcard_write_loop] at h
    split at h
    · cases hw : wait_until_card_not_busy fuel s with
      | none => simp [hw] at h
      | some p =>
        obtain ⟨busy, s1⟩ := p
        have q := wait_until_card_returns_quiet fuel 0xff s busy s1 hw
        simp only [hw] at h
        split at h
        · simp only [Option.some.injEq, Prod.mk.injEq] at h
          rw [← h.2.2]; exact Ext.nil_left hq q.ext
        · exact ih _ _ _ _ _ _ _ (Ext.nil_left hq (Ext.nil_left q.ext (write_block_ext _ _ _ _))) h
    · simp only [Option.some.injEq, Prod.mk.injEq] at h
      rw [← h.2.2]; exact hq

theorem select_trace (card : sdcard_t) (s : World) :
    (hspi_select card s).trace = s.trace ++ [Event.select card] := by
  unfold hspi_select hspi_set_clock gpio_enable_cs0_output
  cases s.demux_gpio_pins <;> simp only [] <;> (repeat' split) <;> rfl

theorem select_bit_order (card : sdcard_t) (s : World) :
    (hspi_select card s).hspi.CTRL0.WR_BIT_ORDER = !card.is_msb := by
  unfold hspi_select
  cases card.is_msb <;> simp

theorem select_user0 (card : sdcard_t) (s : World) :
    (hspi_select card s).hspi.USER0.COMMAND = false ∧
    (hspi_select card s).hspi.USER0.ADDR = false := by
  unfold hspi_select
  cases card.is_msb <;> simp

theorem set_clock_facts (c : ClockReg) (s : World) :
    (hspi_set_clock c s).trace = s.trace ∧
    (hspi_set_clock c s).hspi.CTRL0 = s.hspi.CTRL0 ∧
    (hspi_set_clock c s).hspi.USER0 = s.hspi.USER0 ∧
    (hspi_set_clock c s).hspi.CLOCK = clock_written c := by
  unfold hspi_set_clock clock_written
  split <;> exact ⟨rfl, rfl, rfl, rfl⟩

theorem clock_written_idem (c : ClockReg) : clock_written (clock_written c) = clock_written c := by
  unfold clock_written
  split
  · rfl
  · rename_i h; simp [h]

theorem select_clock (card : sdcard_t) (s : World) :
    (hspi_select card s).hspi.CLOCK = clock_written card.clock := by
  unfold hspi_select hspi_set_clock clock_written gpio_enable_cs0_output
  cases s.demux_gpio_pins <;> simp only [] <;> (repeat' split) <;> rfl

theorem set_pattern_trace (n p : Nat) (s : World) :
    (hspi_set_pattern n p s).trace = s.trace := by
  unfold hspi_set_pattern hspi_clear_data
  simp only
  split
  · rfl
  · split <;> rfl

/-- The world and the log as `sdcard_init` has them when it sends its first
command. -/
theorem init_enter_facts (card : sdcard_t) (s : World) :
    (∃ r g, (sdcard_init_enter card s).trace =
        s.trace ++ [Event.select card, Event.cs_high, Event.exec r g, Event.cs_low] ∧
      (Event.exec r g).frame = none) ∧
    (sdcard_init_enter card s).hspi.CTRL0.WR_BIT_ORDER = !card.is_msb := by
  have c1 := set_clock_facts (HSPI_CLOCK 5 40) (hspi_select card s)
  have i1 := idle_set_pattern 80 0xffffffff
    (hspi_reset (set_cs_high (hspi_set_clock (HSPI_CLOCK 5 40) (hspi_select card s))))
  refine ⟨⟨_, _, ?_, frame_none_of_no_addr
    (hspi_set_pattern 80 0xffffffff
      (hspi_reset (set_cs_high (hspi_set_clock (HSPI_CLOCK 5 40) (hspi_select card s))))).hspi
    (hspi_set_pattern 80 0xffffffff
      (hspi_reset (set_cs_high (hspi_set_clock (HSPI_CLOCK 5 40) (hspi_select card s))))).gpio_out
    (i1.adr.trans rfl) (Or.inl (i1.cmd.trans rfl))⟩, ?_⟩
  · show (hspi_set_pattern 80 0xffffffff
      (hspi_reset (set_cs_high (hspi_set_clock (HSPI_CLOCK 5 40) (hspi_select card s))))).trace ++
        [Event.exec _ _] ++ [Event.cs_low] = _
    rw [set_pattern_trace]
    show (hspi_set_clock (HSPI_CLOCK 5 40) (hspi_select card s)).trace ++ [Event.cs_high] ++
      [Event.exec _ _] ++ [Event.cs_low] = _
    rw [c1.1, select_trace]
    simp
  · show (hspi_set_pattern 80 0xffffffff
      (hspi_reset (set_cs_high (hspi_set_clock (HSPI_CLOCK 5 40)
        (hspi_select card s))))).hspi.CTRL0.WR_BIT_ORDER = _
    rw [i1.ext.ctrl0]
    show (hspi_set_clock (HSPI_CLOCK 5 40) (hspi_select card s)).hspi.CTRL0.WR_BIT_ORDER = _
    rw [c1.2.1, select_bit_order]

/-- The world in which `sdcard_read`, `sdcard_read_register`, `sdcard_write`
and `sdcard_erase` send their first command. -/
theorem op_enter_facts (card : sdcard_t) (s : World) :
    (set_cs_low (hspi_select card s)).trace = s.trace ++ [Event.select card, Event.cs_low] ∧
    (set_cs_low (hspi_select card s)).hspi.CTRL0.WR_BIT_ORDER = !card.is_msb := by
  refine ⟨?_, select_bit_order card s⟩
  show (hspi_select card s).trace ++ [Event.cs_low] = _
  rw [select_trace]; simp

theorem isExec_not_bus (e : Event) (h : e.isExec = true) :
    e ≠ Event.release ∧ ∀ d, e ≠ Event.select d := by
  cases e <;> simp_all [Event.isExec]

/-- An operation that entered with select and chip select low, ran
transactions only and left through `done:` is a session. -/
theorem session_of_ext (card : sdcard_t) (s u : World) (fr : List Frame)
    (h : Ext (set_cs_low (hspi_select card s)) u fr) : Session card s (sdcard_done u) fr := by
  obtain ⟨_, _, evs, ht, hx, hf⟩ := h
  refine ⟨Event.cs_low :: evs, ?_, ?_, ?_⟩
  · show u.trace ++ [Event.cs_high] ++ [Event.release] = _
    rw [ht, (op_enter_facts card s).1]
    simp
  · intro e he
    rcases List.mem_cons.1 he with rfl | he
    · simp
    · exact isExec_not_bus e (hx e he)
  · rw [List.filterMap_cons_none (rfl : Event.frame Event.cs_low = none)]
    exact hf

theorem InitExit.prepend {orig : ClockReg} {s u t : World} {f g : List Frame} (h1 : Ext s u f)
    (h2 : InitExit orig u t g) : InitExit orig s t (f ++ g) := by
  obtain ⟨v, hv, rfl⟩ := h2
  exact ⟨v, Ext.trans h1 hv, rfl⟩

theorem initExit_done (orig : ClockReg) (err : sdcard_result_t) (card : sdcard_t) (s : World) :
    InitExit orig s (sdcard_init_done orig err card s).2.2 [] :=
  ⟨s, Ext.refl s, rfl⟩

/-- An initialization that left through `done:` is a session, and the clock
register holds the value written back. -/
theorem session_of_initExit (card : sdcard_t) (s t : World) (orig : ClockReg) (fr : List Frame)
    (h : InitExit orig (sdcard_init_enter card s) t fr) :
    Session card s t fr ∧ t.hspi.CLOCK = clock_written orig := by
  obtain ⟨u, ⟨_, _, evs, ht, hx, hf⟩, rfl⟩ := h
  obtain ⟨⟨r, g, he, hn⟩, _⟩ := init_enter_facts card s
  have c1 := set_clock_facts orig u
  refine ⟨⟨Event.cs_high :: Event.exec r g :: Event.cs_low :: evs, ?_, ?_, ?_⟩, ?_⟩
  · show (hspi_set_clock orig u).trace ++ [Event.cs_high] ++ [Event.release] = _
    rw [c1.1, ht, he]
    simp
  · intro e he
    simp only [List.mem_cons] at he
    rcases he with rfl | rfl | rfl | he
    · simp
    · simp
    · simp
    · exact isExec_not_bus e (hx e he)
  · rw [List.filterMap_cons_none (rfl : Event.frame Event.cs_high = none),
      List.filterMap_cons_none hn,
      List.filterMap_cons_none (rfl : Event.frame Event.cs_low = none)]
    exact hf
  · show (hspi_set_clock orig u).hspi.CLOCK = _
    exact c1.2.2.2

theorem r1cmd_send_any (c a k : Nat) (s : World) : ∃ fr, Ext s (r1cmd_send c a k s).2 fr := by
  obtain ⟨x0, _⟩ := r1cmd_program c a k s
  exact ⟨_, Ext.nil_right (Ext.nil_right (Ext.nil_left x0 (exec_ext _)) (idle_read 0 _).ext)
    (r1cmd_send_tail c a k s).1⟩

theorem r1cmd_any (fuel c a k : Nat) (s : World) (r : Nat) (t : World)
    (h : r1cmd fuel c a k s = some (r, t)) : ∃ fr, Ext s t fr := by
  unfold r1cmd at h
  cases hw : wait_until_card_not_busy fuel s with
  | none => simp [hw] at h
  | some p =>
    obtain ⟨busy, s1⟩ := p
    have q := wait_until_card_returns_quiet fuel 0xff s busy s1 hw
    simp only [hw] at h
    split at h
    · simp only [Option.some.injEq, Prod.mk.injEq] at h
      rw [← h.2]; exact ⟨_, q.ext⟩
    · simp only [Option.some.injEq] at h
      obtain ⟨fr, e⟩ := r1cmd_send_any c a k s1
      rw [h] at e
      exact ⟨_, Ext.nil_left q.ext e⟩

theorem r3cmd_any (fuel c a k d : Nat) (s : World) (r d1 : Nat) (t : World)
    (h : r3cmd fuel c a k d s = some (r, d1, t)) : ∃ fr, Ext s t fr := by
  rw [r3cmd_eq] at h
  cases h1 : r1cmd fuel c a k s with
  | none => simp [h1] at h
  | some p =>
    obtain ⟨resp, s1⟩ := p
    simp only [h1] at h
    obtain ⟨fr, e⟩ := r1cmd_any fuel c a k s resp s1 h1
    split at h
    · simp only [Option.some.injEq, Prod.mk.injEq] at h
      obtain ⟨-, -, rfl⟩ := h
      exact ⟨_, Ext.nil_right e (r3cmd_tail_quiet s1).ext⟩
    · simp only [Option.some.injEq, Prod.mk.injEq] at h
      obtain ⟨-, -, rfl⟩ := h
      exact ⟨_, e⟩

theorem acmd_any (fuel c a k : Nat) (s : World) (r : Nat) (t : World)
    (h : acmd fuel c a k s = some (r, t)) : ∃ fr, Ext s t fr := by
  unfold acmd at h
  cases h1 : r1cmd fuel 55 0 0x65 s with
  | none => simp [h1] at h
  | some p =>
    obtain ⟨resp, s1⟩ := p
    simp only [h1] at h
    obtain ⟨fr, e⟩ := r1cmd_any fuel 55 0 0x65 s resp s1 h1
    split at h
    · obtain ⟨fr2, e2⟩ := r1cmd_any fuel c a k s1 r t h
      exact ⟨_, Ext.trans e e2⟩
    · simp only [Option.some.injEq, Prod.mk.injEq] at h
      obtain ⟨-, rfl⟩ := h
      exact ⟨_, e⟩

theorem card_init_any (p : sdcard_init_proc_t) (fuel : Nat) (s : World) (r : Nat) (t : World)
    (h : p.call fuel s = some (r, t)) : ∃ fr, Ext s t fr := by
  cases p
  · exact r1cmd_any fuel 1 0 0xf9 s r t h
  · exact acmd_any fuel 41 0 0xe5 s r t h
  · exact acmd_any fuel 41 (BIT 30) 0x77 s r t h

theorem init_loop_succ (ci : sdcard_init_proc_t) (fuel t0 n resp : Nat) (s : World) :
    sdcard_init_loop ci fuel t0 (n + 1) resp s =
      if resp = 0x01 then
        if (expired INIT_TIMEOUT t0 s).1 then some (none, (expired INIT_TIMEOUT t0 s).2)
        else
          match ci.call fuel (expired INIT_TIMEOUT t0 s).2 with
          | none => none
          | some (resp, s) => sdcard_init_loop ci fuel t0 n resp s
      else some (some resp, s) := rfl

theorem init_loop_any (ci : sdcard_init_proc_t) (fuel t0 : Nat) : ∀ (n resp : Nat) (s : World)
    (out : Option Nat) (t : World),
    sdcard_init_loop ci fuel t0 n resp s = some (out, t) → ∃ fr, Ext s t fr := by
  intro n
  induction n with
  | zero =>
    intro resp s out t h
    simp only [sdcard_init_loop] at h
    split at h
    · simp at h
    · simp only [Option.some.injEq, Prod.mk.injEq] at h
      rw [← h.2]; exact ⟨_, Ext.refl s⟩
  | succ n ih =>
    intro resp s out t h
    rw [init_loop_succ] at h
    have i1 := idle_expired INIT_TIMEOUT t0 s
    split at h
    · split at h
      · simp only [Option.some.injEq, Prod.mk.injEq] at h
        rw [← h.2]; exact ⟨_, i1.ext⟩
      · cases hc : ci.call fuel (expired INIT_TIMEOUT t0 s).2 with
        | none => simp [hc] at h
        | some p =>
          obtain ⟨r1, s1⟩ := p
          simp only [hc] at h
          obtain ⟨f1, e1⟩ := card_init_any ci fuel _ r1 s1 hc
          obtain ⟨f2, e2⟩ := ih r1 s1 out t h
          exact ⟨_, Ext.trans (Ext.nil_left i1.ext e1) e2⟩
    · simp only [Option.some.injEq, Prod.mk.injEq] at h
      rw [← h.2]; exact ⟨_, Ext.refl s⟩

theorem init_choose_any (fuel : Nat) (type : sdcard_type_t) (resp : Nat) (s : World)
    (ci : sdcard_init_proc_t) (r : Nat) (t : World)
    (h : sdcard_init_choose fuel type resp s = some (ci, r, t)) : ∃ fr, Ext s t fr := by
  unfold sdcard_init_choose at h
  split at h
  · simp only [Option.some.injEq, Prod.mk.injEq] at h
    rw [← h.2.2]; exact ⟨_, Ext.refl s⟩
  · cases hc : sdcard_init_proc_t.init_sd1.call fuel s with
    | none => simp [hc] at h
    | some p =>
      obtain ⟨r1, s1⟩ := p
      simp only [hc] at h
      obtain ⟨f1, e1⟩ := card_init_any _ fuel _ r1 s1 hc
      split at h <;>
      · simp only [Option.some.injEq, Prod.mk.injEq] at h
        rw [← h.2.2]; exact ⟨_, e1⟩

theorem initExit_of_done {orig : ClockReg} {err : sdcard_result_t} {card : sdcard_t} {s : World}
    {r : sdcard_result_t} {c : sdcard_t} {t : World}
    (h : sdcard_init_done orig err card s = (r, c, t)) : InitExit orig s t [] := by
  have e : (sdcard_init_done orig err card s).2.2 = t := by rw [h]
  exact ⟨s, Ext.refl s, e.symm⟩

theorem init_finish_exit (fuel : Nat) (orig : ClockReg) (d : Nat) (card : sdcard_t) (s : World)
    (r : sdcard_result_t) (c : sdcard_t) (t : World)
    (h : sdcard_init_finish fuel orig d card s = some (r, c, t)) : ∃ fr, InitExit orig s t fr := by
  unfold sdcard_init_finish at h
  cases h1 : r3cmd fuel 58 0 0xfd d s with
  | none => simp [h1] at h
  | some p =>
    obtain ⟨r1, d1, s1⟩ := p
    simp only [h1] at h
    obtain ⟨f1, e1⟩ := r3cmd_any fuel 58 0 0xfd d s r1 d1 s1 h1
    split at h
    · cases h2 : r1cmd fuel 16 512 0x15 s1 with
      | none => simp [h2] at h
      | some p =>
        obtain ⟨r2, s2⟩ := p
        simp only [h2] at h
        obtain ⟨f2, e2⟩ := r1cmd_any fuel 16 512 0x15 s1 r2 s2 h2
        split at h <;>
        · simp only [Option.some.injEq] at h
          exact ⟨_, InitExit.prepend (Ext.trans e1 e2) (initExit_of_done h)⟩
    · simp only [Option.some.injEq] at h
      exact ⟨_, InitExit.prepend e1 (initExit_of_done h)⟩

theorem init_bringup_exit (fuel : Nat) (orig : ClockReg) (type : sdcard_type_t) (resp d : Nat)
    (card : sdcard_t) (s : World) (r : sdcard_result_t) (c : sdcard_t) (t : World)
    (h : sdcard_init_bringup fuel orig type resp d card s = some (r, c, t)) :
    ∃ fr, InitExit orig s t fr := by
  unfold sdcard_init_bringup at h
  cases h1 : sdcard_init_choose fuel type resp s with
  | none => simp [h1] at h
  | some p =>
    obtain ⟨ci, r1, s1⟩ := p
    simp only [h1] at h
    obtain ⟨f1, e1⟩ := init_choose_any fuel type resp s ci r1 s1 h1
    have i1 := idle_timestamp s1
    cases h2 : sdcard_init_loop ci fuel (timestamp s1).1 fuel r1 (timestamp s1).2 with
    | none => simp [h2] at h
    | some p =>
      obtain ⟨out, s2⟩ := p
      obtain ⟨f2, e2⟩ := init_loop_any ci fuel _ fuel r1 _ out s2 h2
      have e12 := Ext.trans (Ext.nil_right e1 i1.ext) e2
      simp only [h2] at h
      cases out with
      | none =>
        simp only [Option.some.injEq] at h
        exact ⟨_, InitExit.prepend e12 (initExit_of_done h)⟩
      | some r2 =>
        simp only at h
        split at h
        · simp only [Option.some.injEq] at h
          exact ⟨_, InitExit.prepend e12 (initExit_of_done h)⟩
        · obtain ⟨f3, e3⟩ := init_finish_exit fuel orig d card s2 r c t h
          exact ⟨_, InitExit.prepend e12 e3⟩

theorem init_probe_exit (fuel : Nat) (orig : ClockReg) (card : sdcard_t) (s : World)
    (r : sdcard_result_t) (c : sdcard_t) (t : World)
    (h : sdcard_init_probe fuel orig card s = some (r, c, t)) : ∃ fr, InitExit orig s t fr := by
  unfold sdcard_init_probe at h
  cases h1 : r3cmd fuel 8 0x1aa 0x87 0 s with
  | none => simp [h1] at h
  | some p =>
    obtain ⟨r1, d1, s1⟩ := p
    simp only [h1] at h
    obtain ⟨f1, e1⟩ := r3cmd_any fuel 8 0x1aa 0x87 0 s r1 d1 s1 h1
    split at h
    · obtain ⟨f2, e2⟩ := init_bringup_exit _ _ _ _ _ _ _ _ _ _ h
      exact ⟨_, InitExit.prepend e1 e2⟩
    · split at h
      · obtain ⟨f2, e2⟩ := init_bringup_exit _ _ _ _ _ _ _ _ _ _ h
        exact ⟨_, InitExit.prepend e1 e2⟩
      · split at h <;>
        · simp only [Option.some.injEq] at h
          exact ⟨_, InitExit.prepend e1 (initExit_of_done h)⟩

/-- What `r1cmd` logs: transactions only; for an MSB-first device and
arguments in range no frame or the frame of the command. -/
theorem r1cmd_run (fuel c a k : Nat) (s : World) (r : Nat) (t : World)
    (h : r1cmd fuel c a k s = some (r, t)) :
    ∃ fr, Ext s t fr ∧ (c < 64 → a < 2 ^ 32 → k < 256 → s.hspi.CTRL0.WR_BIT_ORDER = false →
      fr = [] ∨ fr = [{ index := c, arg := a, crc := k }]) := by
  by_cases hh : c < 64 ∧ a < 2 ^ 32 ∧ k < 256 ∧ s.hspi.CTRL0.WR_BIT_ORDER = false
  · obtain ⟨fr, e, hf⟩ := r1cmd_frames fuel c a k s r t hh.1 hh.2.1 hh.2.2.1 hh.2.2.2 h
    exact ⟨fr, e, fun _ _ _ _ => hf⟩
  · obtain ⟨fr, e⟩ := r1cmd_any fuel c a k s r t h
    exact ⟨fr, e, fun h1 h2 h3 h4 => absurd ⟨h1, h2, h3, h4⟩ hh⟩

theorem sdcard_addr_lt (card : sdcard_t) (addr : Nat) (h : addr < 2 ^ 32) :
    sdcard_addr card addr < 2 ^ 32 := by
  unfold sdcard_addr
  split
  · exact Nat.mod_lt _ (by norm_num)
  · exact h

theorem sdcard_addr_eq (card : sdcard_t) (addr : Nat) :
    sdcard_addr card addr = if card.is_sdhc then addr else (addr * 512) % 2 ^ 32 := by
  unfold sdcard_addr sdcard_is_sdhc
  cases card.is_sdhc <;> simp [Nat.shiftLeft_eq]

/-- The log of `sdcard_read`: a session whose frames are the read command
with the translated address, possibly followed by CMD12. -/
theorem sdcard_read_run (fuel : Nat) (card : sdcard_t) (addr nb : Nat) (buf : List Nat)
    (s : World) (r : sdcard_result_t) (b : List Nat) (t : World)
    (h : sdcard_read fuel card addr nb buf s = some (r, b, t)) :
    ∃ fr, Session card s t fr ∧ (card.is_msb = true → addr < 2 ^ 32 →
      ∃ f1 f2, fr = f1 ++ f2 ∧
        (f1 = [] ∨ f1 = [{ index := if nb = 1 then 17 else 18, arg := sdcard_addr card addr,
                           crc := 0xff }]) ∧
        (f2 = [] ∨ f2 = [{ index := 12, arg := 0, crc := 0x61 }])) := by
  unfold sdcard_read at h
  simp only at h
  have hcl : (if nb = 1 then 17 else 18) < 64 := by split <;> omega
  generalize (if nb = 1 then 17 else 18) = cmd at h hcl ⊢
  have hen := op_enter_facts card s
  cases h1 : r1cmd fuel cmd (sdcard_addr card addr) 0xff (set_cs_low (hspi_select card s)) with
  | none => simp [h1] at h
  | some p =>
    obtain ⟨resp, s1⟩ := p
    simp only [h1] at h
    obtain ⟨f1, e1, hf1⟩ := r1cmd_run _ _ _ _ _ _ _ h1
    have hf1' : card.is_msb = true → addr < 2 ^ 32 → f1 = [] ∨ f1 =
        [{ index := cmd, arg := sdcard_addr card addr, crc := 0xff }] :=
      fun hm ha => hf1 hcl (sdcard_addr_lt card addr ha) (by omega) (by rw [hen.2, hm]; rfl)
    split at h
    · simp only [Option.some.injEq, Prod.mk.injEq] at h
      rw [← h.2.2]
      exact ⟨f1, session_of_ext card s s1 f1 e1, fun hm ha => ⟨f1, [], by simp, hf1' hm ha,
        Or.inl rfl⟩⟩
    · split at h
      · simp only [Option.some.injEq, Prod.mk.injEq] at h
        rw [← h.2.2]
        exact ⟨f1, session_of_ext card s s1 f1 e1, fun hm ha => ⟨f1, [], by simp, hf1' hm ha,
          Or.inl rfl⟩⟩
      · cases h2 : sdcard_read_loop fuel nb SDCARD_SUCCESS buf 0 s1 with
        | none => simp [h2] at h
        | some p =>
          obtain ⟨err, b2, s2⟩ := p
          simp only [h2] at h
          have e2 := Ext.nil_right e1
            (sdcard_read_loop_quiet fuel nb _ _ _ s1 s1 _ _ _ (Ext.refl s1) h2)
          split at h
          · cases h3 : r1cmd fuel 12 0 0x61 s2 with
            | none => simp [h3] at h
            | some p =>
              obtain ⟨r3, s3⟩ := p
              simp only [h3, Option.some.injEq, Prod.mk.injEq] at h
              rw [← h.2.2]
              obtain ⟨f3, e3, hf3⟩ := r1cmd_run _ _ _ _ _ _ _ h3
              refine ⟨f1 ++ f3, session_of_ext card s s3 _ (Ext.trans e2 e3), fun hm ha =>
                ⟨f1, f3, rfl, hf1' hm ha, hf3 (by omega) (by norm_num) (by omega) ?_⟩⟩
              rw [e2.ctrl0, hen.2, hm]; rfl
          · simp only [Option.some.injEq, Prod.mk.injEq] at h
            rw [← h.2.2]
            exact ⟨f1, session_of_ext card s s2 f1 e2, fun hm ha => ⟨f1, [], by simp, hf1' hm ha,
              Or.inl rfl⟩⟩

theorem sdcard_read_register_run (fuel : Nat) (card : sdcard_t) (buf : List Nat) (cmd crc : Nat)
    (s : World) (r : sdcard_result_t) (b : List Nat) (t : World)
    (h : sdcard_read_register fuel card buf cmd crc s = some (r, b, t)) :
    ∃ fr, Session card s t fr := by
  unfold sdcard_read_register at h
  simp only at h
  cases h1 : r1cmd fuel cmd 0 crc (set_cs_low (hspi_select card s)) with
  | none => simp [h1] at h
  | some p =>
    obtain ⟨resp, s1⟩ := p
    simp only [h1] at h
    obtain ⟨f1, e1⟩ := r1cmd_any _ _ _ _ _ _ _ h1
    split at h
    · simp only [Option.some.injEq, Prod.mk.injEq] at h
      rw [← h.2.2]; exact ⟨f1, session_of_ext card s s1 f1 e1⟩
    · split at h
      · simp only [Option.some.injEq, Prod.mk.injEq] at h
        rw [← h.2.2]; exact ⟨f1, session_of_ext card s s1 f1 e1⟩
      · cases h2 : read_data fuel 16 buf 0 s1 with
        | none => simp [h2] at h
        | some p =>
          obtain ⟨err, b2, s2⟩ := p
          simp only [h2, Option.some.injEq, Prod.mk.injEq] at h
          rw [← h.2.2]
          exact ⟨f1, session_of_ext card s s2 f1
            (Ext.nil_right e1 (read_data_quiet _ _ _ _ _ _ _ _ h2).ext)⟩

theorem sdcard_read_csd_run (fuel : Nat) (card : sdcard_t) (csd : List Nat)
    (s : World) (r : sdcard_result_t) (b : List Nat) (t : World)
    (h : sdcard_read_csd fuel card csd s = some (r, b, t)) : ∃ fr, Session card s t fr := by
  unfold sdcard_read_csd at h
  split at h
  · simp at h
  · rename_i e d s1 h1
    obtain ⟨fr, hs⟩ := sdcard_read_register_run _ _ _ _ _ _ _ _ _ h1
    split at h <;>
    · simp only [Option.some.injEq, Prod.mk.injEq] at h
      rw [← h.2.2]; exact ⟨fr, hs⟩

theorem sdcard_get_size_run (fuel : Nat) (card : sdcard_t) (s : World) (n : Nat) (t : World)
    (h : sdcard_get_size fuel card s = some (n, t)) : ∃ fr, Session card s t fr := by
  unfold sdcard_get_size at h
  split at h
  · simp at h
  · rename_i e d s1 h1
    obtain ⟨fr, hs⟩ := sdcard_read_register_run _ _ _ _ _ _ _ _ _ h1
    split at h <;>
    · simp only [Option.some.injEq, Prod.mk.injEq] at h
      rw [← h.2]; exact ⟨fr, hs⟩

theorem sdcard_erase_run (fuel : Nat) (card : sdcard_t) (addr nb : Nat) (s : World)
    (r : sdcard_result_t) (t : World) (h : sdcard_erase fuel card addr nb s = some (r, t)) :
    ∃ fr, Session card s t fr := by
  unfold sdcard_erase at h
  simp only at h
  split at h
  · simp at h
  · rename_i r1 s1 h1
    obtain ⟨f1, e1⟩ := r1cmd_any _ _ _ _ _ _ _ h1
    split at h
    · simp only [Option.some.injEq, Prod.mk.injEq] at h
      rw [← h.2]; exact ⟨f1, session_of_ext card s s1 f1 e1⟩
    · split at h
      · simp at h
      · rename_i r2 s2 h2
        obtain ⟨f2, e2⟩ := r1cmd_any _ _ _ _ _ _ _ h2
        split at h
        · simp only [Option.some.injEq, Prod.mk.injEq] at h
          rw [← h.2]; exact ⟨_, session_of_ext card s s2 _ (Ext.trans e1 e2)⟩
        · split at h
          · simp at h
          · rename_i r3 s3 h3
            obtain ⟨f3, e3⟩ := r1cmd_any _ _ _ _ _ _ _ h3
            split at h <;>
            · simp only [Option.some.injEq, Prod.mk.injEq] at h
              rw [← h.2]; exact ⟨_, session_of_ext card s s3 _ (Ext.trans (Ext.trans e1 e2) e3)⟩

theorem acmd_run (fuel c a k : Nat) (s : World) (r : Nat) (t : World)
    (h : acmd fuel c a k s = some (r, t)) :
    ∃ fr, Ext s t fr ∧ (c < 64 → a < 2 ^ 32 → k < 256 → s.hspi.CTRL0.WR_BIT_ORDER = false →
      fr = [] ∨ fr = [CMD55] ∨ fr = [CMD55, { index := c, arg := a, crc := k }]) := by
  by_cases hh : c < 64 ∧ a < 2 ^ 32 ∧ k < 256 ∧ s.hspi.CTRL0.WR_BIT_ORDER = false
  · obtain ⟨fr, e, hf⟩ := acmd_ext fuel c a k s r t hh.1 hh.2.1 hh.2.2.1 hh.2.2.2 h
    exact ⟨fr, e, fun _ _ _ _ => hf⟩
  · obtain ⟨fr, e⟩ := acmd_any fuel c a k s r t h
    exact ⟨fr, e, fun h1 h2 h3 h4 => absurd ⟨h1, h2, h3, h4⟩ hh⟩

/-- The log of `sdcard_init`: a session, and the clock register is back at
the value it held right after `hspi_select`. -/
theorem sdcard_init_run (fuel : Nat) (card : sdcard_t) (s : World) (r : sdcard_result_t)
    (c : sdcard_t) (t : World) (h : sdcard_init fuel card s = some (r, c, t)) :
    ∃ fr, Session card s t fr ∧ t.hspi.CLOCK = (hspi_select card s).hspi.CLOCK := by
  unfold sdcard_init at h
  simp only at h
  have hclk : clock_written (hspi_get_clock (hspi_select card s)) =
      (hspi_select card s).hspi.CLOCK := by
    unfold hspi_get_clock
    rw [select_clock, clock_written_idem]
  split at h
  · simp at h
  · rename_i r0 s0 h0
    obtain ⟨f0, e0⟩ := r1cmd_any _ _ _ _ _ _ _ h0
    have fin : ∀ g, InitExit (hspi_get_clock (hspi_select card s)) s0 t g →
        ∃ fr, Session card s t fr ∧ t.hspi.CLOCK = (hspi_select card s).hspi.CLOCK := by
      intro g hg
      have := session_of_initExit card s t _ _ (InitExit.prepend e0 hg)
      exact ⟨_, this.1, this.2.trans hclk⟩
    split at h
    · simp only [Option.some.injEq] at h
      exact fin _ (initExit_of_done h)
    · split at h
      · simp only [Option.some.injEq] at h
        exact fin _ (initExit_of_done h)
      · obtain ⟨g, hg⟩ := init_probe_exit _ _ _ _ _ _ _ h
        exact fin g hg

/-- C1: for a 16-byte CSD with version field 0 and READ_BL_LEN at least 9
that the register read delivered successfully, `sdcard_get_size` returns
exactly (C_SIZE+1) * 2^(C_SIZE_MULT+2) * 2^(READ_BL_LEN-9), which is below
2^32; with C_SIZE = 0x3FF, C_SIZE_MULT = 7 and READ_BL_LEN = 0xA that is
1048576. -/
theorem c1_get_size_v1 (fuel : Nat) (card : sdcard_t) (s : World) (data : List Nat)
    (hlen : data.length = 16) (hb : ∀ b ∈ data, b < 256)
    (hread : (sdcard_read_register fuel card (List.replicate 16 0) 9 0xaf s).map
      (fun q => (q.1, q.2.1)) = some (SDCARD_SUCCESS, data))
    (hver : csd_bits data 126 127 = 0) (hrbl : 9 ≤ csd_bits data 80 83) :
    (sdcard_get_size fuel card s).map Prod.fst =
      some ((csd_bits data 62 73 + 1) * 2 ^ (csd_bits data 47 49 + 2) *
        2 ^ (csd_bits data 80 83 - 9)) ∧
    (csd_bits data 62 73 + 1) * 2 ^ (csd_bits data 47 49 + 2) * 2 ^ (csd_bits data 80 83 - 9)
      < 2 ^ 32 ∧
    (csd_bits data 62 73 = 0x3FF → csd_bits data 47 49 = 7 → csd_bits data 80 83 = 0xA →
      (sdcard_get_size fuel card s).map Prod.fst = some 1048576) := by
  obtain ⟨h1, h2⟩ := sdcard_size_v1 data hlen hb hver hrbl
  have key : (sdcard_get_size fuel card s).map Prod.fst = some (sdcard_size_of_csd data) := by
    unfold sdcard_get_size
    cases hr : sdcard_read_register fuel card (List.replicate 16 0) 9 0xaf s with
    | none => rw [hr] at hread; simp at hread
    | some p =>
      obtain ⟨e, d, t⟩ := p
      rw [hr] at hread
      simp only [Option.map_some', Option.some.injEq, Prod.mk.injEq] at hread
      obtain ⟨rfl, rfl⟩ := hread
      simp
  refine ⟨by rw [key, h1], h2, ?_⟩
  intro a b c
  rw [key, h1, a, b, c]
  rfl

/-- C1 at a concrete card: the register read delivers the version 1 CSD with
C_SIZE = 0x3FF, C_SIZE_MULT = 7, READ_BL_LEN = 0xA, and the size is 1048576
blocks. -/
theorem c1_get_size_v1_witness :
    (sdcard_get_size 3 card0 (world0 (rx_register csd_v1) 1)).map Prod.fst = some 1048576 :=
  (c1_get_size_v1 3 card0 (world0 (rx_register csd_v1) 1) csd_v1 (by decide) (by decide)
    (by decide) (by decide) (by decide)).2.2 (by decide) (by decide) (by decide)

/-- C2 at the largest C_SIZE: the register read succeeds and delivers a
version 2 CSD (version field 1) whose C_SIZE is 0x3FFFFF, so the card has
(0x3FFFFF+1) * 1024 = 4294967296 blocks, and `sdcard_get_size` returns 0,
the value it returns when the register read fails. -/
theorem c2_get_size_v2_wraps :
    (sdcard_read_register 3 card0 (List.replicate 16 0) 9 0xaf
      (world0 (rx_register csd_v2_max) 1)).map (fun q => (q.1, q.2.1)) =
        some (SDCARD_SUCCESS, csd_v2_max) ∧
    csd_bits csd_v2_max 126 127 = 1 ∧ csd_bits csd_v2_max 48 69 = 0x3FFFFF ∧
    (csd_bits csd_v2_max 48 69 + 1) * 1024 = 4294967296 ∧
    (sdcard_get_size 3 card0 (world0 (rx_register csd_v2_max) 1)).map Prod.fst = some 0 := by
  decide

/-- The part of C2 the code keeps: for a version 2 CSD the result is
(C_SIZE+1) * 1024 modulo 2^32, hence exact for every C_SIZE below 0x3FFFFF
(15098880 for 0x3998), and a failed register read gives 0. -/
theorem get_size_v2_mod (fuel : Nat) (card : sdcard_t) (s : World) :
    (∀ data, data.length = 16 → (∀ b ∈ data, b < 256) →
      (sdcard_read_register fuel card (List.replicate 16 0) 9 0xaf s).map
        (fun q => (q.1, q.2.1)) = some (SDCARD_SUCCESS, data) →
      csd_bits data 126 127 = 1 →
      (sdcard_get_size fuel card s).map Prod.fst =
          some (((csd_bits data 48 69 + 1) * 1024) % 2 ^ 32) ∧
        (csd_bits data 48 69 < 0x3FFFFF →
          (sdcard_get_size fuel card s).map Prod.fst = some ((csd_bits data 48 69 + 1) * 1024)) ∧
        (csd_bits data 48 69 = 0x3998 →
          (sdcard_get_size fuel card s).map Prod.fst = some 15098880)) ∧
    (∀ e data t, sdcard_read_register fuel card (List.replicate 16 0) 9 0xaf s = some (e, data, t) →
      e ≠ SDCARD_SUCCESS → sdcard_get_size fuel card s = some (0, t)) := by
  constructor
  · intro data hlen hb hread hver
    have h1 := sdcard_size_v2 data hlen hb (by omega)
    have key : (sdcard_get_size fuel card s).map Prod.fst = some (sdcard_size_of_csd data) := by
      unfold sdcard_get_size
      cases hr : sdcard_read_register fuel card (List.replicate 16 0) 9 0xaf s with
      | none => rw [hr] at hread; simp at hread
      | some p =>
        obtain ⟨e, d, t⟩ := p
        rw [hr] at hread
        simp only [Option.map_some', Option.some.injEq, Prod.mk.injEq] at hread
        obtain ⟨rfl, rfl⟩ := hread
        simp
    refine ⟨by rw [key, h1], ?_, ?_⟩
    · intro hlt
      rw [key, h1, Nat.mod_eq_of_lt (by omega)]
    · intro heq
      rw [key, h1, heq]; rfl
  · intro e data t hr hne
    unfold sdcard_get_size
    rw [hr]
    simp [hne]

theorem get_size_v2_mod_witness :
    (sdcard_get_size 3 card0 (world0 (rx_register csd_v2) 1)).map Prod.fst = some 15098880 :=
  ((get_size_v2_mod 3 card0 (world0 (rx_register csd_v2) 1)).1 csd_v2 (by decide) (by decide)
    (by decide) (by decide)).2.2 (by decide)

/-- C4: for a command index below 64, a 32-bit argument and a CRC byte, the
16-bit command word and the 32-bit address word of `r1cmd` read, one after the
other and most significant bit first, as the SD frame `0x40 | c`, the argument
in big-endian byte order, the CRC byte; when the card is not busy `r1cmd`
installs them as a 16-bit command and a 32-bit address (stored in the form the
configured bit order requires), and for an MSB-first device exactly that frame
goes out on the wire. -/
theorem c4_r1cmd_frame (c a k fuel : Nat) (s : World) (busy : Nat) (hc : c < 64)
    (ha : a < 2 ^ 32) (hk : k < 256)
    (hw : (wait_until_card_not_busy fuel s).map Prod.fst = some busy) (hb : busy ≠ 0) :
    r1cmd_frame_bytes c a k =
      [0x40 ||| c, a / 16777216, a / 65536 % 256, a / 256 % 256, a % 256, k] ∧
    ∃ r t, r1cmd fuel c a k s = some (r, t) ∧
      t.hspi.USER2 = { COMMAND_BITLEN := 15,
                       COMMAND_VALUE := if s.hspi.CTRL0.WR_BIT_ORDER then r1cmd_command c a % 65536
                                        else bswap16 (r1cmd_command c a % 65536) } ∧
      t.hspi.USER1.ADDR_BITLEN = 31 ∧
      t.hspi.ADDR = (if s.hspi.CTRL0.WR_BIT_ORDER then bswap32 (r1cmd_address a k % 4294967296)
                     else r1cmd_address a k % 4294967296) ∧
      (s.hspi.CTRL0.WR_BIT_ORDER = false →
        sent t = sent s ++ [{ index := c, arg := a, crc := k }]) := by
  constructor
  · unfold r1cmd_frame_bytes
    rw [r1cmd_command_eq c a hc ha, r1cmd_address_eq a k hk, or_0x40 c hc]
    simp only [List.cons.injEq, and_true]
    refine ⟨?_, ?_, ?_, ?_, ?_, ?_⟩ <;> omega
  · cases hw1 : wait_until_card_not_busy fuel s with
    | none => rw [hw1] at hw; simp at hw
    | some p =>
    obtain ⟨busy1, s1⟩ := p
    rw [hw1] at hw
    simp only [Option.map_some', Option.some.injEq] at hw
    subst hw
    have q := wait_until_card_returns_quiet fuel 0xff s busy1 s1 hw1
    refine ⟨(r1cmd_send c a k s1).1, (r1cmd_send c a k s1).2, ?_, ?_, ?_, ?_, ?_⟩
    · unfold r1cmd
      rw [hw1]
      simp [hb]
    · rw [(r1cmd_send_regs c a k s1).1, q.ext.ctrl0]
    · exact (r1cmd_send_regs c a k s1).2.2
    · rw [(r1cmd_send_regs c a k s1).2.1, q.ext.ctrl0]
    · intro hm
      exact sent_of_ext (Ext.nil_left q.ext
        (r1cmd_send_ext c a k s1 hc ha hk (by rw [q.ext.ctrl0, hm])))

/-- C4 at a concrete command: CMD17 with argument 0x12345678 and CRC byte
0xff on a card that is not busy. -/
theorem c4_r1cmd_frame_witness :
    r1cmd_frame_bytes 17 0x12345678 0xff = [0x51, 0x12, 0x34, 0x56, 0x78, 0xff] ∧
    (r1cmd 3 17 0x12345678 0xff (hspi_select card0 (world0 [0xff, 0xff, 0x00] 1))).map
      (fun p => sent p.2) = some [{ index := 17, arg := 0x12345678, crc := 0xff }] := by
  obtain ⟨h1, r, t, h2, -, -, -, h3⟩ := c4_r1cmd_frame 17 0x12345678 0xff 3
    (hspi_select card0 (world0 [0xff, 0xff, 0x00] 1)) 0xff
    (by decide) (by decide) (by decide) (by decide) (by decide)
  refine ⟨by rw [h1]; decide, ?_⟩
  rw [h2]
  simp only [Option.map_some']
  rw [h3 (by decide)]
  decide

theorem writeAddr_nil (a : Nat) : WriteAddr a [] := by
  intro f hf; simp at hf

theorem writeAddr_append {a : Nat} {f g : List Frame} (h1 : WriteAddr a f) (h2 : WriteAddr a g) :
    WriteAddr a (f ++ g) := by
  intro x hx hi
  rcases List.mem_append.1 hx with hx | hx
  · exact h1 x hx hi
  · exact h2 x hx hi

theorem sdcard_write_single_run (fuel a : Nat) (mem : List Nat) (al : Bool) (s : World)
    (r : sdcard_result_t) (t : World)
    (h : sdcard_write_single fuel a mem al s = some (r, t)) :
    ∃ fr, Ext s t fr ∧ (a < 2 ^ 32 → s.hspi.CTRL0.WR_BIT_ORDER = false → WriteAddr a fr) := by
  unfold sdcard_write_single at h
  cases h1 : r1cmd fuel 24 a 0xff s with
  | none => rw [h1] at h; simp at h
  | some p =>
    obtain ⟨r1, s1⟩ := p
    rw [h1] at h
    obtain ⟨f1, e1, hf1⟩ := r1cmd_run _ _ _ _ _ _ _ h1
    have key : a < 2 ^ 32 → s.hspi.CTRL0.WR_BIT_ORDER = false → WriteAddr a f1 := by
      intro ha hm f hf _
      rcases hf1 (by omega) ha (by omega) hm with rfl | rfl
      · simp at hf
      · simp only [List.mem_singleton] at hf; rw [hf]
    have e2 := Ext.nil_right e1 (write_block_ext 0xfe mem al s1)
    by_cases hr : r1 ≠ 0
    · simp only [hr, if_true, Option.some.injEq, Prod.mk.injEq, ne_eq, not_false_eq_true] at h
      rw [← h.2]; exact ⟨f1, e1, key⟩
    · simp only [hr, if_false] at h
      by_cases he : (write_block 0xfe mem al s1).1 ≠ SDCARD_SUCCESS
      · simp only [he, if_true, Option.some.injEq, Prod.mk.injEq, ne_eq, not_false_eq_true] at h
        rw [← h.2]; exact ⟨f1, e2, key⟩
      · simp only [he, if_false, Option.some.injEq, Prod.mk.injEq] at h
        rw [← h.2]; exact ⟨f1, e2, key⟩

theorem sdcard_write_stop_run (fuel : Nat) (s0 s1 : World) (err : sdcard_result_t) (j : Bool)
    (r : sdcard_result_t) (t : World) (e1 : Ext s0 s1 [])
    (h : sdcard_write_stop fuel (some (err, j, s1)) = some (r, t)) :
    ∃ fr, Ext s0 t fr ∧ (s0.hspi.CTRL0.WR_BIT_ORDER = false →
      fr = [] ∨ fr = [{ index := 12, arg := 0, crc := 0x61 }]) := by
  cases j with
  | true =>
    simp only [sdcard_write_stop, Option.some.injEq, Prod.mk.injEq] at h
    rw [← h.2]; exact ⟨[], e1, fun _ => Or.inl rfl⟩
  | false =>
    simp only [sdcard_write_stop] at h
    by_cases he : err ≠ SDCARD_SUCCESS
    · rw [if_pos he] at h
      cases h2 : r1cmd fuel 12 0 0x61 s1 with
      | none => rw [h2] at h; exact absurd h (by simp)
      | some q =>
        obtain ⟨r2, s2⟩ := q
        rw [h2] at h
        simp only [Option.some.injEq, Prod.mk.injEq] at h
        rw [← h.2]
        obtain ⟨f2, e2, hf2⟩ := r1cmd_run fuel 12 0 0x61 s1 r2 s2 h2
        exact ⟨f2, Ext.nil_left e1 e2, fun hm =>
          hf2 (by omega) (by norm_num) (by omega) (by rw [e1.ctrl0, hm])⟩
    · rw [if_neg he] at h
      exact ⟨[], Ext.nil_right e1 (end_transmission_ext fuel s1 r t h), fun _ => Or.inl rfl⟩

theorem sdcard_write_blocks_run (fuel nb : Nat) (mem : List Nat) (al : Bool) (s : World)
    (r : sdcard_result_t) (t : World)
    (h : sdcard_write_blocks fuel nb mem al s = some (r, t)) :
    ∃ fr, Ext s t fr ∧ (s.hspi.CTRL0.WR_BIT_ORDER = false →
      fr = [] ∨ fr = [{ index := 12, arg := 0, crc := 0x61 }]) := by
  unfold sdcard_write_blocks at h
  have e0 := write_block_ext 0xfc mem al s
  generalize (nb + 4294967296 - 1) % 4294967296 = k at h
  generalize write_block 0xfc mem al s = wb at h e0
  cases h1 : sdcard_write_loop fuel mem al k wb.1 0 wb.2 with
  | none => rw [h1] at h; exact absurd h (by simp [sdcard_write_stop])
  | some p =>
    obtain ⟨err, j, s1⟩ := p
    rw [h1] at h
    exact sdcard_write_stop_run fuel s s1 err j r t
      (Ext.nil_right e0 (sdcard_write_loop_ext fuel mem al k wb.1 0 wb.2 wb.2 err j s1
        (Ext.refl wb.2) h1)) h

theorem sdcard_write_multi_run (fuel a nb : Nat) (mem : List Nat) (al : Bool) (s : World)
    (r : sdcard_result_t) (t : World)
    (h : sdcard_write_multi fuel a nb mem al s = some (r, t)) :
    ∃ fr, Ext s t fr ∧ (a < 2 ^ 32 → nb < 2 ^ 32 → s.hspi.CTRL0.WR_BIT_ORDER = false →
      WriteAddr a fr) := by
  unfold sdcard_write_multi at h
  cases h1 : acmd fuel 23 nb 0xff s with
  | none => rw [h1] at h; simp at h
  | some p =>
    obtain ⟨ra, sa⟩ := p
    rw [h1] at h
    obtain ⟨fa, ea, hfa⟩ := acmd_run _ _ _ _ _ _ _ h1
    have keya : a < 2 ^ 32 → nb < 2 ^ 32 → s.hspi.CTRL0.WR_BIT_ORDER = false → WriteAddr a fa := by
      intro _ hn hm f hf hi
      rcases hfa (by omega) hn (by omega) hm with rfl | rfl | rfl
      · simp at hf
      · simp only [List.mem_singleton] at hf; rw [hf] at hi; simp [CMD55] at hi
      · simp only [List.mem_cons, List.mem_singleton, List.not_mem_nil, or_false] at hf
        rcases hf with rfl | rfl
        · simp [CMD55] at hi
        · simp at hi
    by_cases hr : ra ≠ 0
    · simp only [hr, if_true, Option.some.injEq, Prod.mk.injEq, ne_eq, not_false_eq_true] at h
      rw [← h.2]; exact ⟨fa, ea, keya⟩
    · simp only [hr, if_false] at h
      cases h2 : r1cmd fuel 25 a 0xff sa with
      | none => rw [h2] at h; simp at h
      | some q =>
        obtain ⟨r1, s1⟩ := q
        rw [h2] at h
        obtain ⟨f1, e1, hf1⟩ := r1cmd_run _ _ _ _ _ _ _ h2
        have key1 : a < 2 ^ 32 → nb < 2 ^ 32 → s.hspi.CTRL0.WR_BIT_ORDER = false →
            WriteAddr a (fa ++ f1) := by
          intro ha hn hm
          refine writeAddr_append (keya ha hn hm) ?_
          intro f hf _
          rcases hf1 (by omega) ha (by omega) (by rw [ea.ctrl0, hm]) with rfl | rfl
          · simp at hf
          · simp only [List.mem_singleton] at hf; rw [hf]
        by_cases hr1 : r1 ≠ 0
        · simp only [hr1, if_true, Option.some.injEq, Prod.mk.injEq, ne_eq,
            not_false_eq_true] at h
          rw [← h.2]; exact ⟨_, Ext.trans ea e1, key1⟩
        · simp only [hr1, if_false] at h
          obtain ⟨f2, e2, hf2⟩ := sdcard_write_blocks_run fuel nb mem al s1 r t h
          refine ⟨_, Ext.trans (Ext.trans ea e1) e2, fun ha hn hm => ?_⟩
          refine writeAddr_append (key1 ha hn hm) ?_
          intro f hf hi
          rcases hf2 (by rw [e1.ctrl0, ea.ctrl0, hm]) with rfl | rfl
          · simp at hf
          · simp only [List.mem_singleton] at hf; rw [hf] at hi; simp at hi

/-- The log of `sdcard_write`: a session in which every CMD24 or CMD25 frame
carries the translated address. -/
theorem sdcard_write_run (fuel : Nat) (card : sdcard_t) (addr nb : Nat) (mem : List Nat)
    (al : Bool) (s : World) (r : sdcard_result_t) (t : World)
    (h : sdcard_write fuel card addr nb mem al s = some (r, t)) :
    ∃ fr, Session card s t fr ∧ (card.is_msb = true → addr < 2 ^ 32 → nb < 2 ^ 32 →
      WriteAddr (sdcard_addr card addr) fr) := by
  unfold sdcard_write at h
  have hen := op_enter_facts card s
  have hm' : card.is_msb = true →
      (set_cs_low (hspi_select card s)).hspi.CTRL0.WR_BIT_ORDER = false := by
    intro hm; rw [hen.2, hm]; rfl
  by_cases hnb : nb = 1
  · simp only [hnb, if_true] at h
    cases h1 : sdcard_write_single fuel (sdcard_addr card addr) mem al
        (set_cs_low (hspi_select card s)) with
    | none => rw [h1] at h; simp at h
    | some p =>
      obtain ⟨e, s1⟩ := p
      rw [h1] at h
      simp only [Option.some.injEq, Prod.mk.injEq] at h
      rw [← h.2]
      obtain ⟨fr, e1, hf⟩ := sdcard_write_single_run _ _ _ _ _ _ _ h1
      exact ⟨fr, session_of_ext card s s1 fr e1, fun hm ha _ =>
        hf (sdcard_addr_lt card addr ha) (hm' hm)⟩
  · simp only [hnb, if_false] at h
    cases h1 : sdcard_write_multi fuel (sdcard_addr card addr) nb mem al
        (set_cs_low (hspi_select card s)) with
    | none => rw [h1] at h; simp at h
    | some p =>
      obtain ⟨e, s1⟩ := p
      rw [h1] at h
      simp only [Option.some.injEq, Prod.mk.injEq] at h
      rw [← h.2]
      obtain ⟨fr, e1, hf⟩ := sdcard_write_multi_run _ _ _ _ _ _ _ _ h1
      exact ⟨fr, session_of_ext card s s1 fr e1, fun hm ha hn =>
        hf (sdcard_addr_lt card addr ha) hn (hm' hm)⟩

theorem sent_of_session {card : sdcard_t} {s t : World} {fr : List Frame}
    (h : Session card s t fr) : sent t = sent s ++ fr := by
  obtain ⟨mid, ht, _, hf⟩ := h
  unfold sent
  rw [ht, List.filterMap_append, List.filterMap_append,
    List.filterMap_cons_none (rfl : (Event.select card).frame = none), hf,
    List.filterMap_cons_none (rfl : Event.cs_high.frame = none),
    List.filterMap_cons_none (rfl : Event.release.frame = none)]
  simp

/-- C3 as stated fails: for block 2^23 of a card that is not high capacity,
`sdcard_read` sends CMD17 with address 0, while the byte offset 2^23 * 512 is
2^32. -/
theorem c3_address_wraps_counterexample :
    card0.is_sdhc = false ∧
    (sdcard_read 3 card0 8388608 1 (List.replicate 512 0) (world0 rx_read_ok 1)).map
      (fun p => (p.1, sent p.2.2)) =
        some (SDCARD_SUCCESS, [{ index := 17, arg := 0, crc := 0xff }]) ∧
    (0 : Nat) ≠ 8388608 * 512 := by
  decide

/-- C3, amended: for a 32-bit block number N and an MSB-first card, every
CMD17 or CMD18 frame `sdcard_read` sends and every CMD24 or CMD25 frame
`sdcard_write` sends carries the argument N when the high-capacity flag is
set and N * 512 modulo 2^32 otherwise; the latter is the byte offset N * 512
whenever N is below 2^23. -/
theorem c3_address_translation (fuel : Nat) (card : sdcard_t) (addr nb : Nat) (s : World)
    (hm : card.is_msb = true) (ha : addr < 2 ^ 32) (hn : nb < 2 ^ 32) :
    (∀ buf r b t, sdcard_read fuel card addr nb buf s = some (r, b, t) →
      ∃ fr, sent t = sent s ++ fr ∧ ∀ f ∈ fr, (f.index = 17 ∨ f.index = 18) →
        f.arg = if card.is_sdhc then addr else (addr * 512) % 2 ^ 32) ∧
    (∀ mem al r t, sdcard_write fuel card addr nb mem al s = some (r, t) →
      ∃ fr, sent t = sent s ++ fr ∧ ∀ f ∈ fr, (f.index = 24 ∨ f.index = 25) →
        f.arg = if card.is_sdhc then addr else (addr * 512) % 2 ^ 32) ∧
    (addr < 2 ^ 23 → (addr * 512) % 2 ^ 32 = addr * 512) := by
  refine ⟨?_, ?_, fun h => Nat.mod_eq_of_lt (by omega)⟩
  · intro buf r b t h
    obtain ⟨fr, hs, hf⟩ := sdcard_read_run fuel card addr nb buf s r b t h
    refine ⟨fr, sent_of_session hs, ?_⟩
    obtain ⟨f1, f2, rfl, h1, h2⟩ := hf hm ha
    intro f hfm hi
    rw [← sdcard_addr_eq]
    rcases List.mem_append.1 hfm with hfm | hfm
    · rcases h1 with rfl | rfl
      · simp at hfm
      · simp only [List.mem_singleton] at hfm; rw [hfm]
    · rcases h2 with rfl | rfl
      · simp at hfm
      · simp only [List.mem_singleton] at hfm; rw [hfm] at hi; simp at hi
  · intro mem al r t h
    obtain ⟨fr, hs, hf⟩ := sdcard_write_run fuel card addr nb mem al s r t h
    refine ⟨fr, sent_of_session hs, ?_⟩
    intro f hfm hi
    rw [← sdcard_addr_eq]
    exact hf hm ha hn f hfm hi

/-- C3 at concrete cards: block 3 of a card that is not high capacity is
read with address 1536, block 0 of a high-capacity card with address 0. -/
theorem c3_address_translation_witness :
    card0.is_msb = true ∧ (3 : Nat) < 2 ^ 32 ∧ (1 : Nat) < 2 ^ 32 ∧
    (sdcard_read 3 card0 3 1 (List.replicate 512 0) (world0 rx_read_ok 1)).map
      (fun p => sent p.2.2) = some [{ index := 17, arg := 1536, crc := 0xff }] ∧
    (sdcard_read 3 { card0 with is_sdhc := true } 0 1 (List.replicate 512 0)
      (world0 rx_read_ok 1)).map (fun p => sent p.2.2) =
        some [{ index := 17, arg := 0, crc := 0xff }] ∧
    ((∀ buf r b t, sdcard_read 3 card0 3 1 buf (world0 rx_read_ok 1) = some (r, b, t) →
      ∃ fr, sent t = sent (world0 rx_read_ok 1) ++ fr ∧ ∀ f ∈ fr, (f.index = 17 ∨ f.index = 18) →
        f.arg = if card0.is_sdhc then 3 else (3 * 512) % 2 ^ 32) ∧
    (∀ mem al r t, sdcard_write 3 card0 3 1 mem al (world0 rx_read_ok 1) = some (r, t) →
      ∃ fr, sent t = sent (world0 rx_read_ok 1) ++ fr ∧ ∀ f ∈ fr, (f.index = 24 ∨ f.index = 25) →
        f.arg = if card0.is_sdhc then 3 else (3 * 512) % 2 ^ 32) ∧
    ((3 : Nat) < 2 ^ 23 → (3 * 512) % 2 ^ 32 = 3 * 512)) :=
  ⟨by decide, by decide, by decide, by decide, by decide,
    c3_address_translation 3 card0 3 1 (world0 rx_read_ok 1) (by decide) (by decide) (by decide)⟩

/-- C21: `hspi_select` sets the clock idle bit `SPI_PIN_IDLE_EDGE` from the low
bit of the transfer mode: it is set for modes 1 and 3 and cleared for modes 0
and 2.  Mode 1 (documented as idle low) gets the bit and mode 2 (documented
as idle high) does not; the clock edge bits are set for modes 1 and 2. -/
theorem c21_idle_edge_follows_low_bit (dev : hspi_dev_t) (s : World) :
    ((hspi_select dev s).hspi.PIN.IDLE_EDGE = decide (dev.transfer_mode % 2 = 1)) ∧
    (hspi_select { dev with transfer_mode := 0 } s).hspi.PIN.IDLE_EDGE = false ∧
    (hspi_select { dev with transfer_mode := 1 } s).hspi.PIN.IDLE_EDGE = true ∧
    (hspi_select { dev with transfer_mode := 2 } s).hspi.PIN.IDLE_EDGE = false ∧
    (hspi_select { dev with transfer_mode := 3 } s).hspi.PIN.IDLE_EDGE = true ∧
    ((hspi_select dev s).hspi.USER0.CLOCK_OUT_EDGE =
      (dev.transfer_mode == 1 || dev.transfer_mode == 2)) := by
  have key : ∀ d : hspi_dev_t,
      (hspi_select d s).hspi.PIN.IDLE_EDGE = (d.transfer_mode &&& 1 != 0) := by
    intro d
    unfold hspi_select hspi_set_clock gpio_enable_cs0_output
    cases s.demux_gpio_pins <;> simp only [] <;> (repeat' split) <;> rfl
  have hand : dev.transfer_mode &&& 1 = dev.transfer_mode % 2 := and_mask dev.transfer_mode 1
  have hedge : (hspi_select dev s).hspi.USER0.CLOCK_OUT_EDGE =
      (dev.transfer_mode == 1 || dev.transfer_mode == 2) := by
    unfold hspi_select
    cases dev.is_msb <;> simp
  refine ⟨?_, ?_, ?_, ?_, ?_, hedge⟩
  · rw [key, hand]
    rcases Nat.mod_two_eq_zero_or_one dev.transfer_mode with h | h <;> simp [h]
  · rw [key]; simp only []; decide
  · rw [key]; simp only []; decide
  · rw [key]; simp only []; decide
  · rw [key]; simp only []; decide

/-- C23: `hspi_reset` clears the command, address, dummy, input, output, both
byte-order and the flash-mode flags of USER0 and keeps every other bit of
USER0; nothing else changes except that the busy flag the function waits on
is down; applying it twice equals applying it once. -/
theorem c23_reset_frame (s : World) :
    hspi_reset s =
      { s with hspi := { s.hspi with
          CMD_USR := false,
          USER0 := { COMMAND := false, ADDR := false, DUMMY := false, MISO := false,
                     MOSI := false, WR_BYTE_ORDER := false, RD_BYTE_ORDER := false,
                     FLASH_MODE := false,
                     CLOCK_OUT_EDGE := s.hspi.USER0.CLOCK_OUT_EDGE,
                     CLOCK_IN_EDGE := s.hspi.USER0.CLOCK_IN_EDGE,
                     CS_SETUP := s.hspi.USER0.CS_SETUP, CS_HOLD := s.hspi.USER0.CS_HOLD,
                     SIO := s.hspi.USER0.SIO, DUPLEX := s.hspi.USER0.DUPLEX,
                     rest := s.hspi.USER0.rest } } } ∧
    hspi_reset (hspi_reset s) = hspi_reset s :=
  ⟨rfl, rfl⟩

theorem bswap16_wire (x i : Nat) (hi : i < 16) :
    cmdWireBit (bswap16 x) i = x.testBit (15 - i) := by
  have hff : (0xff : Nat) = 2 ^ 8 - 1 := rfl
  unfold cmdWireBit bswap16
  rw [hff]
  simp only [Nat.testBit_or, Nat.testBit_shiftLeft, Nat.testBit_and, Nat.testBit_shiftRight,
    Nat.testBit_two_pow_sub_one]
  rcases Nat.lt_or_ge i 8 with h | h
  · have e1 : i / 8 = 0 := Nat.div_eq_of_lt h
    have e2 : i % 8 = i := Nat.mod_eq_of_lt h
    rw [e1, e2]
    simp only [Nat.mul_zero, Nat.zero_add]
    have e3 : 8 + (7 - i) = 15 - i := by omega
    have e4 : 7 - i < 8 := by omega
    have e5 : ¬ (8 ≤ 7 - i) := by omega
    simp [e3, e4, e5]
  · have e1 : i / 8 = 1 := by omega
    have e2 : i % 8 = i - 8 := by omega
    rw [e1, e2]
    simp only [Nat.mul_one]
    have e3 : 8 + (7 - (i - 8)) - 8 = 15 - i := by omega
    have e4 : ¬ (8 + (7 - (i - 8)) < 8) := by omega
    have e5 : 8 ≤ 8 + (7 - (i - 8)) := by omega
    have e6 : 15 - i < 8 := by omega
    simp [e3, e4, e5, e6]

theorem shift_field (a len : Nat) (h : len ≤ 32) :
    ((a % 4294967296) <<< (32 - len)) % 4294967296 = (a % 2 ^ len) * 2 ^ (32 - len) := by
  have e : (4294967296 : Nat) = 2 ^ len * 2 ^ (32 - len) := by
    rw [← Nat.pow_add]
    have : len + (32 - len) = 32 := by omega
    rw [this]
  rw [Nat.shiftLeft_eq]
  have h2 : a % 4294967296 % 2 ^ len = a % 2 ^ len :=
    Nat.mod_mod_of_dvd a ⟨2 ^ (32 - len), e⟩
  conv_lhs => rw [e]
  rw [Nat.mul_mod_mul_right, ← e, h2]

/-- C22: for `1 ≤ len ≤ 16`, `hspi_set_command` enables the command phase and
stores `len - 1` as its bit length; an LSB-first device gets the command
unchanged, and for an MSB-first device the first `len` bits on the wire are
the `len` low-order bits of the command from most to least significant.  For
`1 ≤ alen ≤ 32`, `hspi_set_address` stores `alen - 1` as the address bit
length and, for an MSB-first device, puts the `alen` low-order bits of the
address in the top `alen` bits of the address register. -/
theorem c22_command_address_fields (len cmd alen addr : Nat) (s : World)
    (h1 : 1 ≤ len) (h16 : len ≤ 16) (a1 : 1 ≤ alen) (a32 : alen ≤ 32) :
    (hspi_set_command len cmd s).hspi.USER0.COMMAND = true ∧
    (hspi_set_command len cmd s).hspi.USER2.COMMAND_BITLEN = len - 1 ∧
    (s.hspi.CTRL0.WR_BIT_ORDER = true →
      (hspi_set_command len cmd s).hspi.USER2.COMMAND_VALUE = cmd % 65536) ∧
    (s.hspi.CTRL0.WR_BIT_ORDER = false → ∀ i, i < len →
      cmdWireBit (hspi_set_command len cmd s).hspi.USER2.COMMAND_VALUE i =
        cmd.testBit (len - 1 - i)) ∧
    (hspi_set_address alen addr s).hspi.USER0.ADDR = true ∧
    (hspi_set_address alen addr s).hspi.USER1.ADDR_BITLEN = alen - 1 ∧
    (s.hspi.CTRL0.WR_BIT_ORDER = false →
      (hspi_set_address alen addr s).hspi.ADDR = (addr % 2 ^ alen) * 2 ^ (32 - alen) ∧
      (hspi_set_address alen addr s).hspi.ADDR / 2 ^ (32 - alen) = addr % 2 ^ alen) := by
  have hl0 : ¬ len = 0 := by omega
  have ha0 : ¬ alen = 0 := by omega
  refine ⟨?_, ?_, ?_, ?_, ?_, ?_, ?_⟩
  · simp only [hspi_set_command, hl0, h16, if_true, if_false]
  · simp only [hspi_set_command, hl0, h16, if_true, if_false]
  · intro hw
    simp only [hspi_set_command, hl0, h16, if_true, if_false, hw, Bool.false_eq_true, ↓reduceIte]
  · intro hw i hi
    simp only [hspi_set_command, hl0, h16, if_true, if_false, hw, Bool.false_eq_true, ↓reduceIte]
    rw [bswap16_wire _ i (by omega)]
    have e16 : (65536 : Nat) = 2 ^ 16 := rfl
    rw [e16, Nat.testBit_mod_two_pow, Nat.testBit_shiftLeft, Nat.testBit_mod_two_pow]
    have e1 : 15 - i < 16 := by omega
    have e2 : 15 - i ≥ 16 - len := by omega
    have e3 : 15 - i - (16 - len) = len - 1 - i := by omega
    have e4 : len - 1 - i < 16 := by omega
    simp [e1, e2, e3, e4]
  · simp only [hspi_set_address, ha0, a32, if_true, if_false]
  · simp only [hspi_set_address, ha0, a32, if_true, if_false]
  · intro hw
    have hv : (hspi_set_address alen addr s).hspi.ADDR =
        ((addr % 4294967296) <<< (32 - alen)) % 4294967296 := by
      simp only [hspi_set_address, ha0, a32, if_true, if_false, hw, Bool.false_eq_true, ↓reduceIte]
    rw [hv, shift_field addr alen a32]
    exact ⟨rfl, Nat.mul_div_cancel _ (Nat.pos_pow_of_pos _ (by decide))⟩

theorem c22_command_address_fields_witness :
    1 ≤ 8 ∧ 8 ≤ 16 ∧ 1 ≤ 24 ∧ 24 ≤ 32 ∧
    (hspi_set_command 8 0xfe (hspi_select card0 (world0 [] 1))).hspi.USER2.COMMAND_BITLEN = 7 ∧
    (hspi_set_command 8 0xfe (hspi_select card0 (world0 [] 1))).hspi.USER2.COMMAND_VALUE = 0xfe ∧
    (hspi_set_address 24 0x123456 (hspi_select card0 (world0 [] 1))).hspi.ADDR = 0x12345600 ∧
    ((hspi_set_command 8 0xfe (hspi_select card0 (world0 [] 1))).hspi.USER0.COMMAND = true ∧
      (hspi_set_address 24 0x123456 (hspi_select card0 (world0 [] 1))).hspi.USER1.ADDR_BITLEN
        = 23) :=
  ⟨by decide, by decide, by decide, by decide, by decide, by decide, by decide,
    (c22_command_address_fields 8 0xfe 24 0x123456 (hspi_select card0 (world0 [] 1))
      (by decide) (by decide) (by decide) (by decide)).1,
    (c22_command_address_fields 8 0xfe 24 0x123456 (hspi_select card0 (world0 [] 1))
      (by decide) (by decide) (by decide) (by decide)).2.2.2.2.2.1⟩

/-- C29: `hspi_set_command` with a length above 16, `hspi_set_address` with a
length above 32 and `hspi_set_data` / `hspi_set_pattern` with more than 512
bits leave the whole state unchanged; a length of 0 changes nothing except
clearing the COMMAND, ADDR or MOSI flag of USER0. -/
theorem c29_out_of_range_ignored (nc na nd v : Nat) (d : List Nat) (al : Bool) (s : World)
    (hc : 16 < nc) (ha : 32 < na) (hd : 512 < nd) :
    hspi_set_command nc v s = s ∧ hspi_set_address na v s = s ∧
    hspi_set_data nd d al s = s ∧ hspi_set_pattern nd v s = s ∧
    hspi_set_command 0 v s =
      { s with hspi := { s.hspi with USER0 := { s.hspi.USER0 with COMMAND := false } } } ∧
    hspi_set_address 0 v s =
      { s with hspi := { s.hspi with USER0 := { s.hspi.USER0 with ADDR := false } } } ∧
    hspi_set_data 0 d al s =
      { s with hspi := { s.hspi with USER0 := { s.hspi.USER0 with MOSI := false } } } ∧
    hspi_set_pattern 0 v s =
      { s with hspi := { s.hspi with USER0 := { s.hspi.USER0 with MOSI := false } } } := by
  have c0 : ¬ nc = 0 := by omega
  have c1 : ¬ nc ≤ 16 := by omega
  have a0 : ¬ na = 0 := by omega
  have a1 : ¬ na ≤ 32 := by omega
  have d0 : ¬ nd = 0 := by omega
  have d1 : ¬ nd ≤ 512 := by omega
  refine ⟨?_, ?_, ?_, ?_, rfl, rfl, rfl, rfl⟩
  · simp only [hspi_set_command, c0, c1, if_false]
  · simp only [hspi_set_address, a0, a1, if_false]
  · simp only [hspi_set_data, d0, d1, if_false]
  · simp only [hspi_set_pattern, d0, d1, if_false]

theorem c29_out_of_range_ignored_witness :
    16 < 17 ∧ 32 < 33 ∧ 512 < 513 ∧
    hspi_set_command 17 0xabcd (world0 [] 1) = world0 [] 1 ∧
    hspi_set_address 33 0xabcd (world0 [] 1) = world0 [] 1 ∧
    hspi_set_data 513 [1, 2, 3] true (world0 [] 1) = world0 [] 1 ∧
    hspi_set_pattern 513 0xabcd (world0 [] 1) = world0 [] 1 :=
  ⟨by decide, by decide, by decide,
    (c29_out_of_range_ignored 17 33 513 0xabcd [1, 2, 3] true (world0 [] 1)
      (by decide) (by decide) (by decide)).1,
    (c29_out_of_range_ignored 17 33 513 0xabcd [1, 2, 3] true (world0 [] 1)
      (by decide) (by decide) (by decide)).2.1,
    (c29_out_of_range_ignored 17 33 513 0xabcd [1, 2, 3] true (world0 [] 1)
      (by decide) (by decide) (by decide)).2.2.1,
    (c29_out_of_range_ignored 17 33 513 0xabcd [1, 2, 3] true (world0 [] 1)
      (by decide) (by decide) (by decide)).2.2.2.1⟩

theorem sdcard_init_eq (fuel : Nat) (card : sdcard_t) (s : World) :
    sdcard_init fuel card s =
      match r1cmd fuel 0 0 0x95 (sdcard_init_enter card s) with
      | none => none
      | some (resp, s1) =>
        if resp &&& 0x80 ≠ 0 then
          some (sdcard_init_done (hspi_get_clock (hspi_select card s)) SDCARD_ERROR_TIMEOUT card s1)
        else if resp ≠ 0x01 then
          some (sdcard_init_done (hspi_get_clock (hspi_select card s)) SDCARD_ERROR_IO card s1)
        else sdcard_init_probe fuel (hspi_get_clock (hspi_select card s)) card s1 := rfl

theorem sent_enter (card : sdcard_t) (s : World) : sent (sdcard_init_enter card s) = sent s := by
  obtain ⟨⟨r, g, ht, hn⟩, _⟩ := init_enter_facts card s
  unfold sent
  rw [ht, List.filterMap_append,
    List.filterMap_cons_none (rfl : (Event.select card).frame = none),
    List.filterMap_cons_none (rfl : Event.cs_high.frame = none),
    List.filterMap_cons_none hn,
    List.filterMap_cons_none (rfl : Event.cs_low.frame = none)]
  simp

theorem sent_initExit {orig : ClockReg} {u t : World} {g : List Frame}
    (h : InitExit orig u t g) : sent t = sent u ++ g := by
  obtain ⟨v, hv, rfl⟩ := h
  rw [← sent_of_ext hv]
  have c1 := set_clock_facts orig v
  show List.filterMap Event.frame ((hspi_set_clock orig v).trace ++ [Event.cs_high] ++
    [Event.release]) = List.filterMap Event.frame v.trace
  rw [c1.1, List.filterMap_append, List.filterMap_append,
    List.filterMap_cons_none (rfl : Event.cs_high.frame = none),
    List.filterMap_cons_none (rfl : Event.release.frame = none)]
  simp

theorem sent_done (orig : ClockReg) (err : sdcard_result_t) (card : sdcard_t) (s : World) :
    sent (sdcard_init_done orig err card s).2.2 = sent s := by
  have := sent_initExit (initExit_done orig err card s)
  simpa using this

theorem enter_msb (card : sdcard_t) (s : World) (hm : card.is_msb = true) :
    (sdcard_init_enter card s).hspi.CTRL0.WR_BIT_ORDER = false := by
  rw [(init_enter_facts card s).2, hm]; rfl

/-- C5: `sdcard_init` on an MSB-first card sends CMD0 (argument 0, CRC byte
0x95) before any other command; a reply with the top bit set makes it return
SDCARD_ERROR_TIMEOUT, any other reply different from 0x01 makes it return
SDCARD_ERROR_IO, and in both cases nothing is sent after CMD0. -/
theorem c5_init_cmd0 (fuel : Nat) (card : sdcard_t) (s : World) (hm : card.is_msb = true) :
    (∀ r c t, sdcard_init fuel card s = some (r, c, t) →
      ∃ fr, sent t = sent s ++ fr ∧ (fr = [] ∨ fr.head? = some CMD0)) ∧
    (∀ resp s1, r1cmd fuel 0 0 0x95 (sdcard_init_enter card s) = some (resp, s1) →
      (sent s1 = sent s ∨ sent s1 = sent s ++ [CMD0]) ∧
      (resp &&& 0x80 ≠ 0 → ∃ t, sdcard_init fuel card s = some (SDCARD_ERROR_TIMEOUT, card, t) ∧
        sent t = sent s1) ∧
      (resp &&& 0x80 = 0 → resp ≠ 0x01 →
        ∃ t, sdcard_init fuel card s = some ( SDCARD_ERROR_IO, card, t) ∧
          sent t = sent s1 ∧ sent s1 = sent s ++ [CMD0])) := by
  have hen := enter_msb card s hm
  have key : ∀ resp s1, r1cmd fuel 0 0 0x95 (sdcard_init_enter card s) = some (resp, s1) →
      (sent s1 = sent s ∧ resp = 0x80) ∨ sent s1 = sent s ++ [CMD0] := by
    intro resp s1 h0
    rcases r1cmd_ext fuel 0 0 0x95 _ resp s1 (by omega) (by norm_num) (by omega) hen h0 with e | e
    · left; exact ⟨by rw [sent_of_ext e.1, sent_enter]; simp, e.2⟩
    · right; rw [sent_of_ext e, sent_enter]; rfl
  constructor
  · intro r c t h
    rw [sdcard_init_eq] at h
    cases h0 : r1cmd fuel 0 0 0x95 (sdcard_init_enter card s) with
    | none => rw [h0] at h; exact absurd h (by simp)
    | some p =>
      obtain ⟨resp, s1⟩ := p
      rw [h0] at h
      have hx : ∃ g, InitExit (hspi_get_clock (hspi_select card s)) s1 t g ∧
          (resp = 0x80 → g = []) := by
        by_cases h1 : resp &&& 0x80 ≠ 0
        · simp only [h1, if_true, ne_eq, not_false_eq_true, Option.some.injEq] at h
          exact ⟨[], initExit_of_done h, fun _ => rfl⟩
        · have hne : resp ≠ 0x80 := by
            intro hc; rw [hc] at h1; exact h1 (by decide)
          by_cases h2 : resp ≠ 0x01
          · simp only [h1, h2, if_true, if_false, ne_eq, not_false_eq_true,
              Option.some.injEq] at h
            exact ⟨[], initExit_of_done h, fun _ => rfl⟩
          · simp only [h1, h2, if_false] at h
            obtain ⟨g, hg⟩ := init_probe_exit _ _ _ _ _ _ _ h
            exact ⟨g, hg, fun hc => absurd hc hne⟩
      obtain ⟨g, hg, hg0⟩ := hx
      have hs := sent_initExit hg
      rcases key resp s1 h0 with ⟨e, hr⟩ | e
      · exact ⟨[], by rw [hs, e, hg0 hr], Or.inl rfl⟩
      · exact ⟨CMD0 :: g, by rw [hs, e]; simp, Or.inr rfl⟩
  · intro resp s1 h0
    refine ⟨?_, ?_, ?_⟩
    · rcases key resp s1 h0 with e | e
      · exact Or.inl e.1
      · exact Or.inr e
    · intro h1
      refine ⟨_, ?_, sent_done (hspi_get_clock (hspi_select card s)) SDCARD_ERROR_TIMEOUT card s1⟩
      rw [sdcard_init_eq, h0]
      simp only [h1, if_true, ne_eq, not_false_eq_true]
      rfl
    · intro h1 h2
      refine ⟨_, ?_, sent_done (hspi_get_clock (hspi_select card s)) SDCARD_ERROR_IO card s1, ?_⟩
      · rw [sdcard_init_eq, h0]
        simp only [h1, h2, if_true, if_false, ne_eq, not_true_eq_false, not_false_eq_true]
        rfl
      · rcases key resp s1 h0 with ⟨_, hr⟩ | e
        · rw [hr] at h1; exact absurd h1 (by decide)
        · exact e

/-- C5 at a concrete card that answers CMD0 with 0x05: `sdcard_init` returns
SDCARD_ERROR_IO and CMD0 is the only command sent. -/
theorem c5_init_cmd0_witness :
    card0.is_msb = true ∧
    ∃ t, sdcard_init 5 card0 (world0 (List.replicate 10 0xff ++ rx_r1 0x05) 1) =
        some ( SDCARD_ERROR_IO, card0, t) ∧ sent t = [CMD0] := by
  refine ⟨by decide, ?_⟩
  have hr : (r1cmd 5 0 0 0x95 (sdcard_init_enter card0
      (world0 (List.replicate 10 0xff ++ rx_r1 0x05) 1))).map Prod.fst = some 5 := by decide
  cases h0 : r1cmd 5 0 0 0x95 (sdcard_init_enter card0
      (world0 (List.replicate 10 0xff ++ rx_r1 0x05) 1)) with
  | none => rw [h0] at hr; exact absurd hr (by simp)
  | some p =>
    obtain ⟨resp, s1⟩ := p
    rw [h0] at hr
    simp only [Option.map_some', Option.some.injEq] at hr
    subst hr
    obtain ⟨-, -, h3⟩ := (c5_init_cmd0 5 card0 (world0 (List.replicate 10 0xff ++ rx_r1 0x05) 1)
      (by decide)).2 5 s1 h0
    obtain ⟨t, h4, h5, h6⟩ := h3 (by decide) (by decide)
    exact ⟨t, h4, by rw [h5, h6]; rfl⟩

theorem blit_zero (dst src : List Nat) (h : src.length ≤ dst.length) :
    blit dst 0 src = src ++ dst.drop src.length := by
  unfold blit
  simp only [List.take_zero, Nat.sub_zero, List.nil_append, Nat.zero_add]
  rw [List.take_of_length_le h]

theorem blit_zero_length (dst src : List Nat) (h : src.length ≤ dst.length) :
    (blit dst 0 src).length = dst.length := by
  rw [blit_zero dst src h, List.length_append, List.length_drop]
  omega

theorem blit_zero_getD (dst src : List Nat) (h : src.length ≤ dst.length) (i : Nat)
    (hi : i < src.length) : (blit dst 0 src).getD i 0 = src.getD i 0 := by
  rw [blit_zero dst src h, List.getD_append _ _ _ _ hi]

theorem flatten_replicate_length (l : List Nat) : ∀ k : Nat,
    (List.replicate k l).flatten.length = k * l.length := by
  intro k
  induction k with
  | zero => simp
  | succ k ih =>
    rw [List.replicate_succ, List.flatten_cons, List.length_append, ih]
    ring

theorem flatten_replicate_getD (l : List Nat) : ∀ (k j r : Nat), j < k → r < l.length →
    (List.replicate k l).flatten.getD (l.length * j + r) 0 = l.getD r 0 := by
  intro k
  induction k with
  | zero => intro j r hj; omega
  | succ k ih =>
    intro j r hj hr
    rw [List.replicate_succ, List.flatten_cons]
    cases j with
    | zero =>
      rw [Nat.mul_zero, Nat.zero_add, List.getD_append _ _ _ _ hr]
    | succ j =>
      have hge : l.length ≤ l.length * (j + 1) + r := by
        rw [Nat.mul_succ]; omega
      rw [List.getD_append_right _ _ _ _ hge]
      have e : l.length * (j + 1) + r - l.length = l.length * j + r := by
        rw [Nat.mul_succ]; omega
      rw [e]
      exact ih j r (by omega) hr

theorem wordBytes_sum (p : Nat) (h : p < 4294967296) :
    p % 256 + p / 256 % 256 * 256 + p / 65536 % 256 * 65536 + p / 16777216 % 256 * 16777216
      = p := by
  omega

theorem set_pattern_facts (n p : Nat) (s : World) (hW : s.hspi.W.length = 64) (h1 : 1 ≤ n)
    (h2 : n ≤ 512) :
    (hspi_set_pattern n p s).hspi.USER0.MOSI = true ∧
    (hspi_set_pattern n p s).hspi.USER1.MOSI_BITLEN = n - 1 ∧
    (hspi_set_pattern n p s).hspi.W.length = 64 ∧
    ∀ j, j < (n + 31) / 32 → wordAt (hspi_set_pattern n p s).hspi.W j = p % 4294967296 := by
  have h0 : ¬ n = 0 := by omega
  have hk : (n + 31) / 32 ≤ 16 := by omega
  have hlen : ((List.replicate ((n + 31) / 32) (wordBytes (p % 4294967296))).flatten).length
      ≤ s.hspi.W.length := by
    rw [flatten_replicate_length, hW]
    show (n + 31) / 32 * 4 ≤ 64
    omega
  have hw : (hspi_set_pattern n p s).hspi.W =
      blit s.hspi.W 0 (List.replicate ((n + 31) / 32) (wordBytes (p % 4294967296))).flatten := by
    simp only [hspi_set_pattern, h0, h2, if_true, if_false]
  refine ⟨?_, ?_, ?_, ?_⟩
  · simp only [hspi_set_pattern, h0, h2, if_true, if_false]
  · simp only [hspi_set_pattern, h0, h2, if_true, if_false]
  · rw [hw, blit_zero_length _ _ hlen, hW]
  · intro j hj
    rw [hw]
    have hl4 : (wordBytes (p % 4294967296)).length = 4 := rfl
    have g : ∀ r, r < 4 → (blit s.hspi.W 0
        (List.replicate ((n + 31) / 32) (wordBytes (p % 4294967296))).flatten).getD (4 * j + r) 0
        = (wordBytes (p % 4294967296)).getD r 0 := by
      intro r hr
      rw [blit_zero_getD _ _ hlen _ (by rw [flatten_replicate_length, hl4]; omega)]
      have := flatten_replicate_getD (wordBytes (p % 4294967296)) ((n + 31) / 32) j r hj
        (by rw [hl4]; exact hr)
      rw [hl4] at this
      exact this
    unfold wordAt
    have g0 := g 0 (by omega)
    simp only [Nat.add_zero] at g0
    rw [g0, g 1 (by omega), g 2 (by omega), g 3 (by omega)]
    exact wordBytes_sum _ (Nat.mod_lt _ (by decide))

theorem set_data_facts (m : Nat) (d : List Nat) (al : Bool) (s : World)
    (hW : s.hspi.W.length = 64) (h1 : 1 ≤ m) (h2 : m ≤ 512) :
    (hspi_set_data m d al s).hspi.USER0.MOSI = true ∧
    (hspi_set_data m d al s).hspi.USER1.MOSI_BITLEN = m - 1 ∧
    (hspi_set_data m d al s).hspi.W.length = 64 ∧
    ∀ i, i < (m + 7) / 8 → (hspi_set_data m d al s).hspi.W.getD i 0 = d.getD i 0 % 256 := by
  have h0 : ¬ m = 0 := by omega
  have hn : (m + 7) / 8 ≤ (if al = true then 4 * ((m + 31) / 32) else (m + 7) / 8) ∧
      (if al = true then 4 * ((m + 31) / 32) else (m + 7) / 8) ≤ 64 := by
    split <;> omega
  have hlen : ((List.range (if al = true then 4 * ((m + 31) / 32) else (m + 7) / 8)).map
      (fun i => d.getD i 0 % 256)).length ≤ s.hspi.W.length := by
    rw [List.length_map, List.length_range, hW]; exact hn.2
  have hw : (hspi_set_data m d al s).hspi.W =
      blit s.hspi.W 0 ((List.range (if al = true then 4 * ((m + 31) / 32) else (m + 7) / 8)).map
        (fun i => d.getD i 0 % 256)) := by
    simp only [hspi_set_data, h0, h2, if_true, if_false]
  refine ⟨?_, ?_, ?_, ?_⟩
  · simp only [hspi_set_data, h0, h2, if_true, if_false]
  · simp only [hspi_set_data, h0, h2, if_true, if_false]
  · rw [hw, blit_zero_length _ _ hlen, hW]
  · intro i hi
    have hi2 : i < (if al = true then 4 * ((m + 31) / 32) else (m + 7) / 8) :=
      Nat.lt_of_lt_of_le hi hn.1
    rw [hw, blit_zero_getD _ _ hlen _ (by rw [List.length_map, List.length_range]; exact hi2)]
    rw [List.getD_eq_getElem?_getD, List.getElem?_map, List.getElem?_range hi2]
    rfl

/-- C24: with a 64-byte data buffer and lengths `m`, `n` in 1..512, after
`hspi_set_data m d` followed by `hspi_set_pattern n p` the output phase is
enabled, the output bit length is `n - 1` and the first `ceil(n/32)` words of
the buffer equal `p`; after `hspi_set_pattern n p` followed by
`hspi_set_data m d` the output bit length is `m - 1` and the first
`ceil(m/8)` bytes of the buffer are the first bytes of `d`. -/
theorem c24_last_payload_wins (m n p : Nat) (d : List Nat) (al : Bool) (s : World)
    (hW : s.hspi.W.length = 64) (m1 : 1 ≤ m) (m2 : m ≤ 512) (n1 : 1 ≤ n) (n2 : n ≤ 512) :
    ((hspi_set_pattern n p (hspi_set_data m d al s)).hspi.USER0.MOSI = true ∧
      (hspi_set_pattern n p (hspi_set_data m d al s)).hspi.USER1.MOSI_BITLEN = n - 1 ∧
      ∀ j, j < (n + 31) / 32 →
        wordAt (hspi_set_pattern n p (hspi_set_data m d al s)).hspi.W j = p % 4294967296) ∧
    ((hspi_set_data m d al (hspi_set_pattern n p s)).hspi.USER0.MOSI = true ∧
      (hspi_set_data m d al (hspi_set_pattern n p s)).hspi.USER1.MOSI_BITLEN = m - 1 ∧
      ∀ i, i < (m + 7) / 8 →
        (hspi_set_data m d al (hspi_set_pattern n p s)).hspi.W.getD i 0 = d.getD i 0 % 256) := by
  obtain ⟨-, -, d3, -⟩ := set_data_facts m d al s hW m1 m2
  obtain ⟨-, -, p3, -⟩ := set_pattern_facts n p s hW n1 n2
  obtain ⟨a1, a2, -, a4⟩ := set_pattern_facts n p (hspi_set_data m d al s) d3 n1 n2
  obtain ⟨b1, b2, -, b4⟩ := set_data_facts m d al (hspi_set_pattern n p s) p3 m1 m2
  exact ⟨⟨a1, a2, a4⟩, ⟨b1, b2, b4⟩⟩

theorem c24_last_payload_wins_witness :
    (world0 [] 1).hspi.W.length = 64 ∧ 1 ≤ 16 ∧ 16 ≤ 512 ∧ 1 ≤ 40 ∧ 40 ≤ 512 ∧
    (hspi_set_pattern 40 0xffff (hspi_set_data 16 [0x12, 0x34] false (world0 [] 1))).hspi.W.take 8
      = [0xff, 0xff, 0, 0, 0xff, 0xff, 0, 0] ∧
    (hspi_set_data 16 [0x12, 0x34] false (hspi_set_pattern 40 0xffff (world0 [] 1))).hspi.W.take 8
      = [0x12, 0x34, 0, 0, 0xff, 0xff, 0, 0] ∧
    (hspi_set_data 16 [0x12, 0x34] false
      (hspi_set_pattern 40 0xffff (world0 [] 1))).hspi.USER1.MOSI_BITLEN = 16 - 1 :=
  ⟨by decide, by decide, by decide, by decide, by decide, by decide, by decide,
    (c24_last_payload_wins 16 40 0xffff [0x12, 0x34] false (world0 [] 1)
      (by decide) (by decide) (by decide) (by decide) (by decide)).2.2.1⟩

/-- C20: with bit-fields allocated from the least significant bit of each
32-bit unit, the members before and after the union and those of the `v1`
struct occupy the CSD bit ranges of their comments, and so do the `v2`
members up to `device_size_high`; but `reserved_bits_70_75` is two bits wide,
so `v2.dsr_implemented` is bit 72 (documented 76), `v2.max_read_block_len`
bits 76..79 (documented 80..83) and `v2.card_command_classes` bits 80..91
(documented 84..95).  On a version 2 CSD with READ_BL_LEN = 9 and
CCC = 0x5B5 stored as `sdcard_read_csd` stores it, the members read 0 and
0xB59. -/
theorem c20_v2_layout_shifted :
    allocated_documented 0 sdcard_csd_head = documented sdcard_csd_head ∧
    allocated_documented 32 sdcard_csd_v1 = documented sdcard_csd_v1 ∧
    allocated_documented 96 sdcard_csd_tail = documented sdcard_csd_tail ∧
    (allocated_documented 32 sdcard_csd_v2).take 5 = (documented sdcard_csd_v2).take 5 ∧
    (allocated_documented 32 sdcard_csd_v2).drop 5 =
      [("dsr_implemented", 72, 72), ("read_block_misalign", 73, 73),
       ("write_block_misalign", 74, 74), ("read_block_partial", 75, 75),
       ("max_read_block_len", 76, 79), ("card_command_classes", 80, 91)] ∧
    (documented sdcard_csd_v2).drop 5 =
      [("dsr_implemented", 76, 76), ("read_block_misalign", 77, 77),
       ("write_block_misalign", 78, 78), ("read_block_partial", 79, 79),
       ("max_read_block_len", 80, 83), ("card_command_classes", 84, 95)] ∧
    (sdcard_read_csd 3 card0 (List.replicate 16 0) (world0 (rx_register csd_v2) 1)).map
      (fun q => (q.1, q.2.1, struct_bits q.2.1 126 127, struct_bits q.2.1 76 79,
        struct_bits q.2.1 80 91)) =
      some (SDCARD_SUCCESS, csd_v2.reverse, 1, 0, 0xB59) ∧
    csd_bits csd_v2 80 83 = 9 ∧ csd_bits csd_v2 84 95 = 0x5B5 ∧
    struct_bits csd_v2.reverse 48 63 + 65536 * struct_bits csd_v2.reverse 64 69 = 0x3998 := by
  refine ⟨by decide, by decide, by decide, by decide, by decide, by decide, by decide,
    by decide, by decide, by decide⟩

/-- C25: for a valid drive, GET_SECTOR_SIZE stores the 16-bit value 512 and
GET_BLOCK_SIZE stores the 16-bit value 1, both returning RES_OK; the upper
half of the DWORD at `buff` keeps its old content, so after GET_BLOCK_SIZE on
a buffer that held 0xFFFFFFFF the DWORD reads 0xFFFF0001, not 1.  For a drive
number outside the volumes the result is RES_PARERR and nothing is
written. -/
theorem c25_block_size_stored_as_word (fuel : Nat) (c : sdcard_t) (b0 b1 b2 b3 : Nat)
    (s : World) :
    (disk_ioctl fuel [c] 0 ioctl_cmd_t.GET_SECTOR_SIZE [b0, b1, b2, b3] s).map
      (fun q => (q.1, q.2.1)) = some (DRESULT.RES_OK, [0, 2, b2, b3]) ∧
    (disk_ioctl fuel [c] 0 ioctl_cmd_t.GET_BLOCK_SIZE [b0, b1, b2, b3] s).map
      (fun q => (q.1, q.2.1)) = some (DRESULT.RES_OK, [1, 0, b2, b3]) ∧
    load_word [0, 2, b2, b3] = 512 ∧
    load_dword [1, 0, b2, b3] = 1 + b2 * 65536 + b3 * 16777216 ∧
    (disk_ioctl fuel [c] 0 ioctl_cmd_t.GET_BLOCK_SIZE [0xff, 0xff, 0xff, 0xff] s).map
      (fun q => (q.1, load_dword q.2.1)) = some (DRESULT.RES_OK, 0xFFFF0001) ∧
    (disk_ioctl fuel [c] 1 ioctl_cmd_t.GET_BLOCK_SIZE [b0, b1, b2, b3] s).map
      (fun q => (q.1, q.2.1)) = some (DRESULT.RES_PARERR, [b0, b1, b2, b3]) := by
  refine ⟨rfl, rfl, ?_, ?_, ?_, rfl⟩
  · simp [load_word]
  · simp [load_dword, wordAt]
  · simp [disk_ioctl, store_word, blit, load_dword, wordAt]

theorem and_0x80 (x : Nat) : x &&& 0x80 ≠ 0 ↔ 128 ≤ x % 256 := by
  have h : (0x80 : Nat) = 2 ^ 7 := rfl
  rw [h, Nat.and_two_pow]
  cases hb : x.testBit 7
  · simp only [Bool.toNat_false, Nat.zero_mul, ne_eq, not_true_eq_false, false_iff, not_le]
    rw [Nat.testBit_to_div_mod] at hb
    simp only [decide_eq_false_iff_not] at hb
    omega
  · simp only [Bool.toNat_true, Nat.one_mul]
    rw [Nat.testBit_to_div_mod] at hb
    simp only [decide_eq_true_eq] at hb
    constructor
    · intro _; omega
    · intro _; norm_num

theorem map_range_getD (f : Nat → Nat) (n j : Nat) (h : j < n) :
    ((List.range n).map f).getD j 0 = f j := by
  rw [List.getD_eq_getElem?_getD, List.getElem?_map, List.getElem?_range h]
  rfl

theorem poll_exec (s : World) (h : Poll s) :
    Poll (hspi_read 0 (hspi_exec s)).2 ∧
    (hspi_read 0 (hspi_exec s)).2.rx = s.rx ∧
    (hspi_read 0 (hspi_exec s)).2.rxpos = s.rxpos + 1 ∧
    (hspi_read 0 (hspi_exec s)).2.clk = s.clk ∧
    (hspi_read 0 (hspi_exec s)).2.clkpos = s.clkpos ∧
    (hspi_read 0 (hspi_exec s)).1 % 256 = rxByte s 0 := by
  have hn : rxCount s.hspi = 1 := by
    unfold rxCount
    rw [h.duplex, h.mosi, h.len]
    rfl
  refine ⟨⟨h.duplex, h.mosi, h.len, h.rd⟩, rfl, ?_, rfl, rfl, ?_⟩
  · show s.rxpos + rxCount s.hspi = s.rxpos + 1
    rw [hn]
  · show wordAt (hspi_exec s).hspi.W (0 &&& 0xf) % 256 = rxByte s 0
    have hw : (hspi_exec s).hspi.W.getD 0 0 = s.rx (s.rxpos + 0) % 256 := by
      unfold hspi_exec
      simp only []
      rw [map_range_getD _ 64 0 (by decide)]
      simp only [rxSlot, h.rd, hn]
      rfl
    unfold wordAt rxByte
    have e0 : (0 &&& 0xf : Nat) = 0 := rfl
    rw [e0, Nat.mul_zero, hw]
    omega

theorem rxByte_shift (s t : World) (d : Nat) (h1 : t.rx = s.rx) (h2 : t.rxpos = s.rxpos + d)
    (i : Nat) : rxByte t i = rxByte s (i + d) := by
  unfold rxByte
  rw [h1, h2]
  have : s.rxpos + d + i = s.rxpos + (i + d) := by omega
  rw [this]

theorem rxByte_lt (s : World) (i : Nat) : rxByte s i < 256 := Nat.mod_lt _ (by decide)

/-- What `wait_r1_loop` returns: the first of the next `n + 1` bytes whose top
bit is clear, and the last of them when there is none. -/
theorem wait_r1_loop_spec : ∀ (n : Nat) (s : World), Poll s →
    (∀ j, j < n + 1 → (∀ i, i < j → 128 ≤ rxByte s i) → rxByte s j < 128 →
      (wait_r1_loop (n + 1) s).1 % 256 = rxByte s j) ∧
    ((∀ i, i < n + 1 → 128 ≤ rxByte s i) → (wait_r1_loop (n + 1) s).1 % 256 = rxByte s n) := by
  intro n
  induction n with
  | zero =>
    intro s hp
    obtain ⟨-, -, -, -, -, hb⟩ := poll_exec s hp
    have e : wait_r1_loop (0 + 1) s =
        ((hspi_read 0 (hspi_exec s)).1, (hspi_read 0 (hspi_exec s)).2) := by
      rw [wait_r1_loop_succ]
      simp
    rw [e]
    refine ⟨?_, fun _ => hb⟩
    intro j hj _ _
    have : j = 0 := by omega
    rw [this]; exact hb
  | succ n ih =>
    intro s hp
    obtain ⟨hp1, hrx, hpos, -, -, hb⟩ := poll_exec s hp
    have hs := rxByte_shift s (hspi_read 0 (hspi_exec s)).2 1 hrx hpos
    obtain ⟨ih1, ih2⟩ := ih (hspi_read 0 (hspi_exec s)).2 hp1
    have hhi : 128 ≤ rxByte s 0 →
        wait_r1_loop (n + 1 + 1) s = wait_r1_loop (n + 1) (hspi_read 0 (hspi_exec s)).2 := by
      intro h0
      rw [wait_r1_loop_succ]
      have c : (hspi_read 0 (hspi_exec s)).1 &&& 0x80 ≠ 0 ∧ n + 1 ≠ 0 :=
        ⟨(and_0x80 _).2 (by rw [hb]; exact h0), by omega⟩
      rw [if_pos c]
    have hlo : rxByte s 0 < 128 →
        wait_r1_loop (n + 1 + 1) s =
          ((hspi_read 0 (hspi_exec s)).1, (hspi_read 0 (hspi_exec s)).2) := by
      intro h0
      rw [wait_r1_loop_succ]
      have c : ¬ ((hspi_read 0 (hspi_exec s)).1 &&& 0x80 ≠ 0 ∧ n + 1 ≠ 0) := by
        intro hc
        have := (and_0x80 _).1 hc.1
        rw [hb] at this
        omega
      rw [if_neg c]
    constructor
    · intro j hj hall hlt
      cases j with
      | zero => rw [hlo hlt]; exact hb
      | succ j =>
        rw [hhi (hall 0 (by omega))]
        have := ih1 j (by omega) (fun i hi => by rw [hs]; exact hall (i + 1) (by omega))
          (by rw [hs]; exact hlt)
        rw [this, hs]
    · intro hall
      rw [hhi (hall 0 (by omega)), ih2 (fun i hi => by rw [hs]; exact hall (i + 1) (by omega)), hs]

theorem wait_r1_fst (s : World) :
    (wait_r1 s).1 = (wait_r1_loop 7 (hspi_config_exec { big_endian_output := true }
      (hspi_set_pattern 8 0xffffffff (hspi_reset s)))).1 % 256 := rfl

theorem poll_setup (s : World) (h : s.hspi.USER0.DUPLEX = true) :
    Poll (hspi_config_exec { big_endian_output := true }
      (hspi_set_pattern 8 0xffffffff (hspi_reset s))) ∧
    (hspi_config_exec { big_endian_output := true }
      (hspi_set_pattern 8 0xffffffff (hspi_reset s))).rx = s.rx ∧
    (hspi_config_exec { big_endian_output := true }
      (hspi_set_pattern 8 0xffffffff (hspi_reset s))).rxpos = s.rxpos ∧
    (hspi_config_exec { big_endian_output := true }
      (hspi_set_pattern 8 0xffffffff (hspi_reset s))).clk = s.clk ∧
    (hspi_config_exec { big_endian_output := true }
      (hspi_set_pattern 8 0xffffffff (hspi_reset s))).clkpos = s.clkpos :=
  ⟨⟨h, rfl, rfl, rfl⟩, rfl, rfl, rfl, rfl⟩

/-- The command transaction of `r1cmd_send` on a full-duplex device: the two
bytes captured with it, and the state it leaves. -/
theorem r1cmd_xfer_rx (c a k : Nat) (s : World) (h : s.hspi.USER0.DUPLEX = true) :
    (hspi_read 0 (r1cmd_xfer c a k s)).1 % 256 = rxByte s 0 ∧
    ((hspi_read 0 (r1cmd_xfer c a k s)).1 >>> 8) % 256 = rxByte s 1 ∧
    (hspi_read 0 (r1cmd_xfer c a k s)).2.rx = s.rx ∧
    (hspi_read 0 (r1cmd_xfer c a k s)).2.rxpos = s.rxpos + 2 ∧
    (hspi_read 0 (r1cmd_xfer c a k s)).2.clk = s.clk ∧
    (hspi_read 0 (r1cmd_xfer c a k s)).2.clkpos = s.clkpos ∧
    (hspi_read 0 (r1cmd_xfer c a k s)).2.hspi.USER0.DUPLEX = true := by
  have hd : (hspi_config_exec {} (hspi_set_pattern 16 0xffff
      (hspi_set_address 32 (r1cmd_address a k)
        (hspi_set_command 16 (r1cmd_command c a) s)))).hspi.USER0.DUPLEX = true := h
  have hn : rxCount (hspi_config_exec {} (hspi_set_pattern 16 0xffff
      (hspi_set_address 32 (r1cmd_address a k)
        (hspi_set_command 16 (r1cmd_command c a) s)))).hspi = 2 := by
    have hmo : (hspi_config_exec {} (hspi_set_pattern 16 0xffff
      (hspi_set_address 32 (r1cmd_address a k)
        (hspi_set_command 16 (r1cmd_command c a) s)))).hspi.USER0.MOSI = true := rfl
    have hml : (hspi_config_exec {} (hspi_set_pattern 16 0xffff
      (hspi_set_address 32 (r1cmd_address a k)
        (hspi_set_command 16 (r1cmd_command c a) s)))).hspi.USER1.MOSI_BITLEN = 15 := rfl
    unfold rxCount
    rw [hd, hmo, hml]
    rfl
  have hw : ∀ j, j < 2 → (r1cmd_xfer c a k s).hspi.W.getD j 0 = rxByte s j := by
    intro j hj
    unfold r1cmd_xfer hspi_exec
    simp only []
    rw [map_range_getD _ 64 j (by omega), hn]
    have e : rxSlot (hspi_config_exec {} (hspi_set_pattern 16 0xffff
      (hspi_set_address 32 (r1cmd_address a k)
        (hspi_set_command 16 (r1cmd_command c a) s)))).hspi.USER0.RD_BYTE_ORDER j = j := rfl
    rw [e, if_pos hj]
    rfl
  have h0 := hw 0 (by decide)
  have h1 := hw 1 (by decide)
  have b0 := rxByte_lt s 0
  have b1 := rxByte_lt s 1
  have hr : (hspi_read 0 (r1cmd_xfer c a k s)).1 =
      (r1cmd_xfer c a k s).hspi.W.getD 0 0 + (r1cmd_xfer c a k s).hspi.W.getD 1 0 * 256 +
        (r1cmd_xfer c a k s).hspi.W.getD 2 0 * 65536 +
        (r1cmd_xfer c a k s).hspi.W.getD 3 0 * 16777216 := rfl
  refine ⟨?_, ?_, rfl, ?_, rfl, rfl, h⟩
  · rw [hr, h0, h1]; omega
  · rw [hr, h0, h1, Nat.shiftRight_eq_div_pow]; omega
  · show s.rxpos + rxCount _ = s.rxpos + 2
    rw [hn]

/-- What `r1cmd_send` returns on a full-duplex device: the first of the next
nine bytes whose top bit is clear, and the ninth when there is none. -/
theorem r1cmd_send_spec (c a k : Nat) (s : World) (h : s.hspi.USER0.DUPLEX = true) :
    (∀ j, j < 9 → (∀ i, i < j → 128 ≤ rxByte s i) → rxByte s j < 128 →
      (r1cmd_send c a k s).1 = rxByte s j) ∧
    ((∀ i, i < 9 → 128 ≤ rxByte s i) → (r1cmd_send c a k s).1 = rxByte s 8) := by
  obtain ⟨x0, x1, xrx, xpos, -, -, xd⟩ := r1cmd_xfer_rx c a k s h
  have t0 : (hspi_read 0 (r1cmd_xfer c a k s)).1 &&& 0x80 ≠ 0 ↔ 128 ≤ rxByte s 0 := by
    rw [and_0x80, x0]
  have t1 : ((hspi_read 0 (r1cmd_xfer c a k s)).1 >>> 8) &&& 0x80 ≠ 0 ↔ 128 ≤ rxByte s 1 := by
    rw [and_0x80, x1]
  obtain ⟨hp, prx, ppos, -, -⟩ := poll_setup (hspi_read 0 (r1cmd_xfer c a k s)).2 xd
  have hs : ∀ i, rxByte (hspi_config_exec { big_endian_output := true }
      (hspi_set_pattern 8 0xffffffff (hspi_reset (hspi_read 0 (r1cmd_xfer c a k s)).2))) i =
      rxByte s (i + 2) :=
    rxByte_shift s _ 2 (by rw [prx, xrx]) (by rw [ppos, xpos])
  obtain ⟨l1, l2⟩ := wait_r1_loop_spec 6 _ hp
  have hlo0 : rxByte s 0 < 128 → (r1cmd_send c a k s).1 = rxByte s 0 := by
    intro hlt
    rw [r1cmd_send_eq, if_neg (by rw [t0]; omega)]
    exact x0
  have hlo1 : 128 ≤ rxByte s 0 → rxByte s 1 < 128 → (r1cmd_send c a k s).1 = rxByte s 1 := by
    intro hge hlt
    rw [r1cmd_send_eq, if_pos (t0.2 hge), if_neg (by rw [t1]; omega)]
    exact x1
  have hhi : 128 ≤ rxByte s 0 → 128 ≤ rxByte s 1 → (r1cmd_send c a k s).1 =
      (wait_r1_loop 7 (hspi_config_exec { big_endian_output := true }
        (hspi_set_pattern 8 0xffffffff
          (hspi_reset (hspi_read 0 (r1cmd_xfer c a k s)).2)))).1 % 256 := by
    intro h0 h1
    rw [r1cmd_send_eq, if_pos (t0.2 h0), if_pos (t1.2 h1)]
    rfl
  constructor
  · intro j hj hall hlt
    match j, hj, hall, hlt with
    | 0, _, _, hlt => exact hlo0 hlt
    | 1, _, hall, hlt => exact hlo1 (hall 0 (by omega)) hlt
    | j + 2, hj, hall, hlt =>
      rw [hhi (hall 0 (by omega)) (hall 1 (by omega))]
      rw [l1 j (by omega) (fun i hi => by rw [hs]; exact hall (i + 2) (by omega))
        (by rw [hs]; exact hlt), hs]
  · intro hall
    rw [hhi (hall 0 (by omega)) (hall 1 (by omega)),
      l2 (fun i hi => by rw [hs]; exact hall (i + 2) (by omega)), hs]

theorem expired_fst (d t0 : Nat) (s : World) : (expired d t0 s).1 = decide (since t0 s 0 > d) := rfl

theorem expired_snd (d t0 : Nat) (s : World) :
    (expired d t0 s).2 = { s with clkpos := s.clkpos + 1 } := rfl

/-- A run of the poll loop of `wait_until_card_returns`: while the bytes
differ from `value` and the deadline has not passed it goes on; it stops at
the first byte that equals `value` or is read with the deadline passed, and
returns that byte. -/
theorem wait_loop_run (value t0 : Nat) : ∀ (n fuel : Nat) (s : World), Poll s → n < fuel →
    (∀ i, i < n → rxByte s i ≠ value ∧ since t0 s i ≤ IO_TIMEOUT) →
    (rxByte s n = value ∨ IO_TIMEOUT < since t0 s n) →
    ∃ t, wait_until_card_returns_loop value t0 fuel s = some (rxByte s n, t) ∧
      t.rx = s.rx ∧ t.rxpos = s.rxpos + (n + 1) ∧ t.clk = s.clk ∧ Poll t := by
  intro n
  induction n with
  | zero =>
    intro fuel s hp hf _ hend
    obtain ⟨f, rfl⟩ : ∃ f, fuel = f + 1 := ⟨fuel - 1, by omega⟩
    obtain ⟨hp1, hrx, hpos, hclk, hcp, hb⟩ := poll_exec s hp
    rw [wait_loop_succ, hb]
    by_cases hv : rxByte s 0 = value
    · rw [if_neg (by simp [hv])]
      exact ⟨_, rfl, hrx, hpos, hclk, hp1⟩
    · rw [if_pos hv]
      have hx : IO_TIMEOUT < since t0 s 0 := by
        rcases hend with h | h
        · exact absurd h hv
        · exact h
      have he : (expired IO_TIMEOUT t0 (hspi_read 0 (hspi_exec s)).2).1 = true := by
        rw [expired_fst]
        simp only [decide_eq_true_eq]
        unfold since
        rw [hclk, hcp]
        exact hx
      rw [he]
      simp only [Bool.not_true, Bool.false_eq_true, if_false]
      exact ⟨_, rfl, hrx, hpos, hclk, ⟨hp1.duplex, hp1.mosi, hp1.len, hp1.rd⟩⟩
  | succ n ih =>
    intro fuel s hp hf hpre hend
    obtain ⟨f, rfl⟩ : ∃ f, fuel = f + 1 := ⟨fuel - 1, by omega⟩
    obtain ⟨hp1, hrx, hpos, hclk, hcp, hb⟩ := poll_exec s hp
    obtain ⟨hv, hx⟩ := hpre 0 (by omega)
    rw [wait_loop_succ, hb, if_pos hv]
    have he : (expired IO_TIMEOUT t0 (hspi_read 0 (hspi_exec s)).2).1 = false := by
      rw [expired_fst]
      simp only [decide_eq_false_iff_not, not_lt]
      unfold since
      rw [hclk, hcp]
      exact hx
    rw [he]
    simp only [Bool.not_false, if_true]
    have hs : ∀ i, rxByte (expired IO_TIMEOUT t0 (hspi_read 0 (hspi_exec s)).2).2 i =
        rxByte s (i + 1) := rxByte_shift s _ 1 hrx hpos
    have hc : ∀ i, since t0 (expired IO_TIMEOUT t0 (hspi_read 0 (hspi_exec s)).2).2 i =
        since t0 s (i + 1) := by
      intro i
      show (((hspi_read 0 (hspi_exec s)).2.clk ((hspi_read 0 (hspi_exec s)).2.clkpos + 1 + i))
        % 4294967296 + 4294967296 - t0 % 4294967296) % 4294967296 = _
      rw [hclk, hcp]
      unfold since
      have : s.clkpos + 1 + i = s.clkpos + (i + 1) := by omega
      rw [this]
    obtain ⟨t, h1, h2, h3, h4, h5⟩ := ih f (expired IO_TIMEOUT t0 (hspi_read 0 (hspi_exec s)).2).2
      ⟨hp1.duplex, hp1.mosi, hp1.len, hp1.rd⟩ (by omega)
      (fun i hi => by rw [hs, hc]; exact hpre (i + 1) (by omega))
      (by rw [hs, hc]; exact hend)
    refine ⟨t, ?_, ?_, ?_, ?_, h5⟩
    · rw [h1, hs]
    · rw [h2]; exact hrx
    · rw [h3]
      show (hspi_read 0 (hspi_exec s)).2.rxpos + (n + 1) = _
      rw [hpos]; omega
    · rw [h4]; exact hclk

theorem wait_returns_eq (fuel value : Nat) (s : World) :
    wait_until_card_returns fuel value s =
      wait_until_card_returns_loop value
        (timestamp (hspi_config_exec { big_endian_output := true }
          (hspi_set_pattern 8 0xffffffff (hspi_reset s)))).1 fuel
        (timestamp (hspi_config_exec { big_endian_output := true }
          (hspi_set_pattern 8 0xffffffff (hspi_reset s)))).2 := rfl

/-- A run of `wait_until_card_returns` on a full-duplex device: it returns
the first byte that equals `value` or is read with the deadline passed. -/
theorem wait_returns_run (fuel value n : Nat) (s : World) (hd : s.hspi.USER0.DUPLEX = true)
    (hf : n < fuel) (hpre : ∀ i, i < n → rxByte s i ≠ value ∧ elapsed s i ≤ IO_TIMEOUT)
    (hend : rxByte s n = value ∨ IO_TIMEOUT < elapsed s n) :
    ∃ t, wait_until_card_returns fuel value s = some (rxByte s n, t) ∧
      t.rx = s.rx ∧ t.rxpos = s.rxpos + (n + 1) ∧ t.clk = s.clk ∧
      t.hspi.USER0.DUPLEX = true ∧ Quiet s t := by
  obtain ⟨hp, prx, ppos, pclk, pcp⟩ := poll_setup s hd
  have hp2 : Poll (timestamp (hspi_config_exec { big_endian_output := true }
      (hspi_set_pattern 8 0xffffffff (hspi_reset s)))).2 := ⟨hp.duplex, hp.mosi, hp.len, hp.rd⟩
  have hs : ∀ i, rxByte (timestamp (hspi_config_exec { big_endian_output := true }
      (hspi_set_pattern 8 0xffffffff (hspi_reset s)))).2 i = rxByte s i :=
    fun i => rxByte_shift s _ 0 prx ppos i
  have hc : ∀ i, since (timestamp (hspi_config_exec { big_endian_output := true }
      (hspi_set_pattern 8 0xffffffff (hspi_reset s)))).1
      (timestamp (hspi_config_exec { big_endian_output := true }
        (hspi_set_pattern 8 0xffffffff (hspi_reset s)))).2 i = elapsed s i := by
    intro i
    show ((s.clk (s.clkpos + 1 + i)) % 4294967296 + 4294967296 -
      ((s.clk s.clkpos % 4294967296 + 4294967296 - 0 % 4294967296) % 4294967296) % 4294967296)
        % 4294967296 = _
    unfold elapsed since
    have e1 : s.clkpos + 1 + i = s.clkpos + (i + 1) := by omega
    rw [e1]
    omega
  obtain ⟨t, h1, h2, h3, h4, h5⟩ := wait_loop_run value _ n fuel _ hp2 hf
    (fun i hi => by rw [hs, hc]; exact hpre i hi) (by rw [hs, hc]; exact hend)
  rw [hs] at h1
  refine ⟨t, ?_, by rw [h2]; exact prx, by rw [h3]; show s.rxpos + (n + 1) = _; rfl,
    by rw [h4]; exact pclk, h5.duplex, ?_⟩
  · rw [wait_returns_eq]; exact h1
  · exact wait_until_card_returns_quiet fuel value s _ t (by rw [wait_returns_eq]; exact h1)

theorem r1cmd_of_wait (fuel c a k : Nat) (s : World) (busy : Nat) (s1 : World)
    (h : wait_until_card_returns fuel 0xff s = some (busy, s1)) :
    r1cmd fuel c a k s = if busy = 0 then some (0x80, s1) else some (r1cmd_send c a k s1) := by
  unfold r1cmd wait_until_card_not_busy
  rw [h]

/-- C26 counterexample: the card answers the not-busy poll with 0x01 and the
deadline passes at that poll, so no byte 0xFF was received in time; `r1cmd`
nevertheless sends the frame of CMD17 and returns the status 0 that
follows. -/
theorem c26_sends_after_expiry_counterexample :
    rxByte (hspi_select card0 (world0 [0x01, 0xff, 0x00] 100001)) 0 = 0x01 ∧
    IO_TIMEOUT < elapsed (hspi_select card0 (world0 [0x01, 0xff, 0x00] 100001)) 0 ∧
    (r1cmd 3 17 0 0xff (hspi_select card0 (world0 [0x01, 0xff, 0x00] 100001))).map
      (fun p => (p.1, sent p.2)) = some (0, [{ index := 17, arg := 0, crc := 0xff }]) := by
  decide

/-- C26, amended: on a full-duplex MSB-first device whose not-busy poll ends
with the deadline passed at poll `n`, no earlier byte being 0xFF: if the last
byte polled is 0x00, `r1cmd` returns 0x80 and sends no frame; if it is not
zero, `r1cmd` sends the command frame. -/
theorem c26_r1cmd_after_busy_poll (fuel c a k n : Nat) (s : World) (hc : c < 64)
    (ha : a < 2 ^ 32) (hk : k < 256) (hm : s.hspi.CTRL0.WR_BIT_ORDER = false)
    (hd : s.hspi.USER0.DUPLEX = true) (hf : n < fuel)
    (hpre : ∀ i, i < n → rxByte s i ≠ 0xff ∧ elapsed s i ≤ IO_TIMEOUT)
    (hend : IO_TIMEOUT < elapsed s n) :
    (rxByte s n = 0 → ∃ t, r1cmd fuel c a k s = some (0x80, t) ∧ sent t = sent s) ∧
    (rxByte s n ≠ 0 → ∃ r t, r1cmd fuel c a k s = some (r, t) ∧
      sent t = sent s ++ [{ index := c, arg := a, crc := k }]) := by
  obtain ⟨t1, h1, -, -, -, -, q⟩ := wait_returns_run fuel 0xff n s hd hf hpre (Or.inr hend)
  have e := r1cmd_of_wait fuel c a k s _ t1 h1
  constructor
  · intro hz
    rw [if_pos hz] at e
    refine ⟨t1, e, ?_⟩
    rw [sent_of_ext q.ext, List.append_nil]
  · intro hz
    rw [if_neg hz] at e
    refine ⟨_, _, e, ?_⟩
    exact sent_of_ext (Ext.nil_left q.ext
      (r1cmd_send_ext c a k t1 hc ha hk (by rw [q.ext.ctrl0, hm])))

theorem c26_r1cmd_after_busy_poll_witness :
    (∀ i, i < 1 → rxByte (hspi_select card0 (world0 [0x00, 0x00] 60000)) i ≠ 0xff ∧
      elapsed (hspi_select card0 (world0 [0x00, 0x00] 60000)) i ≤ IO_TIMEOUT) ∧
    IO_TIMEOUT < elapsed (hspi_select card0 (world0 [0x00, 0x00] 60000)) 1 ∧
    rxByte (hspi_select card0 (world0 [0x00, 0x00] 60000)) 1 = 0 ∧
    ∃ t, r1cmd 3 17 0 0xff (hspi_select card0 (world0 [0x00, 0x00] 60000)) = some (0x80, t) ∧
      sent t = sent (hspi_select card0 (world0 [0x00, 0x00] 60000)) :=
  ⟨by decide, by decide, by decide,
    (c26_r1cmd_after_busy_poll 3 17 0 0xff 1 (hspi_select card0 (world0 [0x00, 0x00] 60000))
      (by decide) (by decide) (by decide) (by decide) (by decide) (by decide) (by decide)
      (by decide)).1 (by decide)⟩

/-- C27 counterexample: after the command frame the card sends eight bytes
with the top bit set and then 0x00; `r1cmd` returns that ninth byte. -/
theorem c27_ninth_byte_counterexample :
    (∀ i, i < 8 → 128 ≤ rxByte (hspi_select card0
      (world0 ([0xff] ++ List.replicate 8 0xff ++ [0x00]) 1)) (1 + i)) ∧
    (r1cmd 3 17 0 0xff (hspi_select card0
      (world0 ([0xff] ++ List.replicate 8 0xff ++ [0x00]) 1))).map Prod.fst = some 0 := by
  decide

/-- C27, amended: on a full-duplex device whose not-busy poll ends at poll
`n` with a non-zero byte, `r1cmd` returns the first of the nine bytes that
follow whose top bit is clear; if none of the nine has its top bit clear it
returns the ninth, whose top bit is set. -/
theorem c27_r1cmd_status (fuel c a k n : Nat) (s : World)
    (hd : s.hspi.USER0.DUPLEX = true) (hf : n < fuel)
    (hpre : ∀ i, i < n → rxByte s i ≠ 0xff ∧ elapsed s i ≤ IO_TIMEOUT)
    (hend : rxByte s n = 0xff ∨ IO_TIMEOUT < elapsed s n) (hnz : rxByte s n ≠ 0) :
    (∀ j, j < 9 → (∀ i, i < j → 128 ≤ rxByte s (n + 1 + i)) → rxByte s (n + 1 + j) < 128 →
      (r1cmd fuel c a k s).map Prod.fst = some (rxByte s (n + 1 + j))) ∧
    ((∀ i, i < 9 → 128 ≤ rxByte s (n + 1 + i)) →
      (r1cmd fuel c a k s).map Prod.fst = some (rxByte s (n + 1 + 8)) ∧
      rxByte s (n + 1 + 8) &&& 0x80 ≠ 0) := by
  obtain ⟨t1, h1, hrx, hpos, -, hd1, -⟩ := wait_returns_run fuel 0xff n s hd hf hpre hend
  have e := r1cmd_of_wait fuel c a k s _ t1 h1
  rw [if_neg hnz] at e
  have hs : ∀ i, rxByte t1 i = rxByte s (n + 1 + i) := by
    intro i
    rw [rxByte_shift s t1 (n + 1) hrx hpos, Nat.add_comm]
  obtain ⟨l1, l2⟩ := r1cmd_send_spec c a k t1 hd1
  constructor
  · intro j hj hall hlt
    rw [e, Option.map_some', l1 j hj (fun i hi => by rw [hs]; exact hall i hi)
      (by rw [hs]; exact hlt), hs]
  · intro hall
    refine ⟨?_, ?_⟩
    · rw [e, Option.map_some', l2 (fun i hi => by rw [hs]; exact hall i hi), hs]
    · rw [and_0x80, Nat.mod_eq_of_lt (rxByte_lt s _)]
      exact hall 8 (by omega)

theorem c27_r1cmd_status_witness :
    (∀ i, i < 1 → rxByte (hspi_select card0 (world0 [0x00, 0xff, 0xff, 0xff, 0xff, 0x05] 1)) i
        ≠ 0xff ∧
      elapsed (hspi_select card0 (world0 [0x00, 0xff, 0xff, 0xff, 0xff, 0x05] 1)) i
        ≤ IO_TIMEOUT) ∧
    (r1cmd 3 17 0 0xff (hspi_select card0
      (world0 [0x00, 0xff, 0xff, 0xff, 0xff, 0x05] 1))).map Prod.fst = some 0x05 :=
  ⟨by decide,
    (c27_r1cmd_status 3 17 0 0xff 1 (hspi_select card0
      (world0 [0x00, 0xff, 0xff, 0xff, 0xff, 0x05] 1)) (by decide) (by decide) (by decide)
      (by decide) (by decide)).1 3 (by decide) (by decide) (by decide)⟩

theorem sdcard_init_probe_of (fuel : Nat) (orig : ClockReg) (card : sdcard_t) (s1 : World)
    (resp d : Nat) (s2 : World) (h8 : r3cmd fuel 8 0x1aa 0x87 0 s1 = some (resp, d, s2)) :
    sdcard_init_probe fuel orig card s1 =
      if resp = 0x05 then
        sdcard_init_bringup fuel orig sdcard_type_t.SD1 resp d card s2
      else if resp = 0x01 ∧ d = 0x1aa then
        sdcard_init_bringup fuel orig sdcard_type_t.SD2 resp d card s2
      else if resp &&& 0x80 ≠ 0 then
        some (sdcard_init_done orig SDCARD_ERROR_TIMEOUT card s2)
      else
        some (sdcard_init_done orig SDCARD_ERROR_IO card s2) := by
  unfold sdcard_init_probe
  rw [h8]

theorem sdcard_init_of_cmd0 (fuel : Nat) (card : sdcard_t) (s s1 : World)
    (h0 : r1cmd fuel 0 0 0x95 (sdcard_init_enter card s) = some (0x01, s1)) :
    sdcard_init fuel card s =
      sdcard_init_probe fuel (hspi_get_clock (hspi_select card s)) card s1 := by
  rw [sdcard_init_eq, h0]
  simp only []
  rw [if_neg (by decide), if_neg (by decide)]

/-- C6: once CMD0 returned 0x01, `sdcard_init` sends CMD8 with argument 0x1AA
(CRC byte 0x87) and classifies the card from the reply: status 0x05 continues
the bring-up as SD-v1; status 0x01 with the extended reply 0x1AA continues it
as SD-v2; otherwise a status with the top bit set gives
SDCARD_ERROR_TIMEOUT and any other reply SDCARD_ERROR_IO, nothing being sent
after CMD8. -/
theorem c6_init_probe (fuel : Nat) (card : sdcard_t) (s s1 s2 : World) (resp d : Nat)
    (hm : card.is_msb = true)
    (h0 : r1cmd fuel 0 0 0x95 (sdcard_init_enter card s) = some (0x01, s1))
    (h8 : r3cmd fuel 8 0x1aa 0x87 0 s1 = some (resp, d, s2)) :
    ((sent s2 = sent s1 ∧ resp = 0x80) ∨ sent s2 = sent s1 ++ [CMD8]) ∧
    (resp = 0x05 → sdcard_init fuel card s =
      sdcard_init_bringup fuel (hspi_get_clock (hspi_select card s)) sdcard_type_t.SD1
        resp d card s2) ∧
    (resp = 0x01 → d = 0x1aa → sdcard_init fuel card s =
      sdcard_init_bringup fuel (hspi_get_clock (hspi_select card s)) sdcard_type_t.SD2
        resp d card s2) ∧
    (resp ≠ 0x05 → (resp = 0x01 → d ≠ 0x1aa) → resp &&& 0x80 ≠ 0 →
      ∃ t, sdcard_init fuel card s = some (SDCARD_ERROR_TIMEOUT, card, t) ∧ sent t = sent s2) ∧
    (resp ≠ 0x05 → (resp = 0x01 → d ≠ 0x1aa) → resp &&& 0x80 = 0 →
      ∃ t, sdcard_init fuel card s = some ( SDCARD_ERROR_IO, card, t) ∧ sent t = sent s2) := by
  have hen := enter_msb card s hm
  have hm1 : s1.hspi.CTRL0.WR_BIT_ORDER = false := by
    obtain ⟨fr, e⟩ := r1cmd_any fuel 0 0 0x95 _ _ _ h0
    rw [e.ctrl0, hen]
  have e := sdcard_init_of_cmd0 fuel card s s1 h0
  have p := sdcard_init_probe_of fuel (hspi_get_clock (hspi_select card s)) card s1 resp d s2 h8
  refine ⟨?_, ?_, ?_, ?_, ?_⟩
  · rcases r3cmd_ext fuel 8 0x1aa 0x87 0 s1 resp d s2 (by omega) (by norm_num) (by omega)
      hm1 h8 with x | x
    · left; exact ⟨by rw [sent_of_ext x.1, List.append_nil], x.2⟩
    · right; exact sent_of_ext x
  · intro h5
    rw [e, p, if_pos h5]
  · intro h1 hd
    have h5 : ¬ resp = 0x05 := by omega
    rw [e, p, if_neg h5, if_pos ⟨h1, hd⟩]
  · intro h5 h1 h80
    have h2 : ¬ (resp = 0x01 ∧ d = 0x1aa) := fun x => h1 x.1 x.2
    refine ⟨_, ?_, sent_done (hspi_get_clock (hspi_select card s)) SDCARD_ERROR_TIMEOUT card s2⟩
    rw [e, p, if_neg h5, if_neg h2, if_pos h80]
    rfl
  · intro h5 h1 h80
    have h2 : ¬ (resp = 0x01 ∧ d = 0x1aa) := fun x => h1 x.1 x.2
    refine ⟨_, ?_, sent_done (hspi_get_clock (hspi_select card s)) SDCARD_ERROR_IO card s2⟩
    rw [e, p, if_neg h5, if_neg h2, if_neg (by rw [h80]; simp)]
    rfl

theorem opt_pair_eq {o : Option (Nat × World)} {v : Nat} (d : World)
    (h : o.map Prod.fst = some v) : o = some (v, (o.map Prod.snd).getD d) := by
  cases o with
  | none => simp at h
  | some p =>
    simp only [Option.map_some', Option.some.injEq] at h
    simp [← h]

theorem opt_triple_eq {o : Option (Nat × Nat × World)} {v w : Nat} (d : World)
    (h : o.map (fun q => (q.1, q.2.1)) = some (v, w)) :
    o = some (v, w, (o.map (fun q => q.2.2)).getD d) := by
  cases o with
  | none => simp at h
  | some p =>
    simp only [Option.map_some', Option.some.injEq, Prod.mk.injEq] at h
    simp [← h.1, ← h.2]

theorem c6_init_probe_witness :
    card0.is_msb = true ∧
    ∃ t, sdcard_init 5 card0 (world0 rx_init_bad_echo 1) = some ( SDCARD_ERROR_IO, card0, t) ∧
      sent t = [CMD0, CMD8] := by
  refine ⟨by decide, ?_⟩
  have h0 := opt_pair_eq (world0 [] 1) (by decide :
    (r1cmd 5 0 0 0x95 (sdcard_init_enter card0 (world0 rx_init_bad_echo 1))).map Prod.fst
      = some 1)
  have h8 := opt_triple_eq (world0 [] 1) (by decide :
    (r3cmd 5 8 0x1aa 0x87 0 (((r1cmd 5 0 0 0x95
      (sdcard_init_enter card0 (world0 rx_init_bad_echo 1))).map Prod.snd).getD
        (world0 [] 1))).map (fun q => (q.1, q.2.1)) = some (1, 0x1ab))
  obtain ⟨t, h1, h2⟩ := (c6_init_probe 5 card0 (world0 rx_init_bad_echo 1) _ _ _ _ (by decide)
    h0 h8).2.2.2.2 (by decide) (by decide) (by decide)
  exact ⟨t, h1, h2.trans (by decide)⟩

theorem init_loop_zero (ci : sdcard_init_proc_t) (fuel t0 resp : Nat) (s : World) :
    sdcard_init_loop ci fuel t0 0 resp s = if resp = 0x01 then none else some (some resp, s) := rfl

theorem init_loop_stop (ci : sdcard_init_proc_t) (fuel t0 n x : Nat) (u : World) (h : x ≠ 1) :
    sdcard_init_loop ci fuel t0 n x u = some (some x, u) := by
  cases n with
  | zero => rw [init_loop_zero, if_neg h]
  | succ n => rw [init_loop_succ, if_neg h]

theorem init_loop_expired (ci : sdcard_init_proc_t) (fuel t0 n : Nat) (u : World)
    (h : INIT_TIMEOUT < since t0 u 0) :
    sdcard_init_loop ci fuel t0 (n + 1) 1 u = some (none, (expired INIT_TIMEOUT t0 u).2) := by
  rw [init_loop_succ, if_pos rfl, expired_fst]
  simp only [gt_iff_lt, h, decide_True, if_true]

theorem init_loop_again (ci : sdcard_init_proc_t) (fuel t0 n : Nat) (u : World)
    (h : since t0 u 0 ≤ INIT_TIMEOUT) :
    sdcard_init_loop ci fuel t0 (n + 1) 1 u =
      match ci.call fuel (expired INIT_TIMEOUT t0 u).2 with
      | none => none
      | some (x, v) => sdcard_init_loop ci fuel t0 n x v := by
  rw [init_loop_succ, if_pos rfl, expired_fst]
  have : ¬ (since t0 u 0 > INIT_TIMEOUT) := by omega
  simp only [this, decide_False, Bool.false_eq_true, if_false]

theorem card_init_frames (p : sdcard_init_proc_t) (fuel : Nat) (s : World) (r : Nat) (t : World)
    (hm : s.hspi.CTRL0.WR_BIT_ORDER = false) (h : p.call fuel s = some (r, t)) :
    ∃ b, b ∈ init_proc_frames p ∧ Ext s t b := by
  cases p with
  | init_mmc =>
    obtain ⟨fr, e, hf⟩ := r1cmd_run fuel 1 0 0xf9 s r t h
    rcases hf (by omega) (by norm_num) (by omega) hm with x | x
    · exact ⟨[], by simp [init_proc_frames], x ▸ e⟩
    · exact ⟨[CMD1], by simp [init_proc_frames], x ▸ e⟩
  | init_sd1 =>
    obtain ⟨fr, e, hf⟩ := acmd_run fuel 41 0 0xe5 s r t h
    rcases hf (by omega) (by norm_num) (by omega) hm with x | x | x
    · exact ⟨[], by simp [init_proc_frames], x ▸ e⟩
    · exact ⟨[CMD55], by simp [init_proc_frames], x ▸ e⟩
    · exact ⟨[CMD55, CMD41_SD1], by simp [init_proc_frames], x ▸ e⟩
  | init_sd2 =>
    obtain ⟨fr, e, hf⟩ := acmd_run fuel 41 (BIT 30) 0x77 s r t h
    rcases hf (by omega) (by norm_num [BIT]) (by omega) hm with x | x | x
    · exact ⟨[], by simp [init_proc_frames], x ▸ e⟩
    · exact ⟨[CMD55], by simp [init_proc_frames], x ▸ e⟩
    · exact ⟨[CMD55, CMD41_HCS], by simp [init_proc_frames], x ▸ e⟩

/-- The frames of the bring-up loop: a sequence of blocks, each one the
frames of one call of the initialization procedure. -/
theorem init_loop_frames (ci : sdcard_init_proc_t) (fuel t0 : Nat) : ∀ (n resp : Nat) (s : World)
    (out : Option Nat) (t : World), s.hspi.CTRL0.WR_BIT_ORDER = false →
    sdcard_init_loop ci fuel t0 n resp s = some (out, t) →
    ∃ bl : List (List Frame), (∀ b ∈ bl, b ∈ init_proc_frames ci) ∧ Ext s t bl.flatten := by
  intro n
  induction n with
  | zero =>
    intro resp s out t _ h
    rw [init_loop_zero] at h
    by_cases hx : resp = 1
    · rw [if_pos hx] at h; exact absurd h (by simp)
    · rw [if_neg hx] at h
      simp only [Option.some.injEq, Prod.mk.injEq] at h
      exact ⟨[], by simp, by rw [← h.2]; exact Ext.refl s⟩
  | succ n ih =>
    intro resp s out t hm h
    by_cases hx : resp = 1
    · subst hx
      by_cases he : INIT_TIMEOUT < since t0 s 0
      · rw [init_loop_expired ci fuel t0 n s he] at h
        simp only [Option.some.injEq, Prod.mk.injEq] at h
        exact ⟨[], by simp, by rw [← h.2]; exact (idle_expired INIT_TIMEOUT t0 s).ext⟩
      · rw [init_loop_again ci fuel t0 n s (by omega)] at h
        have i1 := (idle_expired INIT_TIMEOUT t0 s).ext
        cases hc : ci.call fuel (expired INIT_TIMEOUT t0 s).2 with
        | none => rw [hc] at h; exact absurd h (by simp)
        | some p =>
          obtain ⟨x1, v⟩ := p
          rw [hc] at h
          obtain ⟨b, hb, eb⟩ := card_init_frames ci fuel _ x1 v (by rw [i1.ctrl0, hm]) hc
          obtain ⟨bl, hbl, el⟩ := ih x1 v out t (by rw [eb.ctrl0, i1.ctrl0, hm]) h
          refine ⟨b :: bl, ?_, ?_⟩
          · intro c hc'
            rcases List.mem_cons.1 hc' with e | e
            · rw [e]; exact hb
            · exact hbl c e
          · rw [List.flatten_cons]
            exact Ext.trans (Ext.nil_left i1 eb) el
    · rw [init_loop_stop ci fuel t0 (n + 1) resp s hx] at h
      simp only [Option.some.injEq, Prod.mk.injEq] at h
      exact ⟨[], by simp, by rw [← h.2]; exact Ext.refl s⟩

theorem acmd_of_cmd55 (fuel c a k : Nat) (s : World) (r55 : Nat) (s1 : World)
    (h : r1cmd fuel 55 0 0x65 s = some (r55, s1)) :
    acmd fuel c a k s = if r55 &&& 0xfe = 0 then r1cmd fuel c a k s1 else some (r55, s1) := by
  unfold acmd
  rw [h]

theorem init_choose_sd2 (fuel resp : Nat) (s : World) :
    sdcard_init_choose fuel sdcard_type_t.SD2 resp s =
      some (sdcard_init_proc_t.init_sd2, resp, s) := rfl

/-- C10: every completed run of `sdcard_init`, `sdcard_read`, `sdcard_write`,
`sdcard_erase`, `sdcard_read_cid`, `sdcard_read_csd` and `sdcard_get_size`,
whatever the card answered and whatever the result, logs `hspi_select` first,
then bus actions among which there is no further select and no release, and
last chip select high followed by `hspi_release`; `sdcard_init` moreover
leaves the clock register as `hspi_select` had set it. -/
theorem c10_bus_sessions (fuel : Nat) (card : sdcard_t) (s : World) :
    (∀ r c t, sdcard_init fuel card s = some (r, c, t) →
      (∃ fr, Session card s t fr) ∧ t.hspi.CLOCK = (hspi_select card s).hspi.CLOCK) ∧
    (∀ addr nb buf r b t, sdcard_read fuel card addr nb buf s = some (r, b, t) →
      ∃ fr, Session card s t fr) ∧
    (∀ addr nb mem al r t, sdcard_write fuel card addr nb mem al s = some (r, t) →
      ∃ fr, Session card s t fr) ∧
    (∀ addr nb r t, sdcard_erase fuel card addr nb s = some (r, t) →
      ∃ fr, Session card s t fr) ∧
    (∀ cid r b t, sdcard_read_cid fuel card cid s = some (r, b, t) →
      ∃ fr, Session card s t fr) ∧
    (∀ csd r b t, sdcard_read_csd fuel card csd s = some (r, b, t) →
      ∃ fr, Session card s t fr) ∧
    (∀ n t, sdcard_get_size fuel card s = some (n, t) → ∃ fr, Session card s t fr) := by
  refine ⟨?_, ?_, ?_, ?_, ?_, ?_, ?_⟩
  · intro r c t h
    obtain ⟨fr, h1, h2⟩ := sdcard_init_run fuel card s r c t h
    exact ⟨⟨fr, h1⟩, h2⟩
  · intro addr nb buf r b t h
    obtain ⟨fr, h1, -⟩ := sdcard_read_run fuel card addr nb buf s r b t h
    exact ⟨fr, h1⟩
  · intro addr nb mem al r t h
    obtain ⟨fr, h1, -⟩ := sdcard_write_run fuel card addr nb mem al s r t h
    exact ⟨fr, h1⟩
  · intro addr nb r t h
    exact sdcard_erase_run fuel card addr nb s r t h
  · intro cid r b t h
    exact sdcard_read_register_run fuel card cid 10 0x1b s r b t h
  · intro csd r b t h
    exact sdcard_read_csd_run fuel card csd s r b t h
  · intro n t h
    exact sdcard_get_size_run fuel card s n t h

theorem sent_sdcard_done (u : World) : sent (sdcard_done u) = sent u := by
  show List.filterMap Event.frame (u.trace ++ [Event.cs_high] ++ [Event.release]) = _
  rw [List.filterMap_append, List.filterMap_append,
    List.filterMap_cons_none (rfl : Event.cs_high.frame = none),
    List.filterMap_cons_none (rfl : Event.release.frame = none)]
  simp [sent]

theorem sent_op_enter (card : sdcard_t) (s : World) :
    sent (set_cs_low (hspi_select card s)) = sent s := by
  unfold sent
  rw [(op_enter_facts card s).1, List.filterMap_append,
    List.filterMap_cons_none (rfl : (Event.select card).frame = none),
    List.filterMap_cons_none (rfl : Event.cs_low.frame = none)]
  simp

theorem sdcard_read_of (fuel : Nat) (card : sdcard_t) (addr nb : Nat) (buf : List Nat)
    (s : World) (resp : Nat) (s1 : World)
    (h1 : r1cmd fuel (if nb = 1 then 17 else 18) (sdcard_addr card addr) 0xff
      (set_cs_low (hspi_select card s)) = some (resp, s1)) :
    sdcard_read fuel card addr nb buf s =
      if resp &&& 0x80 ≠ 0 then some (SDCARD_ERROR_TIMEOUT, buf, sdcard_done s1)
      else if resp ≠ 0 then some ( SDCARD_ERROR_IO, buf, sdcard_done s1)
      else
        match sdcard_read_loop fuel nb SDCARD_SUCCESS buf 0 s1 with
        | none => none
        | some (err, b, s2) =>
          if (if nb = 1 then 17 else 18) = 18 then
            match r1cmd fuel 12 0 0x61 s2 with
            | none => none
            | some (_, s3) => some (err, b, sdcard_done s3)
          else some (err, b, sdcard_done s2) := by
  unfold sdcard_read
  simp only []
  rw [h1]

theorem sdcard_erase_of (fuel : Nat) (card : sdcard_t) (addr nb : Nat) (s : World)
    (r1 : Nat) (s1 : World)
    (h32 : r1cmd fuel 32 (sdcard_addr card addr) 0xff (set_cs_low (hspi_select card s)) =
      some (r1, s1)) :
    sdcard_erase fuel card addr nb s =
      if r1 ≠ 0 then some ( SDCARD_ERROR_IO, sdcard_done s1)
      else
        match r1cmd fuel 33 (sdcard_addr card ((addr + nb + 4294967296 - 1) % 4294967296)) 0xff
            s1 with
        | none => none
        | some (r2, s2) =>
          if r2 ≠ 0 then some ( SDCARD_ERROR_IO, sdcard_done s2)
          else
            match r1cmd fuel 38 0 0xa5 s2 with
            | none => none
            | some (r3, s3) =>
              if r3 ≠ 0 then some ( SDCARD_ERROR_IO, sdcard_done s3)
              else some (SDCARD_SUCCESS, sdcard_done s3) := by
  unfold sdcard_erase
  simp only []
  rw [h32]

theorem r1cmd_zero_sent (fuel c a k : Nat) (s : World) (t : World) (hc : c < 64)
    (ha : a < 2 ^ 32) (hk : k < 256) (hm : s.hspi.CTRL0.WR_BIT_ORDER = false)
    (h : r1cmd fuel c a k s = some (0, t)) :
    sent t = sent s ++ [{ index := c, arg := a, crc := k }] ∧
    t.hspi.CTRL0.WR_BIT_ORDER = false := by
  rcases r1cmd_ext fuel c a k s 0 t hc ha hk hm h with x | x
  · exact absurd x.2 (by decide)
  · exact ⟨sent_of_ext x, by rw [x.ctrl0, hm]⟩

theorem r1cmd_any_sent (fuel c a k : Nat) (s : World) (r : Nat) (t : World) (hc : c < 64)
    (ha : a < 2 ^ 32) (hk : k < 256) (hm : s.hspi.CTRL0.WR_BIT_ORDER = false)
    (h : r1cmd fuel c a k s = some (r, t)) :
    ((sent t = sent s ∧ r = 0x80) ∨ sent t = sent s ++ [{ index := c, arg := a, crc := k }]) ∧
    t.hspi.CTRL0.WR_BIT_ORDER = false := by
  rcases r1cmd_ext fuel c a k s r t hc ha hk hm h with x | x
  · exact ⟨Or.inl ⟨by rw [sent_of_ext x.1, List.append_nil], x.2⟩, by rw [x.1.ctrl0, hm]⟩
  · exact ⟨Or.inr (sent_of_ext x), by rw [x.ctrl0, hm]⟩

/-- C18: `sdcard_erase` of `n ≥ 1` blocks from block `f` (with `f + n - 1`
below 2^32) on an MSB-first card runs CMD32 with the translated address of
`f`; only if its status is 0, CMD33 with the translated address of
`f + n - 1`; only if that status is 0 too, CMD38 with argument 0.  The
result is SDCARD_SUCCESS when all three statuses are 0 and SDCARD_ERROR_IO as
soon as one is not. -/
theorem c18_erase_commands (fuel : Nat) (card : sdcard_t) (f n : Nat) (s : World)
    (r1 : Nat) (s1 : World) (hm : card.is_msb = true) (hf : f < 2 ^ 32) (hn : 1 ≤ n)
    (hov : f + n - 1 < 2 ^ 32)
    (h32 : r1cmd fuel 32 (sdcard_addr card f) 0xff (set_cs_low (hspi_select card s)) =
      some (r1, s1)) :
    ((sent s1 = sent s ∧ r1 = 0x80) ∨
      sent s1 = sent s ++ [{ index := 32, arg := sdcard_addr card f, crc := 0xff }]) ∧
    (r1 ≠ 0 → ∃ t, sdcard_erase fuel card f n s = some ( SDCARD_ERROR_IO, t) ∧
      sent t = sent s1) ∧
    (r1 = 0 → ∀ r2 s2, r1cmd fuel 33 (sdcard_addr card (f + n - 1)) 0xff s1 = some (r2, s2) →
      ((sent s2 = sent s1 ∧ r2 = 0x80) ∨
        sent s2 = sent s1 ++ [{ index := 33, arg := sdcard_addr card (f + n - 1), crc := 0xff }]) ∧
      (r2 ≠ 0 → ∃ t, sdcard_erase fuel card f n s = some ( SDCARD_ERROR_IO, t) ∧
        sent t = sent s2) ∧
      (r2 = 0 → ∀ r3 s3, r1cmd fuel 38 0 0xa5 s2 = some (r3, s3) →
        ∃ t, sdcard_erase fuel card f n s =
            some (if r3 = 0 then SDCARD_SUCCESS else SDCARD_ERROR_IO, t) ∧
          sent t = sent s3 ∧
          (r3 = 0 → sent t = sent s ++
            [{ index := 32, arg := sdcard_addr card f, crc := 0xff },
             { index := 33, arg := sdcard_addr card (f + n - 1), crc := 0xff },
             { index := 38, arg := 0, crc := 0xa5 }]))) := by
  have e := sdcard_erase_of fuel card f n s r1 s1 h32
  have hl : (f + n + 4294967296 - 1) % 4294967296 = f + n - 1 := by
    have h2 : (4294967296 : Nat) = 2 ^ 32 := by norm_num
    rw [h2] at *
    omega
  rw [hl] at e
  have hm0 : (set_cs_low (hspi_select card s)).hspi.CTRL0.WR_BIT_ORDER = false := by
    rw [(op_enter_facts card s).2, hm]; rfl
  obtain ⟨a1, hm1⟩ := r1cmd_any_sent fuel 32 _ 0xff _ r1 s1 (by omega)
    (sdcard_addr_lt card f hf) (by omega) hm0 h32
  rw [sent_op_enter] at a1
  refine ⟨a1, ?_, ?_⟩
  · intro h
    rw [if_pos h] at e
    exact ⟨_, e, sent_sdcard_done s1⟩
  · intro h r2 s2 h33
    subst h
    rw [if_neg (by decide), h33] at e
    simp only [] at e
    obtain ⟨a2, hm2⟩ := r1cmd_any_sent fuel 33 _ 0xff _ r2 s2 (by omega)
      (sdcard_addr_lt card (f + n - 1) hov) (by omega) hm1 h33
    refine ⟨a2, ?_, ?_⟩
    · intro h2
      rw [if_pos h2] at e
      exact ⟨_, e, sent_sdcard_done s2⟩
    · intro h2 r3 s3 h38
      subst h2
      rw [if_neg (by decide), h38] at e
      simp only [] at e
      by_cases h3 : r3 = 0
      · subst h3
        rw [if_neg (by decide)] at e
        refine ⟨_, by rw [if_pos rfl]; exact e, sent_sdcard_done s3, fun _ => ?_⟩
        have b1 := (r1cmd_zero_sent fuel 32 _ 0xff _ s1 (by omega)
          (sdcard_addr_lt card f hf) (by omega) hm0 h32).1
        have b2 := (r1cmd_zero_sent fuel 33 _ 0xff _ s2 (by omega)
          (sdcard_addr_lt card (f + n - 1) hov) (by omega) hm1 h33).1
        have b3 := (r1cmd_zero_sent fuel 38 0 0xa5 _ s3 (by omega) (by norm_num) (by omega)
          hm2 h38).1
        rw [sent_sdcard_done, b3, b2, b1, sent_op_enter]
        simp
      · rw [if_pos h3] at e
        exact ⟨_, by rw [if_neg h3]; exact e, sent_sdcard_done s3, fun x => absurd x h3⟩

theorem c18_erase_commands_witness :
    card0.is_msb = true ∧ (3 : Nat) < 2 ^ 32 ∧ 1 ≤ 2 ∧ 3 + 2 - 1 < 2 ^ 32 ∧
    ∃ t, sdcard_erase 3 card0 3 2 (world0 rx_erase_ok 1) = some (SDCARD_SUCCESS, t) ∧
      sent t = [{ index := 32, arg := 1536, crc := 0xff }, { index := 33, arg := 2048, crc := 0xff },
        { index := 38, arg := 0, crc := 0xa5 }] := by
  refine ⟨by decide, by decide, by decide, by decide, ?_⟩
  have h32 := opt_pair_eq (world0 [] 1) (by decide :
    (r1cmd 3 32 (sdcard_addr card0 3) 0xff
      (set_cs_low (hspi_select card0 (world0 rx_erase_ok 1)))).map Prod.fst = some 0)
  have h33 := opt_pair_eq (world0 [] 1) (by decide :
    (r1cmd 3 33 (sdcard_addr card0 (3 + 2 - 1)) 0xff (((r1cmd 3 32 (sdcard_addr card0 3) 0xff
      (set_cs_low (hspi_select card0 (world0 rx_erase_ok 1)))).map Prod.snd).getD
        (world0 [] 1))).map Prod.fst = some 0)
  have h38 := opt_pair_eq (world0 [] 1) (by decide :
    (r1cmd 3 38 0 0xa5 (((r1cmd 3 33 (sdcard_addr card0 (3 + 2 - 1)) 0xff
      (((r1cmd 3 32 (sdcard_addr card0 3) 0xff
        (set_cs_low (hspi_select card0 (world0 rx_erase_ok 1)))).map Prod.snd).getD
          (world0 [] 1))).map Prod.snd).getD (world0 [] 1))).map Prod.fst = some 0)
  obtain ⟨t, h1, -, h3⟩ := ((c18_erase_commands 3 card0 3 2 (world0 rx_erase_ok 1) _ _
    (by decide) (by decide) (by decide) (by decide) h32).2.2 rfl _ _ h33).2.2 rfl _ _ h38
  exact ⟨t, h1, (h3 rfl).trans (by decide)⟩

theorem txBytes_exec (u : World) :
    txBytes (hspi_exec u) = txBytes u ++ (cmdWire u.hspi ++ addrWire u.hspi ++ mosiWire u.hspi) := by
  show (((u.trace ++ [Event.exec u.hspi u.gpio_out]).map Event.tx).flatten) = _
  rw [List.map_append, List.flatten_append]
  simp [txBytes, Event.tx]

theorem exec_W_length (u : World) : (hspi_exec u).hspi.W.length = 64 := by
  unfold hspi_exec
  simp

theorem getD_drop (l : List Nat) (n i : Nat) : (l.drop n).getD i 0 = l.getD (n + i) 0 := by
  rw [List.getD_eq_getElem?_getD, List.getD_eq_getElem?_getD, List.getElem?_drop]

theorem memBytes_add (mem : List Nat) (pos a b : Nat) :
    memBytes mem pos (a + b) = memBytes mem pos a ++ memBytes mem (pos + a) b := by
  unfold memBytes
  rw [List.range_add, List.map_append, List.map_map]
  congr 1
  apply List.map_congr_left
  intro i _
  simp only [Function.comp_apply, Nat.add_assoc]

theorem memBytes_drop (mem : List Nat) (pos : Nat) :
    (List.range 64).map (fun i => (mem.drop pos).getD i 0 % 256) = memBytes mem pos 64 := by
  unfold memBytes
  apply List.map_congr_left
  intro i _
  rw [getD_drop]

theorem write_block_loop_succ (mem : List Nat) (al : Bool) (e n pos : Nat) (s : World) :
    write_block_loop mem al e (n + 1) pos s =
      if pos < e then
        write_block_loop mem al e n (pos + 64)
          (hspi_wait (hspi_exec (hspi_set_data (64 * 8) (mem.drop pos) al s)))
      else s := rfl

theorem write_block_eq (tok : Nat) (mem : List Nat) (al : Bool) (s : World) :
    write_block tok mem al s =
      (if (hspi_read 0 (write_block_tail (write_block_body tok mem al s))).1 % 256
            &&& DATA_RESPONSE = DATA_ACCEPTED then SDCARD_SUCCESS else SDCARD_ERROR_IO,
        (hspi_read 0 (write_block_tail (write_block_body tok mem al s))).2) := rfl

theorem token_low_byte (tok : Nat) :
    bswap16 (((tok % 65536) <<< (16 - 8)) % 65536) / 256 ^ 0 % 256 = tok % 256 := by
  rw [bswap16_eq _ (Nat.mod_lt _ (by decide)), Nat.shiftLeft_eq]
  simp only [Nat.reduceSub, Nat.reducePow, Nat.pow_zero, Nat.div_one]
  omega

theorem set_command_user2 (n v : Nat) (s : World) (h1 : 1 ≤ n) (h2 : n ≤ 16)
    (hm : s.hspi.CTRL0.WR_BIT_ORDER = false) :
    (hspi_set_command n v s).hspi.USER2 =
      { COMMAND_BITLEN := n - 1,
        COMMAND_VALUE := bswap16 (((v % 65536) <<< (16 - n)) % 65536) } := by
  have h0 : ¬ n = 0 := by omega
  simp only [hspi_set_command, h0, h2, if_true, if_false, hm, Bool.false_eq_true, ↓reduceIte]

theorem set_data_trace (n : Nat) (d : List Nat) (al : Bool) (s : World) :
    (hspi_set_data n d al s).trace = s.trace := by
  unfold hspi_set_data hspi_clear_data
  split
  · rfl
  · split <;> rfl

theorem set_command_trace (n v : Nat) (s : World) : (hspi_set_command n v s).trace = s.trace := by
  unfold hspi_set_command hspi_clear_command
  simp only
  split
  · rfl
  · split <;> rfl

theorem txBytes_of_trace {s t : World} (h : t.trace = s.trace) : txBytes t = txBytes s := by
  unfold txBytes
  rw [h]

theorem and_0x1f (x : Nat) : x &&& DATA_RESPONSE = x % 32 := by
  have h : DATA_RESPONSE = 2 ^ 5 - 1 := rfl
  rw [h, and_mask]
  rfl

theorem write_single_of (fuel addr : Nat) (mem : List Nat) (al : Bool) (s : World) (r : Nat)
    (s1 : World) (h : r1cmd fuel 24 addr 0xff s = some (r, s1)) :
    sdcard_write_single fuel addr mem al s =
      if r ≠ 0 then some ( SDCARD_ERROR_IO, s1)
      else if (write_block 0xfe mem al s1).1 ≠ SDCARD_SUCCESS then
        some ( SDCARD_ERROR_IO, (write_block 0xfe mem al s1).2)
      else some (SDCARD_SUCCESS, (write_block 0xfe mem al s1).2) := by
  unfold sdcard_write_single
  rw [h]

theorem Tx.seq {s t u : World} {a b : List (List Nat)} {m n : Nat} (h1 : Tx s t a m)
    (h2 : Tx t u b n) : Tx s u (a ++ b) (m + n) :=
  ⟨by rw [h2.tx, h1.tx, List.append_assoc], by rw [h2.rx, h1.rx],
    by rw [h2.rxpos, h1.rxpos, Nat.add_assoc], Ext.nil_left h1.ext h2.ext⟩

theorem Tx.bytes {s t : World} {cs : List (List Nat)} {n : Nat} (h : Tx s t cs n) :
    txBytes t = txBytes s ++ cs.flatten := by
  unfold txBytes
  rw [h.tx, List.flatten_append]

theorem chunks_exec (u : World) :
    (hspi_exec u).trace.map Event.tx =
      u.trace.map Event.tx ++ [cmdWire u.hspi ++ addrWire u.hspi ++ mosiWire u.hspi] := by
  show (u.trace ++ [Event.exec u.hspi u.gpio_out]).map Event.tx = _
  rw [List.map_append]
  rfl

/-- One 64-byte data transaction of `write_block` without command phase. -/
theorem data_xfer (d : List Nat) (al : Bool) (u : World) (hb : Bus u)
    (hc : u.hspi.USER0.COMMAND = false) (ha : u.hspi.USER0.ADDR = false) :
    Tx u (hspi_wait (hspi_exec (hspi_set_data (64 * 8) d al u)))
      [(List.range 64).map (fun i => d.getD i 0 % 256)] 64 ∧
    Bus (hspi_wait (hspi_exec (hspi_set_data (64 * 8) d al u))) ∧
    (hspi_wait (hspi_exec (hspi_set_data (64 * 8) d al u))).hspi.USER0.COMMAND = false ∧
    (hspi_wait (hspi_exec (hspi_set_data (64 * 8) d al u))).hspi.USER0.ADDR = false := by
  obtain ⟨f1, f2, f3, f4⟩ := set_data_facts (64 * 8) d al u hb.wlen (by decide) (by decide)
  have i1 := idle_set_data (64 * 8) d al u
  have hd : (hspi_set_data (64 * 8) d al u).hspi.USER0.DUPLEX = true := hb.duplex
  have hwb : (hspi_set_data (64 * 8) d al u).hspi.USER0.WR_BYTE_ORDER = false := hb.wbo
  have hn : rxCount (hspi_set_data (64 * 8) d al u).hspi = 64 := by
    unfold rxCount
    rw [hd, f1, f2]
    rfl
  have hm : mosiWire (hspi_set_data (64 * 8) d al u).hspi =
      (List.range 64).map (fun i => d.getD i 0 % 256) := by
    unfold mosiWire
    rw [f1, f2, hwb]
    simp only [if_true]
    apply List.map_congr_left
    intro j hj
    have hj' : j < 64 := List.mem_range.1 hj
    exact f4 j (by omega)
  have hcw : cmdWire (hspi_set_data (64 * 8) d al u).hspi = [] := by
    unfold cmdWire
    rw [i1.cmd, hc]
    rfl
  have haw : addrWire (hspi_set_data (64 * 8) d al u).hspi = [] := by
    unfold addrWire
    rw [i1.adr, ha]
    rfl
  refine ⟨⟨?_, rfl, ?_, ?_⟩, ⟨hd, ?_, hwb, hb.rbo, exec_W_length _⟩, ?_, ?_⟩
  · show (hspi_exec (hspi_set_data (64 * 8) d al u)).trace.map Event.tx = _
    rw [chunks_exec, hcw, haw, hm, set_data_trace]
    rfl
  · show u.rxpos + rxCount (hspi_set_data (64 * 8) d al u).hspi = _
    rw [hn]
  · exact Ext.nil_left i1.ext (Ext.nil_right (exec_ext_no_addr _ (by rw [i1.adr, ha])
      (Or.inl (by rw [i1.cmd, hc]))) (idle_wait _).ext)
  · show (hspi_set_data (64 * 8) d al u).hspi.CTRL0.WR_BIT_ORDER = false
    rw [i1.ext.ctrl0]; exact hb.msb
  · show (hspi_set_data (64 * 8) d al u).hspi.USER0.COMMAND = false
    rw [i1.cmd, hc]
  · show (hspi_set_data (64 * 8) d al u).hspi.USER0.ADDR = false
    rw [i1.adr, ha]

/-- The loop of `write_block`: `k` transactions of 64 bytes each. -/
theorem write_block_loop_tx (mem : List Nat) (al : Bool) (e : Nat) : ∀ (k n pos : Nat) (u : World),
    Bus u → u.hspi.USER0.COMMAND = false → u.hspi.USER0.ADDR = false → k ≤ n →
    (∀ j, j < k → pos + 64 * j < e) → e ≤ pos + 64 * k →
    Tx u (write_block_loop mem al e n pos u)
      ((List.range k).map (fun j => memBytes mem (pos + 64 * j) 64)) (64 * k) ∧
    Bus (write_block_loop mem al e n pos u) ∧
    (write_block_loop mem al e n pos u).hspi.USER0.COMMAND = false ∧
    (write_block_loop mem al e n pos u).hspi.USER0.ADDR = false := by
  intro k
  induction k with
  | zero =>
    intro n pos u hb hc ha _ _ he
    have hs : write_block_loop mem al e n pos u = u := by
      cases n with
      | zero => rfl
      | succ n => rw [write_block_loop_succ, if_neg (by omega)]
    rw [hs]
    exact ⟨⟨by simp, rfl, rfl, Ext.refl u⟩, hb, hc, ha⟩
  | succ k ih =>
    intro n pos u hb hc ha hk hlt he
    obtain ⟨m, rfl⟩ : ∃ m, n = m + 1 := ⟨n - 1, by omega⟩
    have h0 := hlt 0 (by omega)
    rw [write_block_loop_succ, if_pos (by omega)]
    obtain ⟨t1, b1, c1, a1⟩ := data_xfer (mem.drop pos) al u hb hc ha
    rw [memBytes_drop] at t1
    obtain ⟨t2, b2, c2, a2⟩ := ih m (pos + 64) _ b1 c1 a1 (by omega)
      (fun j hj => by have := hlt (j + 1) (by omega); omega) (by omega)
    refine ⟨?_, b2, c2, a2⟩
    have := Tx.seq t1 t2
    have e1 : 64 * (k + 1) = 64 + 64 * k := by omega
    have e2 : (List.range (k + 1)).map (fun j => memBytes mem (pos + 64 * j) 64) =
        [memBytes mem pos 64] ++ (List.range k).map (fun j => memBytes mem (pos + 64 + 64 * j) 64)
        := by
      rw [List.range_succ_eq_map, List.map_cons, List.map_map]
      simp only [Nat.mul_zero, Nat.add_zero, List.singleton_append, List.cons.injEq, true_and]
      apply List.map_congr_left
      intro j _
      simp only [Function.comp_apply]
      congr 1
      omega
    rw [e1, e2]
    exact this

/-- The first transaction of `write_block` and the reset that follows it:
the start token and the first 64 bytes are sent. -/
theorem write_block_head_tx (tok : Nat) (mem : List Nat) (al : Bool) (s : World)
    (hd : s.hspi.USER0.DUPLEX = true) (hm : s.hspi.CTRL0.WR_BIT_ORDER = false)
    (hw : s.hspi.W.length = 64) :
    Tx s (hspi_reset (hspi_exec (hspi_set_data (64 * 8) mem al
        (hspi_set_command 8 tok (hspi_reset s)))))
      [[tok % 256] ++ memBytes mem 0 64] 64 ∧
    Bus (hspi_reset (hspi_exec (hspi_set_data (64 * 8) mem al
        (hspi_set_command 8 tok (hspi_reset s))))) ∧
    (hspi_reset (hspi_exec (hspi_set_data (64 * 8) mem al
        (hspi_set_command 8 tok (hspi_reset s))))).hspi.USER0.COMMAND = false ∧
    (hspi_reset (hspi_exec (hspi_set_data (64 * 8) mem al
        (hspi_set_command 8 tok (hspi_reset s))))).hspi.USER0.ADDR = false := by
  have hw1 : (hspi_set_command 8 tok (hspi_reset s)).hspi.W.length = 64 := hw
  obtain ⟨f1, f2, f3, f4⟩ := set_data_facts (64 * 8) mem al
    (hspi_set_command 8 tok (hspi_reset s)) hw1 (by decide) (by decide)
  have i1 := idle_set_data (64 * 8) mem al (hspi_set_command 8 tok (hspi_reset s))
  have hc1 : (hspi_set_command 8 tok (hspi_reset s)).hspi.USER0.COMMAND = true := rfl
  have ha1 : (hspi_set_command 8 tok (hspi_reset s)).hspi.USER0.ADDR = false := rfl
  have hu2 : (hspi_set_command 8 tok (hspi_reset s)).hspi.USER2 =
      { COMMAND_BITLEN := 7,
        COMMAND_VALUE := bswap16 (((tok % 65536) <<< (16 - 8)) % 65536) } := by
    show _ = User2.mk (8 - 1) (bswap16 (((tok % 65536) <<< (16 - 8)) % 65536))
    exact set_command_user2 8 tok (hspi_reset s) (by decide) (by decide) hm
  have hdup : (hspi_set_data (64 * 8) mem al (hspi_set_command 8 tok
      (hspi_reset s))).hspi.USER0.DUPLEX = true := hd
  have hwb : (hspi_set_data (64 * 8) mem al (hspi_set_command 8 tok
      (hspi_reset s))).hspi.USER0.WR_BYTE_ORDER = false := rfl
  have hn : rxCount (hspi_set_data (64 * 8) mem al (hspi_set_command 8 tok
      (hspi_reset s))).hspi = 64 := by
    unfold rxCount
    rw [hdup, f1, f2]
    rfl
  have hmo : mosiWire (hspi_set_data (64 * 8) mem al (hspi_set_command 8 tok
      (hspi_reset s))).hspi = memBytes mem 0 64 := by
    unfold mosiWire memBytes
    rw [f1, f2, hwb]
    simp only [if_true]
    apply List.map_congr_left
    intro j hj
    have hj' : j < 64 := List.mem_range.1 hj
    rw [Nat.zero_add]
    exact f4 j (by omega)
  have hcw : cmdWire (hspi_set_data (64 * 8) mem al (hspi_set_command 8 tok
      (hspi_reset s))).hspi = [tok % 256] := by
    unfold cmdWire
    rw [i1.cmd, hc1, i1.user2, hu2]
    simp only [if_true]
    show [bswap16 (((tok % 65536) <<< (16 - 8)) % 65536) / 256 ^ 0 % 256] = _
    rw [token_low_byte]
  have haw : addrWire (hspi_set_data (64 * 8) mem al (hspi_set_command 8 tok
      (hspi_reset s))).hspi = [] := by
    unfold addrWire
    rw [i1.adr, ha1]
    rfl
  have hx : Ext (hspi_set_data (64 * 8) mem al (hspi_set_command 8 tok (hspi_reset s)))
      (hspi_exec (hspi_set_data (64 * 8) mem al (hspi_set_command 8 tok (hspi_reset s)))) [] :=
    exec_ext_no_addr _ (by rw [i1.adr, ha1]) (Or.inr (by rw [i1.user2, hu2]; show 8 - 1 < 47; decide))
  have q0 := quiet_reset s
  have s1 := set_command_short 8 tok (hspi_reset s) (by decide)
  refine ⟨⟨?_, rfl, ?_, ?_⟩, ⟨hd, ?_, rfl, rfl, exec_W_length _⟩, rfl, rfl⟩
  · show (hspi_exec (hspi_set_data (64 * 8) mem al (hspi_set_command 8 tok
      (hspi_reset s)))).trace.map Event.tx = _
    rw [chunks_exec, hcw, haw, hmo, set_data_trace, set_command_trace]
    rfl
  · show s.rxpos + rxCount (hspi_set_data (64 * 8) mem al (hspi_set_command 8 tok
      (hspi_reset s))).hspi = _
    rw [hn]
  · exact Ext.nil_left q0.ext (Ext.nil_left s1.1 (Ext.nil_left i1.ext
      (Ext.nil_right hx (quiet_reset _).ext)))
  · show (hspi_set_data (64 * 8) mem al (hspi_set_command 8 tok
      (hspi_reset s))).hspi.CTRL0.WR_BIT_ORDER = false
    rw [i1.ext.ctrl0]; exact hm

/-- The last transaction of `write_block`: two bytes 0xFF in place of the CRC
and one more byte 0xFF, during which the data response is captured. -/
theorem write_block_tail_tx (u : World) (hb : Bus u) (ha : u.hspi.USER0.ADDR = false) :
    Tx u (hspi_read 0 (write_block_tail u)).2 [[0xff, 0xff, 0xff]] 1 ∧
    (hspi_read 0 (write_block_tail u)).1 % 256 = rxByte u 0 ∧
    (hspi_read 0 (write_block_tail u)).2.hspi.USER0.DUPLEX = true ∧
    (hspi_read 0 (write_block_tail u)).2.hspi.CTRL0.WR_BIT_ORDER = false ∧
    (hspi_read 0 (write_block_tail u)).2.hspi.W.length = 64 := by
  have hmsb : u.hspi.CTRL0.WR_BIT_ORDER = false := hb.msb
  have hu2 : (hspi_set_command 16 0xffff u).hspi.USER2 =
      { COMMAND_BITLEN := 15, COMMAND_VALUE := 0xffff } := by
    rw [set_command_user2 16 0xffff u (by decide) (by decide) hmsb]
    decide
  have hw1 : (hspi_set_command 16 0xffff u).hspi.W.length = 64 := hb.wlen
  obtain ⟨f1, f2, f3, f4⟩ := set_pattern_facts 8 0xff (hspi_set_command 16 0xffff u) hw1
    (by decide) (by decide)
  have i1 := idle_set_pattern 8 0xff (hspi_set_command 16 0xffff u)
  have hc1 : (hspi_set_command 16 0xffff u).hspi.USER0.COMMAND = true := rfl
  have ha1 : (hspi_set_command 16 0xffff u).hspi.USER0.ADDR = false := ha
  have hdup : (hspi_set_pattern 8 0xff (hspi_set_command 16 0xffff u)).hspi.USER0.DUPLEX
      = true := hb.duplex
  have hwb : (hspi_set_pattern 8 0xff (hspi_set_command 16 0xffff u)).hspi.USER0.WR_BYTE_ORDER
      = false := hb.wbo
  have hrb : (hspi_set_pattern 8 0xff (hspi_set_command 16 0xffff u)).hspi.USER0.RD_BYTE_ORDER
      = false := hb.rbo
  have hn : rxCount (hspi_set_pattern 8 0xff (hspi_set_command 16 0xffff u)).hspi = 1 := by
    unfold rxCount
    rw [hdup, f1, f2]
    rfl
  have hwp : (hspi_set_pattern 8 0xff (hspi_set_command 16 0xffff u)).hspi.W =
      blit (hspi_set_command 16 0xffff u).hspi.W 0 [0xff, 0, 0, 0] := by
    simp only [hspi_set_pattern, show ¬ (8 = 0) by decide, show 8 ≤ 512 by decide, if_true,
      if_false]
    rfl
  have hw0 : (hspi_set_pattern 8 0xff (hspi_set_command 16 0xffff u)).hspi.W.getD 0 0 = 0xff := by
    rw [hwp, blit_zero_getD _ _ (by rw [hw1]; decide) 0 (by decide)]
    rfl
  have hp : Poll (hspi_set_pattern 8 0xff (hspi_set_command 16 0xffff u)) :=
    ⟨hdup, f1, f2, hrb⟩
  obtain ⟨-, p2, p3, -, -, p6⟩ := poll_exec _ hp
  have hmo : mosiWire (hspi_set_pattern 8 0xff (hspi_set_command 16 0xffff u)).hspi = [0xff] := by
    unfold mosiWire
    rw [f1, f2, hwb]
    simp only [if_true]
    show [(hspi_set_pattern 8 0xff (hspi_set_command 16 0xffff u)).hspi.W.getD 0 0] = _
    rw [hw0]
  have hcw : cmdWire (hspi_set_pattern 8 0xff (hspi_set_command 16 0xffff u)).hspi
      = [0xff, 0xff] := by
    unfold cmdWire
    rw [i1.cmd, hc1, i1.user2, hu2]
    decide
  have haw : addrWire (hspi_set_pattern 8 0xff (hspi_set_command 16 0xffff u)).hspi = [] := by
    unfold addrWire
    rw [i1.adr, ha1]
    rfl
  have hx : Ext (hspi_set_pattern 8 0xff (hspi_set_command 16 0xffff u))
      (hspi_exec (hspi_set_pattern 8 0xff (hspi_set_command 16 0xffff u))) [] :=
    exec_ext_no_addr _ (by rw [i1.adr, ha1]) (Or.inr (by rw [i1.user2, hu2]; decide))
  have s1 := set_command_short 16 0xffff u (by decide)
  refine ⟨⟨?_, p2, p3, ?_⟩, ?_, hdup, ?_, exec_W_length _⟩
  · show (hspi_exec (hspi_set_pattern 8 0xff (hspi_set_command 16 0xffff u))).trace.map
      Event.tx = _
    rw [chunks_exec, hcw, haw, hmo, set_pattern_trace, set_command_trace]
    rfl
  · exact Ext.nil_left s1.1 (Ext.nil_left i1.ext (Ext.nil_right hx (idle_wait _).ext))
  · show (hspi_read 0 (hspi_exec (hspi_set_pattern 8 0xff
      (hspi_set_command 16 0xffff u)))).1 % 256 = _
    rw [p6]
    rfl
  · show (hspi_set_pattern 8 0xff (hspi_set_command 16 0xffff u)).hspi.CTRL0.WR_BIT_ORDER = false
    rw [i1.ext.ctrl0]
    exact hmsb

theorem packetChunks_flatten (tok : Nat) (mem : List Nat) (pos : Nat) :
    (packetChunks tok mem pos).flatten = packetBytes tok mem pos := by
  have h : (512 : Nat) = 64 + (64 + (64 + (64 + (64 + (64 + (64 + 64)))))) := by decide
  unfold packetChunks packetBytes
  rw [h]
  simp only [memBytes_add, List.range, List.range.loop, List.map, List.flatten_append,
    List.flatten_cons, List.flatten_nil, List.append_nil, List.append_assoc, Nat.mul_zero,
    Nat.add_zero, Nat.add_assoc]

theorem memBytes_of_drop (mem : List Nat) (p q n : Nat) :
    memBytes (mem.drop p) q n = memBytes mem (p + q) n := by
  unfold memBytes
  apply List.map_congr_left
  intro i _
  rw [getD_drop, Nat.add_assoc]

/-- `write_block` on a full-duplex MSB-first device: the transactions it
runs and the bytes they send, the byte of the card it takes as data response,
and its result. -/
theorem write_block_spec (tok : Nat) (mem : List Nat) (al : Bool) (s : World)
    (hd : s.hspi.USER0.DUPLEX = true) (hm : s.hspi.CTRL0.WR_BIT_ORDER = false)
    (hw : s.hspi.W.length = 64) :
    Tx s (write_block tok mem al s).2 (packetChunks tok mem 0) 513 ∧
    (write_block tok mem al s).1 =
      (if rxByte s 512 &&& DATA_RESPONSE = DATA_ACCEPTED then SDCARD_SUCCESS
       else SDCARD_ERROR_IO) ∧
    (write_block tok mem al s).2.hspi.USER0.DUPLEX = true ∧
    (write_block tok mem al s).2.hspi.CTRL0.WR_BIT_ORDER = false ∧
    (write_block tok mem al s).2.hspi.W.length = 64 := by
  obtain ⟨t1, b1, c1, a1⟩ := write_block_head_tx tok mem al s hd hm hw
  obtain ⟨t2, b2, -, a2⟩ := write_block_loop_tx mem al 512 7 8 64 _ b1 c1 a1 (by decide)
    (fun j hj => by omega) (by decide)
  obtain ⟨t3, r3, d3, m3, w3⟩ := write_block_tail_tx _ b2 a2
  have t12 := Tx.seq t1 t2
  have t123 := Tx.seq t12 t3
  rw [write_block_eq]
  refine ⟨?_, ?_, d3, m3, w3⟩
  · exact t123
  · show (if (hspi_read 0 (write_block_tail (write_block_body tok mem al s))).1 % 256
        &&& DATA_RESPONSE = DATA_ACCEPTED then SDCARD_SUCCESS else SDCARD_ERROR_IO) = _
    have hr : (hspi_read 0 (write_block_tail (write_block_body tok mem al s))).1 % 256 =
        rxByte s 512 := by
      rw [show write_block_body tok mem al s = write_block_loop mem al 512 8 64
        (hspi_reset (hspi_exec (hspi_set_data (64 * 8) mem al
          (hspi_set_command 8 tok (hspi_reset s))))) from rfl, r3,
        rxByte_shift s _ (64 + 64 * 7) t12.rx t12.rxpos]
    rw [hr]

/-- C14 counterexample: the card answers the data packet with 0x15, whose low
nibble is 0101; `write_block` reports SDCARD_ERROR_IO. -/
theorem c14_low_nibble_counterexample :
    rxByte (hspi_select card0 (world1 (fun i => if i = 512 then 0x15 else 0xff) 1)) 512 = 0x15 ∧
    0x15 % 16 = 0b0101 ∧
    (write_block 0xfe [] true
      (hspi_select card0 (world1 (fun i => if i = 512 then 0x15 else 0xff) 1))).1 = SDCARD_ERROR_IO := by
  refine ⟨by decide, by decide, ?_⟩
  rw [(write_block_spec 0xfe [] true _ (by decide) (by decide) (by decide)).2.1]
  decide

/-- C14, amended: on a full-duplex MSB-first device `write_block` takes the
byte received while the byte after the two CRC bytes is clocked as data
response; the block counts as accepted iff the low five bits of that byte are
00101, otherwise `write_block` reports SDCARD_ERROR_IO, and a single-block
write whose block is not accepted returns SDCARD_ERROR_IO. -/
theorem c14_data_response (tok : Nat) (mem : List Nat) (al : Bool) (s : World)
    (hd : s.hspi.USER0.DUPLEX = true) (hm : s.hspi.CTRL0.WR_BIT_ORDER = false)
    (hw : s.hspi.W.length = 64) :
    ((write_block tok mem al s).1 = SDCARD_SUCCESS ↔ rxByte s 512 % 32 = 0b00101) ∧
    (rxByte s 512 % 32 ≠ 0b00101 → (write_block tok mem al s).1 = SDCARD_ERROR_IO) ∧
    (∀ fuel addr s0, r1cmd fuel 24 addr 0xff s0 = some (0, s) → rxByte s 512 % 32 ≠ 0b00101 →
      sdcard_write_single fuel addr mem al s0 =
        some ( SDCARD_ERROR_IO, (write_block 0xfe mem al s).2)) := by
  have e : ∀ tk, (write_block tk mem al s).1 =
      if rxByte s 512 % 32 = 5 then SDCARD_SUCCESS else SDCARD_ERROR_IO := by
    intro tk
    rw [(write_block_spec tk mem al s hd hm hw).2.1, and_0x1f]
    rfl
  refine ⟨?_, ?_, ?_⟩
  · rw [e]
    by_cases h : rxByte s 512 % 32 = 5
    · rw [if_pos h]; exact ⟨fun _ => h, fun _ => rfl⟩
    · rw [if_neg h]; exact ⟨fun x => absurd x (by decide), fun x => absurd x h⟩
  · intro h
    rw [e, if_neg h]
  · intro fuel addr s0 h24 h
    rw [write_single_of fuel addr mem al s0 0 s h24, if_neg (by decide), e, if_neg h,
      if_pos (by decide)]

theorem c14_data_response_witness :
    (hspi_select card0 (world1 (fun i => if i = 512 then 0xe5 else 0xff) 1)).hspi.USER0.DUPLEX = true ∧
    (hspi_select card0 (world1 (fun i => if i = 512 then 0xe5 else 0xff) 1)).hspi.CTRL0.WR_BIT_ORDER
      = false ∧
    (hspi_select card0 (world1 (fun i => if i = 512 then 0xe5 else 0xff) 1)).hspi.W.length = 64 ∧
    (write_block 0xfe [] true
      (hspi_select card0 (world1 (fun i => if i = 512 then 0xe5 else 0xff) 1))).1 = SDCARD_SUCCESS :=
  ⟨by decide, by decide, by decide,
    (c14_data_response 0xfe [] true (hspi_select card0
      (world1 (fun i => if i = 512 then 0xe5 else 0xff) 1)) (by decide) (by decide) (by decide)).1.2
      (by decide)⟩

theorem poll_exec_tx (s : World) (h : PollTx s) :
    PollTx (hspi_read 0 (hspi_exec s)).2 ∧
    txBytes (hspi_read 0 (hspi_exec s)).2 = txBytes s ++ [0xff] ∧
    (hspi_read 0 (hspi_exec s)).2.hspi.W.length = 64 := by
  obtain ⟨p1, -, -, -, -, -⟩ := poll_exec s h.poll
  have hn : rxCount s.hspi = 1 := by
    unfold rxCount
    rw [h.poll.duplex, h.poll.mosi, h.poll.len]
    rfl
  have hw3 : (hspi_exec s).hspi.W.getD 3 0 = 0xff := by
    unfold hspi_exec
    simp only []
    rw [map_range_getD _ 64 3 (by decide)]
    simp only [rxSlot, h.poll.rd, hn]
    exact h.w3
  have hmo : mosiWire s.hspi = [0xff] := by
    unfold mosiWire
    rw [h.poll.mosi, h.poll.len, h.wbo]
    simp only [if_true]
    show [s.hspi.W.getD 3 0] = _
    rw [h.w3]
  have hcw : cmdWire s.hspi = [] := by
    unfold cmdWire; rw [h.cmd]; rfl
  have haw : addrWire s.hspi = [] := by
    unfold addrWire; rw [h.adr]; rfl
  refine ⟨⟨p1, h.wbo, hw3, h.cmd, h.adr⟩, ?_, exec_W_length s⟩
  show txBytes (hspi_exec s) = _
  rw [txBytes_exec, hcw, haw, hmo]
  rfl

/-- What a completed poll loop sent and how many timer readings it took, in
terms of the number `k` of bytes it received: `k` bytes 0xFF were sent, and
every poll but a final matching one read the timer. -/
theorem wait_loop_counts (value t0 : Nat) : ∀ (fuel : Nat) (s : World) (r : Nat) (t : World),
    PollTx s → wait_until_card_returns_loop value t0 fuel s = some (r, t) →
    ∃ k, 1 ≤ k ∧ t.rxpos = s.rxpos + k ∧ txBytes t = txBytes s ++ List.replicate k 0xff ∧
      t.clkpos + (if r = value then 1 else 0) = s.clkpos + k ∧ t.hspi.W.length = 64 := by
  intro fuel
  induction fuel with
  | zero => intro s r t _ h; exact absurd h (by simp [wait_until_card_returns_loop])
  | succ f ih =>
    intro s r t hp h
    obtain ⟨p1, tx1, wl1⟩ := poll_exec_tx s hp
    obtain ⟨-, -, hpos, -, hcp, -⟩ := poll_exec s hp.poll
    rw [wait_loop_succ] at h
    by_cases hv : (hspi_read 0 (hspi_exec s)).1 % 256 ≠ value
    · rw [if_pos hv] at h
      by_cases he : (expired IO_TIMEOUT t0 (hspi_read 0 (hspi_exec s)).2).1 = true
      · rw [he] at h
        simp only [Bool.not_true, Bool.false_eq_true, if_false, Option.some.injEq,
          Prod.mk.injEq] at h
        obtain ⟨h1, h2⟩ := h
        subst h1 h2
        refine ⟨1, by omega, hpos, tx1, ?_, wl1⟩
        rw [if_neg hv]
        show (hspi_read 0 (hspi_exec s)).2.clkpos + 1 + 0 = _
        rw [hcp]
      · have he' : (expired IO_TIMEOUT t0 (hspi_read 0 (hspi_exec s)).2).1 = false := by
          simpa using he
        rw [he'] at h
        simp only [Bool.not_false, if_true] at h
        obtain ⟨k, k1, k2, k3, k4, k5⟩ := ih
          (expired IO_TIMEOUT t0 (hspi_read 0 (hspi_exec s)).2).2 r t
          ⟨⟨p1.poll.duplex, p1.poll.mosi, p1.poll.len, p1.poll.rd⟩, p1.wbo, p1.w3, p1.cmd,
            p1.adr⟩ h
        refine ⟨k + 1, by omega, ?_, ?_, ?_, k5⟩
        · rw [k2]
          show (hspi_read 0 (hspi_exec s)).2.rxpos + k = _
          rw [hpos]; omega
        · rw [k3]
          show txBytes (hspi_read 0 (hspi_exec s)).2 ++ _ = _
          rw [tx1, List.append_assoc]
          congr 1
        · rw [k4]
          show (hspi_read 0 (hspi_exec s)).2.clkpos + 1 + k = _
          rw [hcp]; omega
    · rw [if_neg hv] at h
      simp only [Option.some.injEq, Prod.mk.injEq] at h
      obtain ⟨h1, h2⟩ := h
      subst h1 h2
      refine ⟨1, by omega, hpos, tx1, ?_, wl1⟩
      rw [if_pos (by simpa using hv), hcp]

theorem pollTx_setup (s : World) (hd : s.hspi.USER0.DUPLEX = true)
    (hw : s.hspi.W.length = 64) :
    PollTx (timestamp (hspi_config_exec { big_endian_output := true }
      (hspi_set_pattern 8 0xffffffff (hspi_reset s)))).2 := by
  obtain ⟨hp, -, -, -, -⟩ := poll_setup s hd
  have hw1 : (hspi_reset s).hspi.W.length = 64 := hw
  have hwp : (hspi_set_pattern 8 0xffffffff (hspi_reset s)).hspi.W =
      blit (hspi_reset s).hspi.W 0 [0xff, 0xff, 0xff, 0xff] := by
    simp only [hspi_set_pattern, show ¬ (8 = 0) by decide, show 8 ≤ 512 by decide, if_true,
      if_false]
    rfl
  refine ⟨⟨hp.duplex, hp.mosi, hp.len, hp.rd⟩, rfl, ?_, rfl, rfl⟩
  show (hspi_set_pattern 8 0xffffffff (hspi_reset s)).hspi.W.getD 3 0 = 0xff
  rw [hwp, blit_zero_getD _ _ (by rw [hw1]; decide) 3 (by decide)]
  rfl

/-- What a completed `wait_until_card_returns` sent and how many timer
readings it took, in terms of the number `k` of bytes it received. -/
theorem wait_returns_counts (fuel value : Nat) (s : World) (r : Nat) (t : World)
    (hd : s.hspi.USER0.DUPLEX = true) (hw : s.hspi.W.length = 64)
    (h : wait_until_card_returns fuel value s = some (r, t)) :
    ∃ k, 1 ≤ k ∧ t.rxpos = s.rxpos + k ∧ txBytes t = txBytes s ++ List.replicate k 0xff ∧
      t.clkpos + (if r = value then 1 else 0) = s.clkpos + 1 + k ∧ t.hspi.W.length = 64 := by
  rw [wait_returns_eq] at h
  obtain ⟨k, k1, k2, k3, k4, k5⟩ := wait_loop_counts value _ fuel _ r t (pollTx_setup s hd hw) h
  refine ⟨k, k1, k2, ?_, k4, k5⟩
  rw [k3]
  have : txBytes (timestamp (hspi_config_exec { big_endian_output := true }
      (hspi_set_pattern 8 0xffffffff (hspi_reset s)))).2 = txBytes s :=
    txBytes_of_trace (set_pattern_trace 8 0xffffffff (hspi_reset s))
  rw [this]

theorem write_block_loop_clk (mem : List Nat) (al : Bool) (e : Nat) : ∀ (n pos : Nat) (u : World),
    (write_block_loop mem al e n pos u).clk = u.clk ∧
    (write_block_loop mem al e n pos u).clkpos = u.clkpos := by
  intro n
  induction n with
  | zero => intro pos u; exact ⟨rfl, rfl⟩
  | succ n ih =>
    intro pos u
    rw [write_block_loop_succ]
    split
    · obtain ⟨h1, h2⟩ := ih (pos + 64) (hspi_wait (hspi_exec (hspi_set_data (64 * 8)
        (mem.drop pos) al u)))
      have c1 : (hspi_set_data (64 * 8) (mem.drop pos) al u).clk = u.clk := by
        unfold hspi_set_data hspi_clear_data; split <;> [rfl; (split <;> rfl)]
      have c2 : (hspi_set_data (64 * 8) (mem.drop pos) al u).clkpos = u.clkpos := by
        unfold hspi_set_data hspi_clear_data; split <;> [rfl; (split <;> rfl)]
      exact ⟨h1.trans c1, h2.trans c2⟩
    · exact ⟨rfl, rfl⟩

theorem set_data_clk (n : Nat) (d : List Nat) (al : Bool) (u : World) :
    (hspi_set_data n d al u).clk = u.clk ∧ (hspi_set_data n d al u).clkpos = u.clkpos := by
  unfold hspi_set_data hspi_clear_data
  split
  · exact ⟨rfl, rfl⟩
  · split <;> exact ⟨rfl, rfl⟩

theorem set_command_clk (n v : Nat) (u : World) :
    (hspi_set_command n v u).clk = u.clk ∧ (hspi_set_command n v u).clkpos = u.clkpos := by
  unfold hspi_set_command hspi_clear_command
  simp only
  split
  · exact ⟨rfl, rfl⟩
  · split <;> exact ⟨rfl, rfl⟩

theorem set_pattern_clk (n v : Nat) (u : World) :
    (hspi_set_pattern n v u).clk = u.clk ∧ (hspi_set_pattern n v u).clkpos = u.clkpos := by
  unfold hspi_set_pattern hspi_clear_data
  simp only
  split
  · exact ⟨rfl, rfl⟩
  · split <;> exact ⟨rfl, rfl⟩

theorem write_block_clk (tok : Nat) (mem : List Nat) (al : Bool) (s : World) :
    (write_block tok mem al s).2.clk = s.clk ∧ (write_block tok mem al s).2.clkpos = s.clkpos := by
  rw [write_block_eq]
  show (write_block_tail (write_block_body tok mem al s)).clk = _ ∧
    (write_block_tail (write_block_body tok mem al s)).clkpos = _
  have t1 := set_pattern_clk 8 0xff (hspi_set_command 16 0xffff (write_block_body tok mem al s))
  have t2 := set_command_clk 16 0xffff (write_block_body tok mem al s)
  have b1 := write_block_loop_clk mem al 512 8 64
    (hspi_reset (hspi_exec (hspi_set_data (64 * 8) mem al
      (hspi_set_command 8 tok (hspi_reset s)))))
  have b2 := set_data_clk (64 * 8) mem al (hspi_set_command 8 tok (hspi_reset s))
  have b3 := set_command_clk 8 tok (hspi_reset s)
  constructor
  · show (hspi_set_pattern 8 0xff (hspi_set_command 16 0xffff
      (write_block_body tok mem al s))).clk = _
    rw [t1.1, t2.1]
    show (write_block_loop mem al 512 8 64 _).clk = _
    rw [b1.1]
    show (hspi_set_data (64 * 8) mem al (hspi_set_command 8 tok (hspi_reset s))).clk = _
    rw [b2.1, b3.1]
    rfl
  · show (hspi_set_pattern 8 0xff (hspi_set_command 16 0xffff
      (write_block_body tok mem al s))).clkpos = _
    rw [t1.2, t2.2]
    show (write_block_loop mem al 512 8 64 _).clkpos = _
    rw [b1.2]
    show (hspi_set_data (64 * 8) mem al (hspi_set_command 8 tok (hspi_reset s))).clkpos = _
    rw [b2.2, b3.2]
    rfl

theorem sdcard_write_loop_succ (fuel : Nat) (mem : List Nat) (al : Bool) (left : Nat)
    (err : sdcard_result_t) (pos : Nat) (s : World) :
    sdcard_write_loop fuel mem al (left + 1) err pos s =
      if err = SDCARD_SUCCESS then
        match wait_until_card_not_busy fuel s with
        | none => none
        | some (busy, s1) =>
          if busy = 0 then some (SDCARD_ERROR_TIMEOUT, true, s1)
          else sdcard_write_loop fuel mem al left
            (write_block 0xfc (mem.drop (pos + 512)) al s1).1 (pos + 512)
            (write_block 0xfc (mem.drop (pos + 512)) al s1).2
      else some (err, false, s) := rfl

theorem packetBytes_drop (tok : Nat) (mem : List Nat) (p : Nat) :
    packetBytes tok (mem.drop p) 0 = packetBytes tok mem p := by
  unfold packetBytes
  rw [memBytes_of_drop, Nat.add_zero]

/-- A not-busy poll that ends on 0xFF at poll `n`, on a device ready for a
block transfer. -/
theorem not_busy_run (fuel n : Nat) (u : World) (hu : Wr u) (hf : n < fuel)
    (hpre : ∀ i, i < n → rxByte u i ≠ 0xff ∧ elapsed u i ≤ IO_TIMEOUT)
    (hend : rxByte u n = 0xff) :
    ∃ t, wait_until_card_not_busy fuel u = some (0xff, t) ∧ Wr t ∧ t.rx = u.rx ∧
      t.rxpos = u.rxpos + (n + 1) ∧ t.clk = u.clk ∧ t.clkpos = u.clkpos + (n + 1) ∧
      txBytes t = txBytes u ++ List.replicate (n + 1) 0xff ∧ Quiet u t := by
  obtain ⟨t, h1, h2, h3, h4, h5, q⟩ := wait_returns_run fuel 0xff n u hu.duplex hf hpre
    (Or.inl hend)
  rw [hend] at h1
  obtain ⟨k, -, k2, k3, k4, k5⟩ := wait_returns_counts fuel 0xff u 0xff t hu.duplex hu.wlen h1
  have hk : k = n + 1 := by omega
  subst hk
  rw [if_pos rfl] at k4
  exact ⟨t, h1, ⟨h5, by rw [q.ext.ctrl0]; exact hu.msb, k5⟩, h2, h3, h4, by omega, k3, q⟩

/-- A run of the loop of a multiple block write through the blocks listed by
`ns`, all of them accepted: the loop reaches the state `t` with `left`
iterations still to go. -/
theorem write_loop_upto (fuel : Nat) (mem : List Nat) (al : Bool) (left : Nat) :
    ∀ (ns : List Nat) (pos : Nat) (u : World), Wr u →
    Accepts u.rx u.clk ns u.rxpos u.clkpos → (∀ n ∈ ns, n < fuel) →
    ∃ t, sdcard_write_loop fuel mem al (ns.length + left) SDCARD_SUCCESS pos u =
        sdcard_write_loop fuel mem al left SDCARD_SUCCESS (pos + 512 * ns.length) t ∧
      Wr t ∧ t.rx = u.rx ∧ t.clk = u.clk ∧ t.rxpos = u.rxpos + rxSpan ns ∧
      t.clkpos = u.clkpos + clkSpan ns ∧
      txBytes t = txBytes u ++ loopBytes mem ns pos ∧ Ext u t [] := by
  intro ns
  induction ns with
  | nil =>
    intro pos u hu _ _
    refine ⟨u, ?_, hu, rfl, rfl, rfl, rfl, by simp [loopBytes], Ext.refl u⟩
    simp
  | cons n ns ih =>
    intro pos u hu ha hf
    obtain ⟨a1, a2, a3, a4⟩ := ha
    obtain ⟨t1, h1, w1, rx1, rp1, ck1, cp1, tx1, q1⟩ := not_busy_run fuel n u hu
      (hf n (List.mem_cons_self n ns)) a1 a2
    obtain ⟨x1, x2, x3, x4, x5⟩ := write_block_spec 0xfc (mem.drop (pos + 512)) al t1
      w1.duplex w1.msb w1.wlen
    obtain ⟨c1, c2⟩ := write_block_clk 0xfc (mem.drop (pos + 512)) al t1
    have hacc : (write_block 0xfc (mem.drop (pos + 512)) al t1).1 = SDCARD_SUCCESS := by
      rw [x2, and_0x1f, if_pos]
      show t1.rx (t1.rxpos + 512) % 256 % 32 = 5
      rw [rx1, rp1]
      exact a3
    obtain ⟨t, l1, l2, l3, l4, l5, l6, l7, l8⟩ := ih (pos + 512)
      (write_block 0xfc (mem.drop (pos + 512)) al t1).2 ⟨x3, x4, x5⟩
      (by rw [x1.rx, x1.rxpos, c1, c2, rx1, rp1, ck1, cp1]; exact a4)
      (fun m hm => hf m (List.mem_cons_of_mem n hm))
    refine ⟨t, ?_, l2, by rw [l3, x1.rx, rx1], by rw [l4, c1, ck1], ?_, ?_, ?_,
      Ext.nil_left q1.ext (Ext.nil_left x1.ext l8)⟩
    · have e1 : (n :: ns).length + left = (ns.length + left) + 1 := by
        simp only [List.length_cons]; omega
      have e2 : pos + 512 * (n :: ns).length = pos + 512 + 512 * ns.length := by
        simp only [List.length_cons]; omega
      rw [e1, e2, sdcard_write_loop_succ, if_pos rfl, h1]
      simp only []
      rw [if_neg (by decide), hacc]
      exact l1
    · rw [l5, x1.rxpos, rp1]
      simp only [rxSpan]
      omega
    · rw [l6, c2, cp1]
      simp only [clkSpan]
      omega
    · rw [l7, x1.bytes, tx1, packetChunks_flatten, packetBytes_drop]
      simp only [loopBytes, List.append_assoc]

/-- A run of the loop of a multiple block write in which every block is
accepted. -/
theorem write_loop_run (fuel : Nat) (mem : List Nat) (al : Bool) (ns : List Nat) (pos : Nat)
    (u : World) (hu : Wr u) (ha : Accepts u.rx u.clk ns u.rxpos u.clkpos)
    (hf : ∀ n ∈ ns, n < fuel) :
    ∃ t, sdcard_write_loop fuel mem al ns.length SDCARD_SUCCESS pos u =
        some (SDCARD_SUCCESS, false, t) ∧
      Wr t ∧ t.rx = u.rx ∧ t.clk = u.clk ∧
      txBytes t = txBytes u ++ loopBytes mem ns pos ∧ Ext u t [] := by
  obtain ⟨t, l1, l2, l3, l4, -, -, l7, l8⟩ := write_loop_upto fuel mem al 0 ns pos u hu ha hf
  exact ⟨t, by rw [Nat.add_zero] at l1; rw [l1]; rfl, l2, l3, l4, l7, l8⟩

theorem write_stop_success (fuel : Nat) (t : World) :
    sdcard_write_stop fuel (some (SDCARD_SUCCESS, false, t)) = end_transmission fuel t := by
  unfold sdcard_write_stop
  simp

theorem write_blocks_left (n : Nat) (h : n + 1 < 2 ^ 32) :
    (n + 1 + 4294967296 - 1) % 4294967296 = n := by
  have h2 : (4294967296 : Nat) = 2 ^ 32 := by norm_num
  rw [h2] at *
  omega

theorem memBytes_length (mem : List Nat) (p n : Nat) : (memBytes mem p n).length = n := by
  unfold memBytes
  rw [List.length_map, List.length_range]

/-- C28: on a full-duplex MSB-first device with a 64-byte buffer,
`write_block` runs nine transactions: the start token with the first 64 data
bytes, seven more of 64 data bytes each, and one of three bytes 0xFF (two in
place of the CRC, one during which the data response is read); the bytes are
those of the buffer in order.  A single block write sends its block with token
0xFE.  In a multiple block write whose blocks are all accepted (`ns` lists,
for the blocks after the first, the number of the not-busy poll the card
answers with 0xFF), the bytes sent are the packet of block 0 and then, for
each further block `i`, the poll fillers and the packet with token 0xFC and
the buffer bytes from `512 * i` on; nothing else is sent before
`end_transmission`. -/
theorem c28_write_packets (fuel tok : Nat) (mem : List Nat) (al : Bool) (ns : List Nat)
    (s : World) (hd : s.hspi.USER0.DUPLEX = true) (hm : s.hspi.CTRL0.WR_BIT_ORDER = false)
    (hw : s.hspi.W.length = 64) (h0 : rxByte s 512 % 32 = 5)
    (ha : Accepts s.rx s.clk ns (s.rxpos + 513) s.clkpos) (hf : ∀ n ∈ ns, n < fuel)
    (hn : ns.length + 1 < 2 ^ 32) :
    Tx s (write_block tok mem al s).2 (packetChunks tok mem 0) 513 ∧
    (packetChunks tok mem 0).map List.length = [65, 64, 64, 64, 64, 64, 64, 64, 3] ∧
    (packetChunks tok mem 0).flatten = [tok % 256] ++ memBytes mem 0 512 ++ [0xff, 0xff, 0xff] ∧
    (∀ fuel1 addr s0, r1cmd fuel1 24 addr 0xff s0 = some (0, s) →
      sdcard_write_single fuel1 addr mem al s0 =
        some (SDCARD_SUCCESS, (write_block 0xfe mem al s).2) ∧
      txBytes (write_block 0xfe mem al s).2 = txBytes s ++ packetBytes 0xfe mem 0) ∧
    ∃ t, sdcard_write_loop fuel mem al ns.length (write_block 0xfc mem al s).1 0
          (write_block 0xfc mem al s).2 = some (SDCARD_SUCCESS, false, t) ∧
      txBytes t = txBytes s ++ packetBytes 0xfc mem 0 ++ loopBytes mem ns 0 ∧
      sdcard_write_blocks fuel (ns.length + 1) mem al s = end_transmission fuel t := by
  have e : ∀ tk, (write_block tk mem al s).1 = SDCARD_SUCCESS := by
    intro tk
    rw [(write_block_spec tk mem al s hd hm hw).2.1, and_0x1f]
    exact if_pos h0
  obtain ⟨x1, -, x3, x4, x5⟩ := write_block_spec 0xfc mem al s hd hm hw
  obtain ⟨c1, c2⟩ := write_block_clk 0xfc mem al s
  obtain ⟨t, l1, -, -, -, l5, -⟩ := write_loop_run fuel mem al ns 0
    (write_block 0xfc mem al s).2 ⟨x3, x4, x5⟩
    (by rw [x1.rx, x1.rxpos, c1, c2]; exact ha) hf
  refine ⟨(write_block_spec tok mem al s hd hm hw).1, ?_, packetChunks_flatten tok mem 0, ?_,
    t, ?_, ?_, ?_⟩
  · have r7 : List.range 7 = [0, 1, 2, 3, 4, 5, 6] := rfl
    unfold packetChunks
    rw [r7]
    simp only [List.map_append, List.map_cons, List.map_nil, List.length_append,
      List.length_cons, List.length_nil, memBytes_length]
    rfl
  · intro fuel1 addr s0 h24
    constructor
    · rw [write_single_of fuel1 addr mem al s0 0 s h24, if_neg (by decide), e 0xfe,
        if_neg (by decide)]
    · rw [(write_block_spec 0xfe mem al s hd hm hw).1.bytes, packetChunks_flatten]
  · rw [e 0xfc]; exact l1
  · rw [l5, x1.bytes, packetChunks_flatten]
  · unfold sdcard_write_blocks
    rw [write_blocks_left ns.length hn, e 0xfc, l1, write_stop_success]

theorem c28_write_packets_witness :
    rxByte (hspi_select card0 (world1 rx_write_two 1)) 512 % 32 = 5 ∧
    ∃ t, sdcard_write_loop 3 [] true 1
          (write_block 0xfc [] true (hspi_select card0 (world1 rx_write_two 1))).1 0
          (write_block 0xfc [] true (hspi_select card0 (world1 rx_write_two 1))).2 =
        some (SDCARD_SUCCESS, false, t) ∧
      txBytes t = txBytes (hspi_select card0 (world1 rx_write_two 1)) ++
        packetBytes 0xfc [] 0 ++ loopBytes [] [0] 0 := by
  refine ⟨by decide, ?_⟩
  obtain ⟨t, h1, h2, -⟩ := (c28_write_packets 3 0xfc [] true [0]
    (hspi_select card0 (world1 rx_write_two 1)) (by decide) (by decide) (by decide) (by decide)
    ⟨by decide, by decide, by decide, trivial⟩ (by decide) (by decide)).2.2.2.2
  exact ⟨t, h1, h2⟩

/-- Once `err` is set the loop of a multiple block write ends at its next
test. -/
theorem write_loop_error (fuel : Nat) (mem : List Nat) (al : Bool) (left : Nat)
    (err : sdcard_result_t) (pos : Nat) (u : World) (h : err ≠ SDCARD_SUCCESS) :
    sdcard_write_loop fuel mem al left err pos u = some (err, false, u) := by
  cases left with
  | zero => rfl
  | succ k => rw [sdcard_write_loop_succ, if_neg h]

/-- After the loop ended with an error of a block, `r1cmd(12, 0, 0x61)` is
called and the error returned. -/
theorem write_stop_error (fuel : Nat) (err : sdcard_result_t) (u : World)
    (h : err ≠ SDCARD_SUCCESS) :
    sdcard_write_stop fuel (some (err, false, u)) =
      (r1cmd fuel 12 0 0x61 u).map (fun q => (err, q.2)) := by
  simp only [sdcard_write_stop, if_pos h]
  cases r1cmd fuel 12 0 0x61 u <;> rfl

/-- After the loop was left through `raise_error`, nothing more is done
before the label `done:`. -/
theorem write_stop_raise (fuel : Nat) (err : sdcard_result_t) (u : World) :
    sdcard_write_stop fuel (some (err, true, u)) = some (err, u) := rfl

/-- A command whose not-busy poll the card answers with 0xFF is sent. -/
theorem r1cmd_ready_run (fuel c a k n : Nat) (u : World) (hu : Wr u) (hc : c < 64)
    (ha : a < 2 ^ 32) (hk : k < 256) (hf : n < fuel)
    (hr : Ready u.rx u.clk n u.rxpos u.clkpos) :
    ∃ v, r1cmd fuel c a k u = some (r1cmd_send c a k v) ∧ v.rx = u.rx ∧
      v.rxpos = u.rxpos + (n + 1) ∧ txBytes v = txBytes u ++ List.replicate (n + 1) 0xff ∧
      sent v = sent u ∧
      sent (r1cmd_send c a k v).2 = sent u ++ [{ index := c, arg := a, crc := k }] := by
  obtain ⟨v, h1, w1, rx1, rp1, -, -, tx1, q1⟩ := not_busy_run fuel n u hu hf hr.1 hr.2
  have e1 := r1cmd_send_ext c a k v hc ha hk w1.msb
  refine ⟨v, ?_, rx1, rp1, tx1, ?_, ?_⟩
  · rw [r1cmd_of_wait fuel c a k u 0xff v h1, if_neg (by decide)]
  · have := sent_of_ext q1.ext
    rw [this, List.append_nil]
  · exact sent_of_ext (Ext.nil_left q1.ext e1)

/-- One iteration of the loop of a multiple block write whose block the card
rejects: the packet is sent and the loop ends. -/
theorem write_loop_reject (fuel : Nat) (mem : List Nat) (al : Bool) (left n pos : Nat)
    (u : World) (hu : Wr u) (hf : n < fuel) (hr : Ready u.rx u.clk n u.rxpos u.clkpos)
    (hrej : u.rx (u.rxpos + (n + 1) + 512) % 256 % 32 ≠ 5) :
    ∃ t, sdcard_write_loop fuel mem al (left + 1) SDCARD_SUCCESS pos u =
        some ( SDCARD_ERROR_IO, false, t) ∧
      Wr t ∧ t.rx = u.rx ∧ t.clk = u.clk ∧ t.rxpos = u.rxpos + (n + 1) + 513 ∧
      t.clkpos = u.clkpos + (n + 1) ∧
      txBytes t = txBytes u ++ List.replicate (n + 1) 0xff ++ packetBytes 0xfc mem (pos + 512) ∧
      Ext u t [] := by
  obtain ⟨t1, h1, w1, rx1, rp1, ck1, cp1, tx1, q1⟩ := not_busy_run fuel n u hu hf hr.1 hr.2
  obtain ⟨x1, x2, x3, x4, x5⟩ := write_block_spec 0xfc (mem.drop (pos + 512)) al t1
    w1.duplex w1.msb w1.wlen
  obtain ⟨c1, c2⟩ := write_block_clk 0xfc (mem.drop (pos + 512)) al t1
  have hacc : (write_block 0xfc (mem.drop (pos + 512)) al t1).1 = SDCARD_ERROR_IO := by
    rw [x2, and_0x1f, if_neg]
    show ¬ t1.rx (t1.rxpos + 512) % 256 % 32 = 5
    rw [rx1, rp1]
    exact hrej
  refine ⟨(write_block 0xfc (mem.drop (pos + 512)) al t1).2, ?_, ⟨x3, x4, x5⟩,
    by rw [x1.rx, rx1], by rw [c1, ck1], by rw [x1.rxpos, rp1], by rw [c2, cp1], ?_,
    Ext.nil_left q1.ext x1.ext⟩
  · rw [sdcard_write_loop_succ, if_pos rfl, h1]
    simp only []
    rw [if_neg (by decide), hacc]
    exact write_loop_error fuel mem al left _ (pos + 512) _ (by decide)
  · rw [x1.bytes, tx1, packetChunks_flatten, packetBytes_drop]

/-- The multiple block branch of `sdcard_write` once ACMD23 and CMD25 were
accepted: the blocks, then the label `done:`. -/
theorem sdcard_write_of_multi (fuel : Nat) (card : sdcard_t) (addr nb : Nat) (mem : List Nat)
    (al : Bool) (s0 s1 s : World) (hnb : nb ≠ 1)
    (h23 : acmd fuel 23 nb 0xff (set_cs_low (hspi_select card s0)) = some (0, s1))
    (h25 : r1cmd fuel 25 (sdcard_addr card addr) 0xff s1 = some (0, s)) :
    sdcard_write fuel card addr nb mem al s0 =
      (sdcard_write_blocks fuel nb mem al s).map (fun q => (q.1, sdcard_done q.2)) := by
  unfold sdcard_write sdcard_write_multi
  simp only [if_neg hnb, h23, h25]
  all_goals (cases sdcard_write_blocks fuel nb mem al s <;> rfl)

theorem opt_fst_eq {α : Type} {o : Option (α × World)} {v : α} (d : World)
    (h : o.map Prod.fst = some v) : o = some (v, (o.map Prod.snd).getD d) := by
  cases o with
  | none => simp at h
  | some p =>
    simp only [Option.map_some', Option.some.injEq] at h
    simp [← h]

/-- The two results of `write_block`. -/
theorem write_block_kind (tok : Nat) (mem : List Nat) (al : Bool) (s : World) :
    (write_block tok mem al s).1 = SDCARD_SUCCESS ∨
    (write_block tok mem al s).1 = SDCARD_ERROR_IO := by
  rw [write_block_eq]
  simp only []
  by_cases h : (hspi_read 0 (write_block_tail (write_block_body tok mem al s))).1 % 256
      &&& DATA_RESPONSE = DATA_ACCEPTED
  · left; exact if_pos h
  · right; exact if_neg h

/-- The ways the loop of a multiple block write ends: through `raise_error`
with a timeout, or at its test with the result of the last `write_block`. -/
theorem write_loop_kinds (fuel : Nat) (mem : List Nat) (al : Bool) : ∀ (n : Nat)
    (err : sdcard_result_t) (pos : Nat) (s : World) (r : sdcard_result_t) (j : Bool)
    (t : World), (err = SDCARD_SUCCESS ∨ err = SDCARD_ERROR_IO) →
    sdcard_write_loop fuel mem al n err pos s = some (r, j, t) →
    (j = true ∧ r = SDCARD_ERROR_TIMEOUT) ∨
    (j = false ∧ (r = SDCARD_SUCCESS ∨ r = SDCARD_ERROR_IO)) := by
  intro n
  induction n with
  | zero =>
    intro err pos s r j t he h
    simp only [sdcard_write_loop, Option.some.injEq, Prod.mk.injEq] at h
    right; rw [← h.1, ← h.2.1]; exact ⟨rfl, he⟩
  | succ n ih =>
    intro err pos s r j t he h
    simp only [sdcard_write_loop] at h
    split at h
    · cases hw : wait_until_card_not_busy fuel s with
      | none => simp [hw] at h
      | some p =>
        obtain ⟨busy, s1⟩ := p
        simp only [hw] at h
        split at h
        · simp only [Option.some.injEq, Prod.mk.injEq] at h
          left; rw [← h.1, ← h.2.1]; exact ⟨rfl, rfl⟩
        · exact ih _ _ _ _ _ _ (write_block_kind _ _ _ _) h
    · simp only [Option.some.injEq, Prod.mk.injEq] at h
      right; rw [← h.1, ← h.2.1]; exact ⟨rfl, he⟩

/-- The results of `end_transmission`. -/
theorem end_transmission_kind (fuel : Nat) (s : World) (r : sdcard_result_t) (t : World)
    (h : end_transmission fuel s = some (r, t)) :
    r = SDCARD_SUCCESS ∨ r = SDCARD_ERROR_TIMEOUT := by
  unfold end_transmission at h
  cases hw : wait_until_card_not_busy fuel s with
  | none => simp [hw] at h
  | some p =>
    obtain ⟨busy, s1⟩ := p
    simp only [hw] at h
    split at h
    · simp only [Option.some.injEq, Prod.mk.injEq] at h
      right; exact h.1.symm
    · simp only [Option.some.injEq, Prod.mk.injEq] at h
      left; exact h.1.symm

/-- One iteration of the loop of a multiple block write during whose not-busy
poll the deadline passes with the card at 0x00: the loop is left through
`raise_error`. -/
theorem write_loop_stuck (fuel : Nat) (mem : List Nat) (al : Bool) (left n pos : Nat)
    (u : World) (hu : Wr u) (hf : n < fuel)
    (hpre : ∀ i, i < n → rxByte u i ≠ 0xff ∧ elapsed u i ≤ IO_TIMEOUT)
    (hend : IO_TIMEOUT < elapsed u n) (hz : rxByte u n = 0) :
    ∃ v, sdcard_write_loop fuel mem al (left + 1) SDCARD_SUCCESS pos u =
        some (SDCARD_ERROR_TIMEOUT, true, v) ∧
      sent v = sent u ∧ txBytes v = txBytes u ++ List.replicate (n + 1) 0xff := by
  obtain ⟨t, h1, h2, h3, h4, h5, q⟩ := wait_returns_run fuel 0xff n u hu.duplex hf hpre
    (Or.inr hend)
  rw [hz] at h1
  obtain ⟨k, -, k2, k3, k4, k5⟩ := wait_returns_counts fuel 0xff u 0 t hu.duplex hu.wlen h1
  have hk : k = n + 1 := by omega
  subst hk
  refine ⟨t, ?_, ?_, k3⟩
  · rw [sdcard_write_loop_succ, if_pos rfl]
    show (match wait_until_card_returns fuel 0xff u with
      | none => none
      | some (busy, s) => _) = _
    rw [h1]
    rfl
  · have := sent_of_ext q.ext
    rw [this, List.append_nil]

/-- C16, as stated, fails: a card accepts ACMD23, CMD25 and the first packet
of a two-block write and then stays at 0x00 past the deadline of the not-busy
poll between the blocks (timer step 60 ms).  `sdcard_write` returns
`SDCARD_ERROR_TIMEOUT`, and up to the release of the bus the command frames
sent are those of CMD55, ACMD23 and CMD25: no CMD12. -/
theorem c16_timeout_skips_stop_counterexample :
    (sdcard_write 5 card0 0 2 [] true (world1 rx_write_stuck 60000)).map
      (fun q => (q.1, sent q.2)) =
      some (SDCARD_ERROR_TIMEOUT, [{ index := 55, arg := 0, crc := 0x65 },
        { index := 23, arg := 2, crc := 0xff }, { index := 25, arg := 0, crc := 0xff }]) ∧
    CMD12 ∉ [{ index := 55, arg := 0, crc := 0x65 },
        { index := 23, arg := 2, crc := 0xff }, ({ index := 25, arg := 0, crc := 0xff } : Frame)] := by
  decide

/-- C16, amended: in a multiple block write `s` is the card when CMD25 was
accepted and `(r, t)` what the blocks return to the label `done:`.  When the
result is `SDCARD_ERROR_IO` (a rejected data response) the last thing done is
the call `r1cmd(12, 0, 0x61)`, which sends the frame of CMD12 unless its
not-busy poll ends on 0x00; when the result is `SDCARD_ERROR_TIMEOUT` no
command frame was sent after CMD25, so no CMD12; there is no other failing
result.  A not-busy poll between two blocks that passes the deadline with
the card at 0x00 ends the loop through `raise_error`, after which nothing is
done before `done:`. -/
theorem c16_failure_paths (fuel nb : Nat) (mem : List Nat) (al : Bool) (s : World)
    (r : sdcard_result_t) (t : World) (hm : s.hspi.CTRL0.WR_BIT_ORDER = false)
    (h : sdcard_write_blocks fuel nb mem al s = some (r, t)) :
    (r = SDCARD_SUCCESS ∨ r = SDCARD_ERROR_TIMEOUT ∨ r = SDCARD_ERROR_IO) ∧
    (r = SDCARD_ERROR_TIMEOUT → sent t = sent s) ∧
    (r = SDCARD_ERROR_IO → ∃ u r12, sent u = sent s ∧ r1cmd fuel 12 0 0x61 u = some (r12, t) ∧
      ((sent t = sent s ∧ r12 = 0x80) ∨ sent t = sent s ++ [CMD12])) ∧
    (∀ left n pos u, Wr u → n < fuel →
      (∀ i, i < n → rxByte u i ≠ 0xff ∧ elapsed u i ≤ IO_TIMEOUT) →
      IO_TIMEOUT < elapsed u n → rxByte u n = 0 →
      ∃ v, sdcard_write_loop fuel mem al (left + 1) SDCARD_SUCCESS pos u =
          some (SDCARD_ERROR_TIMEOUT, true, v) ∧
        sdcard_write_stop fuel (some (SDCARD_ERROR_TIMEOUT, true, v)) =
          some (SDCARD_ERROR_TIMEOUT, v) ∧
        sent v = sent u ∧ txBytes v = txBytes u ++ List.replicate (n + 1) 0xff) := by
  have last : ∀ left n pos u, Wr u → n < fuel →
      (∀ i, i < n → rxByte u i ≠ 0xff ∧ elapsed u i ≤ IO_TIMEOUT) →
      IO_TIMEOUT < elapsed u n → rxByte u n = 0 →
      ∃ v, sdcard_write_loop fuel mem al (left + 1) SDCARD_SUCCESS pos u =
          some (SDCARD_ERROR_TIMEOUT, true, v) ∧
        sdcard_write_stop fuel (some (SDCARD_ERROR_TIMEOUT, true, v)) =
          some (SDCARD_ERROR_TIMEOUT, v) ∧
        sent v = sent u ∧ txBytes v = txBytes u ++ List.replicate (n + 1) 0xff := by
    intro left n pos u hu hf hpre hend hz
    obtain ⟨v, v1, v2, v3⟩ := write_loop_stuck fuel mem al left n pos u hu hf hpre hend hz
    exact ⟨v, v1, rfl, v2, v3⟩
  unfold sdcard_write_blocks at h
  have e0 := write_block_ext 0xfc mem al s
  have k0 := write_block_kind 0xfc mem al s
  generalize (nb + 4294967296 - 1) % 4294967296 = k at h
  generalize write_block 0xfc mem al s = wb at h e0 k0
  cases h1 : sdcard_write_loop fuel mem al k wb.1 0 wb.2 with
  | none => rw [h1] at h; exact absurd h (by simp [sdcard_write_stop])
  | some p =>
    obtain ⟨err, j, s1⟩ := p
    rw [h1] at h
    have e1 : Ext s s1 [] := Ext.nil_right e0
      (sdcard_write_loop_ext fuel mem al k wb.1 0 wb.2 wb.2 err j s1 (Ext.refl wb.2) h1)
    have es1 : sent s1 = sent s := by
      have := sent_of_ext e1
      rw [this, List.append_nil]
    rcases write_loop_kinds fuel mem al k wb.1 0 wb.2 err j s1 k0 h1 with ⟨hj, he⟩ | ⟨hj, he⟩
    · subst hj
      subst he
      rw [write_stop_raise] at h
      simp only [Option.some.injEq, Prod.mk.injEq] at h
      obtain ⟨h2, h3⟩ := h
      subst h2
      subst h3
      exact ⟨Or.inr (Or.inl rfl), fun _ => es1, fun hc => absurd hc (by decide), last⟩
    · subst hj
      rcases he with he | he
      · subst he
        rw [write_stop_success] at h
        have e2 := end_transmission_ext fuel s1 r t h
        have es2 : sent t = sent s := by
          have := sent_of_ext (Ext.nil_left e1 e2)
          rw [this, List.append_nil]
        rcases end_transmission_kind fuel s1 r t h with hr | hr
        · subst hr
          exact ⟨Or.inl rfl, fun _ => es2, fun hc => absurd hc (by decide), last⟩
        · subst hr
          exact ⟨Or.inr (Or.inl rfl), fun _ => es2, fun hc => absurd hc (by decide), last⟩
      · subst he
        rw [write_stop_error fuel _ _ (by decide)] at h
        cases h2 : r1cmd fuel 12 0 0x61 s1 with
        | none => rw [h2] at h; exact absurd h (by simp)
        | some q =>
          obtain ⟨r12, s2⟩ := q
          rw [h2] at h
          simp only [Option.map_some', Option.some.injEq, Prod.mk.injEq] at h
          obtain ⟨h3, h4⟩ := h
          subst h3
          subst h4
          have key := (r1cmd_any_sent fuel 12 0 0x61 s1 r12 s2 (by decide) (by decide)
            (by decide) (by rw [e1.ctrl0, hm]) h2).1
          rw [es1] at key
          exact ⟨Or.inr (Or.inr rfl), fun hc => absurd hc (by decide),
            fun _ => ⟨s1, r12, es1, h2, key⟩, last⟩

theorem c16_failure_paths_witness :
    (hspi_select card0 (world1 rx_blocks_stuck 60000)).hspi.CTRL0.WR_BIT_ORDER = false ∧
    ∃ t, sdcard_write_blocks 3 2 [] true (hspi_select card0 (world1 rx_blocks_stuck 60000)) =
        some (SDCARD_ERROR_TIMEOUT, t) ∧
      sent t = sent (hspi_select card0 (world1 rx_blocks_stuck 60000)) := by
  have h := opt_fst_eq (world0 [] 1) (by decide :
    (sdcard_write_blocks 3 2 [] true (hspi_select card0 (world1 rx_blocks_stuck 60000))).map
      Prod.fst = some SDCARD_ERROR_TIMEOUT)
  exact ⟨by decide, _, h, (c16_failure_paths 3 2 [] true
    (hspi_select card0 (world1 rx_blocks_stuck 60000)) _ _ (by decide) h).2.1 rfl⟩

/-- An accepted application command has sent CMD55 and its own frame. -/
theorem acmd_zero_sent (fuel c a k : Nat) (s : World) (t : World) (hc : c < 64)
    (ha : a < 2 ^ 32) (hk : k < 256) (hm : s.hspi.CTRL0.WR_BIT_ORDER = false)
    (h : acmd fuel c a k s = some (0, t)) :
    sent t = sent s ++ [CMD55, { index := c, arg := a, crc := k }] ∧
    t.hspi.CTRL0.WR_BIT_ORDER = false := by
  cases h1 : r1cmd fuel 55 0 0x65 s with
  | none =>
    unfold acmd at h
    rw [h1] at h
    exact absurd h (by simp)
  | some p =>
    obtain ⟨r55, s1⟩ := p
    rw [acmd_of_cmd55 fuel c a k s r55 s1 h1] at h
    obtain ⟨x1, x2⟩ := r1cmd_any_sent fuel 55 0 0x65 s r55 s1 (by decide) (by decide)
      (by decide) hm h1
    by_cases hz : r55 &&& 0xfe = 0
    · rw [if_pos hz] at h
      obtain ⟨y1, y2⟩ := r1cmd_zero_sent fuel c a k s1 t hc ha hk x2 h
      refine ⟨?_, y2⟩
      rcases x1 with x | x
      · rw [x.2] at hz
        exact absurd hz (by decide)
      · rw [y1, x]
        simp [CMD55]
    · rw [if_neg hz] at h
      simp only [Option.some.injEq, Prod.mk.injEq] at h
      rw [h.1] at hz
      exact absurd rfl hz

theorem txBytes_ext {s t : World} {fr : List Frame} (h : Ext s t fr) :
    ∃ rest, txBytes t = txBytes s ++ rest := by
  obtain ⟨evs, e1, -, -⟩ := h.evs
  refine ⟨(evs.map Event.tx).flatten, ?_⟩
  unfold txBytes
  rw [e1, List.map_append, List.flatten_append]

theorem txBytes_sdcard_done (u : World) : txBytes (sdcard_done u) = txBytes u := by
  show ((u.trace ++ [Event.cs_high] ++ [Event.release]).map Event.tx).flatten = _
  rw [List.map_append, List.map_append, List.flatten_append, List.flatten_append]
  simp [txBytes, Event.tx]

/-- What `hspi_select` leaves of the environment and of the duplex flag. -/
theorem select_env (card : sdcard_t) (s : World) :
    (hspi_select card s).rx = s.rx ∧ (hspi_select card s).rxpos = s.rxpos ∧
    (hspi_select card s).clk = s.clk ∧ (hspi_select card s).clkpos = s.clkpos ∧
    (hspi_select card s).hspi.USER0.DUPLEX = !card.shared_io := by
  unfold hspi_select hspi_set_clock gpio_enable_cs0_output
  cases s.demux_gpio_pins <;> simp only [] <;> (repeat' split) <;> exact ⟨rfl, rfl, rfl, rfl, rfl⟩

/-- A command issued to a card that holds the line at 0x00 until the deadline
of the not-busy poll has passed: `r1cmd` returns 0x80. -/
theorem r1cmd_stuck (fuel c a k n : Nat) (s : World) (hd : s.hspi.USER0.DUPLEX = true)
    (hf : n < fuel) (hz : ∀ i, s.rx i % 256 = 0)
    (hpre : ∀ i, i < n → gap s.clk s.clkpos (i + 1) ≤ IO_TIMEOUT)
    (hend : IO_TIMEOUT < gap s.clk s.clkpos (n + 1)) :
    ∃ t, r1cmd fuel c a k s = some (0x80, t) := by
  obtain ⟨t, h1, -⟩ := wait_returns_run fuel 0xff n s hd hf
    (fun i hi => ⟨by show s.rx (s.rxpos + i) % 256 ≠ 0xff; rw [hz]; decide, hpre i hi⟩)
    (Or.inr hend)
  have h2 : rxByte s n = 0 := hz _
  rw [h2] at h1
  exact ⟨t, by rw [r1cmd_of_wait fuel c a k s 0 t h1, if_pos rfl]⟩

/-- What `sdcard_init_enter` leaves of the environment and of the duplex
flag (its 80 clocks consume received bytes, not timer readings). -/
theorem init_enter_env (card : sdcard_t) (s : World) :
    (sdcard_init_enter card s).rx = s.rx ∧ (sdcard_init_enter card s).clk = s.clk ∧
    (sdcard_init_enter card s).clkpos = s.clkpos ∧
    (sdcard_init_enter card s).hspi.USER0.DUPLEX = !card.shared_io := by
  obtain ⟨a, -, c, d, e⟩ := select_env card s
  unfold sdcard_init_enter hspi_set_clock
  simp only [hspi_set_pattern, show ¬ (80 = 0) by decide, show 80 ≤ 512 by decide, if_true,
      if_false]
  split <;> exact ⟨a, c, d, e⟩

/-- C11: a card holds the line at 0x00 (every received byte is 0x00) and the
deadline of a not-busy poll passes at its poll `n`.  On a full-duplex device
`sdcard_init` and `sdcard_read` return `SDCARD_ERROR_TIMEOUT`, but
`sdcard_write` returns `SDCARD_ERROR_IO`, for every block count: the 0x80 of
`r1cmd` is tested only for being non-zero there. -/
theorem c11_busy_card_write_returns_io (fuel n : Nat) (card : sdcard_t) (addr nb : Nat)
    (mem : List Nat) (al : Bool) (buf : List Nat) (s0 : World)
    (hs : card.shared_io = false) (hf : n < fuel) (hz : ∀ i, s0.rx i % 256 = 0)
    (hpre : ∀ i, i < n → gap s0.clk s0.clkpos (i + 1) ≤ IO_TIMEOUT)
    (hend : IO_TIMEOUT < gap s0.clk s0.clkpos (n + 1)) :
    (∃ t, sdcard_init fuel card s0 = some (SDCARD_ERROR_TIMEOUT, card, t)) ∧
    (∃ t, sdcard_read fuel card addr nb buf s0 = some (SDCARD_ERROR_TIMEOUT, buf, t)) ∧
    (∃ t, sdcard_write fuel card addr nb mem al s0 = some ( SDCARD_ERROR_IO, t)) := by
  obtain ⟨a, -, c, d, e⟩ := select_env card s0
  have hop : ∀ cmd arg crc, ∃ t,
      r1cmd fuel cmd arg crc (set_cs_low (hspi_select card s0)) = some (0x80, t) := by
    intro cmd arg crc
    exact r1cmd_stuck fuel cmd arg crc n (set_cs_low (hspi_select card s0))
      (by show (hspi_select card s0).hspi.USER0.DUPLEX = true; rw [e, hs]; rfl) hf
      (by intro i; show (hspi_select card s0).rx i % 256 = 0; rw [a]; exact hz i)
      (by
        intro i hi
        show gap (hspi_select card s0).clk (hspi_select card s0).clkpos (i + 1) ≤ IO_TIMEOUT
        rw [c, d]; exact hpre i hi)
      (by
        show IO_TIMEOUT < gap (hspi_select card s0).clk (hspi_select card s0).clkpos (n + 1)
        rw [c, d]; exact hend)
  refine ⟨?_, ?_, ?_⟩
  · obtain ⟨a1, c1, d1, e1⟩ := init_enter_env card s0
    obtain ⟨t, ht⟩ := r1cmd_stuck fuel 0 0 0x95 n (sdcard_init_enter card s0)
      (by rw [e1, hs]; rfl) hf (by intro i; rw [a1]; exact hz i)
      (by intro i hi; rw [c1, d1]; exact hpre i hi) (by rw [c1, d1]; exact hend)
    refine ⟨(sdcard_init_done (hspi_get_clock (hspi_select card s0)) SDCARD_ERROR_TIMEOUT card
      t).2.2, ?_⟩
    unfold sdcard_init
    simp only [ht]
    rw [if_pos (by decide)]
    rfl
  · obtain ⟨t, ht⟩ := hop (if nb = 1 then 17 else 18) (sdcard_addr card addr) 0xff
    refine ⟨sdcard_done t, ?_⟩
    rw [sdcard_read_of fuel card addr nb buf s0 0x80 t ht, if_pos (by decide)]
  · by_cases h1 : nb = 1
    · obtain ⟨t, ht⟩ := hop 24 (sdcard_addr card addr) 0xff
      refine ⟨sdcard_done t, ?_⟩
      unfold sdcard_write sdcard_write_single
      simp only [if_pos h1, ht]
      rw [if_pos (by decide)]
    · obtain ⟨t, ht⟩ := hop 55 0 0x65
      refine ⟨sdcard_done t, ?_⟩
      unfold sdcard_write sdcard_write_multi
      simp only [if_neg h1]
      rw [acmd_of_cmd55 fuel 23 nb 0xff _ 0x80 t ht, if_neg (by decide)]
      simp only []
      rw [if_pos (by decide)]

theorem c11_busy_card_write_returns_io_witness :
    card0.shared_io = false ∧ 1 < 3 ∧
    (∀ i, i < 1 → gap (world1 (fun _ => 0) 60000).clk (world1 (fun _ => 0) 60000).clkpos (i + 1)
      ≤ IO_TIMEOUT) ∧
    IO_TIMEOUT < gap (world1 (fun _ => 0) 60000).clk (world1 (fun _ => 0) 60000).clkpos (1 + 1) ∧
    (∃ t, sdcard_write 3 card0 0 1 [] true (world1 (fun _ => 0) 60000) =
      some ( SDCARD_ERROR_IO, t)) ∧
    (sdcard_write 3 card0 0 2 [] true (world1 (fun _ => 0) 60000)).map Prod.fst =
      some SDCARD_ERROR_IO := by
  exact ⟨by decide, by decide, by decide, by decide,
    (c11_busy_card_write_returns_io 3 1 card0 0 1 [] true [] (world1 (fun _ => 0) 60000)
      (by decide) (by decide) (fun _ => rfl) (by decide) (by decide)).2.2, by decide⟩

theorem blit_length (dst : List Nat) (off : Nat) (src : List Nat)
    (h : off + src.length ≤ dst.length) : (blit dst off src).length = dst.length := by
  unfold blit
  simp only [List.length_append, List.length_take, List.length_drop]
  omega

theorem blit_getD (dst : List Nat) (off : Nat) (src : List Nat)
    (h : off + src.length ≤ dst.length) (i : Nat) :
    (blit dst off src).getD i 0 =
      if off ≤ i ∧ i < off + src.length then src.getD (i - off) 0 else dst.getD i 0 := by
  have ht : src.take (dst.length - off) = src := List.take_of_length_le (by omega)
  have hl : (dst.take off).length = off := by rw [List.length_take]; omega
  unfold blit
  rw [ht, List.append_assoc]
  by_cases h1 : i < off
  · rw [if_neg (by omega), List.getD_append _ _ _ _ (by rw [hl]; exact h1)]
    simp only [List.getD_eq_getElem?_getD, List.getElem?_take, if_pos h1]
  · rw [List.getD_append_right _ _ _ _ (by rw [hl]; omega), hl]
    by_cases h2 : i < off + src.length
    · rw [if_pos ⟨by omega, h2⟩, List.getD_append _ _ _ _ (by omega)]
    · rw [if_neg (by omega), List.getD_append_right _ _ _ _ (by omega), getD_drop]
      congr 1
      omega

theorem pattern_ff_getD (nb : Nat) (u : World) (hw : u.hspi.W.length = 64) (h1 : 1 ≤ nb)
    (h2 : nb ≤ 64) (j : Nat) (hj : j < nb) :
    (hspi_set_pattern (nb * 8) 0xffffffff u).hspi.W.getD j 0 = 0xff := by
  have h0 : ¬ nb * 8 = 0 := by omega
  have h5 : nb * 8 ≤ 512 := by omega
  have hl4 : (wordBytes (0xffffffff % 4294967296)).length = 4 := rfl
  have hlen : ((List.replicate ((nb * 8 + 31) / 32)
      (wordBytes (0xffffffff % 4294967296))).flatten).length ≤ u.hspi.W.length := by
    rw [flatten_replicate_length, hw, hl4]
    omega
  have hwp : (hspi_set_pattern (nb * 8) 0xffffffff u).hspi.W =
      blit u.hspi.W 0 (List.replicate ((nb * 8 + 31) / 32)
        (wordBytes (0xffffffff % 4294967296))).flatten := by
    simp only [hspi_set_pattern, h0, h5, if_true, if_false]
  rw [hwp, blit_zero_getD _ _ hlen j (by rw [flatten_replicate_length, hl4]; omega)]
  have hj4 : j = (wordBytes (0xffffffff % 4294967296)).length * (j / 4) + j % 4 := by
    rw [hl4]; omega
  rw [hj4, flatten_replicate_getD _ _ (j / 4) (j % 4) (by omega) (by rw [hl4]; omega)]
  have hr : j % 4 < 4 := Nat.mod_lt _ (by decide)
  generalize j % 4 = r at hr
  interval_cases r <;> rfl

theorem exec_W (s : World) :
    (hspi_exec s).hspi.W = (List.range 64).map (fun j =>
      if rxSlot s.hspi.USER0.RD_BYTE_ORDER j < rxCount s.hspi
      then s.rx (s.rxpos + rxSlot s.hspi.USER0.RD_BYTE_ORDER j) % 256
      else s.hspi.W.getD j 0) := rfl

/-- One transfer of the loop of `read_data`: `nb` bytes 0xFF go out, the next
`nb` bytes of the card are copied out of the buffer in the order received. -/
theorem read_chunk (nb : Nat) (u : World) (hb : Rd u) (h1 : 1 ≤ nb) (h2 : nb ≤ 64) :
    (hspi_get_data nb (hspi_exec (hspi_set_pattern (nb * 8) 0xffffffff u))).1 =
      (List.range nb).map (fun i => rxByte u i) ∧
    Tx u (hspi_get_data nb (hspi_exec (hspi_set_pattern (nb * 8) 0xffffffff u))).2
      [List.replicate nb 0xff] nb ∧
    Rd (hspi_get_data nb (hspi_exec (hspi_set_pattern (nb * 8) 0xffffffff u))).2 ∧
    (hspi_get_data nb (hspi_exec (hspi_set_pattern (nb * 8) 0xffffffff u))).2.clk = u.clk ∧
    (hspi_get_data nb (hspi_exec (hspi_set_pattern (nb * 8) 0xffffffff u))).2.clkpos =
      u.clkpos := by
  obtain ⟨f1, f2, f3, -⟩ := set_pattern_facts (nb * 8) 0xffffffff u hb.wlen (by omega) (by omega)
  have i1 := idle_set_pattern (nb * 8) 0xffffffff u
  have h0 : ¬ nb * 8 = 0 := by omega
  have h5 : nb * 8 ≤ 512 := by omega
  have hd : (hspi_set_pattern (nb * 8) 0xffffffff u).hspi.USER0.DUPLEX = true := by
    simp only [hspi_set_pattern, h0, h5, if_true, if_false]
    exact hb.duplex
  have hwb : (hspi_set_pattern (nb * 8) 0xffffffff u).hspi.USER0.WR_BYTE_ORDER = false := by
    simp only [hspi_set_pattern, h0, h5, if_true, if_false]
    exact hb.wbo
  have hrb : (hspi_set_pattern (nb * 8) 0xffffffff u).hspi.USER0.RD_BYTE_ORDER = false := by
    simp only [hspi_set_pattern, h0, h5, if_true, if_false]
    exact hb.rbo
  have hrx : (hspi_set_pattern (nb * 8) 0xffffffff u).rx = u.rx := by
    simp only [hspi_set_pattern, h0, h5, if_true, if_false]
  have hrp : (hspi_set_pattern (nb * 8) 0xffffffff u).rxpos = u.rxpos := by
    simp only [hspi_set_pattern, h0, h5, if_true, if_false]
  obtain ⟨hck, hcp⟩ := set_pattern_clk (nb * 8) 0xffffffff u
  have hn : rxCount (hspi_set_pattern (nb * 8) 0xffffffff u).hspi = nb := by
    unfold rxCount
    rw [hd, f1, f2]
    simp only [Bool.and_self, if_true]
    omega
  have hm : mosiWire (hspi_set_pattern (nb * 8) 0xffffffff u).hspi = List.replicate nb 0xff := by
    unfold mosiWire
    rw [f1, f2, hwb]
    simp only [if_true]
    have e : (nb * 8 - 1 + 1) / 8 = nb := by omega
    rw [e]
    apply List.eq_replicate_iff.mpr
    refine ⟨by simp, ?_⟩
    intro b hb2
    obtain ⟨j, hj, rfl⟩ := List.mem_map.1 hb2
    have hj' : j < nb := List.mem_range.1 hj
    exact pattern_ff_getD nb u hb.wlen h1 h2 j hj'
  have hcw : cmdWire (hspi_set_pattern (nb * 8) 0xffffffff u).hspi = [] := by
    unfold cmdWire
    rw [i1.cmd, hb.cmd]
    rfl
  have haw : addrWire (hspi_set_pattern (nb * 8) 0xffffffff u).hspi = [] := by
    unfold addrWire
    rw [i1.adr, hb.adr]
    rfl
  have hg : hspi_get_data nb (hspi_exec (hspi_set_pattern (nb * 8) 0xffffffff u)) =
      ((hspi_exec (hspi_set_pattern (nb * 8) 0xffffffff u)).hspi.W.take nb,
        hspi_wait (hspi_exec (hspi_set_pattern (nb * 8) 0xffffffff u))) := by
    unfold hspi_get_data
    rw [if_pos (by omega)]
    simp only []
    rw [if_neg (by omega)]
    rfl
  rw [hg]
  refine ⟨?_, ⟨?_, hrx, ?_, ?_⟩, ⟨hd, hrb, hwb, ?_, ?_, exec_W_length _⟩, hck, hcp⟩
  · show (hspi_exec (hspi_set_pattern (nb * 8) 0xffffffff u)).hspi.W.take nb = _
    rw [exec_W, ← List.map_take, List.take_range, Nat.min_eq_left h2, hn]
    apply List.map_congr_left
    intro j hj
    have hj' : j < nb := List.mem_range.1 hj
    simp only [rxSlot, hrb, Bool.false_eq_true, if_false, hj', if_true, hrx, hrp]
    rfl
  · show (hspi_exec (hspi_set_pattern (nb * 8) 0xffffffff u)).trace.map Event.tx = _
    rw [chunks_exec, hcw, haw, hm, set_pattern_trace]
    rfl
  · show (hspi_set_pattern (nb * 8) 0xffffffff u).rxpos +
      rxCount (hspi_set_pattern (nb * 8) 0xffffffff u).hspi = _
    rw [hn, hrp]
  · exact Ext.nil_left i1.ext (Ext.nil_right (exec_ext_no_addr _ (by rw [i1.adr, hb.adr])
      (Or.inl (by rw [i1.cmd, hb.cmd]))) (idle_wait _).ext)
  · show (hspi_set_pattern (nb * 8) 0xffffffff u).hspi.USER0.COMMAND = false
    rw [i1.cmd, hb.cmd]
  · show (hspi_set_pattern (nb * 8) 0xffffffff u).hspi.USER0.ADDR = false
    rw [i1.adr, hb.adr]

theorem Tx.stay (s : World) : Tx s s [] 0 :=
  ⟨by rw [List.append_nil], rfl, rfl, Ext.refl s⟩

theorem readChunks_succ (n size : Nat) :
    readChunks (n + 1) size =
      if size ≠ 0 then (if size < 64 then size else 64) ::
        readChunks n (size - (if size < 64 then size else 64))
      else [] := rfl

/-- The loop `while (size)` of `read_data`: the next `size` bytes of the card
are stored from offset `pos` of the destination on, in the order received;
nothing else of the destination changes. -/
theorem read_data_loop_run : ∀ (n size : Nat) (buf : List Nat) (pos : Nat) (u : World),
    Rd u → size ≤ n → pos + size ≤ buf.length →
    (read_data_loop n size buf pos u).1.length = buf.length ∧
    (∀ i, (read_data_loop n size buf pos u).1.getD i 0 =
      if pos ≤ i ∧ i < pos + size then rxByte u (i - pos) else buf.getD i 0) ∧
    Tx u (read_data_loop n size buf pos u).2
      ((readChunks n size).map (fun k => List.replicate k 0xff)) size ∧
    Rd (read_data_loop n size buf pos u).2 ∧
    (read_data_loop n size buf pos u).2.clk = u.clk ∧
    (read_data_loop n size buf pos u).2.clkpos = u.clkpos := by
  intro n
  induction n with
  | zero =>
    intro size buf pos u hu hs hl
    have h0 : size = 0 := by omega
    subst h0
    refine ⟨rfl, ?_, Tx.stay u, hu, rfl, rfl⟩
    intro i
    rw [if_neg (by omega)]
    rfl
  | succ n ih =>
    intro size buf pos u hu hs hl
    by_cases h0 : size = 0
    · subst h0
      refine ⟨rfl, ?_, Tx.stay u, hu, rfl, rfl⟩
      intro i
      rw [if_neg (by omega)]
      rfl
    · rw [read_data_loop_succ, readChunks_succ, if_pos h0, if_pos h0]
      have b1 : 1 ≤ (if size < 64 then size else 64) ∧ (if size < 64 then size else 64) ≤ 64 ∧
          (if size < 64 then size else 64) ≤ size := by
        split <;> omega
      generalize (if size < 64 then size else 64) = nb at b1 ⊢
      obtain ⟨c1, c2, c3, c4, c5⟩ := read_chunk nb u hu b1.1 b1.2.1
      have hbl : ((List.range nb).map (fun i => rxByte u i)).length = nb := by simp
      rw [c1]
      generalize (hspi_get_data nb (hspi_exec (hspi_set_pattern (nb * 8) 0xffffffff u))).2 = v
        at c2 c3 c4 c5 ⊢
      have hlen : (blit buf pos ((List.range nb).map (fun i => rxByte u i))).length =
          buf.length := blit_length _ _ _ (by rw [hbl]; omega)
      obtain ⟨d1, d2, d3, d4, d5, d6⟩ := ih (size - nb)
        (blit buf pos ((List.range nb).map (fun i => rxByte u i))) (pos + nb) v c3 (by omega)
        (by rw [hlen]; omega)
      refine ⟨by rw [d1, hlen], ?_, ?_, d4, by rw [d5, c4], by rw [d6, c5]⟩
      · intro i
        rw [d2 i, blit_getD _ _ _ (by rw [hbl]; omega) i, hbl]
        by_cases h1 : pos + nb ≤ i ∧ i < pos + nb + (size - nb)
        · rw [if_pos h1, if_pos ⟨by omega, by omega⟩, rxByte_shift u v nb c2.rx c2.rxpos]
          congr 1
          omega
        · rw [if_neg h1]
          by_cases h2 : pos ≤ i ∧ i < pos + nb
          · rw [if_pos h2, if_pos ⟨h2.1, by omega⟩, map_range_getD _ _ _ (by omega)]
          · rw [if_neg h2, if_neg (by omega)]
      · have := c2.seq d3
        have e : nb + (size - nb) = size := by omega
        rw [e] at this
        exact this

/-- The last transfer of `read_data`: two bytes 0xFF go out and the two bytes
of the CRC are clocked in; they stay in the engine's buffer. -/
theorem crc_xfer (w : World) (hw : Rd w) :
    Tx w (hspi_exec (hspi_config_exec { big_endian_input := true }
      (hspi_set_pattern 16 0xffff w))) [[0xff, 0xff]] 2 ∧
    (hspi_exec (hspi_config_exec { big_endian_input := true }
      (hspi_set_pattern 16 0xffff w))).hspi.USER0.DUPLEX = true ∧
    (hspi_exec (hspi_config_exec { big_endian_input := true }
      (hspi_set_pattern 16 0xffff w))).hspi.W.length = 64 ∧
    (hspi_exec (hspi_config_exec { big_endian_input := true }
      (hspi_set_pattern 16 0xffff w))).clk = w.clk ∧
    (hspi_exec (hspi_config_exec { big_endian_input := true }
      (hspi_set_pattern 16 0xffff w))).clkpos = w.clkpos := by
  have i1 := idle_set_pattern 16 0xffff w
  have i2 := idle_config_exec { big_endian_input := true } (hspi_set_pattern 16 0xffff w)
  have hd : (hspi_config_exec { big_endian_input := true }
      (hspi_set_pattern 16 0xffff w)).hspi.USER0.DUPLEX = true := hw.duplex
  have hmo : (hspi_config_exec { big_endian_input := true }
      (hspi_set_pattern 16 0xffff w)).hspi.USER0.MOSI = true := rfl
  have hbl : (hspi_config_exec { big_endian_input := true }
      (hspi_set_pattern 16 0xffff w)).hspi.USER1.MOSI_BITLEN = 15 := rfl
  have hwb : (hspi_config_exec { big_endian_input := true }
      (hspi_set_pattern 16 0xffff w)).hspi.USER0.WR_BYTE_ORDER = false := rfl
  have hwp : (hspi_config_exec { big_endian_input := true }
      (hspi_set_pattern 16 0xffff w)).hspi.W = blit w.hspi.W 0 [0xff, 0xff, 0, 0] := rfl
  have hc : (hspi_config_exec { big_endian_input := true }
      (hspi_set_pattern 16 0xffff w)).hspi.USER0.COMMAND = false := by
    rw [i2.cmd, i1.cmd, hw.cmd]
  have ha : (hspi_config_exec { big_endian_input := true }
      (hspi_set_pattern 16 0xffff w)).hspi.USER0.ADDR = false := by
    rw [i2.adr, i1.adr, hw.adr]
  have hn : rxCount (hspi_config_exec { big_endian_input := true }
      (hspi_set_pattern 16 0xffff w)).hspi = 2 := by
    unfold rxCount
    rw [hd, hmo, hbl]
    rfl
  have hw0 : (hspi_config_exec { big_endian_input := true }
      (hspi_set_pattern 16 0xffff w)).hspi.W.getD 0 0 = 0xff := by
    rw [hwp, blit_zero_getD _ _ (by rw [hw.wlen]; decide) 0 (by decide)]
    rfl
  have hw1 : (hspi_config_exec { big_endian_input := true }
      (hspi_set_pattern 16 0xffff w)).hspi.W.getD 1 0 = 0xff := by
    rw [hwp, blit_zero_getD _ _ (by rw [hw.wlen]; decide) 1 (by decide)]
    rfl
  have hm : mosiWire (hspi_config_exec { big_endian_input := true }
      (hspi_set_pattern 16 0xffff w)).hspi = [0xff, 0xff] := by
    unfold mosiWire
    rw [hmo, hbl, hwb]
    simp only [if_true]
    show [(hspi_config_exec { big_endian_input := true }
        (hspi_set_pattern 16 0xffff w)).hspi.W.getD 0 0,
      (hspi_config_exec { big_endian_input := true }
        (hspi_set_pattern 16 0xffff w)).hspi.W.getD 1 0] = _
    rw [hw0, hw1]
  have hcw : cmdWire (hspi_config_exec { big_endian_input := true }
      (hspi_set_pattern 16 0xffff w)).hspi = [] := by
    unfold cmdWire
    rw [hc]
    rfl
  have haw : addrWire (hspi_config_exec { big_endian_input := true }
      (hspi_set_pattern 16 0xffff w)).hspi = [] := by
    unfold addrWire
    rw [ha]
    rfl
  refine ⟨⟨?_, rfl, ?_, ?_⟩, hd, exec_W_length _, rfl, rfl⟩
  · rw [chunks_exec, hcw, haw, hm]
    rfl
  · show (hspi_config_exec { big_endian_input := true } (hspi_set_pattern 16 0xffff w)).rxpos +
      rxCount (hspi_config_exec { big_endian_input := true }
        (hspi_set_pattern 16 0xffff w)).hspi = _
    rw [hn]
    rfl
  · exact Ext.nil_left i1.ext (Ext.nil_left i2.ext (exec_ext_no_addr _ ha (Or.inl hc)))

/-- A poll for the value `value` that the card answers at its poll `n`. -/
theorem token_run (fuel value n : Nat) (s : World) (hd : s.hspi.USER0.DUPLEX = true)
    (hw : s.hspi.W.length = 64) (hf : n < fuel)
    (hpre : ∀ i, i < n → rxByte s i ≠ value ∧ elapsed s i ≤ IO_TIMEOUT)
    (hend : rxByte s n = value) :
    ∃ v, wait_until_card_returns fuel value s = some (value, v) ∧ v.rx = s.rx ∧
      v.rxpos = s.rxpos + (n + 1) ∧ v.clk = s.clk ∧ v.clkpos = s.clkpos + (n + 1) ∧
      v.hspi.USER0.DUPLEX = true ∧ v.hspi.W.length = 64 ∧
      txBytes v = txBytes s ++ List.replicate (n + 1) 0xff ∧ Quiet s v := by
  obtain ⟨t, h1, h2, h3, h4, h5, q⟩ := wait_returns_run fuel value n s hd hf hpre (Or.inl hend)
  rw [hend] at h1
  obtain ⟨k, -, k2, k3, k4, k5⟩ := wait_returns_counts fuel value s value t hd hw h1
  have hk : k = n + 1 := by omega
  subst hk
  rw [if_pos rfl] at k4
  exact ⟨t, h1, h2, h3, h4, by omega, h5, k5, k3, q⟩

/-- A poll for the value `value` during which the deadline passes at poll
`n`, the card returning another byte. -/
theorem token_late (fuel value n : Nat) (s : World) (hd : s.hspi.USER0.DUPLEX = true)
    (hw : s.hspi.W.length = 64) (hf : n < fuel)
    (hpre : ∀ i, i < n → rxByte s i ≠ value ∧ elapsed s i ≤ IO_TIMEOUT)
    (hne : rxByte s n ≠ value) (hend : IO_TIMEOUT < elapsed s n) :
    ∃ v, wait_until_card_returns fuel value s = some (rxByte s n, v) ∧ v.rx = s.rx ∧
      v.rxpos = s.rxpos + (n + 1) ∧ v.clk = s.clk ∧ v.clkpos = s.clkpos + (n + 2) ∧
      v.hspi.USER0.DUPLEX = true ∧ v.hspi.W.length = 64 ∧
      txBytes v = txBytes s ++ List.replicate (n + 1) 0xff ∧ Quiet s v := by
  obtain ⟨t, h1, h2, h3, h4, h5, q⟩ := wait_returns_run fuel value n s hd hf hpre (Or.inr hend)
  obtain ⟨k, -, k2, k3, k4, k5⟩ := wait_returns_counts fuel value s _ t hd hw h1
  have hk : k = n + 1 := by omega
  subst hk
  rw [if_neg hne] at k4
  exact ⟨t, h1, h2, h3, h4, by omega, h5, k5, k3, q⟩

theorem Tx.of_reset (v : World) : Tx v (hspi_reset v) [] 0 :=
  ⟨by rw [List.append_nil]; rfl, rfl, rfl, (quiet_reset v).ext⟩

/-- A call of `read_data` whose start token arrives at poll `n`. -/
theorem read_data_run (fuel size n : Nat) (buf : List Nat) (pos : Nat) (s : World)
    (hd : s.hspi.USER0.DUPLEX = true) (hw : s.hspi.W.length = 64) (hf : n < fuel)
    (hl : pos + size ≤ buf.length)
    (hpre : ∀ i, i < n → rxByte s i ≠ 0xfe ∧ elapsed s i ≤ IO_TIMEOUT)
    (hend : rxByte s n = 0xfe) :
    ∃ b v t, read_data fuel size buf pos s = some (SDCARD_SUCCESS, b, t) ∧
      b.length = buf.length ∧
      (∀ i, b.getD i 0 =
        if pos ≤ i ∧ i < pos + size then rxByte s (n + 1 + (i - pos)) else buf.getD i 0) ∧
      txBytes v = txBytes s ++ List.replicate (n + 1) 0xff ∧ v.rxpos = s.rxpos + (n + 1) ∧
      Tx v t ((readChunks size size).map (fun k => List.replicate k 0xff) ++ [[0xff, 0xff]])
        (size + 2) ∧
      t.rx = s.rx ∧ t.rxpos = s.rxpos + (n + 1) + size + 2 ∧ t.clk = s.clk ∧
      t.clkpos = s.clkpos + (n + 1) ∧ t.hspi.USER0.DUPLEX = true ∧ t.hspi.W.length = 64 ∧
      Ext s t [] := by
  obtain ⟨v, h1, v1, v2, v3, v4, v5, v6, v7, q⟩ := token_run fuel 0xfe n s hd hw hf hpre hend
  have hr : Rd (hspi_reset v) := ⟨v5, rfl, rfl, rfl, rfl, v6⟩
  obtain ⟨d1, d2, d3, d4, d5, d6⟩ := read_data_loop_run size size buf pos (hspi_reset v) hr
    (Nat.le_refl _) hl
  obtain ⟨c1, c2, c3, c4, c5⟩ := crc_xfer (read_data_loop size size buf pos (hspi_reset v)).2 d4
  have tx := ((Tx.of_reset v).seq d3).seq c1
  rw [List.nil_append, Nat.zero_add] at tx
  refine ⟨(read_data_loop size size buf pos (hspi_reset v)).1, v,
    hspi_exec (hspi_config_exec { big_endian_input := true }
      (hspi_set_pattern 16 0xffff (read_data_loop size size buf pos (hspi_reset v)).2)),
    ?_, d1, ?_, v7, v2, tx, ?_, ?_, ?_, ?_, c2, c3, Ext.nil_left q.ext tx.ext⟩
  · rw [read_data_eq, h1]
    simp only []
    rw [if_neg (by decide)]
  · intro i
    rw [d2 i]
    by_cases h : pos ≤ i ∧ i < pos + size
    · rw [if_pos h, if_pos h]
      have := rxByte_shift s (hspi_reset v) (n + 1) v1 v2 (i - pos)
      rw [this]
      congr 1
      omega
    · rw [if_neg h, if_neg h]
  · rw [tx.rx, v1]
  · rw [tx.rxpos, v2]; omega
  · rw [c4, d5]; exact v3
  · rw [c5, d6]; exact v4

/-- A call of `read_data` whose start token does not arrive. -/
theorem read_data_late (fuel size n : Nat) (buf : List Nat) (pos : Nat) (s : World)
    (hd : s.hspi.USER0.DUPLEX = true) (hw : s.hspi.W.length = 64) (hf : n < fuel)
    (hpre : ∀ i, i < n → rxByte s i ≠ 0xfe ∧ elapsed s i ≤ IO_TIMEOUT)
    (hne : rxByte s n ≠ 0xfe) (hend : IO_TIMEOUT < elapsed s n) :
    ∃ t, read_data fuel size buf pos s = some (SDCARD_ERROR_TIMEOUT, buf, t) ∧
      t.rx = s.rx ∧ t.rxpos = s.rxpos + (n + 1) ∧
      txBytes t = txBytes s ++ List.replicate (n + 1) 0xff ∧ Ext s t [] := by
  obtain ⟨v, h1, v1, v2, v3, v4, v5, v6, v7, q⟩ := token_late fuel 0xfe n s hd hw hf hpre hne
    hend
  refine ⟨v, ?_, v1, v2, v7, q.ext⟩
  rw [read_data_eq, h1]
  simp only []
  rw [if_pos hne]

theorem sdcard_read_loop_succ (fuel n : Nat) (buf : List Nat) (pos : Nat) (s : World)
    (err : sdcard_result_t) (b : List Nat) (t : World)
    (h : read_data fuel 512 buf pos s = some (err, b, t)) :
    sdcard_read_loop fuel (n + 1) SDCARD_SUCCESS buf pos s =
      sdcard_read_loop fuel n err b (pos + 512) t := by
  conv_lhs => unfold sdcard_read_loop
  rw [if_pos rfl, h]

theorem read_loop_error (fuel n : Nat) (err : sdcard_result_t) (buf : List Nat) (pos : Nat)
    (s : World) (h : err ≠ SDCARD_SUCCESS) :
    sdcard_read_loop fuel n err buf pos s = some (err, buf, s) := by
  cases n with
  | zero => rfl
  | succ k =>
    show (if err = SDCARD_SUCCESS then _ else _) = _
    rw [if_neg h]

/-- A run of the loop of `sdcard_read` through the blocks listed by `ns`,
whose start tokens all arrive: the loop reaches the state `t` with `left`
blocks still to read and the blocks read stored in `b`. -/
theorem read_loop_upto (fuel left : Nat) : ∀ (ns : List Nat) (buf : List Nat) (pos : Nat)
    (u : World), u.hspi.USER0.DUPLEX = true → u.hspi.W.length = 64 →
    Tokens u.rx u.clk ns u.rxpos u.clkpos → (∀ n ∈ ns, n < fuel) →
    pos + 512 * ns.length ≤ buf.length →
    ∃ b t, sdcard_read_loop fuel (ns.length + left) SDCARD_SUCCESS buf pos u =
        sdcard_read_loop fuel left SDCARD_SUCCESS b (pos + 512 * ns.length) t ∧
      b.length = buf.length ∧ Stored u.rx ns u.rxpos pos b ∧
      (∀ i, i < pos ∨ pos + 512 * ns.length ≤ i → b.getD i 0 = buf.getD i 0) ∧
      t.rx = u.rx ∧ t.clk = u.clk ∧ t.rxpos = u.rxpos + rdSpan ns ∧
      t.clkpos = u.clkpos + clkSpan ns ∧ t.hspi.USER0.DUPLEX = true ∧
      t.hspi.W.length = 64 ∧ Ext u t [] := by
  intro ns
  induction ns with
  | nil =>
    intro buf pos u hd hw _ _ _
    exact ⟨buf, u, by simp, rfl, trivial, fun _ _ => rfl, rfl, rfl, rfl, rfl, hd, hw, Ext.refl u⟩
  | cons n ns ih =>
    intro buf pos u hd hw hk hf hl
    obtain ⟨k1, k2, k3⟩ := hk
    simp only [List.length_cons] at hl
    obtain ⟨b1, v, t1, r1, r2, r3, -, -, -, r7, r8, r9, r10, r11, r12, r13⟩ :=
      read_data_run fuel 512 n buf pos u hd hw (hf n (List.mem_cons_self n ns)) (by omega) k1 k2
    obtain ⟨b, t, l1, l2, l3, l4, l5, l6, l7, l8, l9, l10, l11⟩ := ih b1 (pos + 512) t1 r11 r12
      (by
        rw [r7, r8, r9, r10]
        have e : u.rxpos + (n + 1) + 512 + 2 = u.rxpos + (n + 1) + 514 := by omega
        rw [e]
        exact k3)
      (fun m hm => hf m (List.mem_cons_of_mem n hm)) (by rw [r2]; omega)
    refine ⟨b, t, ?_, by rw [l2, r2], ⟨?_, ?_⟩, ?_, by rw [l5, r7], by rw [l6, r9], ?_, ?_,
      l9, l10, Ext.nil_left r13 l11⟩
    · have e1 : (n :: ns).length + left = (ns.length + left) + 1 := by
        simp only [List.length_cons]; omega
      have e2 : pos + 512 * (n :: ns).length = pos + 512 + 512 * ns.length := by
        simp only [List.length_cons]; omega
      rw [e1, e2, sdcard_read_loop_succ fuel _ buf pos u _ _ _ r1]
      exact l1
    · intro i hi
      rw [l4 (pos + i) (Or.inl (by omega)), r3 (pos + i), if_pos ⟨by omega, by omega⟩]
      show u.rx (u.rxpos + (n + 1 + (pos + i - pos))) % 256 = _
      congr 2
      omega
    · rw [r7, r8] at l3
      have e : u.rxpos + (n + 1) + 512 + 2 = u.rxpos + (n + 1) + 514 := by omega
      rw [e] at l3
      exact l3
    · intro i hi
      simp only [List.length_cons] at hi
      rw [l4 i (by omega), r3 i, if_neg (by omega)]
    · rw [l7, r8]
      simp only [rdSpan]
      omega
    · rw [l8, r10]
      simp only [clkSpan]
      omega

/-- C13: `s1` is the card when the read command was accepted, on a
full-duplex device, and `ns` lists for each block the number of the poll at
which its start token 0xFE arrives.  When the destination has room for the
blocks, the loop of `sdcard_read` returns `SDCARD_SUCCESS` with the 512 data
bytes of every block stored at the block's offset in the order received and
the rest of the destination unchanged, which is what `sdcard_read` returns
(after `r1cmd(12, 0, 0x61)` for CMD18).  When the token of block `ns.length`
does not arrive before the deadline, the result is `SDCARD_ERROR_TIMEOUT`,
nothing is clocked after the failed poll inside the loop and the destination
from offset `512 * ns.length` on is unchanged.  Every call of `read_data` for
a block whose token arrives runs eight transfers of 64 bytes and one of two
bytes, and stores the 512 bytes of the first eight only. -/
theorem c13_read_blocks (fuel : Nat) (buf : List Nat) (ns : List Nat) (s1 : World)
    (hd : s1.hspi.USER0.DUPLEX = true) (hw : s1.hspi.W.length = 64)
    (hf : ∀ n ∈ ns, n < fuel) (hk : Tokens s1.rx s1.clk ns s1.rxpos s1.clkpos)
    (hl : 512 * ns.length ≤ buf.length) :
    (∃ b t, sdcard_read_loop fuel ns.length SDCARD_SUCCESS buf 0 s1 =
        some (SDCARD_SUCCESS, b, t) ∧
      b.length = buf.length ∧ Stored s1.rx ns s1.rxpos 0 b ∧
      (∀ i, 512 * ns.length ≤ i → b.getD i 0 = buf.getD i 0) ∧
      t.rxpos = s1.rxpos + rdSpan ns ∧
      ∀ card addr s0,
        r1cmd fuel (if ns.length = 1 then 17 else 18) (sdcard_addr card addr) 0xff
          (set_cs_low (hspi_select card s0)) = some (0, s1) →
        (ns.length = 1 →
          sdcard_read fuel card addr ns.length buf s0 =
            some (SDCARD_SUCCESS, b, sdcard_done t)) ∧
        (ns.length ≠ 1 → ∀ r12 s3, r1cmd fuel 12 0 0x61 t = some (r12, s3) →
          sdcard_read fuel card addr ns.length buf s0 =
            some (SDCARD_SUCCESS, b, sdcard_done s3))) ∧
    (∀ n extra, n < fuel →
      Late s1.rx s1.clk n (s1.rxpos + rdSpan ns) (s1.clkpos + clkSpan ns) →
      ∃ b t, sdcard_read_loop fuel (ns.length + (extra + 1)) SDCARD_SUCCESS buf 0 s1 =
          some (SDCARD_ERROR_TIMEOUT, b, t) ∧
        b.length = buf.length ∧ Stored s1.rx ns s1.rxpos 0 b ∧
        (∀ i, 512 * ns.length ≤ i → b.getD i 0 = buf.getD i 0) ∧
        t.rxpos = s1.rxpos + rdSpan ns + (n + 1) ∧
        ∀ card addr s0,
          r1cmd fuel (if ns.length + (extra + 1) = 1 then 17 else 18) (sdcard_addr card addr)
            0xff (set_cs_low (hspi_select card s0)) = some (0, s1) →
          (ns.length + (extra + 1) = 1 →
            sdcard_read fuel card addr (ns.length + (extra + 1)) buf s0 =
              some (SDCARD_ERROR_TIMEOUT, b, sdcard_done t)) ∧
          (ns.length + (extra + 1) ≠ 1 → ∀ r12 s3, r1cmd fuel 12 0 0x61 t = some (r12, s3) →
            sdcard_read fuel card addr (ns.length + (extra + 1)) buf s0 =
              some (SDCARD_ERROR_TIMEOUT, b, sdcard_done s3))) ∧
    (∀ n pos (u : World) (d : List Nat), u.hspi.USER0.DUPLEX = true → u.hspi.W.length = 64 →
      n < fuel → pos + 512 ≤ d.length →
      (∀ i, i < n → rxByte u i ≠ 0xfe ∧ elapsed u i ≤ IO_TIMEOUT) → rxByte u n = 0xfe →
      ∃ b v t, read_data fuel 512 d pos u = some (SDCARD_SUCCESS, b, t) ∧
        v.rxpos = u.rxpos + (n + 1) ∧
        Tx v t (List.replicate 8 (List.replicate 64 0xff) ++ [[0xff, 0xff]]) 514 ∧
        (∀ i, b.getD i 0 =
          if pos ≤ i ∧ i < pos + 512 then rxByte u (n + 1 + (i - pos)) else d.getD i 0)) := by
  have link : ∀ (nb : Nat) (err : sdcard_result_t) (b : List Nat) (t : World),
      sdcard_read_loop fuel nb SDCARD_SUCCESS buf 0 s1 = some (err, b, t) →
      ∀ card addr s0,
        r1cmd fuel (if nb = 1 then 17 else 18) (sdcard_addr card addr) 0xff
          (set_cs_low (hspi_select card s0)) = some (0, s1) →
        (nb = 1 → sdcard_read fuel card addr nb buf s0 = some (err, b, sdcard_done t)) ∧
        (nb ≠ 1 → ∀ r12 s3, r1cmd fuel 12 0 0x61 t = some (r12, s3) →
          sdcard_read fuel card addr nb buf s0 = some (err, b, sdcard_done s3)) := by
    intro nb err b t hloop card addr s0 h1
    have e := sdcard_read_of fuel card addr nb buf s0 0 s1 h1
    rw [if_neg (by decide), if_neg (by decide), hloop] at e
    simp only [] at e
    refine ⟨?_, ?_⟩
    · intro hn
      subst hn
      rw [if_neg (by decide)] at e
      exact e
    · intro hn r12 s3 h12
      rw [if_neg hn, if_pos rfl, h12] at e
      exact e
  refine ⟨?_, ?_, ?_⟩
  · obtain ⟨b, t, l1, l2, l3, l4, -, -, l7, -⟩ := read_loop_upto fuel 0 ns buf 0 s1 hd hw hk hf
      (by omega)
    rw [Nat.add_zero] at l1
    have hloop : sdcard_read_loop fuel ns.length SDCARD_SUCCESS buf 0 s1 =
        some (SDCARD_SUCCESS, b, t) := by rw [l1]; rfl
    exact ⟨b, t, hloop, l2, l3, fun i hi => l4 i (Or.inr (by omega)), l7,
      link ns.length _ b t hloop⟩
  · intro n extra hn hlate
    obtain ⟨b, t, l1, l2, l3, l4, l5, l6, l7, l8, l9, l10, l11⟩ := read_loop_upto fuel
      (extra + 1) ns buf 0 s1 hd hw hk hf (by omega)
    obtain ⟨v, r1, r2, r3, -, -⟩ := read_data_late fuel 512 n b (0 + 512 * ns.length) t l9 l10 hn
      (by
        intro i hi
        have := hlate.1 i hi
        rw [← l5, ← l6, ← l7, ← l8] at this
        exact this)
      (by
        have := hlate.2.1
        rw [← l5, ← l7] at this
        exact this)
      (by
        have := hlate.2.2
        rw [← l6, ← l8] at this
        exact this)
    have hloop : sdcard_read_loop fuel (ns.length + (extra + 1)) SDCARD_SUCCESS buf 0 s1 =
        some (SDCARD_ERROR_TIMEOUT, b, v) := by
      rw [l1, sdcard_read_loop_succ fuel extra b _ t _ _ _ r1]
      exact read_loop_error fuel extra _ b _ v (by decide)
    exact ⟨b, v, hloop, l2, l3, fun i hi => l4 i (Or.inr (by omega)), by rw [r3, l7],
      link _ _ b v hloop⟩
  · intro n pos u d hd2 hw2 hn hl2 hpre hend
    obtain ⟨b, v, t, r1, r2, r3, r4, r5, r6, -⟩ := read_data_run fuel 512 n d pos u hd2 hw2 hn
      hl2 hpre hend
    exact ⟨b, v, t, r1, r5, r6, r3⟩

theorem c13_read_blocks_witness :
    (∀ n ∈ [0, 0], n < 3) ∧
    (∃ b t, sdcard_read_loop 3 2 SDCARD_SUCCESS (List.replicate 1024 0) 0
        (hspi_select card0 (world1 rx_read_two 1)) = some (SDCARD_SUCCESS, b, t) ∧
      b.length = 1024 ∧ Stored rx_read_two [0, 0] 0 0 b ∧ t.rxpos = 1030) := by
  refine ⟨by decide, ?_⟩
  obtain ⟨b, t, h1, h2, h3, -, h5, -⟩ := (c13_read_blocks 3 (List.replicate 1024 0) [0, 0]
    (hspi_select card0 (world1 rx_read_two 1)) (by decide) (by decide) (by decide)
    ⟨fun i hi => absurd hi (Nat.not_lt_zero i), by decide,
      fun i hi => absurd hi (Nat.not_lt_zero i), by decide, trivial⟩
    (by rw [List.length_replicate]; decide)).1
  exact ⟨b, t, h1, h2.trans (List.length_replicate 1024 0), h3, h5⟩

theorem sdcard_read_register_of (fuel : Nat) (card : sdcard_t) (buf : List Nat) (cmd crc : Nat)
    (s : World) (resp : Nat) (s1 : World)
    (h : r1cmd fuel cmd 0 crc (set_cs_low (hspi_select card s)) = some (resp, s1)) :
    sdcard_read_register fuel card buf cmd crc s =
      if resp &&& 0x80 ≠ 0 then some (SDCARD_ERROR_TIMEOUT, buf, sdcard_done s1)
      else if resp ≠ 0 then some ( SDCARD_ERROR_IO, buf, sdcard_done s1)
      else (read_data fuel 16 buf 0 s1).map (fun q => (q.1, q.2.1, sdcard_done q.2.2)) := by
  unfold sdcard_read_register
  simp only [h]
  split
  · rfl
  · split
    · rfl
    · cases read_data fuel 16 buf 0 s1 <;> rfl

theorem sdcard_read_csd_of (fuel : Nat) (card : sdcard_t) (csd : List Nat) (s : World)
    (err : sdcard_result_t) (data : List Nat) (t : World)
    (h : sdcard_read_register fuel card (List.replicate 16 0) 9 0xaf s = some (err, data, t)) :
    sdcard_read_csd fuel card csd s =
      if err = SDCARD_SUCCESS then some (err, blit csd 0 data.reverse, t)
      else some (err, csd, t) := by
  unfold sdcard_read_csd
  rw [h]

theorem reverse_getD (l : List Nat) (i : Nat) (h : i < l.length) :
    l.reverse.getD i 0 = l.getD (l.length - 1 - i) 0 := by
  rw [List.getD_eq_getElem?_getD, List.getD_eq_getElem?_getD, List.getElem?_reverse h]

theorem eq_map_range (l : List Nat) (n : Nat) (f : Nat → Nat) (hl : l.length = n)
    (h : ∀ i, i < n → l.getD i 0 = f i) : l = (List.range n).map f := by
  apply List.ext_getElem
  · rw [hl, List.length_map, List.length_range]
  · intro i h1 h2
    have := h i (by omega)
    rw [List.getD_eq_getElem _ _ h1] at this
    rw [this, List.getElem_map, List.getElem_range]

/-- C19: `s1` is the card when the register read command was accepted, on a
full-duplex device; `dst` has room for 16 bytes.  When the start token
arrives at poll `n`, the 16 bytes `d[0..15]` the card sends after it are
stored by `sdcard_read_csd` in reverse, `d[15 - i]` at offset `i` (so the
stored bytes reversed are `d` again), and by `sdcard_read_cid` in the order
received, `d[i]` at offset `i`; the rest of the destination is unchanged.
When `sdcard_read_register` fails, `sdcard_read_csd` returns its error and
the destination as it was; it fails when the command is not accepted and
when the start token does not arrive before the deadline. -/
theorem c19_register_byte_order (fuel : Nat) (card : sdcard_t) (dst : List Nat)
    (s0 s1 : World) (hd : s1.hspi.USER0.DUPLEX = true) (hw : s1.hspi.W.length = 64)
    (hl : 16 ≤ dst.length) :
    (∀ n, n < fuel → (∀ i, i < n → rxByte s1 i ≠ 0xfe ∧ elapsed s1 i ≤ IO_TIMEOUT) →
      rxByte s1 n = 0xfe →
      (r1cmd fuel 9 0 0xaf (set_cs_low (hspi_select card s0)) = some (0, s1) →
        ∃ b t, sdcard_read_csd fuel card dst s0 = some (SDCARD_SUCCESS, b, t) ∧
          b.length = dst.length ∧
          (∀ i, i < 16 → b.getD i 0 = rxByte s1 (n + 1 + (15 - i))) ∧
          (∀ i, 16 ≤ i → b.getD i 0 = dst.getD i 0) ∧
          (b.take 16).reverse = (List.range 16).map (fun i => rxByte s1 (n + 1 + i))) ∧
      (r1cmd fuel 10 0 0x1b (set_cs_low (hspi_select card s0)) = some (0, s1) →
        ∃ b t, sdcard_read_cid fuel card dst s0 = some (SDCARD_SUCCESS, b, t) ∧
          b.length = dst.length ∧
          (∀ i, i < 16 → b.getD i 0 = rxByte s1 (n + 1 + i)) ∧
          (∀ i, 16 ≤ i → b.getD i 0 = dst.getD i 0))) ∧
    (∀ err data t,
      sdcard_read_register fuel card (List.replicate 16 0) 9 0xaf s0 = some (err, data, t) →
      err ≠ SDCARD_SUCCESS → sdcard_read_csd fuel card dst s0 = some (err, dst, t)) ∧
    (∀ resp s2, r1cmd fuel 9 0 0xaf (set_cs_low (hspi_select card s0)) = some (resp, s2) →
      resp ≠ 0 → ∃ err t, err ≠ SDCARD_SUCCESS ∧
        sdcard_read_csd fuel card dst s0 = some (err, dst, t)) ∧
    (∀ n, n < fuel → Late s1.rx s1.clk n s1.rxpos s1.clkpos →
      r1cmd fuel 9 0 0xaf (set_cs_low (hspi_select card s0)) = some (0, s1) →
      ∃ t, sdcard_read_csd fuel card dst s0 = some (SDCARD_ERROR_TIMEOUT, dst, t)) := by
  have fail : ∀ err data t,
      sdcard_read_register fuel card (List.replicate 16 0) 9 0xaf s0 = some (err, data, t) →
      err ≠ SDCARD_SUCCESS → sdcard_read_csd fuel card dst s0 = some (err, dst, t) := by
    intro err data t h he
    rw [sdcard_read_csd_of fuel card dst s0 err data t h, if_neg he]
  refine ⟨?_, fail, ?_, ?_⟩
  · intro n hn hpre hend
    refine ⟨?_, ?_⟩
    · intro h9
      obtain ⟨b, v, t, r1, r2, r3, -⟩ := read_data_run fuel 16 n (List.replicate 16 0) 0 s1 hd hw
        hn (by rw [List.length_replicate]) hpre hend
      have hb16 : b.length = 16 := by rw [r2, List.length_replicate]
      have hreg : sdcard_read_register fuel card (List.replicate 16 0) 9 0xaf s0 =
          some (SDCARD_SUCCESS, b, sdcard_done t) := by
        rw [sdcard_read_register_of fuel card _ 9 0xaf s0 0 s1 h9, if_neg (by decide),
          if_neg (by decide), r1]
        rfl
      have hrl : b.reverse.length = 16 := by rw [List.length_reverse, hb16]
      have hbd : ∀ i, i < 16 → b.getD i 0 = rxByte s1 (n + 1 + i) := by
        intro i hi
        rw [r3 i, if_pos ⟨by omega, by omega⟩]
        rfl
      refine ⟨blit dst 0 b.reverse, sdcard_done t, ?_, ?_, ?_, ?_, ?_⟩
      · rw [sdcard_read_csd_of fuel card dst s0 _ b _ hreg, if_pos rfl]
      · exact blit_length _ _ _ (by rw [hrl]; omega)
      · intro i hi
        rw [blit_getD _ _ _ (by rw [hrl]; omega) i, if_pos ⟨by omega, by rw [hrl]; omega⟩,
          Nat.sub_zero, reverse_getD b i (by omega), hb16, hbd _ (by omega)]
      · intro i hi
        rw [blit_getD _ _ _ (by rw [hrl]; omega) i, if_neg (by rw [hrl]; omega)]
      · rw [blit_zero _ _ (by rw [hrl]; omega), List.take_left' hrl, List.reverse_reverse]
        exact eq_map_range b 16 _ hb16 hbd
    · intro h10
      obtain ⟨b, v, t, r1, r2, r3, -⟩ := read_data_run fuel 16 n dst 0 s1 hd hw hn (by omega)
        hpre hend
      refine ⟨b, sdcard_done t, ?_, r2, ?_, ?_⟩
      · show sdcard_read_register fuel card dst 10 0x1b s0 = _
        rw [sdcard_read_register_of fuel card _ 10 0x1b s0 0 s1 h10, if_neg (by decide),
          if_neg (by decide), r1]
        rfl
      · intro i hi
        rw [r3 i, if_pos ⟨by omega, by omega⟩]
        rfl
      · intro i hi
        rw [r3 i, if_neg (by omega)]
  · intro resp s2 h9 hr
    have e := sdcard_read_register_of fuel card (List.replicate 16 0) 9 0xaf s0 resp s2 h9
    by_cases h80 : resp &&& 0x80 ≠ 0
    · rw [if_pos h80] at e
      exact ⟨SDCARD_ERROR_TIMEOUT, _, by decide, fail _ _ _ e (by decide)⟩
    · rw [if_neg h80, if_pos hr] at e
      exact ⟨ SDCARD_ERROR_IO, _, by decide, fail _ _ _ e (by decide)⟩
  · intro n hn hlate h9
    obtain ⟨t, r1, -⟩ := read_data_late fuel 16 n (List.replicate 16 0) 0 s1 hd hw hn hlate.1
      hlate.2.1 hlate.2.2
    have e := sdcard_read_register_of fuel card (List.replicate 16 0) 9 0xaf s0 0 s1 h9
    rw [if_neg (by decide), if_neg (by decide), r1] at e
    exact ⟨_, fail _ _ _ e (by decide)⟩

theorem c19_register_byte_order_witness :
    16 ≤ (List.replicate 16 0).length ∧
    ∃ b t, sdcard_read_csd 3 card0 (List.replicate 16 0) (world1 rx_register_count 1) =
        some (SDCARD_SUCCESS, b, t) ∧
      b.getD 0 0 = 25 ∧ b.getD 15 0 = 10 := by
  have h9 := opt_pair_eq (world0 [] 1) (by decide :
    (r1cmd 3 9 0 0xaf (set_cs_low (hspi_select card0 (world1 rx_register_count 1)))).map Prod.fst =
      some 0)
  obtain ⟨b, t, h1, -, h3, -⟩ := ((c19_register_byte_order 3 card0 (List.replicate 16 0)
    (world1 rx_register_count 1) _ (by decide) (by decide) (by decide)).1 0 (by decide)
    (fun i hi => absurd hi (Nat.not_lt_zero i)) (by decide)).1 h9
  exact ⟨by decide, b, t, h1, (h3 0 (by decide)).trans (by decide),
    (h3 15 (by decide)).trans (by decide)⟩

theorem opt_fst2_eq {α β : Type} {o : Option (α × β × World)} {v : α} {w : β} (d : World)
    (h : o.map (fun q => (q.1, q.2.1)) = some (v, w)) :
    o = some (v, w, (o.map (fun q => q.2.2)).getD d) := by
  cases o with
  | none => simp at h
  | some p =>
    simp only [Option.map_some', Option.some.injEq, Prod.mk.injEq] at h
    simp [← h.1, ← h.2]

/-- What `r1cmd` does after its not-busy poll: with the last polled byte 0x00
it returns 0x80 and sends nothing, with any other byte it sends its frame. -/
theorem r1cmd_of_poll (fuel c a k : Nat) (u : World) (busy : Nat) (v : World) (hc : c < 64)
    (ha : a < 2 ^ 32) (hk : k < 256) (hm : u.hspi.CTRL0.WR_BIT_ORDER = false)
    (h : wait_until_card_not_busy fuel u = some (busy, v)) :
    sent v = sent u ∧
    (busy = 0 → r1cmd fuel c a k u = some (0x80, v)) ∧
    (busy ≠ 0 → r1cmd fuel c a k u = some (r1cmd_send c a k v) ∧
      sent (r1cmd_send c a k v).2 = sent u ++ [{ index := c, arg := a, crc := k }]) := by
  have q := wait_until_card_returns_quiet fuel 0xff u busy v h
  have e := r1cmd_of_wait fuel c a k u busy v h
  have hs : sent v = sent u := by
    have := sent_of_ext q.ext
    rw [this, List.append_nil]
  refine ⟨hs, fun hb => by rw [e, if_pos hb], fun hb => ⟨by rw [e, if_neg hb], ?_⟩⟩
  have e1 := r1cmd_send_ext c a k v hc ha hk (by rw [q.ext.ctrl0, hm])
  rw [sent_of_ext e1, hs]

/-- A not-busy poll that ends at poll `m`, on 0xFF or at the deadline: the
call of `r1cmd` after it returns, with its frame sent unless the last byte
is 0x00. -/
theorem r1cmd_poll_run (fuel c a k m : Nat) (u : World) (hu : Wr u) (hc : c < 64)
    (ha : a < 2 ^ 32) (hk : k < 256) (hf : m < fuel)
    (hpre : ∀ i, i < m → rxByte u i ≠ 0xff ∧ elapsed u i ≤ IO_TIMEOUT)
    (hend : rxByte u m = 0xff ∨ IO_TIMEOUT < elapsed u m) :
    ∃ v, wait_until_card_not_busy fuel u = some (rxByte u m, v) ∧ sent v = sent u ∧
      txBytes v = txBytes u ++ List.replicate (m + 1) 0xff ∧
      (rxByte u m = 0 → r1cmd fuel c a k u = some (0x80, v)) ∧
      (rxByte u m ≠ 0 → r1cmd fuel c a k u = some (r1cmd_send c a k v) ∧
        sent (r1cmd_send c a k v).2 = sent u ++ [{ index := c, arg := a, crc := k }]) := by
  obtain ⟨v, h1, h2, h3, h4, h5, q⟩ := wait_returns_run fuel 0xff m u hu.duplex hf hpre hend
  obtain ⟨j, -, k2, k3, -, -⟩ := wait_returns_counts fuel 0xff u _ v hu.duplex hu.wlen h1
  have hj : j = m + 1 := by omega
  subst hj
  obtain ⟨p1, p2, p3⟩ := r1cmd_of_poll fuel c a k u _ v hc ha hk hu.msb h1
  exact ⟨v, h1, p1, k3, p2, p3⟩

/-- C12, as stated, fails: a card accepts CMD18 of a two-block read and then
holds the line at 0x00 (timer step 60 ms).  The start token does not arrive,
the not-busy poll of `r1cmd(12, 0, 0x61)` ends on 0x00, and `sdcard_read`
returns `SDCARD_ERROR_TIMEOUT` having sent the frame of CMD18 only: CMD12 is
not sent. -/
theorem c12_busy_card_no_stop_counterexample :
    (sdcard_read 5 card0 0 2 [7, 7] (world1 rx_accept_then_busy 60000)).map
      (fun q => (q.1, q.2.1, sent q.2.2)) =
      some (SDCARD_ERROR_TIMEOUT, [7, 7], [{ index := 18, arg := 0, crc := 0xff }]) := by
  decide

/-- C12, amended: `sdcard_read` on an MSB-first card runs CMD17 when `nb = 1`
and CMD18 otherwise.  A status with the top bit set gives
SDCARD_ERROR_TIMEOUT, any other non-zero status SDCARD_ERROR_IO; in both
cases the buffer is returned as it was and nothing is sent afterwards.  With
status 0 the blocks are read (no command frame is sent meanwhile); after
CMD17 nothing more is sent; after CMD18 `r1cmd(12, 0, 0x61)` is called once,
after the last attempted block, and what it does is decided by the last byte
of its not-busy poll: on 0x00 no frame is sent and the frames of the whole
call are CMD18 alone, on any other byte the frame of CMD12 is sent once and
the frames are CMD18, CMD12. -/
theorem c12_read_command_frames (fuel : Nat) (card : sdcard_t) (addr nb : Nat)
    (buf : List Nat) (s : World) (resp : Nat) (s1 : World) (hm : card.is_msb = true)
    (ha : addr < 2 ^ 32)
    (h1 : r1cmd fuel (if nb = 1 then 17 else 18) (sdcard_addr card addr) 0xff
      (set_cs_low (hspi_select card s)) = some (resp, s1)) :
    ((sent s1 = sent s ∧ resp = 0x80) ∨
      sent s1 = sent s ++ [{ index := if nb = 1 then 17 else 18, arg := sdcard_addr card addr,
                             crc := 0xff }]) ∧
    (resp &&& 0x80 ≠ 0 → ∃ t, sdcard_read fuel card addr nb buf s =
      some (SDCARD_ERROR_TIMEOUT, buf, t) ∧ sent t = sent s1) ∧
    (resp &&& 0x80 = 0 → resp ≠ 0 → ∃ t, sdcard_read fuel card addr nb buf s =
      some ( SDCARD_ERROR_IO, buf, t) ∧ sent t = sent s1) ∧
    (resp = 0 → ∀ err b s2, sdcard_read_loop fuel nb SDCARD_SUCCESS buf 0 s1 = some (err, b, s2) →
      sent s2 = sent s1 ∧
      (nb = 1 → ∃ t, sdcard_read fuel card addr nb buf s = some (err, b, t) ∧
        sent t = sent s ++ [{ index := 17, arg := sdcard_addr card addr, crc := 0xff }]) ∧
      (nb ≠ 1 → ∀ busy v, wait_until_card_not_busy fuel s2 = some (busy, v) →
        (busy = 0 →
          sdcard_read fuel card addr nb buf s = some (err, b, sdcard_done v) ∧
          sent (sdcard_done v) =
            sent s ++ [{ index := 18, arg := sdcard_addr card addr, crc := 0xff }]) ∧
        (busy ≠ 0 →
          sdcard_read fuel card addr nb buf s =
            some (err, b, sdcard_done (r1cmd_send 12 0 0x61 v).2) ∧
          sent (sdcard_done (r1cmd_send 12 0 0x61 v).2) =
            sent s ++ [{ index := 18, arg := sdcard_addr card addr, crc := 0xff },
              CMD12]))) := by
  have e := sdcard_read_of fuel card addr nb buf s resp s1 h1
  have hen := op_enter_facts card s
  have hm0 : (set_cs_low (hspi_select card s)).hspi.CTRL0.WR_BIT_ORDER = false := by
    rw [hen.2, hm]; rfl
  have hcl : (if nb = 1 then 17 else 18) < 64 := by split <;> omega
  have x1 := r1cmd_ext fuel _ (sdcard_addr card addr) 0xff _ resp s1 hcl
    (sdcard_addr_lt card addr ha) (by omega) hm0 h1
  have hs1 : (sent s1 = sent s ∧ resp = 0x80) ∨
      sent s1 = sent s ++ [{ index := if nb = 1 then 17 else 18, arg := sdcard_addr card addr,
                             crc := 0xff }] := by
    rcases x1 with x | x
    · left; exact ⟨by rw [sent_of_ext x.1, sent_op_enter, List.append_nil], x.2⟩
    · right; rw [sent_of_ext x, sent_op_enter]
  have hm1 : s1.hspi.CTRL0.WR_BIT_ORDER = false := by
    rcases x1 with x | x
    · rw [x.1.ctrl0, hm0]
    · rw [x.ctrl0, hm0]
  refine ⟨hs1, ?_, ?_, ?_⟩
  · intro h80
    rw [if_pos h80] at e
    exact ⟨_, e, sent_sdcard_done s1⟩
  · intro h80 hnz
    rw [if_neg (by rw [h80]; simp), if_pos hnz] at e
    exact ⟨_, e, sent_sdcard_done s1⟩
  · intro hz err b s2 hl
    subst hz
    rw [if_neg (by decide), if_neg (by decide), hl] at e
    have q := sdcard_read_loop_quiet fuel nb _ _ _ s1 s1 _ _ _ (Ext.refl s1) hl
    have hs2 : sent s2 = sent s1 := by rw [sent_of_ext q, List.append_nil]
    have hs1' : sent s1 = sent s ++
        [Frame.mk (if nb = 1 then 17 else 18) (sdcard_addr card addr) 0xff] := by
      rcases hs1 with x | x
      · exact absurd x.2 (by decide)
      · exact x
    refine ⟨hs2, ?_, ?_⟩
    · intro hn
      subst hn
      simp only [if_true] at e hs1'
      rw [if_neg (by decide)] at e
      exact ⟨_, e, by rw [sent_sdcard_done, hs2, hs1']⟩
    · intro hn busy v hw
      simp only [hn, if_false, if_true] at e hs1'
      obtain ⟨p1, p2, p3⟩ := r1cmd_of_poll fuel 12 0 0x61 s2 busy v (by decide) (by decide)
        (by decide) (by rw [q.ctrl0, hm1]) hw
      refine ⟨?_, ?_⟩
      · intro hb
        rw [p2 hb] at e
        exact ⟨e, by rw [sent_sdcard_done, p1, hs2, hs1']⟩
      · intro hb
        rw [(p3 hb).1] at e
        refine ⟨e, ?_⟩
        rw [sent_sdcard_done, (p3 hb).2, hs2, hs1']
        simp [CMD12]

theorem c12_read_command_frames_witness :
    card0.is_msb = true ∧ (0 : Nat) < 2 ^ 32 ∧
    (∃ t, sdcard_read 5 card0 0 2 [7, 7] (world1 rx_read_late 60000) =
        some (SDCARD_ERROR_TIMEOUT, [7, 7], t) ∧
      sent t = [{ index := 18, arg := 0, crc := 0xff }, CMD12]) ∧
    ∃ t, sdcard_read 5 card0 0 2 [7, 7] (world1 rx_accept_then_busy 60000) =
        some (SDCARD_ERROR_TIMEOUT, [7, 7], t) ∧
      sent t = [{ index := 18, arg := 0, crc := 0xff }] := by
  have h1 := opt_pair_eq (world0 [] 1) (by decide :
    (r1cmd 5 (if 2 = 1 then 17 else 18) (sdcard_addr card0 0) 0xff
      (set_cs_low (hspi_select card0 (world1 rx_read_late 60000)))).map Prod.fst = some 0)
  have hl := opt_fst2_eq (world0 [] 1) (by decide :
    (sdcard_read_loop 5 2 SDCARD_SUCCESS [7, 7] 0
      (((r1cmd 5 (if 2 = 1 then 17 else 18) (sdcard_addr card0 0) 0xff
        (set_cs_low (hspi_select card0 (world1 rx_read_late 60000)))).map Prod.snd).getD
          (world0 [] 1))).map (fun q => (q.1, q.2.1)) = some (SDCARD_ERROR_TIMEOUT, [7, 7]))
  have hw := opt_pair_eq (world0 [] 1) (by decide :
    (wait_until_card_not_busy 5 (((sdcard_read_loop 5 2 SDCARD_SUCCESS [7, 7] 0
      (((r1cmd 5 (if 2 = 1 then 17 else 18) (sdcard_addr card0 0) 0xff
        (set_cs_low (hspi_select card0 (world1 rx_read_late 60000)))).map Prod.snd).getD
          (world0 [] 1))).map (fun q => q.2.2)).getD (world0 [] 1))).map Prod.fst = some 0xff)
  have g1 := opt_pair_eq (world0 [] 1) (by decide :
    (r1cmd 5 (if 2 = 1 then 17 else 18) (sdcard_addr card0 0) 0xff
      (set_cs_low (hspi_select card0 (world1 rx_accept_then_busy 60000)))).map Prod.fst =
        some 0)
  have gl := opt_fst2_eq (world0 [] 1) (by decide :
    (sdcard_read_loop 5 2 SDCARD_SUCCESS [7, 7] 0
      (((r1cmd 5 (if 2 = 1 then 17 else 18) (sdcard_addr card0 0) 0xff
        (set_cs_low (hspi_select card0 (world1 rx_accept_then_busy 60000)))).map
          Prod.snd).getD (world0 [] 1))).map (fun q => (q.1, q.2.1)) =
        some (SDCARD_ERROR_TIMEOUT, [7, 7]))
  have gw := opt_pair_eq (world0 [] 1) (by decide :
    (wait_until_card_not_busy 5 (((sdcard_read_loop 5 2 SDCARD_SUCCESS [7, 7] 0
      (((r1cmd 5 (if 2 = 1 then 17 else 18) (sdcard_addr card0 0) 0xff
        (set_cs_low (hspi_select card0 (world1 rx_accept_then_busy 60000)))).map
          Prod.snd).getD (world0 [] 1))).map (fun q => q.2.2)).getD (world0 [] 1))).map
            Prod.fst = some 0)
  obtain ⟨a1, a2⟩ := ((((c12_read_command_frames 5 card0 0 2 [7, 7]
    (world1 rx_read_late 60000) _ _ (by decide) (by decide) h1).2.2.2 rfl _ _ _ hl).2.2
    (by decide) _ _ hw).2 (by decide))
  obtain ⟨b1, b2⟩ := ((((c12_read_command_frames 5 card0 0 2 [7, 7]
    (world1 rx_accept_then_busy 60000) _ _ (by decide) (by decide) g1).2.2.2 rfl _ _ _ gl).2.2
    (by decide) _ _ gw).1 rfl)
  exact ⟨by decide, by decide, ⟨_, a1, a2.trans (by decide)⟩, ⟨_, b1, b2.trans (by decide)⟩⟩

/-- The call `r1cmd(12, 0, 0x61)` after a rejected block, its not-busy poll
ending at poll `m`. -/
theorem stop_after_reject (fuel m : Nat) (u : World) (hu : Wr u) (hf : m < fuel)
    (hp : PollEnd u.rx u.clk m u.rxpos u.clkpos) :
    ∃ v, txBytes v = txBytes u ++ List.replicate (m + 1) 0xff ∧ sent v = sent u ∧
      (u.rx (u.rxpos + m) % 256 = 0 →
        (r1cmd fuel 12 0 0x61 u).map (fun q => ( SDCARD_ERROR_IO, q.2)) =
          some ( SDCARD_ERROR_IO, v)) ∧
      (u.rx (u.rxpos + m) % 256 ≠ 0 →
        (r1cmd fuel 12 0 0x61 u).map (fun q => ( SDCARD_ERROR_IO, q.2)) =
          some ( SDCARD_ERROR_IO, (r1cmd_send 12 0 0x61 v).2) ∧
        sent (r1cmd_send 12 0 0x61 v).2 = sent u ++ [CMD12]) := by
  obtain ⟨v, -, v2, v3, v4, v5⟩ := r1cmd_poll_run fuel 12 0 0x61 m u hu (by decide) (by decide)
    (by decide) hf hp.1 hp.2
  refine ⟨v, v3, v2, ?_, ?_⟩
  · intro hz
    rw [v4 hz]
    rfl
  · intro hz
    rw [(v5 hz).1]
    exact ⟨rfl, (v5 hz).2⟩

/-- C15, as stated, fails: in a two-block write the card accepts block 0,
answers block 1 with the write error 0x0D and then holds the line at 0x00
(timer step 60 ms).  `sdcard_write` returns `SDCARD_ERROR_IO`, and the
command frames sent are those of CMD55, ACMD23 and CMD25: the not-busy poll
of `r1cmd(12, 0, 0x61)` ends on 0x00 and CMD12 is not sent. -/
theorem c15_busy_card_no_stop_counterexample :
    (sdcard_write 5 card0 0 2 [] true (world1 rx_write_reject_busy 60000)).map
      (fun q => (q.1, sent q.2)) =
      some ( SDCARD_ERROR_IO, [{ index := 55, arg := 0, crc := 0x65 },
        { index := 23, arg := 2, crc := 0xff }, { index := 25, arg := 0, crc := 0xff }]) := by
  decide

/-- C15, amended: in a multiple block write of `nb` blocks the card is `s`
when CMD25 was accepted.  If the data response of block 0 is rejected, or
blocks 0 to `ns.length` are accepted and that of block `ns.length + 1 < nb`
is rejected (`ns` and `n` number the not-busy polls the card answers with
0xFF before the blocks), then the bytes sent up to the end of the rejected
packet are the packets of the blocks up to that one with the poll fillers
between them, `r1cmd(12, 0, 0x61)` is called and the result is
`SDCARD_ERROR_IO`, which `sdcard_write` returns.  The not-busy poll of that
call ends at its poll `m`; when its last byte is 0x00 nothing more is sent,
and otherwise the frame of CMD12 is sent. -/
theorem c15_rejected_block_result (fuel nb : Nat) (mem : List Nat) (al : Bool)
    (ns : List Nat) (n m : Nat) (s : World) (hs : Wr s) (hk : ns.length + 2 ≤ nb)
    (hnb : nb < 2 ^ 32) (hm : m < fuel) :
    (rxByte s 512 % 32 ≠ 5 → PollEnd s.rx s.clk m (s.rxpos + 513) s.clkpos →
      ∃ u v, write_block 0xfc mem al s = ( SDCARD_ERROR_IO, u) ∧
        txBytes u = txBytes s ++ packetBytes 0xfc mem 0 ∧
        txBytes v = txBytes u ++ List.replicate (m + 1) 0xff ∧ sent v = sent s ∧
        (s.rx (s.rxpos + 513 + m) % 256 = 0 →
          sdcard_write_blocks fuel nb mem al s = some ( SDCARD_ERROR_IO, v)) ∧
        (s.rx (s.rxpos + 513 + m) % 256 ≠ 0 →
          sdcard_write_blocks fuel nb mem al s =
            some ( SDCARD_ERROR_IO, (r1cmd_send 12 0 0x61 v).2) ∧
          sent (r1cmd_send 12 0 0x61 v).2 = sent s ++ [CMD12])) ∧
    (rxByte s 512 % 32 = 5 → Accepts s.rx s.clk ns (s.rxpos + 513) s.clkpos →
      (∀ x ∈ ns, x < fuel) → n < fuel →
      Ready s.rx s.clk n (s.rxpos + 513 + rxSpan ns) (s.clkpos + clkSpan ns) →
      s.rx (s.rxpos + 513 + rxSpan ns + (n + 1) + 512) % 256 % 32 ≠ 5 →
      PollEnd s.rx s.clk m (s.rxpos + 513 + rxSpan ns + (n + 1) + 513)
        (s.clkpos + clkSpan ns + (n + 1)) →
      ∃ u v, txBytes u = txBytes s ++ packetBytes 0xfc mem 0 ++ loopBytes mem ns 0 ++
          List.replicate (n + 1) 0xff ++ packetBytes 0xfc mem (512 * (ns.length + 1)) ∧
        txBytes v = txBytes u ++ List.replicate (m + 1) 0xff ∧ sent v = sent s ∧
        (s.rx (s.rxpos + 513 + rxSpan ns + (n + 1) + 513 + m) % 256 = 0 →
          sdcard_write_blocks fuel nb mem al s = some ( SDCARD_ERROR_IO, v)) ∧
        (s.rx (s.rxpos + 513 + rxSpan ns + (n + 1) + 513 + m) % 256 ≠ 0 →
          sdcard_write_blocks fuel nb mem al s =
            some ( SDCARD_ERROR_IO, (r1cmd_send 12 0 0x61 v).2) ∧
          sent (r1cmd_send 12 0 0x61 v).2 = sent s ++ [CMD12])) ∧
    (∀ card addr s0 s1,
      acmd fuel 23 nb 0xff (set_cs_low (hspi_select card s0)) = some (0, s1) →
      r1cmd fuel 25 (sdcard_addr card addr) 0xff s1 = some (0, s) →
      sdcard_write fuel card addr nb mem al s0 =
        (sdcard_write_blocks fuel nb mem al s).map (fun q => (q.1, sdcard_done q.2))) := by
  obtain ⟨x1, x2, x3, x4, x5⟩ := write_block_spec 0xfc mem al s hs.duplex hs.msb hs.wlen
  obtain ⟨c1, c2⟩ := write_block_clk 0xfc mem al s
  have w0 : Wr (write_block 0xfc mem al s).2 := ⟨x3, x4, x5⟩
  have tx0 : txBytes (write_block 0xfc mem al s).2 = txBytes s ++ packetBytes 0xfc mem 0 := by
    rw [x1.bytes, packetChunks_flatten]
  refine ⟨?_, ?_, ?_⟩
  · intro h0 hr
    have hacc : (write_block 0xfc mem al s).1 = SDCARD_ERROR_IO := by
      rw [x2, and_0x1f, if_neg]
      exact h0
    obtain ⟨v, r1, r2, r3, r4⟩ := stop_after_reject fuel m (write_block 0xfc mem al s).2 w0 hm
      (by rw [x1.rx, x1.rxpos, c1, c2]; exact hr)
    rw [x1.rx, x1.rxpos] at r3 r4
    have e0 := sent_of_ext x1.ext
    rw [List.append_nil] at e0
    have hb : sdcard_write_blocks fuel nb mem al s =
        (r1cmd fuel 12 0 0x61 (write_block 0xfc mem al s).2).map
          (fun q => ( SDCARD_ERROR_IO, q.2)) := by
      unfold sdcard_write_blocks
      rw [hacc, write_loop_error fuel mem al _ _ 0 _ (by decide),
        write_stop_error fuel _ _ (by decide)]
    refine ⟨(write_block 0xfc mem al s).2, v, Prod.ext hacc rfl, tx0, r1, by rw [r2, e0], ?_, ?_⟩
    · intro hz
      rw [hb]
      exact r3 hz
    · intro hz
      rw [hb]
      exact ⟨(r4 hz).1, by rw [(r4 hz).2, e0]⟩
  · intro h0 ha hf hn hr hrej hr2
    have hacc : (write_block 0xfc mem al s).1 = SDCARD_SUCCESS := by
      rw [x2, and_0x1f]
      exact if_pos h0
    obtain ⟨t, l1, l2, l3, l4, l5, l6, l7, l8⟩ := write_loop_upto fuel mem al
      (nb - ns.length - 2 + 1) ns 0 (write_block 0xfc mem al s).2 w0
      (by rw [x1.rx, x1.rxpos, c1, c2]; exact ha) hf
    have rxt : t.rx = s.rx := by rw [l3, x1.rx]
    have ckt : t.clk = s.clk := by rw [l4, c1]
    have rpt : t.rxpos = s.rxpos + 513 + rxSpan ns := by rw [l5, x1.rxpos]
    have cpt : t.clkpos = s.clkpos + clkSpan ns := by rw [l6, c2]
    obtain ⟨u, j1, j2, j3, j4, j5, j6, j7, j8⟩ := write_loop_reject fuel mem al
      (nb - ns.length - 2) n (0 + 512 * ns.length) t l2 hn
      (by rw [rxt, ckt, rpt, cpt]; exact hr) (by rw [rxt, rpt]; exact hrej)
    obtain ⟨v, r1, r2, r3, r4⟩ := stop_after_reject fuel m u j2 hm
      (by rw [j3, j4, j5, j6, rxt, ckt, rpt, cpt]; exact hr2)
    rw [j3, j5, rxt, rpt] at r3 r4
    have e0 := sent_of_ext (Ext.nil_left x1.ext (Ext.nil_left l8 j8))
    rw [List.append_nil] at e0
    have hb : sdcard_write_blocks fuel nb mem al s =
        (r1cmd fuel 12 0 0x61 u).map (fun q => ( SDCARD_ERROR_IO, q.2)) := by
      unfold sdcard_write_blocks
      have e : (nb + 4294967296 - 1) % 4294967296 = ns.length + (nb - ns.length - 2 + 1) := by
        have h2 : (4294967296 : Nat) = 2 ^ 32 := by norm_num
        rw [h2]
        rw [Nat.mod_eq_sub_mod (by omega)]
        rw [Nat.mod_eq_of_lt (by omega)]
        omega
      rw [hacc, e, l1, j1, write_stop_error fuel _ _ (by decide)]
    refine ⟨u, v, ?_, r1, by rw [r2, e0], ?_, ?_⟩
    · rw [j7, l7, tx0]
      have e : 0 + 512 * ns.length + 512 = 512 * (ns.length + 1) := by omega
      rw [e]
    · intro hz
      rw [hb]
      exact r3 hz
    · intro hz
      rw [hb]
      exact ⟨(r4 hz).1, by rw [(r4 hz).2, e0]⟩
  · intro card addr s0 s1 h23 h25
    exact sdcard_write_of_multi fuel card addr nb mem al s0 s1 s (by omega) h23 h25

theorem c15_rejected_block_result_witness :
    ([] : List Nat).length + 2 ≤ 2 ∧ (2 : Nat) < 2 ^ 32 ∧ 0 < 3 ∧
    (∃ t, sdcard_write_blocks 3 2 [] true (hspi_select card0 (world1 rx_write_reject 1)) =
        some ( SDCARD_ERROR_IO, t) ∧
      sent t = sent (hspi_select card0 (world1 rx_write_reject 1)) ++ [CMD12]) ∧
    (sdcard_write 3 card0 0 2 [] true (world1 rx_write_reject_full 1)).map
        (fun q => (q.1, sent q.2)) =
      some ( SDCARD_ERROR_IO, [{ index := 55, arg := 0, crc := 0x65 },
        { index := 23, arg := 2, crc := 0xff }, { index := 25, arg := 0, crc := 0xff },
        CMD12]) := by
  refine ⟨by decide, by decide, by decide, ?_, by decide⟩
  obtain ⟨u, v, -, -, -, -, h5⟩ := (c15_rejected_block_result 3 2 [] true [] 0 0
    (hspi_select card0 (world1 rx_write_reject 1)) ⟨by decide, by decide, by decide⟩
    (by decide) (by decide) (by decide)).2.1 (by decide) trivial
    (fun x hx => absurd hx (List.not_mem_nil x)) (by decide)
    ⟨fun i hi => absurd hi (Nat.not_lt_zero i), by decide⟩ (by decide)
    ⟨fun i hi => absurd hi (Nat.not_lt_zero i), Or.inl (by decide)⟩
  exact ⟨_, (h5 (by decide)).1, (h5 (by decide)).2⟩

/-- C30, as stated, fails in its read half: `sdcard_read` with
`num_blocks = 0` on a card that accepts CMD18 and then holds the line at 0x00
(timer step 60 ms) returns `SDCARD_SUCCESS` with the destination unchanged,
having sent the frame of CMD18 only: the not-busy poll of
`r1cmd(12, 0, 0x61)` ends on 0x00 and CMD12 is not sent. -/
theorem c30_zero_read_no_stop_counterexample :
    (sdcard_read 5 card0 0 0 [7, 7] (world1 rx_accept_then_busy 60000)).map
      (fun q => (q.1, q.2.1, sent q.2.2)) =
      some (SDCARD_SUCCESS, [7, 7], [{ index := 18, arg := 0, crc := 0xff }]) := by
  decide

/-- C30, amended: with `num_blocks = 0`, `sdcard_write` takes the multiple block
branch: once ACMD23 with argument 0 and CMD25 are accepted (the frames sent
are CMD55, ACMD23 with argument 0 and CMD25), the first packet with token
0xFC and the first 512 bytes of the buffer is sent before any test of the
counter, and the loop then runs with the counter `0 - 1 = 4294967295`, so
every result of the call has sent that packet.  `sdcard_read` with
`num_blocks = 0` sends CMD18, reads no block, calls `r1cmd(12, 0, 0x61)` in
the state CMD18 left and returns `SDCARD_SUCCESS` with the destination
unchanged; that call sends the frame of CMD12 unless the last byte of its
not-busy poll is 0x00, in which case CMD18 is the only frame sent. -/
theorem c30_zero_block_calls (fuel : Nat) (card : sdcard_t) (addr : Nat) (mem : List Nat)
    (al : Bool) (buf : List Nat) (s0 : World) (hm : card.is_msb = true) (ha : addr < 2 ^ 32) :
    (∀ s1 s, acmd fuel 23 0 0xff (set_cs_low (hspi_select card s0)) = some (0, s1) →
      r1cmd fuel 25 (sdcard_addr card addr) 0xff s1 = some (0, s) →
      sent s = sent s0 ++ [CMD55, { index := 23, arg := 0, crc := 0xff },
        { index := 25, arg := sdcard_addr card addr, crc := 0xff }] ∧
      sdcard_write fuel card addr 0 mem al s0 =
        (sdcard_write_stop fuel (sdcard_write_loop fuel mem al 4294967295
          (write_block 0xfc mem al s).1 0 (write_block 0xfc mem al s).2)).map
          (fun q => (q.1, sdcard_done q.2)) ∧
      (s.hspi.USER0.DUPLEX = true → s.hspi.W.length = 64 →
        txBytes (write_block 0xfc mem al s).2 =
          txBytes s ++ ([0xfc] ++ memBytes mem 0 512 ++ [0xff, 0xff, 0xff]) ∧
        ∀ r t, sdcard_write fuel card addr 0 mem al s0 = some (r, t) →
          ∃ rest, txBytes t =
            txBytes s ++ ([0xfc] ++ memBytes mem 0 512 ++ [0xff, 0xff, 0xff]) ++ rest)) ∧
    (∀ s1, r1cmd fuel 18 (sdcard_addr card addr) 0xff (set_cs_low (hspi_select card s0)) =
        some (0, s1) →
      sent s1 = sent s0 ++ [{ index := 18, arg := sdcard_addr card addr, crc := 0xff }] ∧
      sdcard_read_loop fuel 0 SDCARD_SUCCESS buf 0 s1 = some (SDCARD_SUCCESS, buf, s1) ∧
      ∀ busy v, wait_until_card_not_busy fuel s1 = some (busy, v) →
        (busy = 0 →
          sdcard_read fuel card addr 0 buf s0 = some (SDCARD_SUCCESS, buf, sdcard_done v) ∧
          sent (sdcard_done v) =
            sent s0 ++ [{ index := 18, arg := sdcard_addr card addr, crc := 0xff }]) ∧
        (busy ≠ 0 →
          sdcard_read fuel card addr 0 buf s0 =
            some (SDCARD_SUCCESS, buf, sdcard_done (r1cmd_send 12 0 0x61 v).2) ∧
          sent (sdcard_done (r1cmd_send 12 0 0x61 v).2) =
            sent s0 ++ [{ index := 18, arg := sdcard_addr card addr, crc := 0xff },
              CMD12])) := by
  have hm0 : (set_cs_low (hspi_select card s0)).hspi.CTRL0.WR_BIT_ORDER = false := by
    rw [(op_enter_facts card s0).2, hm]; rfl
  refine ⟨?_, ?_⟩
  · intro s1 s h23 h25
    obtain ⟨a1, a2⟩ := acmd_zero_sent fuel 23 0 0xff _ s1 (by decide) (by decide) (by decide)
      hm0 h23
    obtain ⟨b1, b2⟩ := r1cmd_zero_sent fuel 25 (sdcard_addr card addr) 0xff s1 s (by decide)
      (sdcard_addr_lt card addr ha) (by decide) a2 h25
    have hw := sdcard_write_of_multi fuel card addr 0 mem al s0 s1 s (by decide) h23 h25
    refine ⟨?_, ?_, ?_⟩
    · rw [b1, a1, sent_op_enter]
      simp
    · rw [hw]
      rfl
    · intro hd hl
      obtain ⟨x1, -, -, -, -⟩ := write_block_spec 0xfc mem al s hd b2 hl
      have tx0 : txBytes (write_block 0xfc mem al s).2 =
          txBytes s ++ ([0xfc] ++ memBytes mem 0 512 ++ [0xff, 0xff, 0xff]) := by
        rw [x1.bytes, packetChunks_flatten]
        rfl
      refine ⟨tx0, ?_⟩
      intro r t h
      rw [hw] at h
      cases hb : sdcard_write_blocks fuel 0 mem al s with
      | none => rw [hb] at h; exact absurd h (by simp)
      | some q =>
        obtain ⟨r1, t1⟩ := q
        rw [hb] at h
        simp only [Option.map_some', Option.some.injEq, Prod.mk.injEq] at h
        rw [← h.2, txBytes_sdcard_done]
        unfold sdcard_write_blocks at hb
        cases hl2 : sdcard_write_loop fuel mem al ((0 + 4294967296 - 1) % 4294967296)
            (write_block 0xfc mem al s).1 0 (write_block 0xfc mem al s).2 with
        | none => rw [hl2] at hb; exact absurd hb (by simp [sdcard_write_stop])
        | some p =>
          obtain ⟨err, j, u⟩ := p
          rw [hl2] at hb
          have e1 := sdcard_write_loop_ext fuel mem al _ _ 0 _ (write_block 0xfc mem al s).2
            err j u (Ext.refl _) hl2
          obtain ⟨fr, e2, -⟩ := sdcard_write_stop_run fuel (write_block 0xfc mem al s).2 u err j
            r1 t1 e1 hb
          obtain ⟨rest, hr⟩ := txBytes_ext e2
          exact ⟨rest, by rw [hr, tx0]⟩
  · intro s1 h18
    obtain ⟨c1, c2⟩ := r1cmd_zero_sent fuel 18 (sdcard_addr card addr) 0xff _ s1 (by decide)
      (sdcard_addr_lt card addr ha) (by decide) hm0 h18
    refine ⟨by rw [c1, sent_op_enter], rfl, ?_⟩
    intro busy v hw
    have e := sdcard_read_of fuel card addr 0 buf s0 0 s1 h18
    rw [if_neg (by decide), if_neg (by decide)] at e
    have hl : sdcard_read_loop fuel 0 SDCARD_SUCCESS buf 0 s1 = some (SDCARD_SUCCESS, buf, s1) :=
      rfl
    rw [hl] at e
    simp only [] at e
    rw [if_pos (by decide)] at e
    obtain ⟨p1, p2, p3⟩ := r1cmd_of_poll fuel 12 0 0x61 s1 busy v (by decide) (by decide)
      (by decide) c2 hw
    refine ⟨?_, ?_⟩
    · intro hb
      rw [p2 hb] at e
      exact ⟨e, by rw [sent_sdcard_done, p1, c1, sent_op_enter]⟩
    · intro hb
      rw [(p3 hb).1] at e
      refine ⟨e, ?_⟩
      rw [sent_sdcard_done, (p3 hb).2, c1, sent_op_enter]
      simp [CMD12]
theorem c30_zero_block_calls_witness :
    card0.is_msb = true ∧ (0 : Nat) < 2 ^ 32 ∧
    (∃ t, sdcard_read 3 card0 0 0 [1, 2, 3] (world0 (rx_r1 0 ++ rx_r1 0) 1) =
        some (SDCARD_SUCCESS, [1, 2, 3], t) ∧
      sent t = [{ index := 18, arg := 0, crc := 0xff }, CMD12]) ∧
    (sdcard_write 3 card0 0 0 [] true (world1 rx_write_reject_full 1)).map
        (fun q => (q.1, sent q.2,
          ((List.filter Event.isExec q.2.trace).map Event.tx).map List.length)) =
      some ( SDCARD_ERROR_IO, [CMD55, { index := 23, arg := 0, crc := 0xff },
        { index := 25, arg := 0, crc := 0xff }, CMD12],
        [1, 8, 1, 8, 1, 8, 65, 64, 64, 64, 64, 64, 64, 64, 3, 1, 65, 64, 64, 64, 64, 64, 64, 64,
          3, 1, 8, 1]) := by
  refine ⟨by decide, by decide, ?_, by decide⟩
  have h18 := opt_pair_eq (world0 [] 1) (by decide :
    (r1cmd 3 18 (sdcard_addr card0 0) 0xff
      (set_cs_low (hspi_select card0 (world0 (rx_r1 0 ++ rx_r1 0) 1)))).map Prod.fst = some 0)
  have hw := opt_pair_eq (world0 [] 1) (by decide :
    (wait_until_card_not_busy 3 (((r1cmd 3 18 (sdcard_addr card0 0) 0xff
      (set_cs_low (hspi_select card0 (world0 (rx_r1 0 ++ rx_r1 0) 1)))).map Prod.snd).getD
        (world0 [] 1))).map Prod.fst = some 0xff)
  obtain ⟨a1, a2⟩ := ((((c30_zero_block_calls 3 card0 0 [] true [1, 2, 3]
    (world0 (rx_r1 0 ++ rx_r1 0) 1) (by decide) (by decide)).2 _ h18).2.2 _ _ hw).2
    (by decide))
  exact ⟨_, a1, a2.trans (by decide)⟩

end Esp
